import Mathlib

/-!
# Port lists and port connection resolution of `PortSymbols.cpp`

A shallow embedding of the port-connection resolver (`PortConnectionBuilder`,
`PortConnection::makeConnections`) and of the two port list builders
(`AnsiPortListBuilder`, `NonAnsiPortListBuilder`) of
`source/symbols/PortSymbols.cpp`, and of the comparisons of
`include/StringRef.h`.

Conventions of the embedding:

* The scope's diagnostic sink is the field `diags` of the builder state: every
  `scope.addDiag` call made by the resolver appends one `Diagnostic` to it, in
  emission order.  Diagnostics issued inside the external collaborators (the
  expression binder, name lookup, the attribute builder) are theirs and are
  not part of this log.
* External collaborators (lookup, expression binding, attribute creation, the
  instance being elaborated) are the fields of `Env`.
* A pointer to a symbol is the symbol itself; the address used as the key of the
  `PointerMap` is the field `addr` of the symbol.
* `ASSERT` failures and out-of-range element accesses are the `error` results of
  `Except`.
* The scope of a port list and its compilation are the fields of `ScopeEnv`.  A
  symbol that a list builder makes is the record of what its constructor and its
  setters were given (`Built.PortSymbol`, `InternalSymbol`, `DeclaredType`); the
  maps `namedConns` and `portInfos` are association lists in insertion order.
* What `MultiPortSymbol::getType` asks of its surroundings (the parent scope, the
  syntax node, `requireValidBitWidth`) is `MultiPortEnv`; the two types it asks
  of the compilation are `Compilation.getErrorType` and `Compilation.getType`.
* Definitions in the namespace `Spec` say what the specification asks for, in
  its words; the theorems compare them with the embedded code.
* The elements of an instance array are numbered in ascending order of their
  index (`ConstantRange.elementIndex`); `shaped` says that an interface array
  has, along every path, the ranges and the numbers of elements that the slicing
  of `getInterface` checks along the first elements only.
* The contents of a `StringRef` are the list of its character codes; `strncmp`
  and `std::string::compare` follow the C and C++ standards.
-/

namespace slang

/-! ## Source positions, diagnostics -/

abbrev SourceLocation := Nat

structure SourceRange where
  startLoc : SourceLocation
  endLoc : SourceLocation
deriving DecidableEq, Repr, Inhabited

/-- The `SourceRange::start()` accessor. -/
def SourceRange.start (r : SourceRange) : SourceLocation := r.startLoc

/-- Diagnostic codes named in `PortSymbols.cpp`. -/
inductive DiagCode where
  | BadConcatExpression
  | ConstPortNotAllowed
  | DirectionWithInterfacePort
  | DisallowedPortDefault
  | DuplicatePortConnection
  | DuplicateWildcardPortConnection
  | IfacePortInConcat
  | ImplicitNamedPortNotFound
  | ImplicitNamedPortTypeMismatch
  | ImplicitNetPortNoDefault
  | InOutPortCannotBeVariable
  | InterfacePortInvalidExpression
  | InterfacePortNotConnected
  | InterfacePortTypeMismatch
  | MixingOrderedAndNamedPorts
  | ModportConnMismatch
  | NotAModport
  | NotAnInterface
  | NotYetSupported
  | NoteDeclarationHere
  | NotePreviousDefinition
  | NotePreviousUsage
  | NullPortExpression
  | PortConcatInOut
  | PortConcatRef
  | PortConnDimensionsMismatch
  | PortDeclInANSIModule
  | PortDoesNotExist
  | PortTypeNotInterfaceOrData
  | Redefinition
  | RefPortMustBeVariable
  | TooManyPortConnections
  | UnconnectedNamedPort
  | UnconnectedUnnamedPort
  | UnknownInterface
  | UnusedPortDecl
  | UsedBeforeDeclared
  | VarWithInterfacePort
deriving DecidableEq, Repr, Inhabited

/-- A type of the external type system: only the observations the resolver makes
(`isVoid()`, `isError()`) and those `MultiPortSymbol::getType` makes
(`isIntegral()`, `getBitWidth()`, `isFourState()`). -/
structure SvType where
  id : Nat
  isVoid : Bool
  isError : Bool
  isIntegral : Bool := false
  bitWidth : Nat := 0
  isFourState : Bool := false
deriving DecidableEq, Repr, Inhabited

/-- An argument streamed into a diagnostic with `diag << x`. -/
inductive DiagArg where
  | str (s : String)
  | num (n : Nat)
  | type (t : SvType)
deriving DecidableEq, Repr

/-- One diagnostic: its code, where it points, the arguments streamed into it
and the notes added to it. -/
structure Diagnostic where
  code : DiagCode
  location : SourceLocation
  ranges : List SourceRange := []
  args : List DiagArg := []
  notes : List (DiagCode × SourceLocation) := []
deriving DecidableEq, Repr

/-- The call `scope.addDiag(code, location)`. -/
def Diagnostic.atLocation (code : DiagCode) (loc : SourceLocation) : Diagnostic :=
  { code := code, location := loc }

/-- The call `scope.addDiag(code, sourceRange)`. -/
def Diagnostic.atRange (code : DiagCode) (r : SourceRange) : Diagnostic :=
  { code := code, location := r.start, ranges := [r] }

/-- The operator `diag << arg`. -/
def Diagnostic.arg (d : Diagnostic) (a : DiagArg) : Diagnostic :=
  { d with args := d.args ++ [a] }

/-- The call `diag.addNote(code, location)`. -/
def Diagnostic.addNote (d : Diagnostic) (code : DiagCode) (loc : SourceLocation) : Diagnostic :=
  { d with notes := d.notes ++ [(code, loc)] }

/-! ## Syntax of port connections -/

/-- An attribute instance of the parse tree (external). -/
abbrev AttributeInstanceSyntax := Nat

/-- An attribute symbol produced by `AttributeSymbol::fromSyntax` (external). -/
abbrev AttributeSymbol := Nat

/-- An expression of the parse tree, as far as the resolver looks into it: a
parenthesized expression, a name, or anything else. -/
inductive ExpressionSyntax where
  | Parenthesized (sourceRange : SourceRange) (expression : ExpressionSyntax)
  | Name (id : Nat) (sourceRange : SourceRange)
  | Other (id : Nat) (sourceRange : SourceRange)
deriving DecidableEq, Repr

def ExpressionSyntax.sourceRange : ExpressionSyntax → SourceRange
  | .Parenthesized r _ => r
  | .Name _ r => r
  | .Other _ r => r

/-- An element select of the parse tree (external). -/
abbrev ElementSelectSyntax := Nat

/-- A dimension of a declarator (external). -/
abbrev VariableDimensionSyntax := Nat

/-- A property expression of the parse tree (external). -/
structure PropertyExprSyntax where
  id : Nat
  sourceRange : SourceRange
deriving DecidableEq, Repr

/-- A bound expression, produced by the external expression binder. -/
structure Expression where
  id : Nat
  type : SvType
  bad : Bool
deriving DecidableEq, Repr

/-- A token: its text, its location and its range; `isMissing` tells whether the
parser made the token up. -/
structure Token where
  valueText : String
  location : SourceLocation
  range : SourceRange
  isMissing : Bool := false
deriving DecidableEq, Repr

structure OrderedPortConnectionSyntax where
  attributes : List AttributeInstanceSyntax
  expr : PropertyExprSyntax
  firstToken : SourceLocation
  sourceRange : SourceRange
deriving DecidableEq, Repr

structure EmptyPortConnectionSyntax where
  attributes : List AttributeInstanceSyntax
  firstToken : SourceLocation
  sourceRange : SourceRange
deriving DecidableEq, Repr

/-- The syntax `.name(expr)`, `.name()` or `.name`; `openParen` tells whether the
parenthesis token is there. -/
structure NamedPortConnectionSyntax where
  attributes : List AttributeInstanceSyntax
  name : Token
  openParen : Bool
  expr : Option PropertyExprSyntax
  firstToken : SourceLocation
  sourceRange : SourceRange
deriving DecidableEq, Repr

structure WildcardPortConnectionSyntax where
  attributes : List AttributeInstanceSyntax
  firstToken : SourceLocation
  sourceRange : SourceRange
deriving DecidableEq, Repr

inductive SyntaxKind where
  | OrderedPortConnection
  | EmptyPortConnection
  | NamedPortConnection
  | WildcardPortConnection
deriving DecidableEq, Repr

/-- One element of the connection list of an instantiation. -/
inductive PortConnectionSyntax where
  | Ordered (s : OrderedPortConnectionSyntax)
  | Empty (s : EmptyPortConnectionSyntax)
  | Named (s : NamedPortConnectionSyntax)
  | Wildcard (s : WildcardPortConnectionSyntax)
deriving DecidableEq, Repr

def PortConnectionSyntax.kind : PortConnectionSyntax → SyntaxKind
  | .Ordered _ => .OrderedPortConnection
  | .Empty _ => .EmptyPortConnection
  | .Named _ => .NamedPortConnection
  | .Wildcard _ => .WildcardPortConnection

def PortConnectionSyntax.attributes : PortConnectionSyntax → List AttributeInstanceSyntax
  | .Ordered s => s.attributes
  | .Empty s => s.attributes
  | .Named s => s.attributes
  | .Wildcard s => s.attributes

/-- The location `conn->getFirstToken().location()`. -/
def PortConnectionSyntax.firstTokenLocation : PortConnectionSyntax → SourceLocation
  | .Ordered s => s.firstToken
  | .Empty s => s.firstToken
  | .Named s => s.firstToken
  | .Wildcard s => s.firstToken

def PortConnectionSyntax.sourceRange : PortConnectionSyntax → SourceRange
  | .Ordered s => s.sourceRange
  | .Empty s => s.sourceRange
  | .Named s => s.sourceRange
  | .Wildcard s => s.sourceRange

/-- The test `conn->kind == OrderedPortConnection || conn->kind == EmptyPortConnection`
of the constructor. -/
def PortConnectionSyntax.isOrdered (conn : PortConnectionSyntax) : Bool :=
  conn.kind == SyntaxKind.OrderedPortConnection || conn.kind == SyntaxKind.EmptyPortConnection

/-! ## Symbols -/

inductive ArgumentDirection where
  | In
  | Out
  | InOut
  | Ref
deriving DecidableEq, Repr

inductive DefinitionKind where
  | Module
  | Interface
  | Program
deriving DecidableEq, Repr

/-- A definition of the definition registry: its kind, name, location and the
names of its modports. -/
structure Definition where
  name : String
  location : SourceLocation
  definitionKind : DefinitionKind
  modports : List String
deriving DecidableEq, Repr

/-- A constant range `[left:right]`. -/
structure ConstantRange where
  left : Int
  right : Int
deriving DecidableEq, Repr

namespace ConstantRange

/-- Modelled from the spec: `ConstantRange` is declared in a utility header that is
not part of the sources at hand.  The width of a range is its number of elements. -/
def width (r : ConstantRange) : Nat := (r.left - r.right).natAbs + 1

/-- Modelled from the spec: the upper bound of the range (header not at hand). -/
def upper (r : ConstantRange) : Int := max r.left r.right

/-- Modelled from the spec: the lower bound of the range (header not at hand). -/
def lower (r : ConstantRange) : Int := min r.left r.right

/-- Modelled from the spec: a range is little endian when it is written
`[high:low]` (header not at hand). -/
def isLittleEndian (r : ConstantRange) : Bool := decide (r.right ≤ r.left)

/-- Modelled from the spec: the index made relative to the range, counted from its
left bound for a big-endian range and from its lower bound otherwise (header not
at hand). -/
def translateIndex (r : ConstantRange) (index : Int) : Int :=
  if !r.isLittleEndian then r.upper - index else index - r.lower

end ConstantRange

/-- A data port.  `type` is what `getType()` returns and `initializer` what
`getInitializer()` returns (`none` is the null pointer). -/
structure PortSymbol where
  addr : Nat
  name : String
  location : SourceLocation
  direction : ArgumentDirection
  type : SvType
  initializer : Option Expression
  externalLoc : SourceLocation := 0
deriving DecidableEq, Repr

/-- A port concatenation.  `type` is what `getType()` returns. -/
structure MultiPortSymbol where
  addr : Nat
  name : String
  location : SourceLocation
  ports : List PortSymbol
  direction : ArgumentDirection
  type : SvType
deriving DecidableEq, Repr

/-- An interface port.  `dimensions` are the dimensions of the declarator set with
`setSyntax`, `none` when the port has no syntax node. -/
structure InterfacePortSymbol where
  addr : Nat
  name : String
  location : SourceLocation
  interfaceDef : Option Definition
  modport : String
  isMissingIO : Bool
  dimensions : Option (List VariableDimensionSyntax)
deriving DecidableEq, Repr

/-- The symbols the resolver meets: the three kinds of ports of a port list, and
what a lookup at the instantiation site can find. -/
inductive Symbol where
  | Port (p : PortSymbol)
  | MultiPort (p : MultiPortSymbol)
  | InterfacePort (p : InterfacePortSymbol)
  | Modport (addr : Nat) (name : String) (location : SourceLocation)
      (declaringDefinition : Option Definition)
  | Instance (addr : Nat) (name : String) (location : SourceLocation) (definition : Definition)
  | InstanceArray (addr : Nat) (name : String) (location : SourceLocation)
      (range : ConstantRange) (elements : List Symbol)
  | Variable (addr : Nat) (name : String) (location : SourceLocation) (type : SvType)
  | Other (addr : Nat) (name : String) (location : SourceLocation)

/-- The address of a symbol, `reinterpret_cast<uintptr_t>(&symbol)`. -/
def Symbol.addr : Symbol → Nat
  | .Port p => p.addr
  | .MultiPort p => p.addr
  | .InterfacePort p => p.addr
  | .Modport a _ _ _ => a
  | .Instance a _ _ _ => a
  | .InstanceArray a _ _ _ _ => a
  | .Variable a _ _ _ => a
  | .Other a _ _ => a

def Symbol.name : Symbol → String
  | .Port p => p.name
  | .MultiPort p => p.name
  | .InterfacePort p => p.name
  | .Modport _ n _ _ => n
  | .Instance _ n _ _ => n
  | .InstanceArray _ n _ _ _ => n
  | .Variable _ n _ _ => n
  | .Other _ n _ => n

def Symbol.location : Symbol → SourceLocation
  | .Port p => p.location
  | .MultiPort p => p.location
  | .InterfacePort p => p.location
  | .Modport _ _ l _ => l
  | .Instance _ _ l _ => l
  | .InstanceArray _ _ l _ _ => l
  | .Variable _ _ l _ => l
  | .Other _ _ l => l

/-- What the template parameter `TPort` of `getConnection`, `createConnection` and
`implicitNamedPort` has to offer; it is instantiated with `PortSymbol` and with
`MultiPortSymbol`. -/
class TPort (α : Type) where
  name : α → String
  location : α → SourceLocation
  direction : α → ArgumentDirection
  getType : α → SvType
  getInitializer : α → Option Expression
  toSymbol : α → Symbol

instance : TPort PortSymbol where
  name := PortSymbol.name
  location := PortSymbol.location
  direction := PortSymbol.direction
  getType := PortSymbol.type
  getInitializer := PortSymbol.initializer
  toSymbol := Symbol.Port

/-- Modelled from the spec: `MultiPortSymbol::getInitializer` is declared in the
header, which is not part of the sources at hand; the data model gives a MultiPort
its component ports and a direction and no initializer. -/
def MultiPortSymbol.getInitializer (_ : MultiPortSymbol) : Option Expression := none

instance : TPort MultiPortSymbol where
  name := MultiPortSymbol.name
  location := MultiPortSymbol.location
  direction := MultiPortSymbol.direction
  getType := MultiPortSymbol.type
  getInitializer := MultiPortSymbol.getInitializer
  toSymbol := Symbol.MultiPort

/-- A binding between one formal port and one actual: the two constructors of
`PortConnection`, the first with `isInterfacePort = false`, the second with
`isInterfacePort = true`. -/
inductive PortConnection where
  | value (port : Symbol) (expr : Option Expression) (attributes : List AttributeSymbol)
  | iface (ifacePort : InterfacePortSymbol) (ifaceInstance : Option Symbol)
      (attributes : List AttributeSymbol)

def PortConnection.isInterfacePort : PortConnection → Bool
  | .value _ _ _ => false
  | .iface _ _ _ => true

/-- The port a connection refers to (`port`, respectively `ifacePort`). -/
def PortConnection.portSymbol : PortConnection → Symbol
  | .value p _ _ => p
  | .iface p _ _ => Symbol.InterfacePort p

/-- The field `expr` of a value connection; `none` is the null pointer. -/
def PortConnection.expr : PortConnection → Option Expression
  | .value _ e _ => e
  | .iface _ _ _ => none

/-- The field `ifaceInstance` of an interface connection. -/
def PortConnection.ifaceInstance : PortConnection → Option Symbol
  | .value _ _ _ => none
  | .iface _ s _ => s

def PortConnection.attributes : PortConnection → List AttributeSymbol
  | .value _ _ a => a
  | .iface _ _ a => a

/-! ## External collaborators -/

/-- The lookup flags the resolver passes to `Lookup::unqualified`. -/
inductive LookupFlags where
  | None
  | DisallowWildcardImport
deriving DecidableEq, Repr

/-- The parent scope chain of the instance, as far as the constructor walks it: an
instance array with its range and its own parent scope, or anything else (which
includes the absence of a parent). -/
inductive ParentScope where
  | InstanceArray (range : ConstantRange) (parentScope : ParentScope)
  | Other
deriving DecidableEq, Repr

/-- The instance being elaborated and the collaborators the resolver calls. -/
structure Env where
  /-- The location `instance.location`. -/
  instanceLocation : SourceLocation
  /-- The name `instance.body.getDefinition().name`. -/
  definitionName : String
  /-- The path `instance.arrayPath`. -/
  arrayPath : List Int
  /-- The scope `*instance.getParentScope()`. -/
  scope : ParentScope
  /-- The call `AttributeSymbol::fromSyntax(attributes, scope, lookupLocation)`. -/
  fromSyntax : List AttributeInstanceSyntax → List AttributeSymbol
  /-- The call `context.requireSimpleExpr(syntax)`; `none` is the null pointer. -/
  requireSimpleExpr : PropertyExprSyntax → Option ExpressionSyntax
  /-- The call `Expression::bindArgument(type, direction, syntax, context)`. -/
  bindArgument : SvType → ArgumentDirection → ExpressionSyntax → Expression
  /-- The call `Lookup::unqualified(scope, name, flags)`. -/
  unqualified : String → LookupFlags → Option Symbol
  /-- The call `symbol->isDeclaredBefore(lookupLocation)`. -/
  isDeclaredBefore : Symbol → Option Bool
  /-- The call `ValueExpressionBase::fromSymbol(context, symbol, false, range)`. -/
  fromSymbol : Symbol → SourceRange → Expression
  /-- The call `type->isEquivalent(other)`. -/
  isEquivalent : SvType → SvType → Bool
  /-- The call `Expression::convertAssignment(context, type, expr, location)`. -/
  convertAssignment : SvType → Expression → SourceLocation → Expression
  /-- The call `Lookup::name(name, context, LookupFlags::None, result)`: the symbol
  found and the element selects of the result. -/
  lookupName : ExpressionSyntax → Option Symbol × List ElementSelectSyntax
  /-- The call `Lookup::selectChild(symbol, selectors, context, result)`. -/
  selectChild : Symbol → List ElementSelectSyntax → Option Symbol
  /-- The call `body.parentInstance->getPortConnection(port)`. -/
  getPortConnection : InterfacePortSymbol → Option PortConnection
  /-- The call `context.evalDimension(dim, true, false)`: the range when the
  result is a range. -/
  evalDimension : VariableDimensionSyntax → Option ConstantRange

/-! ## `PortConnectionBuilder` -/

/-- The mutable fields of `PortConnectionBuilder`, with their initial values, and
the diagnostics added to the scope so far.  `namedConns` keeps the entries of the
map in insertion order: the name, the syntax node and the flag telling whether a
port used the entry. -/
structure PortConnectionBuilder where
  instanceDims : List ConstantRange := []
  orderedConns : List PortConnectionSyntax := []
  namedConns : List (String × NamedPortConnectionSyntax × Bool) := []
  wildcardAttrs : List AttributeSymbol := []
  wildcardRange : SourceRange := default
  orderedIndex : Nat := 0
  usingOrdered : Bool := true
  hasWildcard : Bool := false
  warnedAboutUnnamed : Bool := false
  diags : List Diagnostic := []

namespace PortConnectionBuilder

/-- The effect of `scope.addDiag(...)` followed by the `<<` and `addNote` calls on
the returned diagnostic. -/
def addDiag (b : PortConnectionBuilder) (d : Diagnostic) : PortConnectionBuilder :=
  { b with diags := b.diags ++ [d] }

/-- The call `namedConns.find(name)`. -/
def findNamed (b : PortConnectionBuilder) (name : String) :
    Option (NamedPortConnectionSyntax × Bool) :=
  (b.namedConns.find? (fun e => e.1 == name)).map (fun e => e.2)

/-- The assignment `it->second.second = true` for the entry of `name`. -/
def markUsed (b : PortConnectionBuilder) (name : String) : PortConnectionBuilder :=
  { b with namedConns :=
      b.namedConns.map (fun e => if e.1 == name then (e.1, e.2.1, true) else e) }

/-- The body of the constructor loop after the style check: record one
connection. -/
def record (env : Env) (b : PortConnectionBuilder) (conn : PortConnectionSyntax) :
    PortConnectionBuilder :=
  match conn with
  | .Ordered _ => { b with orderedConns := b.orderedConns ++ [conn] }
  | .Empty _ => { b with orderedConns := b.orderedConns ++ [conn] }
  | .Wildcard _ =>
    if !b.hasWildcard then
      { b with hasWildcard := true, wildcardRange := conn.sourceRange,
               wildcardAttrs := env.fromSyntax conn.attributes }
    else
      b.addDiag ((Diagnostic.atRange .DuplicateWildcardPortConnection conn.sourceRange).addNote
        .NotePreviousUsage b.wildcardRange.start)
  | .Named npc =>
    let name := npc.name.valueText
    if !name.isEmpty then
      match b.findNamed name with
      | none => { b with namedConns := b.namedConns ++ [(name, npc, false)] }
      | some first =>
        b.addDiag (((Diagnostic.atLocation .DuplicatePortConnection npc.name.location).arg
          (.str name)).addNote .NotePreviousUsage first.1.name.location)
    else b

/-- The loop `for (auto conn : portConnections)` of the constructor;
`hasConnections` is its local flag.  The mismatch branch ends the loop. -/
def scan (env : Env) :
    List PortConnectionSyntax → Bool → PortConnectionBuilder → PortConnectionBuilder
  | [], _, b => b
  | conn :: rest, hasConnections, b =>
    let isOrdered := conn.isOrdered
    if !hasConnections then
      scan env rest true (record env { b with usingOrdered := isOrdered } conn)
    else if isOrdered != b.usingOrdered then
      b.addDiag (Diagnostic.atLocation .MixingOrderedAndNamedPorts conn.firstTokenLocation)
    else
      scan env rest true (record env b conn)

/-- The loop that collects the ranges of the instance-array ancestors of the
scope, innermost first. -/
def collectInstanceDims : ParentScope → List ConstantRange
  | .InstanceArray range parent => range :: collectInstanceDims parent
  | .Other => []

/-- The constructor `PortConnectionBuilder(instance, portConnections)`. -/
def create (env : Env) (portConnections : List PortConnectionSyntax) : PortConnectionBuilder :=
  let b := scan env portConnections false {}
  { b with instanceDims := (collectInstanceDims env.scope).reverse }

/-- The three overloads of `emptyConnection` for data ports and multi-ports. -/
def emptyConnection {α : Type} [TPort α] (port : α) : PortConnection :=
  .value (TPort.toSymbol port) none []

/-- The overload `emptyConnection(const InterfacePortSymbol&)`. -/
def emptyIfaceConnection (port : InterfacePortSymbol) : PortConnection :=
  .iface port none []

/-- The overloads `createConnection(port, const Expression* expr, attributes)`. -/
def createConnectionExpr {α : Type} [TPort α] (port : α) (expr : Option Expression)
    (attributes : List AttributeSymbol) : PortConnection :=
  .value (TPort.toSymbol port) expr attributes

/-- The overload `createConnection(port, const PropertyExprSyntax& syntax, attributes)`. -/
def createConnection {α : Type} [TPort α] (env : Env) (b : PortConnectionBuilder) (port : α)
    (stx : PropertyExprSyntax) (attributes : List AttributeSymbol) :
    PortConnection × PortConnectionBuilder :=
  if (TPort.getType port).isVoid then
    (emptyConnection port,
      b.addDiag ((Diagnostic.atRange .NullPortExpression stx.sourceRange).addNote
        .NoteDeclarationHere (TPort.location port)))
  else
    match env.requireSimpleExpr stx with
    | none => (emptyConnection port, b)
    | some exprSyntax =>
      let expr := env.bindArgument (TPort.getType port) (TPort.direction port) exprSyntax
      (createConnectionExpr port (some expr) attributes, b)

/-- The function `implicitNamedPort(port, attributes, range, isWildcard)`. -/
def implicitNamedPort {α : Type} [TPort α] (env : Env) (b : PortConnectionBuilder) (port : α)
    (attributes : List AttributeSymbol) (range : SourceRange) (isWildcard : Bool) :
    PortConnection × PortConnectionBuilder :=
  let flags := if isWildcard then LookupFlags.DisallowWildcardImport else LookupFlags.None
  match env.unqualified (TPort.name port) flags with
  | none =>
    if isWildcard && (TPort.getInitializer port).isSome then
      (createConnectionExpr port (TPort.getInitializer port) attributes, b)
    else
      (emptyConnection port,
        b.addDiag ((Diagnostic.atRange .ImplicitNamedPortNotFound range).arg
          (.str (TPort.name port))))
  | some symbol =>
    let b :=
      if !((env.isDeclaredBefore symbol).getD true) then
        b.addDiag (((Diagnostic.atRange .UsedBeforeDeclared range).arg
          (.str (TPort.name port))).addNote .NoteDeclarationHere symbol.location)
      else b
    let portType := TPort.getType port
    if portType.isError then (emptyConnection port, b)
    else
      let expr := env.fromSymbol symbol range
      if expr.bad then (emptyConnection port, b)
      else if !(env.isEquivalent expr.type portType) then
        (emptyConnection port,
          b.addDiag ((((Diagnostic.atRange .ImplicitNamedPortTypeMismatch range).arg
            (.str (TPort.name port))).arg (.type portType)).arg (.type expr.type)))
      else
        let assign := env.convertAssignment portType expr range.start
        (createConnectionExpr port (some assign) attributes, b)

/-- The statement `orderedIndex++`. -/
def advance (b : PortConnectionBuilder) : PortConnectionBuilder :=
  { b with orderedIndex := b.orderedIndex + 1 }

/-- The block of `getConnection` that warns about an unnamed port once. -/
def warnUnnamed {α : Type} [TPort α] (env : Env) (b : PortConnectionBuilder) (port : α) :
    PortConnectionBuilder :=
  if !b.warnedAboutUnnamed then
    { b.addDiag ((Diagnostic.atLocation .UnconnectedUnnamedPort env.instanceLocation).addNote
        .NoteDeclarationHere (TPort.location port)) with warnedAboutUnnamed := true }
  else b

/-- The function template `getConnection(const TPort& port)`. -/
def getConnection {α : Type} [TPort α] (env : Env) (b : PortConnectionBuilder) (port : α) :
    PortConnection × PortConnectionBuilder :=
  let hasDefault := (TPort.getInitializer port).isSome
  if b.usingOrdered then
    if h : b.orderedConns.length ≤ b.orderedIndex then
      let b := { b with orderedIndex := b.orderedIndex + 1 }
      if hasDefault then
        (createConnectionExpr port (TPort.getInitializer port) [], b)
      else if (TPort.name port).isEmpty then
        (emptyConnection port, warnUnnamed env b port)
      else
        (emptyConnection port,
          b.addDiag ((Diagnostic.atLocation .UnconnectedNamedPort env.instanceLocation).arg
            (.str (TPort.name port))))
    else
      let pc := b.orderedConns[b.orderedIndex]
      let b := { b with orderedIndex := b.orderedIndex + 1 }
      let attrs := env.fromSyntax pc.attributes
      match pc with
      | .Ordered s => createConnection env b port s.expr attrs
      | _ => (createConnectionExpr port (TPort.getInitializer port) attrs, b)
  else if (TPort.name port).isEmpty then
    (emptyConnection port, warnUnnamed env b port)
  else
    match b.findNamed (TPort.name port) with
    | none =>
      if b.hasWildcard then
        implicitNamedPort env b port b.wildcardAttrs b.wildcardRange true
      else if hasDefault then
        (createConnectionExpr port (TPort.getInitializer port) [], b)
      else
        (emptyConnection port,
          b.addDiag ((Diagnostic.atLocation .UnconnectedNamedPort env.instanceLocation).arg
            (.str (TPort.name port))))
    | some it =>
      let conn := it.1
      let b := b.markUsed (TPort.name port)
      let attrs := env.fromSyntax conn.attributes
      if conn.openParen then
        match conn.expr with
        | some e => createConnection env b port e attrs
        | none => (emptyConnection port, b)
      else
        implicitNamedPort env b port attrs conn.name.range false

/-! ### Interface ports -/

/-- The function `InterfacePortSymbol::getDeclaredRange`: the empty list when the
port has no definition, otherwise the evaluated dimensions of the declarator, and
`none` when one of them is not a range.  The failure of `ASSERT(syntax)` is the
`error` result. -/
def getDeclaredRange (env : Env) (port : InterfacePortSymbol) :
    Except String (Option (List ConstantRange)) :=
  if port.interfaceDef.isNone then .ok (some [])
  else
    match port.dimensions with
    | none => .error "ASSERT(syntax)"
    | some dims => .ok (dims.mapM env.evalDimension)

/-- The function `InterfacePortSymbol::getConnection`. -/
def ifaceGetConnection (env : Env) (port : InterfacePortSymbol) : Option Symbol :=
  match env.getPortConnection port with
  | none => none
  | some conn => conn.ifaceInstance

/-- The overload `createConnection(const InterfacePortSymbol&, const Symbol*, attributes)`. -/
def createIfaceConnection (port : InterfacePortSymbol) (ifaceInst : Option Symbol)
    (attributes : List AttributeSymbol) : PortConnection :=
  .iface port ifaceInst attributes

/-- The function `areDimSizesEqual(left, right)`. -/
def areDimSizesEqual : List ConstantRange → List ConstantRange → Bool
  | [], [] => true
  | l :: ls, r :: rs => if l.width != r.width then false else areDimSizesEqual ls rs
  | _, _ => false

/-- The loop of `getInterface` that descends through nested instance arrays along
their first elements: the ranges met and the leaf, or `none` when an array has no
elements. -/
def collectDims : Symbol → Option (List ConstantRange × Symbol)
  | .InstanceArray _ _ _ range elements =>
    match elements with
    | [] => none
    | child :: _ =>
      match collectDims child with
      | none => none
      | some (dims, leaf) => some (range :: dims, leaf)
  | s => some ([], s)

/-- The slicing loop of `getInterface`: `i` is the loop counter, `path` what is left
of `instance.arrayPath`.  A symbol that is not an instance array, or an index
outside `instanceDims` or outside the elements, is an `error`. -/
def sliceLoop (instanceDims : List ConstantRange) :
    List Int → Nat → Symbol → Except String Symbol
  | [], _, symbol => .ok symbol
  | p :: path, i, symbol =>
    match instanceDims[i]? with
    | none => .error "instanceDims index out of range"
    | some dim =>
      let index := dim.translateIndex p
      match symbol with
      | .InstanceArray _ _ _ range elements =>
        let index := if !range.isLittleEndian then range.upper - index - range.lower else index
        if index < 0 then .error "element index out of range"
        else
          match elements[index.toNat]? with
          | none => .error "element index out of range"
          | some e => sliceLoop instanceDims path (i + 1) e
      | _ => .error "ASSERT(T::isKind(kind))"

/-- The test `child->kind != Instance || !child->as<InstanceSymbol>().isInterface()`. -/
def notInterfaceInstance : Symbol → Bool
  | .Instance _ _ _ definition => definition.definitionKind != DefinitionKind.Interface
  | _ => true

/-- The test `child->kind != Variable || !child->as<VariableSymbol>().getType().isError()`. -/
def notErrorVariable : Symbol → Bool
  | .Variable _ _ _ type => !type.isError
  | _ => true

/-- The part of `getInterface` after the modport case and the unwrapping of a
connected interface port. -/
def getInterfaceInstance (env : Env) (b : PortConnectionBuilder) (port : InterfacePortSymbol)
    (portDef : Definition) (portDims : List ConstantRange) (symbol : Symbol)
    (providedModport : String) (range : SourceRange) :
    Except String (Option Symbol × PortConnectionBuilder) :=
  match collectDims symbol with
  | none => .ok (none, b)
  | some (dims, child) =>
    if notInterfaceInstance child then
      if notErrorVariable child then
        .ok (none, b.addDiag (((Diagnostic.atRange .NotAnInterface range).arg
          (.str symbol.name)).addNote .NoteDeclarationHere symbol.location))
      else .ok (none, b)
    else
      match child with
      | .Instance _ _ _ connDef =>
        if connDef != portDef then
          .ok (none, b.addDiag ((((Diagnostic.atRange .InterfacePortTypeMismatch range).arg
            (.str connDef.name)).arg (.str portDef.name)).addNote
            .NoteDeclarationHere port.location))
        else if !providedModport.isEmpty && !port.modport.isEmpty &&
            providedModport != port.modport then
          .ok (none, b.addDiag (((((Diagnostic.atRange .ModportConnMismatch range).arg
            (.str connDef.name)).arg (.str providedModport)).arg (.str portDef.name)).arg
            (.str port.modport)))
        else if areDimSizesEqual portDims dims then .ok (some symbol, b)
        else if b.instanceDims.length ≤ dims.length &&
            areDimSizesEqual (dims.take b.instanceDims.length) b.instanceDims &&
            areDimSizesEqual (dims.drop b.instanceDims.length) portDims then
          match sliceLoop b.instanceDims env.arrayPath 0 symbol with
          | .error e => .error e
          | .ok s => .ok (some s, b)
        else
          .ok (none, b.addDiag (((Diagnostic.atRange .PortConnDimensionsMismatch range).arg
            (.str port.name)).addNote .NoteDeclarationHere port.location))
      | _ => .error "ASSERT(T::isKind(kind))"

/-- The function `getInterface(port, symbol, providedModport, range)`. -/
def getInterface (env : Env) (b : PortConnectionBuilder) (port : InterfacePortSymbol)
    (symbol : Symbol) (providedModport : String) (range : SourceRange) :
    Except String (Option Symbol × PortConnectionBuilder) :=
  match port.interfaceDef with
  | none => .ok (none, b)
  | some portDef =>
    match getDeclaredRange env port with
    | .error e => .error e
    | .ok none => .ok (none, b)
    | .ok (some portDims) =>
      match symbol with
      | .Modport _ name _ declaringDefinition =>
        match declaringDefinition with
        | none => .error "ASSERT(connDef)"
        | some connDef =>
          if connDef != portDef then
            .ok (none, b.addDiag ((((Diagnostic.atRange .InterfacePortTypeMismatch range).arg
              (.str connDef.name)).arg (.str portDef.name)).addNote
              .NoteDeclarationHere port.location))
          else if !providedModport.isEmpty then .error "ASSERT(providedModport.empty())"
          else if !port.modport.isEmpty && name != port.modport then
            .ok (none, b.addDiag (((((Diagnostic.atRange .ModportConnMismatch range).arg
              (.str connDef.name)).arg (.str name)).arg (.str portDef.name)).arg
              (.str port.modport)))
          else if !portDims.isEmpty then
            .ok (none, b.addDiag (((Diagnostic.atRange .PortConnDimensionsMismatch range).arg
              (.str port.name)).addNote .NoteDeclarationHere port.location))
          else .ok (some symbol, b)
      | .InterfacePort ifacePort =>
        if !providedModport.isEmpty then .error "ASSERT(providedModport.empty())"
        else
          match ifaceGetConnection env ifacePort with
          | none => .ok (none, b)
          | some target =>
            getInterfaceInstance env b port portDef portDims target ifacePort.modport range
      | _ => getInterfaceInstance env b port portDef portDims symbol providedModport range

/-- The loop `while (expr->kind == ParenthesizedExpression)` of `getInterfaceExpr`. -/
def stripParens : ExpressionSyntax → ExpressionSyntax
  | .Parenthesized _ e => stripParens e
  | e => e

/-- The test `NameSyntax::isKind(expr->kind)`. -/
def isName : ExpressionSyntax → Bool
  | .Name _ _ => true
  | _ => false

/-- The function `getInterfaceExpr(port, syntax, attributes)`. -/
def getInterfaceExpr (env : Env) (b : PortConnectionBuilder) (port : InterfacePortSymbol)
    (stx : PropertyExprSyntax) (attributes : List AttributeSymbol) :
    Except String (PortConnection × PortConnectionBuilder) :=
  match env.requireSimpleExpr stx with
  | none => .ok (emptyIfaceConnection port, b)
  | some e =>
    let expr := stripParens e
    if !isName expr then
      .ok (emptyIfaceConnection port,
        b.addDiag ((Diagnostic.atRange .InterfacePortInvalidExpression expr.sourceRange).arg
          (.str port.name)))
    else
      let result := env.lookupName expr
      let unwrapped : Option Symbol × String :=
        match result.1 with
        | some (.InterfacePort ifacePort) =>
          match ifaceGetConnection env ifacePort with
          | some target =>
            if !result.2.isEmpty then (env.selectChild target result.2, ifacePort.modport)
            else (some target, ifacePort.modport)
          | none => (none, ifacePort.modport)
        | found => (found, "")
      match unwrapped.1 with
      | none => .ok (createIfaceConnection port none attributes, b)
      | some symbol =>
        match getInterface env b port symbol unwrapped.2 expr.sourceRange with
        | .error err => .error err
        | .ok (conn, b) => .ok (createIfaceConnection port conn attributes, b)

/-- The function `getImplicitInterface(port, range, attributes)`. -/
def getImplicitInterface (env : Env) (b : PortConnectionBuilder) (port : InterfacePortSymbol)
    (range : SourceRange) (attributes : List AttributeSymbol) :
    Except String (PortConnection × PortConnectionBuilder) :=
  match env.unqualified port.name LookupFlags.None with
  | none =>
    .ok (emptyIfaceConnection port,
      b.addDiag ((Diagnostic.atRange .ImplicitNamedPortNotFound range).arg (.str port.name)))
  | some symbol =>
    let b :=
      if !((env.isDeclaredBefore symbol).getD true) then
        b.addDiag (((Diagnostic.atRange .UsedBeforeDeclared range).arg
          (.str port.name)).addNote .NoteDeclarationHere symbol.location)
      else b
    match getInterface env b port symbol "" range with
    | .error err => .error err
    | .ok (conn, b) => .ok (createIfaceConnection port conn attributes, b)

/-- The lambda `reportUnconnected` of `getIfaceConnection`. -/
def reportUnconnected (env : Env) (b : PortConnectionBuilder) (port : InterfacePortSymbol) :
    PortConnection × PortConnectionBuilder :=
  (emptyIfaceConnection port,
    b.addDiag (((Diagnostic.atLocation .InterfacePortNotConnected env.instanceLocation).arg
      (.str port.name)).addNote .NoteDeclarationHere port.location))

/-- The block of `getIfaceConnection` that reads the ordered connection at the
current index: its expression (`none` is the null pointer, also for an empty
connection and past the end) and its attributes. -/
def pickOrdered (env : Env) (b : PortConnectionBuilder) :
    Option PropertyExprSyntax × List AttributeSymbol :=
  match b.orderedConns[b.orderedIndex]? with
  | some pc =>
    (match pc with
      | .Ordered s => some s.expr
      | _ => none,
     env.fromSyntax pc.attributes)
  | none => (none, [])

/-- The block of `getIfaceConnection` for a port without definition: the
connection is consumed and nothing is checked. -/
def skipConnection (b : PortConnectionBuilder) (name : String) : PortConnectionBuilder :=
  if b.usingOrdered then { b with orderedIndex := b.orderedIndex + 1 }
  else
    match b.findNamed name with
    | some _ => b.markUsed name
    | none => b

/-- The function `getIfaceConnection(const InterfacePortSymbol& port)`. -/
def getIfaceConnection (env : Env) (b : PortConnectionBuilder) (port : InterfacePortSymbol) :
    Except String (PortConnection × PortConnectionBuilder) :=
  if port.name.isEmpty then .error "ASSERT(!port.name.empty())"
  else if port.interfaceDef.isNone then
    .ok (emptyIfaceConnection port, b.skipConnection port.name)
  else if b.usingOrdered then
    let pick := b.pickOrdered env
    let b := { b with orderedIndex := b.orderedIndex + 1 }
    match pick.1 with
    | none => .ok (reportUnconnected env b port)
    | some expr => getInterfaceExpr env b port expr pick.2
  else
    match b.findNamed port.name with
    | none =>
      if b.hasWildcard then getImplicitInterface env b port b.wildcardRange b.wildcardAttrs
      else .ok (reportUnconnected env b port)
    | some it =>
      let conn := it.1
      let b := b.markUsed port.name
      let attributes := env.fromSyntax conn.attributes
      if conn.openParen then
        match conn.expr with
        | none => .ok (reportUnconnected env b port)
        | some e => getInterfaceExpr env b port e attributes
      else getImplicitInterface env b port conn.name.range attributes

/-! ### Finalization -/

/-- The function `finalize()`. -/
def finalize (env : Env) (b : PortConnectionBuilder) : PortConnectionBuilder :=
  if b.usingOrdered then
    if h : b.orderedIndex < b.orderedConns.length then
      let loc := (b.orderedConns[b.orderedIndex]).firstTokenLocation
      b.addDiag ((((Diagnostic.atLocation .TooManyPortConnections loc).arg
        (.str env.definitionName)).arg (.num b.orderedConns.length)).arg (.num b.orderedIndex))
    else b
  else
    { b with diags := b.diags ++
        (b.namedConns.filter (fun pair => !pair.2.2)).map (fun pair =>
          ((Diagnostic.atLocation .PortDoesNotExist pair.2.1.name.location).arg
            (.str pair.2.1.name.valueText)).arg (.str env.definitionName)) }

end PortConnectionBuilder

/-! ## `PortConnection::makeConnections` -/

/-- The result map: the address of the port and the connection made for it. -/
abbrev PointerMap := List (Nat × PortConnection)

/-- The call `results.emplace(key, value)`: nothing changes when the key is there. -/
def PointerMap.emplace (m : PointerMap) (key : Nat) (value : PortConnection) : PointerMap :=
  if m.any (fun e => e.1 == key) then m else m ++ [(key, value)]

/-- The lookup of a key in the result map. -/
def PointerMap.find (m : PointerMap) (key : Nat) : Option PortConnection :=
  (List.find? (fun e => e.1 == key) m).map (fun e => e.2)

/-- The loop `for (auto portBase : ports)` of `makeConnections`. -/
def connectPorts (env : Env) :
    List Symbol → PortConnectionBuilder → PointerMap →
      Except String (PortConnectionBuilder × PointerMap)
  | [], b, results => .ok (b, results)
  | portBase :: rest, b, results =>
    match portBase with
    | .Port port =>
      let r := b.getConnection env port
      connectPorts env rest r.2 (results.emplace port.addr r.1)
    | .MultiPort port =>
      let r := b.getConnection env port
      connectPorts env rest r.2 (results.emplace port.addr r.1)
    | .InterfacePort port =>
      match b.getIfaceConnection env port with
      | .error e => .error e
      | .ok r => connectPorts env rest r.2 (results.emplace port.addr r.1)
    | _ => .error "ASSERT(T::isKind(kind))"

/-- The function `PortConnection::makeConnections(instance, ports, portConnections,
results)`: the builder after `finalize` (with the diagnostics) and the result map. -/
def makeConnections (env : Env) (ports : List Symbol)
    (portConnections : List PortConnectionSyntax) (results : PointerMap) :
    Except String (PortConnectionBuilder × PointerMap) :=
  match connectPorts env ports (PortConnectionBuilder.create env portConnections) results with
  | .error e => .error e
  | .ok (b, results) => .ok (b.finalize env, results)

/-! ## Observations on the diagnostics -/

/-- The number of diagnostics of a list that have the given code. -/
def countCode (code : DiagCode) (ds : List Diagnostic) : Nat :=
  ds.countP (fun d => d.code == code)

/-- The codes of the diagnostics that the processing of one formal port can add. -/
def isPortDiag : DiagCode → Bool
  | .UnconnectedUnnamedPort => true
  | .UnconnectedNamedPort => true
  | .NullPortExpression => true
  | .ImplicitNamedPortNotFound => true
  | .UsedBeforeDeclared => true
  | .ImplicitNamedPortTypeMismatch => true
  | .InterfacePortNotConnected => true
  | .InterfacePortInvalidExpression => true
  | .InterfacePortTypeMismatch => true
  | .ModportConnMismatch => true
  | .PortConnDimensionsMismatch => true
  | .NotAnInterface => true
  | _ => false

/-- The builder `c` is the builder `b` with more diagnostics, all of them of the
port-processing kind, and possibly another `warnedAboutUnnamed`. -/
def Frame (b c : PortConnectionBuilder) : Prop :=
  ∃ (ds : List Diagnostic) (w : Bool),
    c = { b with diags := b.diags ++ ds, warnedAboutUnnamed := w } ∧
    ∀ d ∈ ds, isPortDiag d.code = true

/-- What the processing of one formal port called `name` does to the builder: in
ordered mode the index advances by one, in named mode the entry of the name is
marked as used, diagnostics of the port-processing kind are added, and the
record of the connections stays as it is. -/
structure PortStep (name : String) (b c : PortConnectionBuilder) : Prop where
  instanceDims : c.instanceDims = b.instanceDims
  orderedConns : c.orderedConns = b.orderedConns
  wildcardAttrs : c.wildcardAttrs = b.wildcardAttrs
  wildcardRange : c.wildcardRange = b.wildcardRange
  usingOrdered : c.usingOrdered = b.usingOrdered
  hasWildcard : c.hasWildcard = b.hasWildcard
  orderedIndex : c.orderedIndex = if b.usingOrdered then b.orderedIndex + 1 else b.orderedIndex
  namedConns : c.namedConns =
    if b.usingOrdered || name.isEmpty then b.namedConns else (b.markUsed name).namedConns
  diags : ∃ ds : List Diagnostic, c.diags = b.diags ++ ds ∧ ∀ d ∈ ds, isPortDiag d.code = true

/-- The entries of the map of named connections after the ports called `names`
have looked their names up: the entries with one of these names are marked. -/
def markAll (names : List String) (conns : List (String × NamedPortConnectionSyntax × Bool)) :
    List (String × NamedPortConnectionSyntax × Bool) :=
  conns.map (fun e => if names.contains e.1 then (e.1, e.2.1, true) else e)

/-- What the processing of the formal ports called `names`, in this order, does to
the builder. -/
structure Run (names : List String) (b c : PortConnectionBuilder) : Prop where
  instanceDims : c.instanceDims = b.instanceDims
  orderedConns : c.orderedConns = b.orderedConns
  wildcardAttrs : c.wildcardAttrs = b.wildcardAttrs
  wildcardRange : c.wildcardRange = b.wildcardRange
  usingOrdered : c.usingOrdered = b.usingOrdered
  hasWildcard : c.hasWildcard = b.hasWildcard
  orderedIndex :
    c.orderedIndex = if b.usingOrdered then b.orderedIndex + names.length else b.orderedIndex
  namedConns : c.namedConns =
    if b.usingOrdered then b.namedConns
    else markAll (names.filter (fun n => !n.isEmpty)) b.namedConns
  diags : ∃ ds : List Diagnostic, c.diags = b.diags ++ ds ∧ ∀ d ∈ ds, isPortDiag d.code = true

/-- The predicate `kind == Port || kind == MultiPort || kind == InterfacePort`. -/
def Symbol.isPortKind : Symbol → Bool
  | .Port _ => true
  | .MultiPort _ => true
  | .InterfacePort _ => true
  | _ => false

/-- The codes of the diagnostics that the constructor of the builder can add. -/
def isCtorDiag : DiagCode → Bool
  | .MixingOrderedAndNamedPorts => true
  | .DuplicateWildcardPortConnection => true
  | .DuplicatePortConnection => true
  | _ => false

/-- What holds of a builder when its constructor is done: no port has been
processed, the recorded named connections are keyed by their non-empty names, no
two have the same name and none is marked as used. -/
structure CtorInv (b : PortConnectionBuilder) : Prop where
  orderedIndex : b.orderedIndex = 0
  unused : ∀ e ∈ b.namedConns, e.2.2 = false
  keys : ∀ e ∈ b.namedConns, e.1 = e.2.1.name.valueText ∧ e.1 ≠ ""
  nodup : (b.namedConns.map (fun e => e.1)).Nodup
  diags : ∀ d ∈ b.diags, isCtorDiag d.code = true

/-! ## Concrete inputs -/

namespace Demo

/-- A range used by the concrete inputs. -/
def rangeAt (n : Nat) : SourceRange := { startLoc := n, endLoc := n + 1 }

/-- A two-state integral type, a void type. -/
def intType : SvType := { id := 1, isVoid := false, isError := false }

def voidType : SvType := { id := 0, isVoid := true, isError := false }

/-- An environment whose lookups find nothing, whose binder turns the expression
syntax number `n` into the expression number `n`, and whose instance is at
location 100 in a module `m`. -/
def env : Env where
  instanceLocation := 100
  definitionName := "m"
  arrayPath := []
  scope := ParentScope.Other
  fromSyntax := fun attrs => attrs
  requireSimpleExpr := fun s => some (ExpressionSyntax.Name s.id s.sourceRange)
  bindArgument := fun t _ e =>
    match e with
    | .Name n _ => { id := n, type := t, bad := false }
    | .Other n _ => { id := n, type := t, bad := false }
    | .Parenthesized _ _ => { id := 0, type := t, bad := true }
  unqualified := fun _ _ => none
  isDeclaredBefore := fun _ => none
  fromSymbol := fun _ _ => { id := 0, type := intType, bad := true }
  isEquivalent := fun a b => a == b
  convertAssignment := fun _ e _ => e
  lookupName := fun _ => (none, [])
  selectChild := fun _ _ => none
  getPortConnection := fun _ => none
  evalDimension := fun _ => none

/-- The default value number 7. -/
def defaultExpr : Expression := { id := 7, type := intType, bad := false }

/-- The port `a`, without a default. -/
def portA : PortSymbol :=
  { addr := 1, name := "a", location := 10, direction := .In, type := intType,
    initializer := none }

/-- The port `b`, with the default value number 7. -/
def portB : PortSymbol :=
  { addr := 2, name := "b", location := 20, direction := .In, type := intType,
    initializer := some defaultExpr }

/-- Two unnamed ports without defaults. -/
def unnamed1 : PortSymbol :=
  { addr := 3, name := "", location := 30, direction := .In, type := voidType,
    initializer := none }

def unnamed2 : PortSymbol :=
  { addr := 4, name := "", location := 40, direction := .In, type := voidType,
    initializer := none }

/-- The concatenation `{a, b}`, called `ab`. -/
def multiAB : MultiPortSymbol :=
  { addr := 5, name := "ab", location := 50, ports := [portA, portB], direction := .In,
    type := intType }

/-- An interface `bus` with the modport `m`, and the interface port `i` of that
interface. -/
def busDef : Definition :=
  { name := "bus", location := 1, definitionKind := .Interface, modports := ["m"] }

def ifaceI : InterfacePortSymbol :=
  { addr := 6, name := "i", location := 60, interfaceDef := some busDef, modport := "m",
    isMissingIO := false, dimensions := some [] }

/-- The ordered connection with the expression number `n`. -/
def ordered (n : Nat) : PortConnectionSyntax :=
  .Ordered { attributes := [], expr := { id := n, sourceRange := rangeAt n },
             firstToken := n, sourceRange := rangeAt n }

/-- The empty ordered connection at location `n`. -/
def emptyAt (n : Nat) : PortConnectionSyntax :=
  .Empty { attributes := [], firstToken := n, sourceRange := rangeAt n }

/-- The syntax node of `.name(expr)` (with the expression number `n`), `.name()`
and `.name` at location `n`. -/
def namedNode (name : String) (n : Nat) (openParen : Bool) (hasExpr : Bool) :
    NamedPortConnectionSyntax :=
  { attributes := [], name := { valueText := name, location := n, range := rangeAt n },
    openParen := openParen,
    expr := if hasExpr then some { id := n, sourceRange := rangeAt n } else none,
    firstToken := n, sourceRange := rangeAt n }

/-- The wildcard connection `.*` at location `n`. -/
def wildcardAt (n : Nat) : PortConnectionSyntax :=
  .Wildcard { attributes := [], firstToken := n, sourceRange := rangeAt n }

end Demo

/-! ## Duplicates in a named connection list, in the spec's words -/

namespace Spec

/-- The first `.name` connection of the list that has the given name. -/
def firstNamed (name : String) :
    List PortConnectionSyntax → Option NamedPortConnectionSyntax
  | [] => none
  | .Named s :: rest => if s.name.valueText == name then some s else firstNamed name rest
  | _ :: rest => firstNamed name rest

/-- The first `.*` of the list. -/
def firstWildcard : List PortConnectionSyntax → Option WildcardPortConnectionSyntax
  | [] => none
  | .Wildcard w :: _ => some w
  | _ :: rest => firstWildcard rest

/-- What the spec asks for one connection, given the connections before it: a
`.name` whose non-empty name occurred earlier gives one `DuplicatePortConnection`
with a note at the first occurrence, a `.*` after an earlier one gives one
`DuplicateWildcardPortConnection` with a note at the first wildcard. -/
def duplicateDiag (earlier : List PortConnectionSyntax) :
    PortConnectionSyntax → List Diagnostic
  | .Named s =>
    if s.name.valueText = "" then []
    else
      match firstNamed s.name.valueText earlier with
      | some first =>
        [{ code := .DuplicatePortConnection, location := s.name.location,
           args := [.str s.name.valueText],
           notes := [(.NotePreviousUsage, first.name.location)] }]
      | none => []
  | .Wildcard w =>
    match firstWildcard earlier with
    | some first =>
      [{ code := .DuplicateWildcardPortConnection, location := w.sourceRange.start,
         ranges := [w.sourceRange],
         notes := [(.NotePreviousUsage, first.sourceRange.start)] }]
    | none => []
  | _ => []

/-- The duplicate diagnostics of a connection list, in the order of the list;
`earlier` are the connections before the list. -/
def duplicateDiags (earlier : List PortConnectionSyntax) :
    List PortConnectionSyntax → List Diagnostic
  | [] => []
  | c :: rest => duplicateDiag earlier c ++ duplicateDiags (earlier ++ [c]) rest

end Spec

/-- What the constructor keeps of the named-style connections `earlier` it has
read: the first connection of every non-empty name, unused, and the first
wildcard with its range and attributes. -/
structure NamedInv (env : Env) (earlier : List PortConnectionSyntax)
    (b : PortConnectionBuilder) : Prop where
  named : ∀ name : String, name ≠ "" →
    b.findNamed name = (Spec.firstNamed name earlier).map (fun s => (s, false))
  hasWildcard : b.hasWildcard = (Spec.firstWildcard earlier).isSome
  wildcard : ∀ w, Spec.firstWildcard earlier = some w →
    b.wildcardRange = w.sourceRange ∧ b.wildcardAttrs = env.fromSyntax w.attributes

/-! ## The warning about unnamed ports -/

/-- The builder `c` has the `warnedAboutUnnamed` of the builder `b` and the
diagnostics of `b` followed by diagnostics other than `UnconnectedUnnamedPort`. -/
def Quiet (b c : PortConnectionBuilder) : Prop :=
  c.warnedAboutUnnamed = b.warnedAboutUnnamed ∧
    ∃ ds : List Diagnostic, c.diags = b.diags ++ ds ∧
      ∀ d ∈ ds, d.code ≠ .UnconnectedUnnamedPort

/-- The builder holds one `UnconnectedUnnamedPort` if it has warned about an
unnamed port and none otherwise. -/
def WarnedOnce (b : PortConnectionBuilder) : Prop :=
  countCode .UnconnectedUnnamedPort b.diags = if b.warnedAboutUnnamed then 1 else 0

/-! ## Syntax of port lists -/

/-- The kinds of the direction keywords. -/
inductive DirectionKind where
  | InputKeyword
  | OutputKeyword
  | InOutKeyword
  | RefKeyword
deriving DecidableEq, Repr

/-- A direction keyword of a port header. -/
structure DirectionToken where
  kind : DirectionKind
  location : SourceLocation
deriving DecidableEq, Repr

/-- A keyword of a port header of which only the position matters (`var`,
`const`). -/
structure KeywordToken where
  location : SourceLocation
  range : SourceRange
deriving DecidableEq, Repr

namespace SemanticFacts

/-- Modelled from the spec: `SemanticFacts::getDirection` is defined outside the
sources at hand; it returns the direction encoded by the keyword. -/
def getDirection : DirectionKind → ArgumentDirection
  | .InputKeyword => .In
  | .OutputKeyword => .Out
  | .InOutKeyword => .InOut
  | .RefKeyword => .Ref

end SemanticFacts

/-- A data type of the parse tree, as far as the list builders look into it:
whether its kind is `ImplicitType`, the signing and the dimensions of an implicit
type, and the name that `SyntaxFacts::getSimpleTypeName` returns for it (empty
when it is not a plain identifier). -/
structure DataTypeSyntax where
  id : Nat
  isImplicitType : Bool
  signing : Bool
  dimensions : List VariableDimensionSyntax
  simpleTypeName : String
  sourceRange : SourceRange
deriving DecidableEq, Repr

/-- The clause `= expr` of a declarator. -/
structure EqualsValueClauseSyntax where
  equals : SourceLocation
  expr : ExpressionSyntax
  sourceRange : SourceRange
deriving DecidableEq, Repr

structure DeclaratorSyntax where
  name : Token
  dimensions : List VariableDimensionSyntax
  initializer : Option EqualsValueClauseSyntax
  firstToken : SourceLocation
  sourceRange : SourceRange
deriving DecidableEq, Repr

structure VariablePortHeaderSyntax where
  constKeyword : Option KeywordToken
  direction : Option DirectionToken
  varKeyword : Option KeywordToken
  dataType : DataTypeSyntax
deriving DecidableEq, Repr

/-- A net port header; `netTypeKind` is the kind of its net type keyword. -/
structure NetPortHeaderSyntax where
  direction : Option DirectionToken
  netTypeKind : Nat
  dataType : DataTypeSyntax
deriving DecidableEq, Repr

/-- An interface port header `name` or `name.member`; `isIdentifier` tells whether
the kind of `nameOrKeyword` is `Identifier`. -/
structure InterfacePortHeaderSyntax where
  nameOrKeyword : Token
  isIdentifier : Bool
  modport : Option Token
deriving DecidableEq, Repr

inductive PortHeaderSyntax where
  | VariablePortHeader (h : VariablePortHeaderSyntax)
  | NetPortHeader (h : NetPortHeaderSyntax)
  | InterfacePortHeader (h : InterfacePortHeaderSyntax)
deriving DecidableEq, Repr

structure ImplicitAnsiPortSyntax where
  attributes : List AttributeInstanceSyntax
  header : PortHeaderSyntax
  declarator : DeclaratorSyntax
deriving DecidableEq, Repr

/-- An explicit ANSI port `.name(expr)`; `exprFirstToken` is the location of the
first token of the expression. -/
structure ExplicitAnsiPortSyntax where
  attributes : List AttributeInstanceSyntax
  direction : Option DirectionToken
  name : Token
  expr : Option ExpressionSyntax
  exprFirstToken : SourceLocation
deriving DecidableEq, Repr

/-! ## The scope of a port list, and the symbols the list builders make -/

/-- A net type: its identity, and whether it is the error net type. -/
structure NetType where
  id : Nat
  isError : Bool
deriving DecidableEq, Repr

/-- What `Lookup::unqualified(scope, name, LookupFlags::Type)` finds, as far as the
ANSI builder distinguishes: a net type, a type, or something that is no type. -/
inductive TypeLookup where
  | NetType (netType : NetType)
  | DataType
  | Other
deriving DecidableEq, Repr

/-- What the builders set on the declared type of a symbol: the type syntax and
the dimensions given to `setDeclaredType` or `setDimensionSyntax`, the index
given to `setOverrideIndex`, the type given to `setType`, and the arguments of
`mergeImplicitPort`. -/
structure DeclaredType where
  typeSyntax : Option DataTypeSyntax := none
  dimensions : List VariableDimensionSyntax := []
  overrideIndex : Option Nat := none
  resolved : Option SvType := none
  mergedImplicitPort :
    Option (DataTypeSyntax × SourceLocation × List VariableDimensionSyntax) := none
deriving DecidableEq, Repr

/-- The kind of a value symbol behind a port: a net, with its net type, or a
variable. -/
inductive InternalKind where
  | Net (netType : NetType)
  | Variable
deriving DecidableEq, Repr

/-- A `NetSymbol` or a `VariableSymbol`: the internal symbol of a port. -/
structure InternalSymbol where
  kind : InternalKind
  name : String
  location : SourceLocation
  declaredType : DeclaredType := {}
  attributes : List AttributeInstanceSyntax := []
  declarator : Option DeclaratorSyntax := none
  index : Nat := 0
deriving DecidableEq, Repr

/-- The test `symbol->kind == SymbolKind::Net`. -/
def InternalSymbol.isNet (s : InternalSymbol) : Bool :=
  match s.kind with
  | .Net _ => true
  | .Variable => false

/-- What `scope.find(name)` finds: a net or a variable, or another symbol. -/
inductive ScopeSymbol where
  | Value (symbol : InternalSymbol)
  | Other
deriving DecidableEq, Repr

/-- The scope of the port list and its compilation, as far as the list builders
consult them. -/
structure ScopeEnv where
  /-- The call `Lookup::unqualified(scope, name, LookupFlags::Type)`. -/
  lookupType : String → Option TypeLookup
  /-- The call `compilation.getDefinition(name, scope)`. -/
  getDefinition : String → Option Definition
  /-- The call `scope.getDefaultNetType()`. -/
  defaultNetType : NetType
  /-- The call `compilation.getWireNetType()`. -/
  wireNetType : NetType
  /-- The call `compilation.getNetType(kind)`. -/
  getNetType : Nat → NetType
  /-- The call `compilation.getVoidType()`. -/
  voidType : SvType
  /-- The call `scope.find(name)`. -/
  find : String → Option ScopeSymbol

namespace Built

/-- A `PortSymbol` as a list builder leaves it: what the constructor and the
setters were given. -/
structure PortSymbol where
  name : String
  location : SourceLocation
  externalLoc : SourceLocation
  direction : ArgumentDirection
  internalSymbol : Option InternalSymbol := none
  declaredType : DeclaredType := {}
  initializerSyntax : Option (ExpressionSyntax × SourceLocation) := none
  attributes : List AttributeInstanceSyntax := []
deriving DecidableEq, Repr

/-- An `InterfacePortSymbol` as a list builder leaves it. -/
structure InterfacePortSymbol where
  name : String
  location : SourceLocation
  interfaceDef : Option Definition := none
  modport : String := ""
  isMissingIO : Bool := false
  multiPortLoc : Option SourceLocation := none
  declarator : Option DeclaratorSyntax := none
  attributes : List AttributeInstanceSyntax := []
deriving DecidableEq, Repr

/-- A `MultiPortSymbol` as the non-ANSI list builder leaves it. -/
structure MultiPortSymbol where
  name : String
  location : SourceLocation
  ports : List PortSymbol
  direction : ArgumentDirection
deriving DecidableEq, Repr

/-- The symbol a list builder returns for one entry of the port list. -/
inductive Symbol where
  | Port (p : PortSymbol)
  | InterfacePort (p : InterfacePortSymbol)
  | MultiPort (p : MultiPortSymbol)
deriving DecidableEq, Repr

end Built

/-- Modelled from the spec: `createEmptyTypeSyntax` belongs to the compilation,
which is outside the sources at hand; it makes an implicit type without signing
and without dimensions at the given location. -/
def createEmptyTypeSyntax (loc : SourceLocation) : DataTypeSyntax :=
  { id := 0, isImplicitType := true, signing := false, dimensions := [], simpleTypeName := "",
    sourceRange := { startLoc := loc, endLoc := loc } }

/-- The function `getDefaultNetType(scope, location)`: the net type, and the
diagnostic it adds when the scope has no default net type. -/
def getDefaultNetType (scope : ScopeEnv) (location : SourceLocation) :
    NetType × List Diagnostic :=
  if !scope.defaultNetType.isError then (scope.defaultNetType, [])
  else (scope.wireNetType, [Diagnostic.atLocation .ImplicitNetPortNoDefault location])

/-- The function `getInterfacePortInfo(scope, header)`: the definition, the
modport and the diagnostics added. -/
def getInterfacePortInfo (scope : ScopeEnv) (header : InterfacePortHeaderSyntax) :
    Option Definition × String × List Diagnostic :=
  let token := header.nameOrKeyword
  match scope.getDefinition token.valueText with
  | none =>
    (none, "", [(Diagnostic.atRange .UnknownInterface token.range).arg (.str token.valueText)])
  | some d =>
    if d.definitionKind != DefinitionKind.Interface then
      (none, "",
        [((Diagnostic.atRange .PortTypeNotInterfaceOrData header.nameOrKeyword.range).arg
          (.str d.name)).addNote .NoteDeclarationHere d.location])
    else
      match header.modport with
      | some member =>
        let modport := member.valueText
        if !d.modports.contains modport && !modport.isEmpty then
          (some d, "",
            [((Diagnostic.atRange .NotAModport member.range).arg (.str modport)).arg
              (.str d.name)])
        else (some d, modport, [])
      | none => (some d, "", [])

/-! ## `AnsiPortListBuilder` -/

/-- The mutable fields of `AnsiPortListBuilder`, with their initial values, the
implicit members appended so far (the internal symbol and its port), the
definitions handed to `noteInterfacePort`, and the diagnostics added to the
scope so far. -/
structure AnsiPortListBuilder where
  lastDirection : ArgumentDirection := .InOut
  lastType : Option DataTypeSyntax := none
  lastNetType : Option NetType := none
  lastInterface : Option Definition := none
  lastModport : String := ""
  implicitMembers : List (InternalSymbol × Built.PortSymbol) := []
  notedInterfacePorts : List Definition := []
  diags : List Diagnostic := []

namespace AnsiPortListBuilder

/-- The function `getDirection(Token token)`. -/
def getDirection (b : AnsiPortListBuilder) (token : Option DirectionToken) :
    ArgumentDirection :=
  match token with
  | some t => SemanticFacts.getDirection t.kind
  | none => b.lastDirection

/-- The lambda `isEmpty` of `createPort`. -/
def isEmpty (typeSyntax : DataTypeSyntax) : Bool :=
  if !typeSyntax.isImplicitType then false
  else !typeSyntax.signing && typeSyntax.dimensions.isEmpty

/-- The block of `add` that reports a direction the internal symbol cannot
have. -/
def directionDiags (name : String) (location : SourceLocation)
    (direction : ArgumentDirection) (netType : Option NetType) : List Diagnostic :=
  if !name.isEmpty then
    if direction == ArgumentDirection.InOut && netType.isNone then
      [(Diagnostic.atLocation .InOutPortCannotBeVariable location).arg (.str name)]
    else if direction == ArgumentDirection.Ref && netType.isSome then
      [(Diagnostic.atLocation .RefPortMustBeVariable location).arg (.str name)]
    else []
  else []

/-- The choice of `add` between a `NetSymbol` of the net type and a
`VariableSymbol`. -/
def internalKind (netType : Option NetType) : InternalKind :=
  match netType with
  | some nt => .Net nt
  | none => .Variable

/-- The block of `add` that sets the declared type of the internal symbol, which
the port copies: the type syntax with the dimensions of the declarator, or, for
a net without type syntax, the dimensions alone.  The failure of
`ASSERT(netType)` is the `error` result. -/
def declaredTypeOf (decl : DeclaratorSyntax) (type : Option DataTypeSyntax)
    (netType : Option NetType) : Except String DeclaredType :=
  match type with
  | some t => .ok { typeSyntax := some t, dimensions := decl.dimensions }
  | none =>
    match netType with
    | none => .error "ASSERT(netType)"
    | some _ =>
      if !decl.dimensions.isEmpty then .ok { dimensions := decl.dimensions } else .ok {}

/-- The function `add(decl, direction, type, netType, attrs)` for data ports. -/
def add (b : AnsiPortListBuilder) (decl : DeclaratorSyntax) (direction : ArgumentDirection)
    (type : Option DataTypeSyntax) (netType : Option NetType)
    (attrs : List AttributeInstanceSyntax) :
    Except String (Built.Symbol × AnsiPortListBuilder) :=
  let name := decl.name.valueText
  let location := decl.name.location
  let diags := b.diags ++ directionDiags name location direction netType
  let kind := internalKind netType
  match declaredTypeOf decl type netType with
  | .error e => .error e
  | .ok declaredType =>
    let symbol : InternalSymbol :=
      { kind := kind, name := name, location := location, declaredType := declaredType,
        attributes := attrs, declarator := some decl }
    let port : Built.PortSymbol :=
      { name := name, location := location, externalLoc := location, direction := direction,
        internalSymbol := some symbol, declaredType := declaredType, attributes := attrs }
    .ok (.Port port,
      { b with diags := diags,
               implicitMembers := b.implicitMembers ++ [(symbol, port)],
               lastDirection := direction,
               lastType := type,
               lastNetType := netType,
               lastInterface := none,
               lastModport := "" })

/-- The function `add(decl, iface, modport, attrs)` for interface ports. -/
def addIface (b : AnsiPortListBuilder) (decl : DeclaratorSyntax) (iface : Option Definition)
    (modport : String) (attrs : List AttributeInstanceSyntax) :
    Built.Symbol × AnsiPortListBuilder :=
  let port : Built.InterfacePortSymbol :=
    { name := decl.name.valueText, location := decl.name.location, interfaceDef := iface,
      modport := modport, declarator := some decl, attributes := attrs }
  (.InterfacePort port,
    { b with notedInterfacePorts :=
               match iface with
               | some d => b.notedInterfacePorts ++ [d]
               | none => b.notedInterfacePorts,
             lastDirection := .InOut,
             lastType := none,
             lastNetType := none,
             lastInterface := iface,
             lastModport := modport })

/-- The function `addInherited(decl, attrs)`. -/
def addInherited (b : AnsiPortListBuilder) (decl : DeclaratorSyntax)
    (attrs : List AttributeInstanceSyntax) :
    Except String (Built.Symbol × AnsiPortListBuilder) :=
  match b.lastInterface with
  | some iface => .ok (b.addIface decl (some iface) b.lastModport attrs)
  | none =>
    let b :=
      if b.lastType.isNone && b.lastNetType.isNone then
        { b with lastType := some (createEmptyTypeSyntax decl.firstToken) }
      else b
    b.add decl b.lastDirection b.lastType b.lastNetType attrs

/-- The branch of `createPort(const ImplicitAnsiPortSyntax&)` for a variable port
header that does not inherit everything and whose data type is neither a net
type nor the name of a definition: the rules of 23.2.2.3. -/
def addVariablePort (scope : ScopeEnv) (b : AnsiPortListBuilder)
    (header : VariablePortHeaderSyntax) (decl : DeclaratorSyntax)
    (attrs : List AttributeInstanceSyntax) :
    Except String (Built.Symbol × AnsiPortListBuilder) :=
  let direction := b.getDirection header.direction
  if header.varKeyword.isNone &&
      (direction == ArgumentDirection.InOut ||
        (direction != ArgumentDirection.Ref && header.dataType.isImplicitType)) then
    let net := getDefaultNetType scope decl.name.location
    AnsiPortListBuilder.add { b with diags := b.diags ++ net.2 } decl direction
      (some header.dataType) (some net.1) attrs
  else
    b.add decl direction (some header.dataType) none attrs

/-- The branch of `createPort(const ImplicitAnsiPortSyntax&)` for a definition
found under the simple name of the data type. -/
def addForDefinition (b : AnsiPortListBuilder) (header : VariablePortHeaderSyntax)
    (decl : DeclaratorSyntax) (attrs : List AttributeInstanceSyntax)
    (definition : Definition) : Built.Symbol × AnsiPortListBuilder :=
  if definition.definitionKind != DefinitionKind.Interface then
    AnsiPortListBuilder.addIface
      { b with diags := b.diags ++
          [((Diagnostic.atRange .PortTypeNotInterfaceOrData header.dataType.sourceRange).arg
            (.str definition.name)).addNote .NoteDeclarationHere definition.location] }
      decl none "" attrs
  else
    let d1 :=
      match header.varKeyword with
      | some v => [Diagnostic.atLocation .VarWithInterfacePort v.location]
      | none => []
    let d2 :=
      match header.direction with
      | some d => [Diagnostic.atLocation .DirectionWithInterfacePort d.location]
      | none => []
    AnsiPortListBuilder.addIface { b with diags := b.diags ++ d1 ++ d2 } decl
      (some definition) "" attrs

/-- The function `createPort(const ImplicitAnsiPortSyntax& syntax)`. -/
def createPortImplicit (scope : ScopeEnv) (b : AnsiPortListBuilder)
    (stx : ImplicitAnsiPortSyntax) : Except String (Built.Symbol × AnsiPortListBuilder) :=
  let decl := stx.declarator
  match stx.header with
  | .VariablePortHeader header =>
    if header.direction.isNone && header.varKeyword.isNone && isEmpty header.dataType then
      b.addInherited decl stx.attributes
    else
      let simpleName := header.dataType.simpleTypeName
      if !simpleName.isEmpty then
        match scope.lookupType simpleName with
        | some (.NetType netType) =>
          b.add decl (b.getDirection header.direction) none (some netType) stx.attributes
        | some .DataType => addVariablePort scope b header decl stx.attributes
        | _ =>
          match scope.getDefinition simpleName with
          | some definition => .ok (addForDefinition b header decl stx.attributes definition)
          | none => addVariablePort scope b header decl stx.attributes
      else addVariablePort scope b header decl stx.attributes
  | .NetPortHeader header =>
    b.add decl (b.getDirection header.direction) (some header.dataType)
      (some (scope.getNetType header.netTypeKind)) stx.attributes
  | .InterfacePortHeader header =>
    let info := getInterfacePortInfo scope header
    .ok (AnsiPortListBuilder.addIface { b with diags := b.diags ++ info.2.2 } decl
      info.1 info.2.1 stx.attributes)

/-- The function `createPort(const ExplicitAnsiPortSyntax& syntax)`. -/
def createPortExplicit (b : AnsiPortListBuilder) (stx : ExplicitAnsiPortSyntax) :
    Built.Symbol × AnsiPortListBuilder :=
  let port : Built.PortSymbol :=
    { name := stx.name.valueText, location := stx.name.location,
      externalLoc := stx.name.location, direction := b.getDirection stx.direction,
      declaredType :=
        { typeSyntax := some (createEmptyTypeSyntax stx.name.location) },
      attributes := stx.attributes,
      initializerSyntax :=
        match stx.expr with
        | some e => some (e, stx.exprFirstToken)
        | none => none }
  (.Port port,
    { b with lastDirection := port.direction,
             lastType := none,
             lastNetType := none,
             lastInterface := none,
             lastModport := "" })

end AnsiPortListBuilder

namespace AnsiPortListBuilder

/-- The condition under which the rules of 23.2.2.3, as `createPort` applies
them, make the internal symbol a net: no `var` keyword, and a direction that is
`inout`, or that is not `ref` while the data type is implicit. -/
def wantsNet (header : VariablePortHeaderSyntax) (direction : ArgumentDirection) : Bool :=
  header.varKeyword.isNone &&
    (direction == ArgumentDirection.InOut ||
      (direction != ArgumentDirection.Ref && header.dataType.isImplicitType))

end AnsiPortListBuilder

namespace Demo

/-- The declarator of a port called `name` at location `n`, without dimensions
and without initializer. -/
def declarator (name : String) (n : Nat) : DeclaratorSyntax :=
  { name := { valueText := name, location := n, range := rangeAt n }, dimensions := [],
    initializer := none, firstToken := n, sourceRange := rangeAt n }

/-- The data type `logic`, the data type named `name`, and the empty implicit
type. -/
def logicSyntax : DataTypeSyntax :=
  { id := 1, isImplicitType := false, signing := false, dimensions := [], simpleTypeName := "",
    sourceRange := rangeAt 0 }

def namedSyntax (name : String) : DataTypeSyntax :=
  { id := 2, isImplicitType := false, signing := false, dimensions := [],
    simpleTypeName := name, sourceRange := rangeAt 0 }

def emptySyntax : DataTypeSyntax :=
  { id := 3, isImplicitType := true, signing := false, dimensions := [], simpleTypeName := "",
    sourceRange := rangeAt 0 }

/-- The net types `wire` and the error net type. -/
def wire : NetType := { id := 1, isError := false }

def errorNet : NetType := { id := 0, isError := true }

/-- A module `top`, known to the scope next to the interface `bus`. -/
def topDef : Definition :=
  { name := "top", location := 2, definitionKind := .Module, modports := [] }

/-- A scope whose default net type is `wire`, that knows the definitions `bus` (an
interface) and `top` (a module), and no type name. -/
def scope : ScopeEnv where
  lookupType := fun _ => none
  getDefinition := fun n => if n == "bus" then some busDef else if n == "top" then some topDef
    else none
  defaultNetType := wire
  wireNetType := wire
  getNetType := fun _ => wire
  voidType := voidType
  find := fun _ => none

/-- The scope `scope` under `default_nettype none`. -/
def scopeNoDefault : ScopeEnv := { scope with defaultNetType := errorNet }

/-- A direction keyword at location 0. -/
def dir (kind : DirectionKind) : DirectionToken := { kind := kind, location := 0 }

/-- The keyword `var` at location 0. -/
def varKeyword : KeywordToken := { location := 0, range := rangeAt 0 }

/-- The implicit ANSI port `direction [var] type name` at location `n`. -/
def ansiPort (direction : Option DirectionKind) (var : Bool) (type : DataTypeSyntax)
    (name : String) (n : Nat) : ImplicitAnsiPortSyntax :=
  { attributes := [],
    header := .VariablePortHeader
      { constKeyword := none, direction := direction.map dir,
        varKeyword := if var then some varKeyword else none, dataType := type },
    declarator := declarator name n }

/-- The implicit ANSI port `name.member portName` at location `n`, with an
interface port header. -/
def ansiIfacePort (name : String) (portName : String) (n : Nat) : ImplicitAnsiPortSyntax :=
  { attributes := [],
    header := .InterfacePortHeader
      { nameOrKeyword := { valueText := name, location := n, range := rangeAt n },
        isIdentifier := true, modport := none },
    declarator := declarator portName n }

/-- The explicit ANSI port `direction .name()` at location `n`. -/
def explicitPort (direction : Option DirectionKind) (name : String) (n : Nat) :
    ExplicitAnsiPortSyntax :=
  { attributes := [], direction := direction.map dir,
    name := { valueText := name, location := n, range := rangeAt n }, expr := none,
    exprFirstToken := n }

end Demo

/-! ## Observations on the result of a list builder -/

/-- The kind of the internal symbol of the port a builder returned: `none` for a
symbol that is no data port and for a port without internal symbol. -/
def Built.Symbol.internalKind : Built.Symbol → Option InternalKind
  | .Port p => p.internalSymbol.map (fun s => s.kind)
  | _ => none

/-- Whether the symbol a builder returned is an interface port. -/
def Built.Symbol.isInterfacePort : Built.Symbol → Bool
  | .InterfacePort _ => true
  | _ => false

/-- The direction of the data port a builder returned. -/
def Built.Symbol.direction : Built.Symbol → Option ArgumentDirection
  | .Port p => some p.direction
  | .InterfacePort _ => none
  | .MultiPort p => some p.direction

/-- The codes of a list of diagnostics. -/
def codes (ds : List Diagnostic) : List DiagCode := ds.map (fun d => d.code)

/-! ## The ANSI port list of `PortSymbol::fromSyntax` -/

/-- A member of an ANSI port list. -/
inductive AnsiPortSyntax where
  | ImplicitAnsiPort (stx : ImplicitAnsiPortSyntax)
  | ExplicitAnsiPort (stx : ExplicitAnsiPortSyntax)

namespace AnsiPortListBuilder

/-- The body of the loop of `PortSymbol::fromSyntax` over an ANSI port list: the
overload of `createPort` that fits the kind of the member. -/
def createPort (scope : ScopeEnv) (b : AnsiPortListBuilder) :
    AnsiPortSyntax → Except String (Built.Symbol × AnsiPortListBuilder)
  | .ImplicitAnsiPort stx => b.createPortImplicit scope stx
  | .ExplicitAnsiPort stx => .ok (b.createPortExplicit stx)

/-- The loop of `PortSymbol::fromSyntax` over an ANSI port list: the results in
the order of the list, and the builder after the last port. -/
def createPorts (scope : ScopeEnv) (b : AnsiPortListBuilder) :
    List AnsiPortSyntax → Except String (List Built.Symbol × AnsiPortListBuilder)
  | [] => .ok ([], b)
  | port :: rest =>
    match createPort scope b port with
    | .error e => .error e
    | .ok (symbol, b1) =>
      match createPorts scope b1 rest with
      | .error e => .error e
      | .ok (symbols, b2) => .ok (symbol :: symbols, b2)

/-- What the builder remembers of the port it has just made from an implicit port
syntax: of a data port its direction, its type syntax and the net type of its
internal symbol; of an interface port its definition and its modport. -/
def Remembers (symbol : Built.Symbol) (b : AnsiPortListBuilder) : Prop :=
  (∃ (p : Built.PortSymbol) (sym : InternalSymbol),
    symbol = .Port p ∧ p.internalSymbol = some sym ∧ b.lastInterface = none ∧
    b.lastDirection = p.direction ∧ b.lastType = p.declaredType.typeSyntax ∧
    sym.kind = internalKind b.lastNetType ∧ (b.lastType ≠ none ∨ b.lastNetType ≠ none)) ∨
  (∃ (p : Built.InterfacePortSymbol),
    symbol = .InterfacePort p ∧ b.lastInterface = p.interfaceDef ∧
    b.lastModport = p.modport ∧ b.lastDirection = .InOut ∧ b.lastType = none ∧
    b.lastNetType = none)

end AnsiPortListBuilder

namespace Demo

/-- The ANSI port list `input logic a, b, c`. -/
def inputLogicABC : List AnsiPortSyntax :=
  [.ImplicitAnsiPort (ansiPort (some .InputKeyword) false logicSyntax "a" 1),
   .ImplicitAnsiPort (ansiPort none false emptySyntax "b" 2),
   .ImplicitAnsiPort (ansiPort none false emptySyntax "c" 3)]

end Demo

/-- The name, the direction, the type syntax and the kind of the internal symbol
of a data port; `none` for another symbol. -/
def Built.Symbol.summary :
    Built.Symbol → Option (String × ArgumentDirection × Option Nat × Option InternalKind)
  | .Port p =>
    some (p.name, p.direction, p.declaredType.typeSyntax.map (fun t => t.id),
      p.internalSymbol.map (fun s => s.kind))
  | _ => none

/-! ## Syntax of non-ANSI port lists and of port declarations -/

/-- A port reference `name` of a non-ANSI port list. -/
structure PortReferenceSyntax where
  name : Token
  firstToken : SourceLocation
  sourceRange : SourceRange
deriving DecidableEq, Repr

/-- A port concatenation `{a, b, ...}`. -/
structure PortConcatenationSyntax where
  references : List PortReferenceSyntax
  firstToken : SourceLocation
  sourceRange : SourceRange
deriving DecidableEq, Repr

inductive PortExpressionSyntax where
  | PortReference (stx : PortReferenceSyntax)
  | PortConcatenation (stx : PortConcatenationSyntax)
deriving DecidableEq, Repr

/-- The location `expr->getFirstToken().location()`. -/
def PortExpressionSyntax.firstToken : PortExpressionSyntax → SourceLocation
  | .PortReference stx => stx.firstToken
  | .PortConcatenation stx => stx.firstToken

structure ImplicitNonAnsiPortSyntax where
  expr : PortExpressionSyntax
deriving DecidableEq, Repr

/-- An explicit non-ANSI port `.name(expr)`, where the expression may be absent. -/
structure ExplicitNonAnsiPortSyntax where
  name : Token
  expr : Option PortExpressionSyntax
deriving DecidableEq, Repr

structure EmptyNonAnsiPortSyntax where
  placeholder : Token
deriving DecidableEq, Repr

/-- A member of a non-ANSI port list. -/
inductive NonAnsiPortSyntax where
  | ImplicitNonAnsiPort (stx : ImplicitNonAnsiPortSyntax)
  | ExplicitNonAnsiPort (stx : ExplicitNonAnsiPortSyntax)
  | EmptyNonAnsiPort (stx : EmptyNonAnsiPortSyntax)
deriving DecidableEq, Repr

/-- A port declaration `header declarator, declarator, ...;` of the body. -/
structure PortDeclarationSyntax where
  attributes : List AttributeInstanceSyntax
  header : PortHeaderSyntax
  declarators : List DeclaratorSyntax
deriving DecidableEq, Repr

/-- The symbol after which a port declaration stands (its insertion point), as far
as the builder looks at it: the value of `getIndex()`. -/
structure InsertionPoint where
  index : Nat
deriving DecidableEq, Repr

/-! ## `NonAnsiPortListBuilder` -/

/-- The struct `PortInfo`; `decl` is its field `syntax`. -/
structure PortInfo where
  decl : DeclaratorSyntax
  attrs : List AttributeInstanceSyntax
  internalSymbol : Option InternalSymbol := none
  ifaceDef : Option Definition := none
  modport : String := ""
  direction : ArgumentDirection := .In
  used : Bool := false
  isIface : Bool := false
deriving DecidableEq, Repr

/-- An entry that the non-ANSI builder appends to the implicit members: an
internal symbol with the insertion point of its declaration, or a provisional
interface port of a concatenation, without insertion point. -/
inductive ImplicitMember where
  | Value (symbol : InternalSymbol) (insertionPoint : Option InsertionPoint)
  | Provisional (port : Built.InterfacePortSymbol)
deriving DecidableEq, Repr

/-- The mutable fields of `NonAnsiPortListBuilder`, the implicit members appended
so far and the diagnostics added to the scope so far.  `portInfos` keeps the
entries of the map in insertion order. -/
structure NonAnsiPortListBuilder where
  portInfos : List (String × PortInfo) := []
  implicitMembers : List ImplicitMember := []
  diags : List Diagnostic := []

namespace NonAnsiPortListBuilder

/-- The effect of `scope.addDiag(...)` followed by the `<<` and `addNote` calls on
the returned diagnostic. -/
def addDiag (b : NonAnsiPortListBuilder) (d : Diagnostic) : NonAnsiPortListBuilder :=
  { b with diags := b.diags ++ [d] }

/-- The call `portInfos.find(name)`. -/
def find (b : NonAnsiPortListBuilder) (name : String) : Option PortInfo :=
  (b.portInfos.find? (fun e => e.1 == name)).map (fun e => e.2)

/-- The assignment `it->second.used = true` for the entry called `name`. -/
def setUsed (name : String) : List (String × PortInfo) → List (String × PortInfo)
  | [] => []
  | e :: rest =>
    if e.1 == name then (e.1, { e.2 with used := true }) :: rest
    else e :: setUsed name rest

/-- The function `getInfo(name)`. -/
def getInfo (b : NonAnsiPortListBuilder) (name : String) :
    Option PortInfo × NonAnsiPortListBuilder :=
  match b.find name with
  | none => (none, b)
  | some info => (some { info with used := true },
      { b with portInfos := setUsed name b.portInfos })

/-- The function `setInternalSymbol(symbol, decl, dataType, info, insertionPoint)`. -/
def setInternalSymbol (b : NonAnsiPortListBuilder) (symbol : InternalSymbol)
    (decl : DeclaratorSyntax) (dataType : Option DataTypeSyntax) (info : PortInfo)
    (insertionPoint : Option InsertionPoint) : PortInfo × NonAnsiPortListBuilder :=
  let declaredType : DeclaredType :=
    match dataType with
    | some t => { symbol.declaredType with typeSyntax := some t, dimensions := decl.dimensions }
    | none =>
      if !decl.dimensions.isEmpty then { symbol.declaredType with dimensions := decl.dimensions }
      else symbol.declaredType
  let declaredType : DeclaredType :=
    match insertionPoint with
    | some p => { declaredType with overrideIndex := some p.index }
    | none => declaredType
  let symbol : InternalSymbol :=
    { symbol with declarator := some decl, attributes := info.attrs,
                  declaredType := declaredType }
  ({ info with internalSymbol := some symbol },
    { b with implicitMembers := b.implicitMembers ++ [.Value symbol insertionPoint] })

/-- The branch of `handleIODecl` for a variable port header without `var` and
with an implicit type, when `scope.find(name)` is a variable or a net: the
symbol becomes the internal symbol, its index moves in front of later lookups
(in `uint32_t` arithmetic) and the implicit type is merged into its declared
type. -/
def mergeWithSymbol (symbol : InternalSymbol) (varHeader : VariablePortHeaderSyntax)
    (decl : DeclaratorSyntax) (info : PortInfo) (insertionPoint : Option InsertionPoint) :
    PortInfo :=
  let ioIndex : Nat :=
    match insertionPoint with
    | some p => (p.index % 2 ^ 32 + 1) % 2 ^ 32
    | none => 1
  let val : InternalSymbol :=
    if symbol.index % 2 ^ 32 > ioIndex then
      { symbol with declaredType := { symbol.declaredType with overrideIndex := some symbol.index },
                    index := ioIndex }
    else symbol
  let val : InternalSymbol :=
    { val with declaredType :=
        { val.declaredType with
          mergedImplicitPort := some (varHeader.dataType, decl.name.location, decl.dimensions) } }
  { info with internalSymbol := some val }

/-- The check at the end of the case `VariablePortHeader` of `handleIODecl`: an
inout port whose internal symbol is no net is reported. -/
def checkInOut (decl : DeclaratorSyntax) (r : PortInfo × NonAnsiPortListBuilder) :
    PortInfo × NonAnsiPortListBuilder :=
  if r.1.direction == ArgumentDirection.InOut &&
      !(match r.1.internalSymbol with
        | some s => s.isNet
        | none => false) then
    (r.1, r.2.addDiag
      ((Diagnostic.atLocation .InOutPortCannotBeVariable decl.name.location).arg
        (.str decl.name.valueText)))
  else r

/-- The case `VariablePortHeader` of `handleIODecl`.  A header without direction
keyword has no direction to decode: the `error` result. -/
def handleVariablePortHeader (scope : ScopeEnv) (b : NonAnsiPortListBuilder)
    (varHeader : VariablePortHeaderSyntax) (info : PortInfo)
    (insertionPoint : Option InsertionPoint) :
    Except String (PortInfo × NonAnsiPortListBuilder) :=
  let decl := info.decl
  let name := decl.name.valueText
  let declLoc := decl.name.location
  match varHeader.direction with
  | none => .error "THROW_UNREACHABLE"
  | some direction =>
    let info := { info with direction := SemanticFacts.getDirection direction.kind }
    let b :=
      match varHeader.constKeyword with
      | some k => b.addDiag (Diagnostic.atRange .ConstPortNotAllowed k.range)
      | none => b
    if varHeader.varKeyword.isSome || !varHeader.dataType.isImplicitType then
      match (if varHeader.varKeyword.isNone then
          scope.lookupType varHeader.dataType.simpleTypeName else none) with
      | some (.NetType netType) =>
        .ok (b.setInternalSymbol { kind := .Net netType, name := name, location := declLoc }
          decl none info insertionPoint)
      | _ =>
        .ok (checkInOut decl
          (b.setInternalSymbol { kind := .Variable, name := name, location := declLoc }
            decl (some varHeader.dataType) info insertionPoint))
    else
      match scope.find name with
      | some (.Value symbol) =>
        .ok (checkInOut decl (mergeWithSymbol symbol varHeader decl info insertionPoint, b))
      | _ =>
        let net := getDefaultNetType scope declLoc
        .ok (checkInOut decl
          (NonAnsiPortListBuilder.setInternalSymbol { b with diags := b.diags ++ net.2 }
            { kind := .Net net.1, name := name, location := declLoc }
            decl (some varHeader.dataType) info insertionPoint))

/-- The case `NetPortHeader` of `handleIODecl`. -/
def handleNetPortHeader (scope : ScopeEnv) (b : NonAnsiPortListBuilder)
    (netHeader : NetPortHeaderSyntax) (info : PortInfo)
    (insertionPoint : Option InsertionPoint) :
    Except String (PortInfo × NonAnsiPortListBuilder) :=
  let decl := info.decl
  match netHeader.direction with
  | none => .error "THROW_UNREACHABLE"
  | some direction =>
    let info := { info with direction := SemanticFacts.getDirection direction.kind }
    .ok (b.setInternalSymbol
      { kind := .Net (scope.getNetType netHeader.netTypeKind), name := decl.name.valueText,
        location := decl.name.location }
      decl (some netHeader.dataType) info insertionPoint)

/-- The case `InterfacePortHeader` of `handleIODecl`. -/
def handleInterfacePortHeader (scope : ScopeEnv) (b : NonAnsiPortListBuilder)
    (ifaceHeader : InterfacePortHeaderSyntax) (info : PortInfo) :
    Except String (PortInfo × NonAnsiPortListBuilder) :=
  let r := getInterfacePortInfo scope ifaceHeader
  if !ifaceHeader.isIdentifier then
    .error "ASSERT(ifaceHeader.nameOrKeyword.kind == TokenKind::Identifier)"
  else
    .ok ({ info with isIface := true, ifaceDef := r.1, modport := r.2.1 },
      { b with diags := b.diags ++ r.2.2 })

/-- The end of `handleIODecl`, after the switch: the checks of a `ref` net and of
a default value that is not allowed. -/
def checkIODecl (r : PortInfo × NonAnsiPortListBuilder) : PortInfo × NonAnsiPortListBuilder :=
  let info := r.1
  let decl := info.decl
  let isNet :=
    match info.internalSymbol with
    | some s => s.isNet
    | none => false
  let b :=
    if info.direction == ArgumentDirection.Ref && isNet then
      r.2.addDiag ((Diagnostic.atLocation .RefPortMustBeVariable decl.name.location).arg
        (.str decl.name.valueText))
    else r.2
  let b :=
    match decl.initializer with
    | some init =>
      if info.direction != ArgumentDirection.Out || isNet then
        b.addDiag (Diagnostic.atRange .DisallowedPortDefault init.sourceRange)
      else b
    | none => b
  (info, b)

/-- The function `handleIODecl(header, info, insertionPoint)`. -/
def handleIODecl (scope : ScopeEnv) (b : NonAnsiPortListBuilder) (header : PortHeaderSyntax)
    (info : PortInfo) (insertionPoint : Option InsertionPoint) :
    Except String (PortInfo × NonAnsiPortListBuilder) :=
  if info.decl.name.valueText.isEmpty then .error "ASSERT(!name.empty())"
  else
    match (match header with
      | .VariablePortHeader varHeader =>
        handleVariablePortHeader scope b varHeader info insertionPoint
      | .NetPortHeader netHeader => handleNetPortHeader scope b netHeader info insertionPoint
      | .InterfacePortHeader ifaceHeader => handleInterfacePortHeader scope b ifaceHeader info) with
    | .error e => .error e
    | .ok r => .ok (checkIODecl r)

/-- The inner loop of the constructor, over the declarators of one port
declaration. -/
def indexDeclarators (scope : ScopeEnv) (port : PortDeclarationSyntax)
    (insertionPoint : Option InsertionPoint) (b : NonAnsiPortListBuilder) :
    List DeclaratorSyntax → Except String NonAnsiPortListBuilder
  | [] => .ok b
  | decl :: rest =>
    let name := decl.name
    if !name.isMissing then
      match b.find name.valueText with
      | none =>
        match handleIODecl scope b port.header { decl := decl, attrs := port.attributes }
            insertionPoint with
        | .error e => .error e
        | .ok (info, b) =>
          indexDeclarators scope port insertionPoint
            { b with portInfos := b.portInfos ++ [(name.valueText, info)] } rest
      | some first =>
        indexDeclarators scope port insertionPoint
          (b.addDiag (((Diagnostic.atLocation .Redefinition name.location).arg
            (.str name.valueText)).addNote .NotePreviousDefinition first.decl.name.location))
          rest
    else indexDeclarators scope port insertionPoint b rest

/-- The outer loop of the constructor, over the port declarations. -/
def indexDeclarations (scope : ScopeEnv) (b : NonAnsiPortListBuilder) :
    List (PortDeclarationSyntax × Option InsertionPoint) →
      Except String NonAnsiPortListBuilder
  | [] => .ok b
  | (port, insertionPoint) :: rest =>
    match indexDeclarators scope port insertionPoint b port.declarators with
    | .error e => .error e
    | .ok b => indexDeclarations scope b rest

/-- The constructor `NonAnsiPortListBuilder(scope, portDeclarations,
implicitMembers)`. -/
def create (scope : ScopeEnv)
    (portDeclarations : List (PortDeclarationSyntax × Option InsertionPoint)) :
    Except String NonAnsiPortListBuilder :=
  indexDeclarations scope {} portDeclarations

/-- The function `createPort(externalName, externalLoc, const PortReferenceSyntax&)`. -/
def createPortReference (b : NonAnsiPortListBuilder) (externalName : String)
    (externalLoc : SourceLocation) (stx : PortReferenceSyntax) :
    Except String (Built.Symbol × NonAnsiPortListBuilder) :=
  let name := stx.name.valueText
  let externalName := if externalName.isEmpty then name else externalName
  match b.getInfo name with
  | (none, b) =>
    .ok (.InterfacePort { name := externalName, location := externalLoc, isMissingIO := true }, b)
  | (some info, b) =>
    let loc := info.decl.name.location
    if info.isIface then
      .ok (.InterfacePort
        { name := externalName, location := loc, declarator := some info.decl,
          attributes := info.attrs, interfaceDef := info.ifaceDef, modport := info.modport }, b)
    else
      match info.internalSymbol with
      | none => .error "ASSERT(info->internalSymbol)"
      | some symbol =>
        .ok (.Port
          { name := externalName, location := loc, externalLoc := externalLoc,
            direction := info.direction, internalSymbol := some symbol,
            declaredType := symbol.declaredType, attributes := info.attrs,
            initializerSyntax := info.decl.initializer.map (fun init => (init.expr, init.equals)) },
          b)

/-- The local variables of `createPort(name, externalLoc, const
PortConcatenationSyntax&)`. -/
structure ConcatState where
  dir : ArgumentDirection := .In
  buffer : List Built.PortSymbol := []
  allNets : Bool := true
  allVars : Bool := true
  hadError : Bool := false
deriving DecidableEq, Repr

/-- The lambda `reportDirError(code)`. -/
def reportDirError (stx : PortConcatenationSyntax) (code : DiagCode)
    (r : ConcatState × NonAnsiPortListBuilder) : ConcatState × NonAnsiPortListBuilder :=
  if !r.1.hadError then
    ({ r.1 with hadError := true }, r.2.addDiag (Diagnostic.atRange code stx.sourceRange))
  else r

/-- The part of the loop body of the concatenation that merges the direction of
a component port into the effective direction. -/
def mergeDirection (stx : PortConcatenationSyntax) (ps : Built.PortSymbol)
    (r : ConcatState × NonAnsiPortListBuilder) : ConcatState × NonAnsiPortListBuilder :=
  if ps.direction == ArgumentDirection.InOut then
    let r : ConcatState × NonAnsiPortListBuilder := ({ r.1 with dir := .InOut }, r.2)
    if !r.1.allNets then reportDirError stx .PortConcatInOut r else r
  else if ps.direction == ArgumentDirection.Ref then
    let r : ConcatState × NonAnsiPortListBuilder := ({ r.1 with dir := .Ref }, r.2)
    if !r.1.allVars then reportDirError stx .PortConcatRef r else r
  else if ps.direction == ArgumentDirection.Out && r.1.dir == ArgumentDirection.In then
    ({ r.1 with dir := .Out }, r.2)
  else r

/-- The part of the loop body of the concatenation that looks at the internal
symbol of a component port. -/
def mergeKind (stx : PortConcatenationSyntax) (sym : InternalSymbol)
    (r : ConcatState × NonAnsiPortListBuilder) : ConcatState × NonAnsiPortListBuilder :=
  if sym.isNet then
    let r : ConcatState × NonAnsiPortListBuilder := ({ r.1 with allVars := false }, r.2)
    if r.1.dir == ArgumentDirection.Ref then reportDirError stx .PortConcatRef r else r
  else
    let r : ConcatState × NonAnsiPortListBuilder := ({ r.1 with allNets := false }, r.2)
    if r.1.dir == ArgumentDirection.InOut then reportDirError stx .PortConcatInOut r else r

/-- The body of the loop of the concatenation for a component that is a data
port. -/
def concatPort (stx : PortConcatenationSyntax) (ps : Built.PortSymbol)
    (r : ConcatState × NonAnsiPortListBuilder) :
    Except String (ConcatState × NonAnsiPortListBuilder) :=
  let r : ConcatState × NonAnsiPortListBuilder :=
    mergeDirection stx ps ({ r.1 with buffer := r.1.buffer ++ [ps] }, r.2)
  match ps.internalSymbol with
  | none => .error "ASSERT(sym)"
  | some sym => .ok (mergeKind stx sym r)

/-- The loop of the concatenation over its references. -/
def concatLoop (stx : PortConcatenationSyntax) (r : ConcatState × NonAnsiPortListBuilder) :
    List PortReferenceSyntax → Except String (ConcatState × NonAnsiPortListBuilder)
  | [] => .ok r
  | item :: rest =>
    match r.2.createPortReference "" item.firstToken item with
    | .error e => .error e
    | .ok (.Port ps, b) =>
      match concatPort stx ps (r.1, b) with
      | .error e => .error e
      | .ok r => concatLoop stx r rest
    | .ok (.InterfacePort ip, b) =>
      if ip.isMissingIO then
        concatLoop stx
          (r.1, { b with implicitMembers := b.implicitMembers ++
              [.Provisional { ip with multiPortLoc := some item.firstToken }] })
          rest
      else
        concatLoop stx
          (r.1, b.addDiag ((Diagnostic.atRange .IfacePortInConcat item.sourceRange).arg
            (.str ip.name)))
          rest
    | .ok (.MultiPort _, _) => .error "as<InterfacePortSymbol>"

/-- The function `createPort(name, externalLoc, const PortConcatenationSyntax&)`. -/
def createPortConcatenation (b : NonAnsiPortListBuilder) (name : String)
    (externalLoc : SourceLocation) (stx : PortConcatenationSyntax) :
    Except String (Built.Symbol × NonAnsiPortListBuilder) :=
  match concatLoop stx ({}, b) stx.references with
  | .error e => .error e
  | .ok (st, b) =>
    .ok (.MultiPort { name := name, location := externalLoc, ports := st.buffer,
                      direction := st.dir }, b)

/-- The switch over the kind of a port expression, shared by the two overloads of
`createPort` that have one. -/
def createPortExpression (b : NonAnsiPortListBuilder) (name : String) (loc : SourceLocation) :
    PortExpressionSyntax → Except String (Built.Symbol × NonAnsiPortListBuilder)
  | .PortReference stx => b.createPortReference name loc stx
  | .PortConcatenation stx => b.createPortConcatenation name loc stx

/-- The function `createPort(const ImplicitNonAnsiPortSyntax&)`. -/
def createPortImplicit (b : NonAnsiPortListBuilder) (stx : ImplicitNonAnsiPortSyntax) :
    Except String (Built.Symbol × NonAnsiPortListBuilder) :=
  b.createPortExpression "" stx.expr.firstToken stx.expr

/-- The function `createPort(const ExplicitNonAnsiPortSyntax&)`. -/
def createPortExplicit (scope : ScopeEnv) (b : NonAnsiPortListBuilder)
    (stx : ExplicitNonAnsiPortSyntax) : Except String (Built.Symbol × NonAnsiPortListBuilder) :=
  let name := stx.name.valueText
  let loc := stx.name.location
  match stx.expr with
  | none =>
    .ok (.Port { name := name, location := loc, externalLoc := loc, direction := .In,
                 declaredType := { resolved := some scope.voidType } }, b)
  | some expr => b.createPortExpression name loc expr

/-- The function `createPort(const EmptyNonAnsiPortSyntax&)`. -/
def createPortEmpty (scope : ScopeEnv) (b : NonAnsiPortListBuilder)
    (stx : EmptyNonAnsiPortSyntax) : Built.Symbol × NonAnsiPortListBuilder :=
  (.Port { name := "", location := stx.placeholder.location,
           externalLoc := stx.placeholder.location, direction := .In,
           declaredType := { resolved := some scope.voidType } }, b)

/-- The body of the loop of `PortSymbol::fromSyntax` over a non-ANSI port list. -/
def createPort (scope : ScopeEnv) (b : NonAnsiPortListBuilder) :
    NonAnsiPortSyntax → Except String (Built.Symbol × NonAnsiPortListBuilder)
  | .ImplicitNonAnsiPort stx => b.createPortImplicit stx
  | .ExplicitNonAnsiPort stx => b.createPortExplicit scope stx
  | .EmptyNonAnsiPort stx => .ok (b.createPortEmpty scope stx)

/-- The loop of `PortSymbol::fromSyntax` over a non-ANSI port list. -/
def createPorts (scope : ScopeEnv) (b : NonAnsiPortListBuilder) :
    List NonAnsiPortSyntax → Except String (List Built.Symbol × NonAnsiPortListBuilder)
  | [] => .ok ([], b)
  | port :: rest =>
    match createPort scope b port with
    | .error e => .error e
    | .ok (symbol, b1) =>
      match createPorts scope b1 rest with
      | .error e => .error e
      | .ok (symbols, b2) => .ok (symbol :: symbols, b2)

/-- The function `finalize()`. -/
def finalize (b : NonAnsiPortListBuilder) : NonAnsiPortListBuilder :=
  { b with diags := b.diags ++
      (b.portInfos.filter (fun e => !e.2.used)).map (fun e =>
        (Diagnostic.atRange .UnusedPortDecl e.2.decl.sourceRange).arg (.str e.1)) }

/-- The case `NonAnsiPortList` of `PortSymbol::fromSyntax`: the constructor, the
loop over the port list, and `finalize`. -/
def fromSyntax (scope : ScopeEnv) (ports : List NonAnsiPortSyntax)
    (portDeclarations : List (PortDeclarationSyntax × Option InsertionPoint)) :
    Except String (List Built.Symbol × NonAnsiPortListBuilder) :=
  match create scope portDeclarations with
  | .error e => .error e
  | .ok b =>
    match createPorts scope b ports with
    | .error e => .error e
    | .ok (symbols, b) => .ok (symbols, b.finalize)

end NonAnsiPortListBuilder

/-- The data ports among the symbols of a port list: the ports themselves and the
component ports of the multi-ports. -/
def Built.Symbol.ports : Built.Symbol → List Built.PortSymbol
  | .Port p => [p]
  | .InterfacePort _ => []
  | .MultiPort p => p.ports

/-! ## The direction of a port and the kind of its internal symbol -/

/-- What the builders guarantee about the direction of a port at `location` and
its internal symbol: an inout port has a net, unless
`InOutPortCannotBeVariable` was reported at the location; a ref port has a
variable, unless `RefPortMustBeVariable` was reported at the location. -/
def DirectionChecked (diags : List Diagnostic) (direction : ArgumentDirection)
    (location : SourceLocation) (sym : InternalSymbol) : Prop :=
  (direction = .InOut → sym.isNet = true ∨
    ∃ d ∈ diags, d.code = .InOutPortCannotBeVariable ∧ d.location = location) ∧
  (direction = .Ref → sym.isNet = false ∨
    ∃ d ∈ diags, d.code = .RefPortMustBeVariable ∧ d.location = location)

/-- The property `DirectionChecked` of a port that has an internal symbol. -/
def Built.PortSymbol.Checked (diags : List Diagnostic) (p : Built.PortSymbol) : Prop :=
  ∀ sym, p.internalSymbol = some sym → DirectionChecked diags p.direction p.location sym

/-- The property `DirectionChecked` of an indexed port declaration that has an
internal symbol. -/
def PortInfo.Checked (diags : List Diagnostic) (info : PortInfo) : Prop :=
  ∀ sym, info.internalSymbol = some sym →
    DirectionChecked diags info.direction info.decl.name.location sym

/-- One step of the ANSI builder from the state `b`: the diagnostics are kept, and
a named data port that results is checked. -/
def AnsiPortListBuilder.Step (b : AnsiPortListBuilder)
    (r : Built.Symbol × AnsiPortListBuilder) : Prop :=
  (∀ d ∈ b.diags, d ∈ r.2.diags) ∧
  ∀ p, r.1 = .Port p → p.name ≠ "" → p.Checked r.2.diags

/-- Every indexed port declaration of the non-ANSI builder is checked. -/
def NonAnsiPortListBuilder.Checked (b : NonAnsiPortListBuilder) : Prop :=
  ∀ e ∈ b.portInfos, e.2.Checked b.diags

/-- A step of the non-ANSI builder that leaves the index alone and keeps the
diagnostics. -/
def NonAnsiPortListBuilder.Extends (b b2 : NonAnsiPortListBuilder) : Prop :=
  b2.portInfos = b.portInfos ∧ ∀ d ∈ b.diags, d ∈ b2.diags

/-- The half of `DirectionChecked` that concerns an inout port, for an indexed
port declaration. -/
def PortInfo.InOutChecked (diags : List Diagnostic) (info : PortInfo) : Prop :=
  ∀ sym, info.internalSymbol = some sym → info.direction = .InOut →
    sym.isNet = true ∨
    ∃ d ∈ diags, d.code = .InOutPortCannotBeVariable ∧ d.location = info.decl.name.location

namespace Demo

/-- The implicit ANSI port `direction wire name` at location `n`, with a net port
header. -/
def ansiNetPort (direction : DirectionKind) (name : String) (n : Nat) :
    ImplicitAnsiPortSyntax :=
  { attributes := [],
    header := .NetPortHeader
      { direction := some (dir direction), netTypeKind := 0, dataType := emptySyntax },
    declarator := declarator name n }

/-- The port declaration `direction [var] type name;` at location `n`, with a
variable port header, and the declaration `direction wire name;`, with a net
port header; neither follows another symbol. -/
def portDecl (direction : DirectionKind) (var : Bool) (type : DataTypeSyntax)
    (name : String) (n : Nat) : PortDeclarationSyntax × Option InsertionPoint :=
  ({ attributes := [],
     header := .VariablePortHeader
       { constKeyword := none, direction := some (dir direction),
         varKeyword := if var then some varKeyword else none, dataType := type },
     declarators := [declarator name n] }, none)

def netPortDecl (direction : DirectionKind) (name : String) (n : Nat) :
    PortDeclarationSyntax × Option InsertionPoint :=
  ({ attributes := [],
     header := .NetPortHeader
       { direction := some (dir direction), netTypeKind := 0, dataType := emptySyntax },
     declarators := [declarator name n] }, none)

/-- The port reference `name` at location `n`. -/
def portRef (name : String) (n : Nat) : PortReferenceSyntax :=
  { name := { valueText := name, location := n, range := rangeAt n }, firstToken := n,
    sourceRange := rangeAt n }

/-- The entry `name` of a non-ANSI port list, at location `n`. -/
def nonAnsiPort (name : String) (n : Nat) : NonAnsiPortSyntax :=
  .ImplicitNonAnsiPort { expr := .PortReference (portRef name n) }

/-- The entry `.name()` of a non-ANSI port list, at location `n`, and the empty
entry at location `n`. -/
def explicitEmpty (name : String) (n : Nat) : ExplicitNonAnsiPortSyntax :=
  { name := { valueText := name, location := n, range := rangeAt n }, expr := none }

def emptyPort (n : Nat) : EmptyNonAnsiPortSyntax :=
  { placeholder := { valueText := "", location := n, range := rangeAt n } }

end Demo

namespace Demo

/-- The ANSI port list `inout wire w, inout var logic x`. -/
def inoutAnsiList : List AnsiPortSyntax :=
  [.ImplicitAnsiPort (ansiNetPort .InOutKeyword "w" 6),
   .ImplicitAnsiPort (ansiPort (some .InOutKeyword) true logicSyntax "x" 7)]

/-- The non-ANSI port list `(a, b)` and the port declarations `inout wire a;` and
`ref var logic b;` of the body. -/
def inoutRefList : List NonAnsiPortSyntax := [nonAnsiPort "a" 1, nonAnsiPort "b" 2]

def inoutRefDecls : List (PortDeclarationSyntax × Option InsertionPoint) :=
  [netPortDecl .InOutKeyword "a" 11, portDecl .RefKeyword true logicSyntax "b" 12]

end Demo

namespace Demo

/-- The empty port `.x()`: named, of type void, without a default. -/
def voidX : PortSymbol :=
  { addr := 7, name := "x", location := 70, direction := .In, type := voidType,
    initializer := none }

end Demo

/-! ## Port concatenations, the index and the type of a multi-port -/

/-! ## The rules of the spec for port concatenations -/

/-- Whether the internal symbol of a port is a net. -/
def Built.PortSymbol.isNet (p : Built.PortSymbol) : Bool :=
  match p.internalSymbol with
  | some s => s.isNet
  | none => false

namespace Spec

/-- One step of the fold of the spec: the effective direction becomes inout at an
inout component, ref at a ref component, and out at an out component only while
it is in. -/
def stepDirection (dir component : ArgumentDirection) : ArgumentDirection :=
  match component with
  | .InOut => .InOut
  | .Ref => .Ref
  | .Out => if dir = .In then .Out else dir
  | .In => dir

/-- The effective direction of the spec: the left-to-right fold that starts at
in. -/
def effectiveDirection (components : List ArgumentDirection) : ArgumentDirection :=
  components.foldl stepDirection .In

/-- The last component direction that is inout or ref. -/
def lastInOutOrRef : List ArgumentDirection → Option ArgumentDirection
  | [] => none
  | d :: rest =>
    match lastInOutOrRef rest with
    | some x => some x
    | none => if d = .InOut ∨ d = .Ref then some d else none

/-- The closed form of the spec: without inout or ref component out if some
component is out and in otherwise; else the direction of the last inout-or-ref
component. -/
def closedDirection (components : List ArgumentDirection) : ArgumentDirection :=
  match lastInOutOrRef components with
  | some d => d
  | none => if .Out ∈ components then .Out else .In

/-- The condition of the spec for a direction diagnostic: an inout component
together with a component whose internal symbol is not a net, or a ref component
together with a component whose internal symbol is a net. -/
def mixes (ports : List Built.PortSymbol) : Bool :=
  (ports.any (fun p => p.direction == ArgumentDirection.InOut) &&
      ports.any (fun p => !p.isNet)) ||
    (ports.any (fun p => p.direction == ArgumentDirection.Ref) &&
      ports.any (fun p => p.isNet))

end Spec

/-- Whether a diagnostic is one of the two direction diagnostics of a
concatenation. -/
def isDirectionDiag (d : Diagnostic) : Bool :=
  d.code == DiagCode.PortConcatInOut || d.code == DiagCode.PortConcatRef

namespace NonAnsiPortListBuilder

/-- What a reference resolves to when `createPort` is called on it for a
component of a concatenation in the state `b`; `none` when an assertion
fails. -/
def resolve (b : NonAnsiPortListBuilder) (item : PortReferenceSyntax) : Option Built.Symbol :=
  match b.createPortReference "" item.firstToken item with
  | .ok r => some r.1
  | .error _ => none

/-- The data port a reference resolves to, if it resolves to one. -/
def dataPort (b : NonAnsiPortListBuilder) (item : PortReferenceSyntax) :
    Option Built.PortSymbol :=
  match b.resolve item with
  | some (.Port p) => some p
  | _ => none

/-- The declared interface port a reference resolves to, if it resolves to one. -/
def declaredInterface (b : NonAnsiPortListBuilder) (item : PortReferenceSyntax) :
    Option Built.InterfacePortSymbol :=
  match b.resolve item with
  | some (.InterfacePort ip) => if ip.isMissingIO then none else some ip
  | _ => none

/-- The provisional interface port a reference resolves to, if it resolves to
one. -/
def provisionalInterface (b : NonAnsiPortListBuilder) (item : PortReferenceSyntax) :
    Option Built.InterfacePortSymbol :=
  match b.resolve item with
  | some (.InterfacePort ip) => if ip.isMissingIO then some ip else none
  | _ => none

/-- The entry of the index without its `used` flag. -/
def unmark (e : String × PortInfo) : String × PortInfo := (e.1, { e.2 with used := false })

/-- The flags `used` after the names have been looked up with `getInfo`, one
after the other. -/
def setUsedAll (names : List String) (infos : List (String × PortInfo)) :
    List (String × PortInfo) :=
  names.foldl (fun l n => setUsed n l) infos

/-- The invariant of the loop of a concatenation: the local variables say what
the spec says about the component ports collected so far, and every component
has an internal symbol. -/
structure ConcatInv (st : ConcatState) : Prop where
  dir : st.dir = Spec.effectiveDirection (st.buffer.map (fun p => p.direction))
  allNets : st.allNets = st.buffer.all (fun p => p.isNet)
  allVars : st.allVars = st.buffer.all (fun p => !p.isNet)
  hadError : st.hadError = Spec.mixes st.buffer
  symbols : ∀ p ∈ st.buffer, p.internalSymbol ≠ none

/-- A step of the loop of a concatenation that only reports: the index, the
implicit members and the component ports stay, and a direction diagnostic at the
range of the concatenation is added exactly when `hadError` turns true. -/
def Reports (stx : PortConcatenationSyntax) (r r2 : ConcatState × NonAnsiPortListBuilder) :
    Prop :=
  r2.2.portInfos = r.2.portInfos ∧ r2.2.implicitMembers = r.2.implicitMembers ∧
  r2.1.buffer = r.1.buffer ∧
  ((r2.1.hadError = r.1.hadError ∧ r2.2.diags = r.2.diags) ∨
   (r.1.hadError = false ∧ r2.1.hadError = true ∧
    ∃ d, r2.2.diags = r.2.diags ++ [d] ∧ isDirectionDiag d = true ∧
      d.ranges = [stx.sourceRange]))

/-- The codes of the diagnostics that the indexing of one declarator by
`handleIODecl` can add. -/
def isIODeclDiag : DiagCode → Bool
  | .ConstPortNotAllowed => true
  | .ImplicitNetPortNoDefault => true
  | .InOutPortCannotBeVariable => true
  | .RefPortMustBeVariable => true
  | .DisallowedPortDefault => true
  | .UnknownInterface => true
  | .PortTypeNotInterfaceOrData => true
  | .NotAModport => true
  | _ => false

/-- A step of the indexing that leaves the index and adds diagnostics of
`handleIODecl` only. -/
def Adds (b b2 : NonAnsiPortListBuilder) : Prop :=
  b2.portInfos = b.portInfos ∧
  ∃ ds : List Diagnostic, b2.diags = b.diags ++ ds ∧ ∀ d ∈ ds, isIODeclDiag d.code = true

end NonAnsiPortListBuilder

namespace Spec

/-- The declarators of the port declarations whose name is not missing, in
declaration order. -/
def declarators (decls : List (PortDeclarationSyntax × Option InsertionPoint)) :
    List DeclaratorSyntax :=
  (decls.map (fun d => d.1.declarators.filter (fun decl => !decl.name.isMissing))).flatten

/-- The first declarator of the list that has the given name. -/
def firstDeclarator (name : String) (decls : List DeclaratorSyntax) : Option DeclaratorSyntax :=
  decls.find? (fun decl => decl.name.valueText == name)

/-- What the spec asks for one declarator, given the declarators before it: a
name that is already declared gives one `Redefinition` with a note at the first
declarator of that name. -/
def redefinition (earlier : List DeclaratorSyntax) (decl : DeclaratorSyntax) :
    List Diagnostic :=
  match firstDeclarator decl.name.valueText earlier with
  | some first =>
    [{ code := .Redefinition, location := decl.name.location,
       args := [.str decl.name.valueText],
       notes := [(.NotePreviousDefinition, first.name.location)] }]
  | none => []

/-- The `Redefinition` diagnostics of a list of declarators, in the order of the
list; `earlier` are the declarators before the list. -/
def redefinitions (earlier : List DeclaratorSyntax) : List DeclaratorSyntax → List Diagnostic
  | [] => []
  | decl :: rest => redefinition earlier decl ++ redefinitions (earlier ++ [decl]) rest

/-- The names an entry of a non-ANSI port list refers to, directly or inside a
concatenation. -/
def referencedBy : NonAnsiPortSyntax → List String
  | .ImplicitNonAnsiPort stx =>
    match stx.expr with
    | .PortReference r => [r.name.valueText]
    | .PortConcatenation c => c.references.map (fun r => r.name.valueText)
  | .ExplicitNonAnsiPort stx =>
    match stx.expr with
    | some (.PortReference r) => [r.name.valueText]
    | some (.PortConcatenation c) => c.references.map (fun r => r.name.valueText)
    | none => []
  | .EmptyNonAnsiPort _ => []

/-- The names a non-ANSI port list refers to. -/
def referenced (ports : List NonAnsiPortSyntax) : List String :=
  (ports.map referencedBy).flatten

/-- The `UnusedPortDecl` diagnostics the spec asks for: one for every indexed
port declaration whose name the port list does not refer to, at the range of
its declarator and with its name. -/
def unusedDiags (ports : List NonAnsiPortSyntax) (index : List (String × PortInfo)) :
    List Diagnostic :=
  (index.filter (fun e => !(referenced ports).contains e.1)).map (fun e =>
    { code := .UnusedPortDecl, location := e.2.decl.sourceRange.start,
      ranges := [e.2.decl.sourceRange], args := [.str e.1] })

end Spec

/-- What the indexing phase keeps of the declarators `earlier` it has read: one
entry per name, that of the first declarator of the name, not yet used. -/
structure IndexInv (earlier : List DeclaratorSyntax) (b : NonAnsiPortListBuilder) : Prop where
  nodup : (b.portInfos.map (fun e => e.1)).Nodup
  first : ∀ name : String,
    (b.find name).map (fun info => info.decl) = Spec.firstDeclarator name earlier
  key : ∀ e ∈ b.portInfos, e.1 = e.2.decl.name.valueText
  unused : ∀ e ∈ b.portInfos, e.2.used = false

/-! ## The type of a multi-port -/

namespace Compilation

/-- Modelled from the spec: `Compilation::getErrorType` belongs to the type
system, which is outside the sources at hand; the error type is no integral type
and has no bits. -/
def getErrorType : SvType := { id := 0, isVoid := false, isError := true }

/-- Modelled from the spec: `Compilation::getType(width, flags)` belongs to the
type system, which is outside the sources at hand; it produces the integral type
of the given width, four-state when the flag `FourState` is set. -/
def getType (width : Nat) (fourState : Bool) : SvType :=
  { id := width + 1, isVoid := false, isError := false, isIntegral := true,
    bitWidth := width, isFourState := fourState }

end Compilation

/-- What `MultiPortSymbol::getType` needs besides the multi-port: whether the
symbol has a parent scope, the range of its syntax node (`none` when it has no
syntax node) and the call `context.requireValidBitWidth(width, range)`. -/
structure MultiPortEnv where
  hasParentScope : Bool
  sourceRange : Option SourceRange
  requireValidBitWidth : Nat → SourceRange → Bool

/-- The loop of `MultiPortSymbol::getType` over the component ports, with the
local variables `totalWidth` (a `bitwidth_t`, 32 bits) and `flags` (the flag
`FourState`): `none` when the loop returns the error type. -/
def MultiPortSymbol.typeLoop (env : MultiPortEnv) (range : SourceRange) (totalWidth : Nat)
    (flags : Bool) (diags : List Diagnostic) :
    List PortSymbol → Option (Nat × Bool) × List Diagnostic
  | [] => (some (totalWidth, flags), diags)
  | port :: rest =>
    let t := port.type
    if t.isError then (none, diags)
    else if !t.isIntegral then
      (none, diags ++ [(Diagnostic.atLocation .BadConcatExpression port.externalLoc).arg
        (.type t)])
    else
      let totalWidth := (totalWidth + t.bitWidth % 2 ^ 32) % 2 ^ 32
      if !env.requireValidBitWidth totalWidth range then (none, diags)
      else typeLoop env range totalWidth (flags || t.isFourState) diags rest

/-- The function `MultiPortSymbol::getType()`: the type and the diagnostics
added.  `cached` is the member `type` before the call; the failure of
`ASSERT(scope && syntax)` is the `error` result. -/
def MultiPortSymbol.getType (env : MultiPortEnv) (m : MultiPortSymbol)
    (cached : Option SvType) : Except String (SvType × List Diagnostic) :=
  match cached with
  | some t => .ok (t, [])
  | none =>
    match env.sourceRange with
    | none => .error "ASSERT(scope && syntax)"
    | some range =>
      if !env.hasParentScope then .error "ASSERT(scope && syntax)"
      else
        match MultiPortSymbol.typeLoop env range 0 false [] m.ports with
        | (none, diags) => .ok (Compilation.getErrorType, diags)
        | (some (totalWidth, flags), diags) =>
          if totalWidth == 0 then .ok (Compilation.getErrorType, diags)
          else .ok (Compilation.getType totalWidth flags, diags)

namespace Spec

/-- The sum of the bit widths of the component types. -/
def totalWidth (ports : List PortSymbol) : Nat := (ports.map (fun p => p.type.bitWidth)).sum

/-- Whether some component type is four-state. -/
def anyFourState (ports : List PortSymbol) : Bool := ports.any (fun p => p.type.isFourState)

end Spec

namespace Demo

/-- The scope `scope` of a body that declares `logic a;` as its third member. -/
def scopeWithA : ScopeEnv :=
  { scope with
    find := fun n =>
      if n == "a" then some (.Value { kind := .Variable, name := "a", location := 5, index := 3 })
      else none }

end Demo

namespace NonAnsiPortListBuilder

/-- The implicit members that the references of a concatenation add: one for
every reference that resolves to a provisional interface port, in source order,
with the location of the reference as its multi-port location. -/
def provisionalMembers (b : NonAnsiPortListBuilder) (items : List PortReferenceSyntax) :
    List ImplicitMember :=
  items.filterMap (fun item => (b.provisionalInterface item).map (fun ip =>
    ImplicitMember.Provisional { ip with multiPortLoc := some item.firstToken }))

/-- The diagnostics for the references of a concatenation that resolve to a
declared interface port, in source order. -/
def interfaceDiags (b : NonAnsiPortListBuilder) (items : List PortReferenceSyntax) :
    List Diagnostic :=
  items.filterMap (fun item => (b.declaredInterface item).map (fun ip =>
    (Diagnostic.atRange .IfacePortInConcat item.sourceRange).arg (.str ip.name)))

end NonAnsiPortListBuilder

namespace NonAnsiPortListBuilder

/-- The assertion `ASSERT(info->internalSymbol)` of `createPort` holds for the
index: every indexed declaration that is no interface port has an internal
symbol. -/
def Bound (b : NonAnsiPortListBuilder) : Prop :=
  ∀ name info, b.find name = some info → info.isIface = false → info.internalSymbol ≠ none

end NonAnsiPortListBuilder

/-- Whether a port header passes the assertions of `handleIODecl`: a variable or
net port header has a direction keyword, and the name of an interface port
header is an identifier. -/
def PortHeaderSyntax.isAccepted : PortHeaderSyntax → Bool
  | .VariablePortHeader h => h.direction.isSome
  | .NetPortHeader h => h.direction.isSome
  | .InterfacePortHeader h => h.isIdentifier

/-- The port declarations pass the assertions of the constructor: every header
is accepted, and a declarator whose name is not missing has a name that is not
empty. -/
def WellFormed (decls : List (PortDeclarationSyntax × Option InsertionPoint)) : Prop :=
  ∀ d ∈ decls, d.1.header.isAccepted = true ∧
    ∀ decl ∈ d.1.declarators, decl.name.isMissing = false → decl.name.valueText ≠ ""

namespace NonAnsiPortListBuilder

/-- An entry of the index after the names have been looked up: used when its
name is one of them. -/
def markUsed (names : List String) (e : String × PortInfo) : String × PortInfo :=
  if names.contains e.1 then (e.1, { e.2 with used := true }) else e

end NonAnsiPortListBuilder

namespace Demo

/-- The concatenation `{a, b}` and the port list `({a, b})`. -/
def concatAB : PortConcatenationSyntax :=
  { references := [portRef "a" 1, portRef "b" 2], firstToken := 0, sourceRange := rangeAt 0 }

def concatList : List NonAnsiPortSyntax :=
  [.ImplicitNonAnsiPort { expr := .PortConcatenation concatAB }]

/-- The port declarations `input a; output b;` and `input logic a; inout b;`. -/
def inputOutputDecls : List (PortDeclarationSyntax × Option InsertionPoint) :=
  [portDecl .InputKeyword false emptySyntax "a" 11,
   portDecl .OutputKeyword false emptySyntax "b" 12]

def variableInoutDecls : List (PortDeclarationSyntax × Option InsertionPoint) :=
  [portDecl .InputKeyword false logicSyntax "a" 11,
   portDecl .InOutKeyword false emptySyntax "b" 12]

/-- The port declaration `name portName;` at location `n`, with an interface
port header. -/
def ifacePortDecl (name : String) (portName : String) (n : Nat) :
    PortDeclarationSyntax × Option InsertionPoint :=
  ({ attributes := [],
     header := .InterfacePortHeader
       { nameOrKeyword := { valueText := name, location := n, range := rangeAt n },
         isIdentifier := true, modport := none },
     declarators := [declarator portName n] }, none)

/-- The concatenation `{a, i, z}` and the port declarations `input a; bus i;`:
`i` is a declared interface port and `z` is not declared. -/
def concatAIZ : PortConcatenationSyntax :=
  { references := [portRef "a" 1, portRef "i" 2, portRef "z" 3], firstToken := 0,
    sourceRange := rangeAt 0 }

def inputBusDecls : List (PortDeclarationSyntax × Option InsertionPoint) :=
  [portDecl .InputKeyword false emptySyntax "a" 11, ifacePortDecl "bus" "i" 12]

/-- The port declarations `input a; output a;`, and `input a; input b;`. -/
def twiceDecls : List (PortDeclarationSyntax × Option InsertionPoint) :=
  [portDecl .InputKeyword false emptySyntax "a" 11,
   portDecl .OutputKeyword false emptySyntax "a" 12]

def inputABDecls : List (PortDeclarationSyntax × Option InsertionPoint) :=
  [portDecl .InputKeyword false emptySyntax "a" 11,
   portDecl .InputKeyword false emptySyntax "b" 12]

/-- The index the constructor builds in the scope `scope` (empty when an
assertion fails). -/
def index (decls : List (PortDeclarationSyntax × Option InsertionPoint)) :
    NonAnsiPortListBuilder :=
  match NonAnsiPortListBuilder.create scope decls with
  | .ok b => b
  | .error _ => {}

end Demo

namespace Demo

/-- The two-state integral type of the given width, and a component port of that
type. -/
def bitsType (width : Nat) : SvType :=
  { id := width + 1, isVoid := false, isError := false, isIntegral := true, bitWidth := width }

def bitsPort (addr : Nat) (name : String) (width : Nat) : PortSymbol :=
  { addr := addr, name := name, location := addr, direction := .In, type := bitsType width,
    initializer := none }

/-- A four-state integral component port of the given width. -/
def logicPort (addr : Nat) (name : String) (width : Nat) : PortSymbol :=
  { addr := addr, name := name, location := addr, direction := .In,
    type := { bitsType width with isFourState := true }, initializer := none }

/-- The concatenation of the given component ports. -/
def multiOf (ports : List PortSymbol) : MultiPortSymbol :=
  { addr := 9, name := "", location := 0, ports := ports, direction := .In, type := voidType }

/-- A multi-port with a parent scope and a syntax node, where
`requireValidBitWidth` accepts the widths up to 16777215 bits. -/
def multiPortEnv : MultiPortEnv where
  hasParentScope := true
  sourceRange := some (rangeAt 0)
  requireValidBitWidth := fun width _ => decide (width ≤ 16777215)

end Demo

/-! ## `StringRef` -/

/-- Modelled from the spec: `strncmp` belongs to the C library, which is outside
the sources at hand.  It compares at most `n` characters of the two character
sequences, as unsigned values, and stops after the first NUL; a sequence that
has ended reads as NUL. -/
def strncmp : List Nat → List Nat → Nat → Int
  | _, _, 0 => 0
  | s1, s2, n + 1 =>
    let c1 := s1.headD 0
    let c2 := s2.headD 0
    if c1 != c2 then (c1 : Int) - (c2 : Int)
    else if c1 == 0 then 0
    else strncmp s1.tail s2.tail n

/-- Modelled from the spec: `std::char_traits<char>::compare` belongs to the C++
library, which is outside the sources at hand.  It compares the first `n`
characters of the two sequences, NUL included. -/
def traitsCompare : List Nat → List Nat → Nat → Int
  | _, _, 0 => 0
  | s1, s2, n + 1 =>
    let c1 := s1.headD 0
    let c2 := s2.headD 0
    if c1 != c2 then (c1 : Int) - (c2 : Int)
    else traitsCompare s1.tail s2.tail n

/-- Modelled from the spec: `std::string::compare(pos, len, s, n)` belongs to the
C++ library, which is outside the sources at hand.  It compares the substring
`[pos, pos + len)` of the string with the `n` characters at `s`: by
`traits::compare` over the shorter length, and by length when that finds no
difference. -/
def stringCompare (str : List Nat) (pos len : Nat) (s : List Nat) (n : Nat) : Int :=
  let sub := (str.drop pos).take len
  let r := traitsCompare sub s (min sub.length n)
  if r != 0 then r else (sub.length : Int) - (n : Int)

/-- The class `StringRef`: the `len` characters at `ptr`, as unsigned values
below 256. -/
structure StringRef where
  chars : List Nat
deriving DecidableEq, Repr

namespace StringRef

/-- The member `len`: the number of characters. -/
def len (s : StringRef) : Nat := s.chars.length

/-- The operator `operator==(const StringRef& lhs, const std::string& rhs)`. -/
def eqString (lhs : StringRef) (rhs : List Nat) : Bool :=
  if lhs.len != rhs.length then false
  else stringCompare rhs 0 rhs.length lhs.chars lhs.len == 0

/-- The operator `operator==(const StringRef& lhs, const StringRef& rhs)`. -/
def eqRef (lhs rhs : StringRef) : Bool :=
  if lhs.len != rhs.len then false
  else strncmp lhs.chars rhs.chars (min lhs.len rhs.len) == 0

end StringRef

namespace Demo

/-- The three characters `a`, NUL, `b` and the three characters `a`, NUL, `c`. -/
def refANulB : StringRef := { chars := [97, 0, 98] }

def refANulC : StringRef := { chars := [97, 0, 99] }

end Demo

/-! ## Observations on an indexed port declaration -/

/-- The local variable `isNet` of `handleIODecl`: whether the internal symbol is
set and is a net. -/
def PortInfo.isNet (info : PortInfo) : Bool :=
  match info.internalSymbol with
  | some s => s.isNet
  | none => false

namespace Demo

/-- The entry `.name(ref)` of a non-ANSI port list, at location `n`. -/
def explicitRef (name : String) (ref : String) (n : Nat) : NonAnsiPortSyntax :=
  .ExplicitNonAnsiPort
    { name := { valueText := name, location := n, range := rangeAt n },
      expr := some (.PortReference (portRef ref (n + 1))) }

/-- The declarator `name = init` at location `n`. -/
def declaratorInit (name : String) (n : Nat) : DeclaratorSyntax :=
  { declarator name n with
    initializer := some { equals := n + 1, expr := .Other 0 (rangeAt (n + 2)),
                          sourceRange := rangeAt (n + 1) } }

end Demo

/-- Whether a diagnostic is a `DisallowedPortDefault`. -/
def isDefaultDiag (d : Diagnostic) : Bool :=
  d.code == DiagCode.DisallowedPortDefault

namespace Spec

/-- The diagnostics the spec asks for the initializer of an indexed port
declarator: a `DisallowedPortDefault` at the initializer when the declarator has
one and the direction is not out or the internal symbol is a net. -/
def disallowedDefault (info : PortInfo) : List Diagnostic :=
  match info.decl.initializer with
  | some init =>
    if info.direction != ArgumentDirection.Out || info.isNet then
      [Diagnostic.atRange .DisallowedPortDefault init.sourceRange]
    else []
  | none => []

end Spec

/-- The `DisallowedPortDefault` diagnostics of the index are those of its
entries, in order. -/
def DefaultInv (b : NonAnsiPortListBuilder) : Prop :=
  b.diags.filter isDefaultDiag = (b.portInfos.map (fun e => Spec.disallowedDefault e.2)).flatten

namespace Demo

/-- The port declaration `direction [var] type name = init;` at location `n`, with
a variable port header. -/
def portDeclInit (direction : DirectionKind) (var : Bool) (type : DataTypeSyntax)
    (name : String) (n : Nat) : PortDeclarationSyntax × Option InsertionPoint :=
  ({ attributes := [],
     header := .VariablePortHeader
       { constKeyword := none, direction := some (dir direction),
         varKeyword := if var then some varKeyword else none, dataType := type },
     declarators := [declaratorInit name n] }, none)

/-- The scope `scope` with a net type called `trinet`. -/
def scopeNetName : ScopeEnv :=
  { scope with lookupType := fun n => if n == "trinet" then some (.NetType wire) else none }

end Demo

/-! ## The slicing of an interface array -/

namespace PortConnectionBuilder

/-- The body of the slicing loop of `getInterface` up to the element access: the
path index `p` translated through the range `dim` of the instance array, then
flipped when the range of the interface array is not little endian. -/
def sliceIndex (dim range : ConstantRange) (p : Int) : Int :=
  let index := dim.translateIndex p
  if !range.isLittleEndian then range.upper - index - range.lower else index

/-- Whether an interface array has the shape the slicing loop relies on for the
instance dimensions `dims`, along every path and not only along the first
elements that `getInterface` inspects: the symbol is an instance array whose
range is as wide as the first dimension, it has as many elements as its range is
wide, and each element has the shape of the remaining dimensions. -/
def shaped : List ConstantRange → Symbol → Bool
  | [], _ => true
  | d :: ds, .InstanceArray _ _ _ range elements =>
    range.width == d.width && elements.length == range.width && elements.all (shaped ds)
  | _ :: _, _ => false

/-- Whether the path of the instance lies inside the ranges of the instance
arrays around it: the path is not longer than the dimensions and every index is
between the bounds of its dimension. -/
def pathInside : List ConstantRange → List Int → Bool
  | _, [] => true
  | d :: ds, p :: path => decide (d.lower ≤ p) && decide (p ≤ d.upper) && pathInside ds path
  | [], _ :: _ => false

end PortConnectionBuilder

/-- Modelled from the spec: the elements of an instance array are made by code
outside the sources at hand, one for each index of the range in ascending order;
the element number `k` is the one declared with the index `lower + k`. -/
def ConstantRange.elementIndex (r : ConstantRange) (k : Int) : Int := r.lower + k

namespace Spec

/-- The declared position of an index in a range: the number of indices the
declaration `[left:right]` lists before it. -/
def declaredPosition (r : ConstantRange) (index : Int) : Int :=
  if r.isLittleEndian then r.left - index else index - r.left

/-- The index at a declared position of a range. -/
def indexAtPosition (r : ConstantRange) (pos : Int) : Int :=
  if r.isLittleEndian then r.left - pos else r.left + pos

/-- The matching slice of an interface array, in the spec's words: for each
dimension of the instance array, the element of the interface array that is
declared at the position at which the instance is declared in its array. -/
def slice : List ConstantRange → List Int → Symbol → Option Symbol
  | _, [], symbol => some symbol
  | d :: ds, p :: path, .InstanceArray _ _ _ range elements =>
    let k := indexAtPosition range (declaredPosition d p) - range.lower
    if k < 0 then none
    else
      match elements[k.toNat]? with
      | none => none
      | some e => slice ds path e
  | _, _ :: _, _ => none

end Spec

namespace Demo

/-- An instance of the interface `bus` at the address `addr`. -/
def busInst (addr : Nat) : Symbol := .Instance addr "" 0 busDef

/-- An array of instances of `bus` with the range `[0:high]`, at the address
`addr`; its elements are at the following addresses. -/
def busRow (addr : Nat) (high : Nat) : Symbol :=
  .InstanceArray addr "" 0 { left := 0, right := high }
    ((List.range (high + 1)).map (fun k => busInst (addr + 1 + k)))

/-- The interface array `bus [0:1][0:3]` and the interface array `bus [0:1][0:2]`. -/
def busArray : Symbol :=
  .InstanceArray 100 "bus" 5 { left := 0, right := 1 } [busRow 110 3, busRow 120 3]

def busArrayNarrow : Symbol :=
  .InstanceArray 100 "bus" 5 { left := 0, right := 1 } [busRow 110 2, busRow 120 2]

/-- The interface port `bus.m mbus[0:3]`; its dimension is the syntax node 3. -/
def mbus : InterfacePortSymbol :=
  { addr := 7, name := "mbus", location := 70, interfaceDef := some busDef, modport := "m",
    isMissingIO := false, dimensions := some [3] }

/-- The instance number `i` of an instance array `[0:1]`; the dimension syntax
number `n` evaluates to the range `[0:n]`. -/
def sliceEnv (i : Int) : Env :=
  { env with arrayPath := [i], scope := .InstanceArray { left := 0, right := 1 } .Other,
             evalDimension := fun n => some { left := 0, right := n } }

/-- The modport `m` of the interface `bus`, and a modport `m` of the module
`top`. -/
def modportM : Symbol := .Modport 200 "m" 8 (some busDef)

def modportOther : Symbol := .Modport 201 "m" 9 (some topDef)

end Demo

/-! # Theorems -/

open PortConnectionBuilder

/-! ## Helper lemmas -/

theorem isEmpty_eq_false_of_ne {s : String} (h : s ≠ "") : s.isEmpty = false := by
  cases hs : s.isEmpty
  · rfl
  · exact absurd ((String.isEmpty_iff s).mp hs) h

theorem countCode_append (code : DiagCode) (xs ys : List Diagnostic) :
    countCode code (xs ++ ys) = countCode code xs + countCode code ys := by
  simp [countCode, List.countP_append]

theorem countCode_nil (code : DiagCode) : countCode code [] = 0 := rfl

theorem countCode_singleton (code : DiagCode) (d : Diagnostic) :
    countCode code [d] = if d.code = code then 1 else 0 := by
  by_cases h : d.code = code <;> simp [countCode, List.countP_cons, h]

/-! ## The constructor: mode and mixed styles -/

theorem record_usingOrdered (env : Env) (b : PortConnectionBuilder)
    (conn : PortConnectionSyntax) : (record env b conn).usingOrdered = b.usingOrdered := by
  unfold record
  cases conn with
  | Ordered s => rfl
  | Empty s => rfl
  | Wildcard s =>
    simp only
    split <;> rfl
  | Named npc =>
    simp only
    split
    · split <;> rfl
    · rfl

theorem record_countMixing (env : Env) (b : PortConnectionBuilder)
    (conn : PortConnectionSyntax) :
    countCode .MixingOrderedAndNamedPorts (record env b conn).diags =
      countCode .MixingOrderedAndNamedPorts b.diags := by
  unfold record
  cases conn with
  | Ordered s => rfl
  | Empty s => rfl
  | Wildcard s =>
    simp only
    split
    · rfl
    · simp [addDiag, countCode_append, countCode_singleton, Diagnostic.atRange,
        Diagnostic.addNote]
  | Named npc =>
    simp only
    split
    · split
      · rfl
      · simp [addDiag, countCode_append, countCode_singleton, Diagnostic.atLocation,
          Diagnostic.addNote, Diagnostic.arg]
    · rfl

/-- The loop of the constructor, once the mode is set: the mode stays, and one
`MixingOrderedAndNamedPorts` is added exactly when a connection of the other
style is met. -/
theorem scan_true (env : Env) (rest : List PortConnectionSyntax) :
    ∀ b : PortConnectionBuilder,
      (scan env rest true b).usingOrdered = b.usingOrdered ∧
      countCode .MixingOrderedAndNamedPorts (scan env rest true b).diags =
        countCode .MixingOrderedAndNamedPorts b.diags +
          (if ∃ c ∈ rest, c.isOrdered ≠ b.usingOrdered then 1 else 0) := by
  induction rest with
  | nil => intro b; simp [scan]
  | cons conn rest ih =>
    intro b
    by_cases hmix : conn.isOrdered = b.usingOrdered
    · have hrec := ih (record env b conn)
      rw [record_usingOrdered, record_countMixing] at hrec
      have hscan : scan env (conn :: rest) true b = scan env rest true (record env b conn) := by
        simp [scan, hmix]
      rw [hscan]
      refine ⟨hrec.1, ?_⟩
      rw [hrec.2]
      congr 1
      by_cases hex : ∃ c ∈ rest, c.isOrdered ≠ b.usingOrdered
      · have : ∃ c ∈ conn :: rest, c.isOrdered ≠ b.usingOrdered := by
          obtain ⟨c, hc, hne⟩ := hex
          exact ⟨c, List.mem_cons_of_mem _ hc, hne⟩
        rw [if_pos hex, if_pos this]
      · have : ¬ ∃ c ∈ conn :: rest, c.isOrdered ≠ b.usingOrdered := by
          rintro ⟨c, hc, hne⟩
          rcases List.mem_cons.mp hc with h | h
          · exact hne (h ▸ hmix)
          · exact hex ⟨c, h, hne⟩
        rw [if_neg hex, if_neg this]
    · have hscan : scan env (conn :: rest) true b =
          b.addDiag (Diagnostic.atLocation .MixingOrderedAndNamedPorts
            conn.firstTokenLocation) := by
        simp [scan, hmix]
      rw [hscan]
      have hex : ∃ c ∈ conn :: rest, c.isOrdered ≠ b.usingOrdered :=
        ⟨conn, List.mem_cons_self _ _, hmix⟩
      rw [if_pos hex]
      simp [addDiag, countCode_append, countCode_singleton, Diagnostic.atLocation]

/-- The loop of the constructor over a list that starts with connections of the
builder's style and goes on with one of the other style: what follows that
connection is not looked at. -/
theorem scan_true_stops (env : Env) (pre : List PortConnectionSyntax)
    (c : PortConnectionSyntax) (post : List PortConnectionSyntax) :
    ∀ b : PortConnectionBuilder, (∀ x ∈ pre, x.isOrdered = b.usingOrdered) →
      c.isOrdered ≠ b.usingOrdered →
      scan env (pre ++ c :: post) true b =
        (scan env pre true b).addDiag
          (Diagnostic.atLocation .MixingOrderedAndNamedPorts c.firstTokenLocation) := by
  induction pre with
  | nil =>
    intro b _ hc
    simp [scan, hc]
  | cons x pre ih =>
    intro b hpre hc
    have hx : x.isOrdered = b.usingOrdered := hpre x (List.mem_cons_self _ _)
    have h1 : scan env (x :: pre ++ c :: post) true b =
        scan env (pre ++ c :: post) true (record env b x) := by
      simp [scan, hx]
    have h2 : scan env (x :: pre) true b = scan env pre true (record env b x) := by
      simp [scan, hx]
    rw [h1, h2]
    apply ih
    · intro y hy
      rw [record_usingOrdered]
      exact hpre y (List.mem_cons_of_mem _ hy)
    · rw [record_usingOrdered]
      exact hc

theorem findNamed_eq_none_iff (b : PortConnectionBuilder) (name : String) :
    b.findNamed name = none ↔ ∀ e ∈ b.namedConns, e.1 ≠ name := by
  unfold findNamed
  constructor
  · intro h e he
    have hfind : b.namedConns.find? (fun e => e.1 == name) = none := by
      cases hf : b.namedConns.find? (fun e => e.1 == name) with
      | none => rfl
      | some x => rw [hf] at h; cases h
    have := List.find?_eq_none.mp hfind e he
    simpa using this
  · intro h
    have hfind : b.namedConns.find? (fun e => e.1 == name) = none := by
      apply List.find?_eq_none.mpr
      intro e he
      simpa using h e he
    rw [hfind]
    rfl

theorem record_ctorInv (env : Env) (b : PortConnectionBuilder) (conn : PortConnectionSyntax)
    (h : CtorInv b) : CtorInv (record env b conn) := by
  unfold record
  cases conn with
  | Ordered s => exact ⟨h.orderedIndex, h.unused, h.keys, h.nodup, h.diags⟩
  | Empty s => exact ⟨h.orderedIndex, h.unused, h.keys, h.nodup, h.diags⟩
  | Wildcard s =>
    simp only
    split
    · exact ⟨h.orderedIndex, h.unused, h.keys, h.nodup, h.diags⟩
    · refine ⟨h.orderedIndex, h.unused, h.keys, h.nodup, ?_⟩
      intro d hd
      rcases List.mem_append.mp hd with hd | hd
      · exact h.diags d hd
      · rw [List.mem_singleton.mp hd]; rfl
  | Named npc =>
    simp only
    split
    · rename_i hne
      split
      · rename_i hmiss
        have hfresh := (findNamed_eq_none_iff b _).mp hmiss
        refine ⟨h.orderedIndex, ?_, ?_, ?_, h.diags⟩
        · intro e he
          rcases List.mem_append.mp he with he | he
          · exact h.unused e he
          · rw [List.mem_singleton.mp he]
        · intro e he
          rcases List.mem_append.mp he with he | he
          · exact h.keys e he
          · rw [List.mem_singleton.mp he]
            refine ⟨rfl, ?_⟩
            intro hempty
            simp only at hempty
            rw [hempty] at hne
            exact absurd hne (by decide)
        · simp only [List.map_append, List.map_cons, List.map_nil]
          apply List.Nodup.append h.nodup (List.nodup_singleton _)
          intro x hx1 hx2
          rw [List.mem_singleton.mp hx2] at hx1
          obtain ⟨e, he, hek⟩ := List.mem_map.mp hx1
          exact hfresh e he hek
      · refine ⟨h.orderedIndex, h.unused, h.keys, h.nodup, ?_⟩
        intro d hd
        rcases List.mem_append.mp hd with hd | hd
        · exact h.diags d hd
        · rw [List.mem_singleton.mp hd]; rfl
    · exact ⟨h.orderedIndex, h.unused, h.keys, h.nodup, h.diags⟩

theorem scan_ctorInv (env : Env) (conns : List PortConnectionSyntax) :
    ∀ (hasConnections : Bool) (b : PortConnectionBuilder), CtorInv b →
      CtorInv (scan env conns hasConnections b) := by
  induction conns with
  | nil => intro _ b h; simpa [scan] using h
  | cons conn rest ih =>
    intro hasConnections b h
    unfold scan
    dsimp only
    split
    · apply ih
      apply record_ctorInv
      exact ⟨h.orderedIndex, h.unused, h.keys, h.nodup, h.diags⟩
    · split
      · refine ⟨h.orderedIndex, h.unused, h.keys, h.nodup, ?_⟩
        intro d hd
        rcases List.mem_append.mp hd with hd | hd
        · exact h.diags d hd
        · rw [List.mem_singleton.mp hd]; rfl
      · exact ih _ _ (record_ctorInv env b conn h)

theorem create_ctorInv (env : Env) (conns : List PortConnectionSyntax) :
    CtorInv (PortConnectionBuilder.create env conns) := by
  have h := scan_ctorInv env conns false {}
    ⟨rfl, (by intro e he; cases he), (by intro e he; cases he), List.nodup_nil,
      (by intro d hd; cases hd)⟩
  exact ⟨h.orderedIndex, h.unused, h.keys, h.nodup, h.diags⟩

/-- C10 as stated fails: in the list `(1, .x(2), 3)` the ordered connection `3`
follows the offending `.x(2)` and has the style of the first connection, yet it
is not recorded: only `1` is, so no port can be bound to `3`. -/
theorem create_drops_after_mixing :
    (PortConnectionBuilder.create Demo.env
      [Demo.ordered 1, .Named (Demo.namedNode "x" 2 true true), Demo.ordered 3]).orderedConns
        = [Demo.ordered 1] ∧
    Demo.ordered 3 ∉ (PortConnectionBuilder.create Demo.env
      [Demo.ordered 1, .Named (Demo.namedNode "x" 2 true true), Demo.ordered 3]).orderedConns ∧
    ((PortConnectionBuilder.create Demo.env
      [Demo.ordered 1, .Named (Demo.namedNode "x" 2 true true), Demo.ordered 3]).diags.map
        (fun d => d.code)) = [DiagCode.MixingOrderedAndNamedPorts] := by
  refine ⟨by rfl, ?_, by rfl⟩
  have h : (PortConnectionBuilder.create Demo.env
      [Demo.ordered 1, .Named (Demo.namedNode "x" 2 true true), Demo.ordered 3]).orderedConns
        = [Demo.ordered 1] := by rfl
  rw [h]
  decide

/-- C10 (amended): after `MixingOrderedAndNamedPorts` the mode stays the one set
by the first connection, and the constructor stops: the builder is the one made
from the connections before the offending one, plus the diagnostic at the
offending connection.  The offending connection and all that follow it, whatever
their style, are not recorded, so ports are bound from the connections before it
only. -/
theorem create_stops_at_mixing (env : Env) (first : PortConnectionSyntax)
    (pre : List PortConnectionSyntax) (c : PortConnectionSyntax)
    (post : List PortConnectionSyntax)
    (hpre : ∀ x ∈ pre, x.isOrdered = first.isOrdered)
    (hc : c.isOrdered ≠ first.isOrdered) :
    PortConnectionBuilder.create env (first :: pre ++ c :: post) =
        (PortConnectionBuilder.create env (first :: pre)).addDiag
          (Diagnostic.atLocation .MixingOrderedAndNamedPorts c.firstTokenLocation) ∧
      (PortConnectionBuilder.create env (first :: pre ++ c :: post)).usingOrdered =
        first.isOrdered ∧
      (PortConnectionBuilder.create env (first :: pre ++ c :: post)).orderedConns =
        (PortConnectionBuilder.create env (first :: pre)).orderedConns ∧
      (PortConnectionBuilder.create env (first :: pre ++ c :: post)).namedConns =
        (PortConnectionBuilder.create env (first :: pre)).namedConns ∧
      (PortConnectionBuilder.create env (first :: pre ++ c :: post)).hasWildcard =
        (PortConnectionBuilder.create env (first :: pre)).hasWildcard := by
  have hmode : (record env { usingOrdered := first.isOrdered } first).usingOrdered =
      first.isOrdered := by rw [record_usingOrdered]
  have hstop := scan_true_stops env pre c post
    (record env { usingOrdered := first.isOrdered } first)
    (by intro x hx; rw [hmode]; exact hpre x hx) (by rw [hmode]; exact hc)
  have hcreate : PortConnectionBuilder.create env (first :: pre ++ c :: post) =
      (PortConnectionBuilder.create env (first :: pre)).addDiag
        (Diagnostic.atLocation .MixingOrderedAndNamedPorts c.firstTokenLocation) := by
    have hs1 : scan env (first :: pre ++ c :: post) false {} =
        scan env (pre ++ c :: post) true
          (record env { usingOrdered := first.isOrdered } first) := rfl
    have hs2 : scan env (first :: pre) false {} =
        scan env pre true (record env { usingOrdered := first.isOrdered } first) := rfl
    unfold create
    rw [hs1, hs2, hstop]
    rfl
  have hcm : (PortConnectionBuilder.create env (first :: pre)).usingOrdered =
      first.isOrdered := by
    have hs2 : scan env (first :: pre) false {} =
        scan env pre true (record env { usingOrdered := first.isOrdered } first) := rfl
    show (scan env (first :: pre) false {}).usingOrdered = first.isOrdered
    rw [hs2, (scan_true env pre _).1, hmode]
  refine ⟨hcreate, ?_, ?_, ?_, ?_⟩
  · rw [hcreate]
    exact hcm
  · rw [hcreate]; rfl
  · rw [hcreate]; rfl
  · rw [hcreate]; rfl

/-- The list `(1, .x(2), 3)`: the first connection is ordered, `.x(2)` is not. -/
theorem create_stops_at_mixing_witness :
    PortConnectionBuilder.create Demo.env
        (Demo.ordered 1 :: [] ++ .Named (Demo.namedNode "x" 2 true true) :: [Demo.ordered 3]) =
      (PortConnectionBuilder.create Demo.env (Demo.ordered 1 :: [])).addDiag
        (Diagnostic.atLocation .MixingOrderedAndNamedPorts
          (PortConnectionSyntax.Named (Demo.namedNode "x" 2 true true)).firstTokenLocation) :=
  (create_stops_at_mixing Demo.env (Demo.ordered 1) []
    (.Named (Demo.namedNode "x" 2 true true)) [Demo.ordered 3]
    (by intro x hx; cases hx) (by decide)).1

/-! ## Named mode: explicit empty connection, missing connection -/

/-- C3: in named mode, a named data port hit by an explicit empty connection
`.name()` gets a connection without expression, whether or not it has a default,
and no diagnostic is added. -/
theorem getConnection_named_explicit_empty {α : Type} [TPort α] (env : Env)
    (b : PortConnectionBuilder) (port : α) (conn : NamedPortConnectionSyntax) (used : Bool)
    (hmode : b.usingOrdered = false) (hname : TPort.name port ≠ "")
    (hhit : b.findNamed (TPort.name port) = some (conn, used))
    (hparen : conn.openParen = true) (hexpr : conn.expr = none) :
    (b.getConnection env port).1.expr = none ∧
      (b.getConnection env port).2.diags = b.diags := by
  have hne := isEmpty_eq_false_of_ne hname
  simp [getConnection, hmode, hne, hhit, hparen, hexpr, emptyConnection, PortConnection.expr,
    markUsed]

/-- The builder state of `.b()` for the port `b`, which has a default. -/
theorem getConnection_named_explicit_empty_witness :
    ((PortConnectionBuilder.create Demo.env
        [.Named (Demo.namedNode "b" 5 true false)]).getConnection Demo.env Demo.portB).1.expr
      = none ∧
    ((PortConnectionBuilder.create Demo.env
        [.Named (Demo.namedNode "b" 5 true false)]).getConnection Demo.env Demo.portB).2.diags
      = (PortConnectionBuilder.create Demo.env
        [.Named (Demo.namedNode "b" 5 true false)]).diags :=
  getConnection_named_explicit_empty Demo.env _ Demo.portB (Demo.namedNode "b" 5 true false)
    false (by rfl) (by decide) (by rfl) (by rfl) (by rfl)

/-- C5: in named mode without `.*`, a named data port that no recorded named
connection mentions is connected to its default without a diagnostic when it has
one; otherwise its connection is empty and exactly one `UnconnectedNamedPort`
naming the port is added. -/
theorem getConnection_named_miss {α : Type} [TPort α] (env : Env)
    (b : PortConnectionBuilder) (port : α)
    (hmode : b.usingOrdered = false) (hwild : b.hasWildcard = false)
    (hname : TPort.name port ≠ "") (hmiss : b.findNamed (TPort.name port) = none) :
    (∀ d, TPort.getInitializer port = some d →
      b.getConnection env port = (.value (TPort.toSymbol port) (some d) [], b)) ∧
    (TPort.getInitializer port = none →
      b.getConnection env port =
        (.value (TPort.toSymbol port) none [],
         { b with diags := b.diags ++
            [{ code := .UnconnectedNamedPort, location := env.instanceLocation,
               args := [.str (TPort.name port)] }] })) := by
  have hne := isEmpty_eq_false_of_ne hname
  constructor
  · intro d hd
    simp [getConnection, hmode, hne, hmiss, hwild, hd, createConnectionExpr]
  · intro hd
    simp [getConnection, hmode, hne, hmiss, hwild, hd, emptyConnection, addDiag,
      Diagnostic.atLocation, Diagnostic.arg]

/-- The ports `b` (with a default) and `a` (without) against the list `.x(1)`. -/
theorem getConnection_named_miss_witness :
    (∀ d, TPort.getInitializer Demo.portA = some d →
      (PortConnectionBuilder.create Demo.env
          [.Named (Demo.namedNode "x" 1 true true)]).getConnection Demo.env Demo.portA =
        (.value (TPort.toSymbol Demo.portA) (some d) [],
         PortConnectionBuilder.create Demo.env [.Named (Demo.namedNode "x" 1 true true)])) ∧
    (TPort.getInitializer Demo.portA = none →
      (PortConnectionBuilder.create Demo.env
          [.Named (Demo.namedNode "x" 1 true true)]).getConnection Demo.env Demo.portA =
        (.value (TPort.toSymbol Demo.portA) none [],
         { PortConnectionBuilder.create Demo.env [.Named (Demo.namedNode "x" 1 true true)] with
           diags := (PortConnectionBuilder.create Demo.env
              [.Named (Demo.namedNode "x" 1 true true)]).diags ++
            [{ code := .UnconnectedNamedPort, location := Demo.env.instanceLocation,
               args := [.str (TPort.name Demo.portA)] }] })) :=
  getConnection_named_miss Demo.env _ Demo.portA (by rfl) (by rfl) (by decide) (by rfl)

/-! ## Ordered mode: empty connection -/

/-- C4 as stated fails: for the port `b`, whose default is the expression number
7, the empty ordered connection `( , )` yields a connection that carries the
default, not an absent expression. -/
theorem getConnection_ordered_empty_uses_default :
    ((PortConnectionBuilder.create Demo.env [Demo.emptyAt 1]).getConnection
        Demo.env Demo.portB).1.expr = some Demo.defaultExpr ∧
    ((PortConnectionBuilder.create Demo.env [Demo.emptyAt 1]).getConnection
        Demo.env Demo.portB).1.expr ≠ none := by
  constructor
  · rfl
  · intro h
    have h2 : ((PortConnectionBuilder.create Demo.env [Demo.emptyAt 1]).getConnection
        Demo.env Demo.portB).1.expr = some Demo.defaultExpr := rfl
    rw [h2] at h
    cases h

/-- C4 (amended): in ordered mode, when the connection at the port's position is
an empty ordered connection, the connection made for the port carries exactly
the port's initializer: the default when there is one, no expression otherwise;
no diagnostic is added. -/
theorem getConnection_ordered_empty {α : Type} [TPort α] (env : Env)
    (b : PortConnectionBuilder) (port : α) (s : EmptyPortConnectionSyntax)
    (hmode : b.usingOrdered = true)
    (hconn : b.orderedConns[b.orderedIndex]? = some (.Empty s)) :
    (b.getConnection env port).1.expr = TPort.getInitializer port ∧
      ((b.getConnection env port).1.expr = none ↔ TPort.getInitializer port = none) ∧
      (b.getConnection env port).2.diags = b.diags := by
  have hlt : b.orderedIndex < b.orderedConns.length := by
    by_contra hge
    rw [List.getElem?_eq_none (Nat.le_of_not_lt hge)] at hconn
    cases hconn
  have hget : b.orderedConns[b.orderedIndex] = .Empty s := by
    rw [List.getElem?_eq_getElem hlt] at hconn
    exact Option.some.inj hconn
  have hnle : ¬ b.orderedConns.length ≤ b.orderedIndex := Nat.not_le.mpr hlt
  have h1 : (b.getConnection env port).1.expr = TPort.getInitializer port := by
    simp only [getConnection, hmode, if_true, dif_neg hnle]
    rw [hget]
    simp [createConnectionExpr, PortConnection.expr]
  have h3 : (b.getConnection env port).2.diags = b.diags := by
    simp only [getConnection, hmode, if_true, dif_neg hnle]
    rw [hget]
  exact ⟨h1, by rw [h1], h3⟩

/-- The port `a`, without a default, against the list `( , )`. -/
theorem getConnection_ordered_empty_witness :
    ((PortConnectionBuilder.create Demo.env [Demo.emptyAt 1]).getConnection
        Demo.env Demo.portA).1.expr = TPort.getInitializer Demo.portA ∧
    (((PortConnectionBuilder.create Demo.env [Demo.emptyAt 1]).getConnection
        Demo.env Demo.portA).1.expr = none ↔ TPort.getInitializer Demo.portA = none) ∧
    ((PortConnectionBuilder.create Demo.env [Demo.emptyAt 1]).getConnection
        Demo.env Demo.portA).2.diags =
      (PortConnectionBuilder.create Demo.env [Demo.emptyAt 1]).diags :=
  getConnection_ordered_empty Demo.env _ Demo.portA
    { attributes := [], firstToken := 1, sourceRange := Demo.rangeAt 1 } (by rfl) (by rfl)

/-! ## Implicit connections whose lookup fails -/

/-- C6: when the lookup of the port's name made by `implicitNamedPort` fails (the
lookup is made with `DisallowWildcardImport` exactly when the connection comes
from `.*`), a wildcard connection of a port with a default is the default, with
the wildcard's attributes and without a diagnostic; in every other case the
connection is empty and `ImplicitNamedPortNotFound` naming the port is added at
the range of the connection.  No other lookup matters for the result, and
`getConnection` passes `isWildcard = true` for a port that misses all named
connections under `.*`, `isWildcard = false` for a port hit by `.name`. -/
theorem implicitNamedPort_lookup_fails {α : Type} [TPort α] (env : Env)
    (b : PortConnectionBuilder) (port : α) (attributes : List AttributeSymbol)
    (range : SourceRange) (isWildcard : Bool)
    (hfail : env.unqualified (TPort.name port)
      (if isWildcard then LookupFlags.DisallowWildcardImport else LookupFlags.None) = none) :
    (isWildcard = true → ∀ d, TPort.getInitializer port = some d →
      b.implicitNamedPort env port attributes range isWildcard =
        (.value (TPort.toSymbol port) (some d) attributes, b)) ∧
    ((isWildcard = false ∨ TPort.getInitializer port = none) →
      b.implicitNamedPort env port attributes range isWildcard =
        (.value (TPort.toSymbol port) none [],
         { b with diags := b.diags ++
            [{ code := .ImplicitNamedPortNotFound, location := range.start, ranges := [range],
               args := [.str (TPort.name port)] }] })) ∧
    (∀ f : String → LookupFlags → Option Symbol,
      f (TPort.name port)
        (if isWildcard then LookupFlags.DisallowWildcardImport else LookupFlags.None) = none →
      b.implicitNamedPort { env with unqualified := f } port attributes range isWildcard =
        b.implicitNamedPort env port attributes range isWildcard) ∧
    (∀ b1 : PortConnectionBuilder, b1.usingOrdered = false → TPort.name port ≠ "" →
      b1.findNamed (TPort.name port) = none → b1.hasWildcard = true →
      b1.getConnection env port =
        b1.implicitNamedPort env port b1.wildcardAttrs b1.wildcardRange true) ∧
    (∀ (b1 : PortConnectionBuilder) (conn : NamedPortConnectionSyntax) (used : Bool),
      b1.usingOrdered = false → TPort.name port ≠ "" →
      b1.findNamed (TPort.name port) = some (conn, used) → conn.openParen = false →
      b1.getConnection env port =
        (b1.markUsed (TPort.name port)).implicitNamedPort env port
          (env.fromSyntax conn.attributes) conn.name.range false) := by
  refine ⟨?_, ?_, ?_, ?_, ?_⟩
  · intro hw d hd
    subst hw
    simp only [if_true] at hfail
    simp [implicitNamedPort, hfail, hd, createConnectionExpr]
  · intro h
    cases isWildcard with
    | false =>
      simp only [Bool.false_eq_true, if_false] at hfail
      simp [implicitNamedPort, hfail, emptyConnection, addDiag, Diagnostic.atRange,
        Diagnostic.arg]
    | true =>
      simp only [if_true] at hfail
      have hd : TPort.getInitializer port = none := by
        cases h with
        | inl h => cases h
        | inr h => exact h
      simp [implicitNamedPort, hfail, hd, emptyConnection, addDiag, Diagnostic.atRange,
        Diagnostic.arg]
  · intro f hf
    simp only [implicitNamedPort, hf, hfail]
  · intro b1 hmode hname hmiss hwild
    have hne := isEmpty_eq_false_of_ne hname
    simp [getConnection, hmode, hne, hmiss, hwild]
  · intro b1 conn used hmode hname hhit hparen
    have hne := isEmpty_eq_false_of_ne hname
    simp [getConnection, hmode, hne, hhit, hparen]

/-- The port `b`, which has a default, under the wildcard of the list `.*`. -/
theorem implicitNamedPort_lookup_fails_witness :
    (PortConnectionBuilder.create Demo.env [Demo.wildcardAt 1]).getConnection Demo.env
        Demo.portB =
      (.value (Symbol.Port Demo.portB) (some Demo.defaultExpr) [],
       PortConnectionBuilder.create Demo.env [Demo.wildcardAt 1]) :=
  ((implicitNamedPort_lookup_fails Demo.env
      (PortConnectionBuilder.create Demo.env [Demo.wildcardAt 1]) Demo.portB
      (PortConnectionBuilder.create Demo.env [Demo.wildcardAt 1]).wildcardAttrs
      (PortConnectionBuilder.create Demo.env [Demo.wildcardAt 1]).wildcardRange true
      (by rfl)).2.2.2.1 _ (by rfl) (by decide) (by rfl) (by rfl)).trans
    ((implicitNamedPort_lookup_fails Demo.env
      (PortConnectionBuilder.create Demo.env [Demo.wildcardAt 1]) Demo.portB
      (PortConnectionBuilder.create Demo.env [Demo.wildcardAt 1]).wildcardAttrs
      (PortConnectionBuilder.create Demo.env [Demo.wildcardAt 1]).wildcardRange true
      (by rfl)).1 rfl Demo.defaultExpr (by rfl))


/-! ## What the processing of one port changes in the builder -/

theorem Frame.refl (b : PortConnectionBuilder) : Frame b b :=
  ⟨[], b.warnedAboutUnnamed, by simp, by simp⟩

theorem Frame.trans {a b c : PortConnectionBuilder} (h1 : Frame a b) (h2 : Frame b c) :
    Frame a c := by
  obtain ⟨ds1, w1, rfl, hd1⟩ := h1
  obtain ⟨ds2, w2, rfl, hd2⟩ := h2
  refine ⟨ds1 ++ ds2, w2, by simp, ?_⟩
  intro d hd
  rcases List.mem_append.mp hd with h | h
  · exact hd1 d h
  · exact hd2 d h

theorem Frame.addDiag (b : PortConnectionBuilder) (d : Diagnostic)
    (h : isPortDiag d.code = true) : Frame b (b.addDiag d) :=
  ⟨[d], b.warnedAboutUnnamed, rfl, by simpa using h⟩

theorem createConnection_frame {α : Type} [TPort α] (env : Env) (b : PortConnectionBuilder)
    (port : α) (stx : PropertyExprSyntax) (attributes : List AttributeSymbol) :
    Frame b (b.createConnection env port stx attributes).2 := by
  unfold createConnection
  split
  · exact Frame.addDiag _ _ rfl
  · split
    · exact Frame.refl _
    · exact Frame.refl _

theorem implicitNamedPort_frame {α : Type} [TPort α] (env : Env) (b : PortConnectionBuilder)
    (port : α) (attributes : List AttributeSymbol) (range : SourceRange) (isWildcard : Bool) :
    Frame b (b.implicitNamedPort env port attributes range isWildcard).2 := by
  unfold implicitNamedPort
  repeat' first | split | dsimp only
  all_goals first
    | exact Frame.refl _
    | exact Frame.addDiag _ _ rfl
    | (refine Frame.trans (Frame.addDiag _ _ ?_) (Frame.addDiag _ _ ?_) <;> rfl)

theorem getInterfaceInstance_frame (env : Env) (b : PortConnectionBuilder)
    (port : InterfacePortSymbol) (portDef : Definition) (portDims : List ConstantRange)
    (symbol : Symbol) (providedModport : String) (range : SourceRange)
    (r : Option Symbol × PortConnectionBuilder)
    (h : b.getInterfaceInstance env port portDef portDims symbol providedModport range = .ok r) :
    Frame b r.2 := by
  unfold getInterfaceInstance at h
  repeat' first | split at h | dsimp only at h
  all_goals
    cases h
    try first | exact Frame.refl _ | exact Frame.addDiag _ _ rfl


theorem getInterface_frame (env : Env) (b : PortConnectionBuilder)
    (port : InterfacePortSymbol) (symbol : Symbol) (providedModport : String)
    (range : SourceRange) (r : Option Symbol × PortConnectionBuilder)
    (h : b.getInterface env port symbol providedModport range = .ok r) : Frame b r.2 := by
  unfold getInterface at h
  repeat' first | split at h | dsimp only at h
  all_goals first
    | exact getInterfaceInstance_frame _ _ _ _ _ _ _ _ _ h
    | (cases h; try first | exact Frame.refl _ | exact Frame.addDiag _ _ rfl)

theorem getInterfaceExpr_frame (env : Env) (b : PortConnectionBuilder)
    (port : InterfacePortSymbol) (stx : PropertyExprSyntax) (attributes : List AttributeSymbol)
    (r : PortConnection × PortConnectionBuilder)
    (h : b.getInterfaceExpr env port stx attributes = .ok r) : Frame b r.2 := by
  unfold getInterfaceExpr at h
  repeat' first | split at h | dsimp only at h
  all_goals
    cases h
    try first
      | exact Frame.refl _
      | exact Frame.addDiag _ _ rfl
      | exact getInterface_frame _ _ _ _ _ _ _ (by assumption)

theorem getImplicitInterface_frame (env : Env) (b : PortConnectionBuilder)
    (port : InterfacePortSymbol) (range : SourceRange) (attributes : List AttributeSymbol)
    (r : PortConnection × PortConnectionBuilder)
    (h : b.getImplicitInterface env port range attributes = .ok r) : Frame b r.2 := by
  unfold getImplicitInterface at h
  repeat' first | split at h | dsimp only at h
  all_goals
    cases h
    try first
      | exact Frame.refl _
      | exact Frame.addDiag _ _ rfl
      | exact getInterface_frame _ _ _ _ _ _ _ (by assumption)
      | (refine Frame.trans (Frame.addDiag _ _ ?_)
          (getInterface_frame _ _ _ _ _ _ (_, _) (by assumption))
         rfl)

theorem reportUnconnected_frame (env : Env) (b : PortConnectionBuilder)
    (port : InterfacePortSymbol) : Frame b (b.reportUnconnected env port).2 :=
  Frame.addDiag _ _ rfl


theorem markUsed_of_miss (b : PortConnectionBuilder) (name : String)
    (h : b.findNamed name = none) : b.markUsed name = b := by
  have hfind : b.namedConns.find? (fun e => e.1 == name) = none := by
    unfold findNamed at h
    cases hf : b.namedConns.find? (fun e => e.1 == name) with
    | none => rfl
    | some e => rw [hf] at h; cases h
  have hall : ∀ e ∈ b.namedConns, (e.1 == name) = false := by
    intro e he
    have := List.find?_eq_none.mp hfind e he
    simpa using this
  have hmap : b.namedConns.map
      (fun e => if e.1 == name then (e.1, e.2.1, true) else e) = b.namedConns := by
    conv_rhs => rw [← List.map_id b.namedConns]
    apply List.map_congr_left
    intro e he
    simp [hall e he]
  unfold markUsed
  rw [hmap]

theorem warnUnnamed_frame {α : Type} [TPort α] (env : Env) (b : PortConnectionBuilder)
    (port : α) : Frame b (warnUnnamed env b port) := by
  unfold warnUnnamed
  split
  · exact ⟨[_], true, rfl, by intro d hd; rw [List.mem_singleton.mp hd]; rfl⟩
  · exact Frame.refl _

theorem PortStep.of_frame_ordered {name : String} {b c : PortConnectionBuilder}
    (hm : b.usingOrdered = true)
    (h : Frame { b with orderedIndex := b.orderedIndex + 1 } c) : PortStep name b c := by
  obtain ⟨ds, w, rfl, hd⟩ := h
  exact ⟨rfl, rfl, rfl, rfl, rfl, rfl, by simp [hm], by simp [hm], ds, rfl, hd⟩

theorem PortStep.of_frame_marked {name : String} {b c : PortConnectionBuilder}
    (hm : b.usingOrdered = false) (hne : name.isEmpty = false)
    (h : Frame (b.markUsed name) c) : PortStep name b c := by
  obtain ⟨ds, w, rfl, hd⟩ := h
  exact ⟨rfl, rfl, rfl, rfl, rfl, rfl, by simp [hm, markUsed], by simp [hm, hne], ds, rfl, hd⟩

theorem PortStep.of_frame_unnamed {name : String} {b c : PortConnectionBuilder}
    (hm : b.usingOrdered = false) (he : name.isEmpty = true)
    (h : Frame b c) : PortStep name b c := by
  obtain ⟨ds, w, rfl, hd⟩ := h
  exact ⟨rfl, rfl, rfl, rfl, rfl, rfl, by simp [hm], by simp [he], ds, rfl, hd⟩

theorem PortStep.of_frame_miss {name : String} {b c : PortConnectionBuilder}
    (hm : b.usingOrdered = false) (hmiss : b.findNamed name = none)
    (h : Frame b c) : PortStep name b c := by
  obtain ⟨ds, w, rfl, hd⟩ := h
  refine ⟨rfl, rfl, rfl, rfl, rfl, rfl, by simp [hm], ?_, ds, rfl, hd⟩
  rw [markUsed_of_miss b name hmiss]
  simp

theorem getConnection_step {α : Type} [TPort α] (env : Env) (b : PortConnectionBuilder)
    (port : α) : PortStep (TPort.name port) b (b.getConnection env port).2 := by
  cases hm : b.usingOrdered with
  | true =>
    apply PortStep.of_frame_ordered hm
    unfold getConnection
    simp only [hm, if_true]
    split
    · repeat' split
      · exact Frame.refl _
      · exact warnUnnamed_frame env _ port
      · exact Frame.addDiag _ _ rfl
    · split
      · exact createConnection_frame env _ port _ _
      · exact Frame.refl _
  | false =>
    cases he : (TPort.name port).isEmpty with
    | true =>
      apply PortStep.of_frame_unnamed hm he
      unfold getConnection
      simp only [hm, he, if_true, Bool.false_eq_true, if_false]
      exact warnUnnamed_frame env _ port
    | false =>
      cases hf : b.findNamed (TPort.name port) with
      | none =>
        apply PortStep.of_frame_miss hm hf
        unfold getConnection
        simp only [hm, he, hf, Bool.false_eq_true, if_false]
        repeat' split
        · exact implicitNamedPort_frame env _ port _ _ _
        · exact Frame.refl _
        · exact Frame.addDiag _ _ rfl
      | some it =>
        apply PortStep.of_frame_marked hm he
        unfold getConnection
        simp only [hm, he, hf, Bool.false_eq_true, if_false]
        repeat' split
        · exact createConnection_frame env _ port _ _
        · exact Frame.refl _
        · exact implicitNamedPort_frame env _ port _ _ _


theorem skipConnection_step (b : PortConnectionBuilder) (name : String)
    (he : name.isEmpty = false) : PortStep name b (b.skipConnection name) := by
  unfold skipConnection
  by_cases hm : b.usingOrdered = true
  · rw [if_pos hm]
    exact PortStep.of_frame_ordered hm (Frame.refl _)
  · rw [if_neg hm]
    have hm2 : b.usingOrdered = false := by simpa using hm
    cases hf : b.findNamed name with
    | none => exact PortStep.of_frame_miss hm2 hf (Frame.refl _)
    | some it => exact PortStep.of_frame_marked hm2 he (Frame.refl _)

theorem getIfaceConnection_step (env : Env) (b : PortConnectionBuilder)
    (port : InterfacePortSymbol) (r : PortConnection × PortConnectionBuilder)
    (h : b.getIfaceConnection env port = .ok r) : PortStep port.name b r.2 := by
  unfold getIfaceConnection at h
  cases he : port.name.isEmpty with
  | true => simp [he] at h
  | false =>
    simp only [he, Bool.false_eq_true, if_false] at h
    split at h
    · cases h
      exact skipConnection_step b port.name he
    · by_cases hm : b.usingOrdered = true
      · apply PortStep.of_frame_ordered hm
        rw [if_pos hm] at h
        try dsimp only at h
        split at h
        · cases h
          exact reportUnconnected_frame env _ port
        · exact getInterfaceExpr_frame _ _ _ _ _ _ h
      · rw [if_neg hm] at h
        have hm2 : b.usingOrdered = false := by simpa using hm
        cases hf : b.findNamed port.name with
        | none =>
          apply PortStep.of_frame_miss hm2 hf
          rw [hf] at h
          try dsimp only at h
          split at h
          · exact getImplicitInterface_frame _ _ _ _ _ _ h
          · cases h
            exact reportUnconnected_frame env _ port
        | some it =>
          apply PortStep.of_frame_marked hm2 he
          rw [hf] at h
          try dsimp only at h
          split at h
          · split at h
            · cases h
              exact reportUnconnected_frame env _ port
            · exact getInterfaceExpr_frame _ _ _ _ _ _ h
          · exact getImplicitInterface_frame _ _ _ _ _ _ h

/-! ## What the loop over the ports changes in the builder -/

theorem markAll_nil (conns : List (String × NamedPortConnectionSyntax × Bool)) :
    markAll [] conns = conns := by
  simp [markAll]

theorem markAll_cons (name : String) (names : List String)
    (conns : List (String × NamedPortConnectionSyntax × Bool)) :
    markAll names (conns.map (fun e => if e.1 == name then (e.1, e.2.1, true) else e)) =
      markAll (name :: names) conns := by
  simp only [markAll, List.map_map]
  apply List.map_congr_left
  intro e _
  by_cases h1 : e.1 = name
  · simp [h1, List.contains_cons]
  · simp [h1, List.contains_cons]

theorem Run.nil (b : PortConnectionBuilder) : Run [] b b := by
  refine ⟨rfl, rfl, rfl, rfl, rfl, rfl, by simp, ?_, [], by simp, by simp⟩
  simp [markAll_nil]

theorem Run.cons {name : String} {names : List String} {a b c : PortConnectionBuilder}
    (h1 : PortStep name a b) (h2 : Run names b c) : Run (name :: names) a c := by
  obtain ⟨ds1, hd1, hc1⟩ := h1.diags
  obtain ⟨ds2, hd2, hc2⟩ := h2.diags
  refine ⟨h2.instanceDims.trans h1.instanceDims, h2.orderedConns.trans h1.orderedConns,
    h2.wildcardAttrs.trans h1.wildcardAttrs, h2.wildcardRange.trans h1.wildcardRange,
    h2.usingOrdered.trans h1.usingOrdered, h2.hasWildcard.trans h1.hasWildcard, ?_, ?_,
    ds1 ++ ds2, ?_, ?_⟩
  · rw [h2.orderedIndex, h1.usingOrdered, h1.orderedIndex]
    cases a.usingOrdered <;> simp
    omega
  · rw [h2.namedConns, h1.usingOrdered, h1.namedConns]
    cases hm : a.usingOrdered with
    | true => simp
    | false =>
      cases he : name.isEmpty with
      | true => simp [he]
      | false =>
        simp only [Bool.false_eq_true, if_false, Bool.or_self, markUsed, List.filter_cons, he,
          Bool.not_false, if_true]
        exact markAll_cons name _ _
  · rw [hd2, hd1, List.append_assoc]
  · intro d hd
    rcases List.mem_append.mp hd with h | h
    · exact hc1 d h
    · exact hc2 d h

/-- The loop of `makeConnections` runs the ports of the list in order. -/
theorem connectPorts_run (env : Env) (ports : List Symbol) :
    ∀ (b : PortConnectionBuilder) (results : PointerMap)
      (r : PortConnectionBuilder × PointerMap),
      connectPorts env ports b results = .ok r → Run (ports.map Symbol.name) b r.1 := by
  induction ports with
  | nil =>
    intro b results r h
    simp only [connectPorts] at h
    cases h
    exact Run.nil b
  | cons portBase rest ih =>
    intro b results r h
    cases portBase with
    | Port port =>
      simp only [connectPorts] at h
      exact Run.cons (getConnection_step env b port) (ih _ _ r h)
    | MultiPort port =>
      simp only [connectPorts] at h
      exact Run.cons (getConnection_step env b port) (ih _ _ r h)
    | InterfacePort port =>
      simp only [connectPorts] at h
      split at h
      · cases h
      · rename_i r1 hr1
        exact Run.cons (getIfaceConnection_step env b port r1 hr1) (ih _ _ r h)
    | Modport a n l d => simp [connectPorts] at h
    | Instance a n l d => simp [connectPorts] at h
    | InstanceArray a n l rg es => simp [connectPorts] at h
    | Variable a n l t => simp [connectPorts] at h
    | Other a n l => simp [connectPorts] at h

/-! ## `makeConnections`: the constructor, the loop, `finalize` -/

theorem countCode_zero (code : DiagCode) (ds : List Diagnostic)
    (h : ∀ d ∈ ds, d.code ≠ code) : countCode code ds = 0 := by
  unfold countCode
  apply List.countP_eq_zero.mpr
  intro d hd
  simpa using h d hd

theorem makeConnections_ok (env : Env) (ports : List Symbol)
    (conns : List PortConnectionSyntax) (results : PointerMap)
    (r : PortConnectionBuilder × PointerMap)
    (h : makeConnections env ports conns results = .ok r) :
    ∃ c : PortConnectionBuilder,
      connectPorts env ports (PortConnectionBuilder.create env conns) results = .ok (c, r.2) ∧
      r.1 = c.finalize env := by
  unfold makeConnections at h
  split at h
  · cases h
  · rename_i c res hc
    cases h
    exact ⟨c, hc, rfl⟩

/-- The diagnostics of `finalize` in ordered mode. -/
theorem finalize_ordered (env : Env) (b : PortConnectionBuilder)
    (hmode : b.usingOrdered = true) :
    (b.finalize env).diags = b.diags ++
      (if h : b.orderedIndex < b.orderedConns.length then
        [{ code := .TooManyPortConnections,
           location := (b.orderedConns[b.orderedIndex]).firstTokenLocation,
           args := [.str env.definitionName, .num b.orderedConns.length, .num b.orderedIndex] }]
       else []) := by
  unfold finalize
  rw [if_pos hmode]
  by_cases h : b.orderedIndex < b.orderedConns.length
  · rw [dif_pos h, dif_pos h]
    rfl
  · rw [dif_neg h, dif_neg h]
    simp

/-- The diagnostics of `finalize` in named mode. -/
theorem finalize_named (env : Env) (b : PortConnectionBuilder)
    (hmode : b.usingOrdered = false) :
    (b.finalize env).diags = b.diags ++
      (b.namedConns.filter (fun pair => !pair.2.2)).map (fun pair =>
        ({ code := .PortDoesNotExist, location := pair.2.1.name.location,
           args := [.str pair.2.1.name.valueText, .str env.definitionName] } : Diagnostic)) := by
  unfold finalize
  rw [if_neg (by rw [hmode]; decide)]
  rfl

/-- The diagnostics that `finalize` adds are `TooManyPortConnections` and
`PortDoesNotExist`. -/
theorem finalize_diags (env : Env) (b : PortConnectionBuilder) :
    ∃ fs : List Diagnostic, (b.finalize env).diags = b.diags ++ fs ∧
      ∀ d ∈ fs, d.code = .TooManyPortConnections ∨ d.code = .PortDoesNotExist := by
  cases hmode : b.usingOrdered with
  | true =>
    refine ⟨_, finalize_ordered env b hmode, ?_⟩
    intro d hd
    split at hd
    · rw [List.mem_singleton.mp hd]
      exact Or.inl rfl
    · cases hd
  | false =>
    refine ⟨_, finalize_named env b hmode, ?_⟩
    intro d hd
    obtain ⟨e, _, he⟩ := List.mem_map.mp hd
    rw [← he]
    exact Or.inr rfl

/-- The number of diagnostics of a code that neither the loop over the ports nor
`finalize` adds is the number the constructor leaves. -/
theorem makeConnections_countCode (env : Env) (ports : List Symbol)
    (conns : List PortConnectionSyntax) (results : PointerMap)
    (r : PortConnectionBuilder × PointerMap) (code : DiagCode)
    (h : makeConnections env ports conns results = .ok r)
    (h1 : isPortDiag code = false) (h2 : code ≠ .TooManyPortConnections)
    (h3 : code ≠ .PortDoesNotExist) :
    countCode code r.1.diags =
      countCode code (PortConnectionBuilder.create env conns).diags := by
  obtain ⟨c, hc, hr⟩ := makeConnections_ok env ports conns results r h
  have hrun := connectPorts_run env ports _ _ _ hc
  obtain ⟨ds, hds, hcodes⟩ := hrun.diags
  obtain ⟨fs, hfs, hfcodes⟩ := finalize_diags env c
  rw [hr, hfs, hds, countCode_append, countCode_append]
  have z1 : countCode code ds = 0 := by
    apply countCode_zero
    intro d hd hcode
    have := hcodes d hd
    rw [hcode, h1] at this
    cases this
  have z2 : countCode code fs = 0 := by
    apply countCode_zero
    intro d hd hcode
    rcases hfcodes d hd with hf | hf
    · exact h2 (hcode ▸ hf)
    · exact h3 (hcode ▸ hf)
  rw [z1, z2]
  rfl

/-- C9: the mode of the resolver is the style of the first connection, ordered
when there is none; `MixingOrderedAndNamedPorts` is added by the constructor
exactly when some connection of the list has another style than the first one,
and then once; nothing else that `makeConnections` does for the instance adds
it. -/
theorem create_mode_and_mixing (env : Env) (conns : List PortConnectionSyntax) :
    (PortConnectionBuilder.create env conns).usingOrdered =
        (match conns with
         | [] => true
         | first :: _ => first.isOrdered) ∧
      countCode .MixingOrderedAndNamedPorts (PortConnectionBuilder.create env conns).diags =
        (match conns with
         | [] => 0
         | first :: rest => if ∃ c ∈ rest, c.isOrdered ≠ first.isOrdered then 1 else 0) ∧
      countCode .MixingOrderedAndNamedPorts (PortConnectionBuilder.create env conns).diags ≤ 1 ∧
      (countCode .MixingOrderedAndNamedPorts (PortConnectionBuilder.create env conns).diags = 1 ↔
        ∃ first, conns.head? = some first ∧ ∃ c ∈ conns, c.isOrdered ≠ first.isOrdered) ∧
      (∀ (ports : List Symbol) (results : PointerMap) (r : PortConnectionBuilder × PointerMap),
        makeConnections env ports conns results = .ok r →
        countCode .MixingOrderedAndNamedPorts r.1.diags =
          countCode .MixingOrderedAndNamedPorts
            (PortConnectionBuilder.create env conns).diags) := by
  have hlast : ∀ (ports : List Symbol) (results : PointerMap)
      (r : PortConnectionBuilder × PointerMap),
      makeConnections env ports conns results = .ok r →
      countCode .MixingOrderedAndNamedPorts r.1.diags =
        countCode .MixingOrderedAndNamedPorts
          (PortConnectionBuilder.create env conns).diags := by
    intro ports results r h
    exact makeConnections_countCode env ports conns results r _ h rfl (by decide) (by decide)
  cases conns with
  | nil =>
    have h0 : countCode .MixingOrderedAndNamedPorts
        (PortConnectionBuilder.create env []).diags = 0 := rfl
    refine ⟨rfl, rfl, by rw [h0]; decide, ?_, hlast⟩
    constructor
    · intro h
      rw [h0] at h
      cases h
    · rintro ⟨first, hf, _⟩
      cases hf
  | cons first rest =>
    have hs : scan env (first :: rest) false {} =
        scan env rest true (record env { usingOrdered := first.isOrdered } first) := rfl
    have hmode : (record env { usingOrdered := first.isOrdered } first).usingOrdered =
        first.isOrdered := by rw [record_usingOrdered]
    have hcount0 : countCode .MixingOrderedAndNamedPorts
        (record env { usingOrdered := first.isOrdered } first).diags = 0 := by
      rw [record_countMixing]
      rfl
    have hsc := scan_true env rest (record env { usingOrdered := first.isOrdered } first)
    rw [hmode, hcount0, Nat.zero_add] at hsc
    have hu : (PortConnectionBuilder.create env (first :: rest)).usingOrdered =
        first.isOrdered := by
      show (scan env (first :: rest) false {}).usingOrdered = first.isOrdered
      rw [hs]
      exact hsc.1
    have hcnt : countCode .MixingOrderedAndNamedPorts
        (PortConnectionBuilder.create env (first :: rest)).diags =
        if ∃ c ∈ rest, c.isOrdered ≠ first.isOrdered then 1 else 0 := by
      show countCode .MixingOrderedAndNamedPorts (scan env (first :: rest) false {}).diags = _
      rw [hs]
      exact hsc.2
    refine ⟨hu, hcnt, ?_, ?_, hlast⟩
    · rw [hcnt]
      split <;> decide
    · rw [hcnt]
      constructor
      · intro h
        by_cases hex : ∃ c ∈ rest, c.isOrdered ≠ first.isOrdered
        · obtain ⟨c, hc, hne⟩ := hex
          exact ⟨first, rfl, c, List.mem_cons_of_mem _ hc, hne⟩
        · rw [if_neg hex] at h
          cases h
      · rintro ⟨f, hf, c, hc, hne⟩
        have hff : first = f := by
          simp only [List.head?_cons, Option.some.injEq] at hf
          exact hf
        subst hff
        rcases List.mem_cons.mp hc with hc | hc
        · exact absurd (hc ▸ rfl) hne
        · rw [if_pos ⟨c, hc, hne⟩]

/-! ## `finalize`: too many ordered connections -/

theorem scan_all_ordered (env : Env) (conns : List PortConnectionSyntax) :
    ∀ (hasConnections : Bool) (b : PortConnectionBuilder),
      (∀ c ∈ conns, c.isOrdered = true) → (hasConnections = true → b.usingOrdered = true) →
      (scan env conns hasConnections b).orderedConns = b.orderedConns ++ conns := by
  induction conns with
  | nil => intro _ b _ _; simp [scan]
  | cons conn rest ih =>
    intro hasConnections b hall hb
    have hconn : conn.isOrdered = true := hall conn (List.mem_cons_self _ _)
    have hrest : ∀ c ∈ rest, c.isOrdered = true :=
      fun c hc => hall c (List.mem_cons_of_mem _ hc)
    have hrec : ∀ b1 : PortConnectionBuilder,
        (record env b1 conn).orderedConns = b1.orderedConns ++ [conn] := by
      intro b1
      cases conn with
      | Ordered s => rfl
      | Empty s => rfl
      | Named s => cases hconn
      | Wildcard s => cases hconn
    cases hasConnections with
    | false =>
      have hs : scan env (conn :: rest) false b =
          scan env rest true (record env { b with usingOrdered := conn.isOrdered } conn) := rfl
      rw [hs, ih true _ hrest (by intro _; rw [record_usingOrdered]; exact hconn), hrec]
      simp
    | true =>
      have hbo : b.usingOrdered = true := hb rfl
      have hs : scan env (conn :: rest) true b = scan env rest true (record env b conn) := by
        simp [scan, hconn, hbo]
      rw [hs, ih true _ hrest (by intro _; rw [record_usingOrdered]; exact hbo), hrec]
      simp

theorem create_all_ordered (env : Env) (conns : List PortConnectionSyntax)
    (hall : ∀ c ∈ conns, c.isOrdered = true) :
    (PortConnectionBuilder.create env conns).orderedConns = conns := by
  have h := scan_all_ordered env conns false {} hall (by intro h; cases h)
  show (scan env conns false {}).orderedConns = conns
  rw [h]
  rfl

/-- C7: in ordered mode, `makeConnections` ends with exactly one
`TooManyPortConnections` when the builder recorded more ordered connections than
there are formal ports, and with none otherwise; the diagnostic is put at the
first connection in excess and carries the name of the definition, the number of
connections recorded and the number of ports.  The connections recorded are the
connections supplied when all of them are ordered. -/
theorem makeConnections_tooMany (env : Env) (ports : List Symbol)
    (conns : List PortConnectionSyntax) (results : PointerMap)
    (r : PortConnectionBuilder × PointerMap)
    (hok : makeConnections env ports conns results = .ok r)
    (hmode : (PortConnectionBuilder.create env conns).usingOrdered = true) :
    countCode .TooManyPortConnections r.1.diags =
        (if ports.length < (PortConnectionBuilder.create env conns).orderedConns.length
         then 1 else 0) ∧
      (∀ d ∈ r.1.diags, d.code = .TooManyPortConnections →
        d.args = [.str env.definitionName,
          .num (PortConnectionBuilder.create env conns).orderedConns.length,
          .num ports.length] ∧
        ∃ pc, (PortConnectionBuilder.create env conns).orderedConns[ports.length]? = some pc ∧
          d.location = pc.firstTokenLocation) ∧
      ((∀ c ∈ conns, c.isOrdered = true) →
        (PortConnectionBuilder.create env conns).orderedConns = conns) := by
  obtain ⟨c, hc, hr⟩ := makeConnections_ok env ports conns results r hok
  have hrun := connectPorts_run env ports _ _ _ hc
  have hinv := create_ctorInv env conns
  obtain ⟨ds, hds, hcodes⟩ := hrun.diags
  have hcm : c.usingOrdered = true := hrun.usingOrdered.trans hmode
  have hidx : c.orderedIndex = ports.length := by
    have := hrun.orderedIndex
    rw [hmode, if_pos rfl, hinv.orderedIndex] at this
    simpa using this
  have hoc : c.orderedConns = (PortConnectionBuilder.create env conns).orderedConns :=
    hrun.orderedConns
  have hfin := finalize_ordered env c hcm
  have hz1 : countCode .TooManyPortConnections
      (PortConnectionBuilder.create env conns).diags = 0 := by
    apply countCode_zero
    intro d hd hcode
    have := hinv.diags d hd
    rw [hcode] at this
    cases this
  have hz2 : countCode .TooManyPortConnections ds = 0 := by
    apply countCode_zero
    intro d hd hcode
    have := hcodes d hd
    rw [hcode] at this
    cases this
  have hcd : c.diags = (PortConnectionBuilder.create env conns).diags ++ ds := hds
  refine ⟨?_, ?_, create_all_ordered env conns⟩
  · rw [hr, hfin, hcd, countCode_append, countCode_append, hz1, hz2, hidx, hoc]
    by_cases hlt : ports.length < (PortConnectionBuilder.create env conns).orderedConns.length
    · rw [dif_pos hlt, if_pos hlt, countCode_singleton]
      simp
    · rw [dif_neg hlt, if_neg hlt]
      rfl
  · intro d hd hcode
    rw [hr, hfin, hcd] at hd
    rcases List.mem_append.mp hd with hd | hd
    · rcases List.mem_append.mp hd with hd | hd
      · have := hinv.diags d hd
        rw [hcode] at this
        cases this
      · have := hcodes d hd
        rw [hcode] at this
        cases this
    · by_cases hlt : c.orderedIndex < c.orderedConns.length
      · rw [dif_pos hlt] at hd
        rw [List.mem_singleton.mp hd]
        refine ⟨by simp only [hoc, hidx], c.orderedConns[c.orderedIndex], ?_, rfl⟩
        rw [← hoc, ← hidx]
        exact List.getElem?_eq_getElem hlt
      · rw [dif_neg hlt] at hd
        cases hd

/-- Two ordered connections for the single port `a`. -/
theorem makeConnections_tooMany_witness :
    countCode .TooManyPortConnections
        (PortConnectionBuilder.finalize Demo.env
          ((PortConnectionBuilder.create Demo.env
            [Demo.ordered 1, Demo.ordered 2]).getConnection Demo.env Demo.portA).2).diags = 1 :=
  (makeConnections_tooMany Demo.env [Symbol.Port Demo.portA] [Demo.ordered 1, Demo.ordered 2] []
    (PortConnectionBuilder.finalize Demo.env
      ((PortConnectionBuilder.create Demo.env
        [Demo.ordered 1, Demo.ordered 2]).getConnection Demo.env Demo.portA).2,
     PointerMap.emplace [] Demo.portA.addr
      ((PortConnectionBuilder.create Demo.env
        [Demo.ordered 1, Demo.ordered 2]).getConnection Demo.env Demo.portA).1)
    (by rfl) (by rfl)).1

/-! ## `finalize`: named connections for ports that do not exist -/

theorem filter_append_codes (code : DiagCode) (xs ys : List Diagnostic)
    (hx : ∀ d ∈ xs, d.code ≠ code) (hy : ∀ d ∈ ys, d.code = code) :
    (xs ++ ys).filter (fun d => d.code == code) = ys := by
  rw [List.filter_append]
  have h1 : xs.filter (fun d => d.code == code) = [] := by
    apply List.filter_eq_nil_iff.mpr
    intro d hd
    simpa using hx d hd
  have h2 : ys.filter (fun d => d.code == code) = ys := by
    apply List.filter_eq_self.mpr
    intro d hd
    simpa using hy d hd
  rw [h1, h2]
  rfl

theorem markAll_unused (names : List String)
    (f : String × NamedPortConnectionSyntax × Bool → Diagnostic) :
    ∀ conns : List (String × NamedPortConnectionSyntax × Bool),
      (∀ e ∈ conns, e.2.2 = false) →
      ((markAll names conns).filter (fun pair => !pair.2.2)).map f =
        (conns.filter (fun e => !names.contains e.1)).map f := by
  intro conns
  induction conns with
  | nil => intro _; rfl
  | cons e rest ih =>
    intro hall
    have he : e.2.2 = false := hall e (List.mem_cons_self _ _)
    have hrest := ih (fun x hx => hall x (List.mem_cons_of_mem _ hx))
    unfold markAll at hrest ⊢
    rw [List.map_cons]
    by_cases hc : names.contains e.1 = true
    · rw [if_pos hc, List.filter_cons, List.filter_cons]
      simp only [Bool.not_true, Bool.false_eq_true, if_false, hc]
      exact hrest
    · rw [if_neg hc, List.filter_cons, List.filter_cons]
      have hc2 : names.contains e.1 = false := by simpa using hc
      simp only [he, hc2, Bool.not_false, if_true, List.map_cons]
      rw [hrest]

/-- C8: in named mode, the `PortDoesNotExist` diagnostics that `makeConnections`
ends with are, in the order of the record, one for every recorded named
connection whose name is the name of no port of the list, and no other; the
recorded connections have pairwise different names, so none is reported twice. -/
theorem makeConnections_portDoesNotExist (env : Env) (ports : List Symbol)
    (conns : List PortConnectionSyntax) (results : PointerMap)
    (r : PortConnectionBuilder × PointerMap)
    (hok : makeConnections env ports conns results = .ok r)
    (hmode : (PortConnectionBuilder.create env conns).usingOrdered = false) :
    r.1.diags.filter (fun d => d.code == .PortDoesNotExist) =
        (((PortConnectionBuilder.create env conns).namedConns.filter
            (fun e => !(ports.map Symbol.name).contains e.1)).map
          (fun e => ({ code := .PortDoesNotExist, location := e.2.1.name.location,
                       args := [.str e.2.1.name.valueText, .str env.definitionName] } :
                     Diagnostic))) ∧
      ((PortConnectionBuilder.create env conns).namedConns.map (fun e => e.1)).Nodup ∧
      (∀ e ∈ (PortConnectionBuilder.create env conns).namedConns,
        e.1 = e.2.1.name.valueText) := by
  obtain ⟨c, hc, hr⟩ := makeConnections_ok env ports conns results r hok
  have hrun := connectPorts_run env ports _ _ _ hc
  have hinv := create_ctorInv env conns
  obtain ⟨ds, hds, hcodes⟩ := hrun.diags
  have hcm : c.usingOrdered = false := hrun.usingOrdered.trans hmode
  have hnc : c.namedConns = markAll ((ports.map Symbol.name).filter (fun n => !n.isEmpty))
      (PortConnectionBuilder.create env conns).namedConns := by
    have := hrun.namedConns
    rw [hmode] at this
    simpa using this
  have hcd : c.diags = (PortConnectionBuilder.create env conns).diags ++ ds := hds
  refine ⟨?_, hinv.nodup, fun e he => (hinv.keys e he).1⟩
  rw [hr, finalize_named env c hcm, hnc]
  rw [filter_append_codes]
  · rw [markAll_unused _ _ _ hinv.unused]
    congr 1
    apply List.filter_congr
    intro e he
    have hne : e.1 ≠ "" := (hinv.keys e he).2
    have hiff : ((ports.map Symbol.name).filter (fun n => !n.isEmpty)).contains e.1 =
        (ports.map Symbol.name).contains e.1 := by
      rw [Bool.eq_iff_iff]
      simp only [List.contains_eq_any_beq, List.any_eq_true, List.mem_filter, beq_iff_eq]
      constructor
      · rintro ⟨x, ⟨hx, _⟩, hxe⟩
        exact ⟨x, hx, hxe⟩
      · rintro ⟨x, hx, hxe⟩
        refine ⟨x, ⟨hx, ?_⟩, hxe⟩
        rw [hxe] at hne
        simp [isEmpty_eq_false_of_ne hne]
    rw [hiff]
  · intro d hd hcode
    rw [hcd] at hd
    rcases List.mem_append.mp hd with hd | hd
    · have := hinv.diags d hd
      rw [hcode] at this
      cases this
    · have := hcodes d hd
      rw [hcode] at this
      cases this
  · intro d hd
    obtain ⟨e, _, he⟩ := List.mem_map.mp hd
    rw [← he]

/-- The connections `.a(1), .x(2)` for the single port `a`: `x` does not exist. -/
theorem makeConnections_portDoesNotExist_witness :
    (PortConnectionBuilder.finalize Demo.env
        ((PortConnectionBuilder.create Demo.env
          [.Named (Demo.namedNode "a" 1 true true),
           .Named (Demo.namedNode "x" 2 true true)]).getConnection Demo.env
            Demo.portA).2).diags.filter (fun d => d.code == .PortDoesNotExist) =
      [{ code := .PortDoesNotExist, location := 2, args := [.str "x", .str "m"] }] :=
  (makeConnections_portDoesNotExist Demo.env [Symbol.Port Demo.portA]
    [.Named (Demo.namedNode "a" 1 true true), .Named (Demo.namedNode "x" 2 true true)] []
    (PortConnectionBuilder.finalize Demo.env
      ((PortConnectionBuilder.create Demo.env
        [.Named (Demo.namedNode "a" 1 true true),
         .Named (Demo.namedNode "x" 2 true true)]).getConnection Demo.env Demo.portA).2,
     PointerMap.emplace [] Demo.portA.addr
      ((PortConnectionBuilder.create Demo.env
        [.Named (Demo.namedNode "a" 1 true true),
         .Named (Demo.namedNode "x" 2 true true)]).getConnection Demo.env Demo.portA).1)
    (by rfl) (by rfl)).1

/-! ## The result map of `makeConnections` -/

theorem createConnection_port {α : Type} [TPort α] (env : Env) (b : PortConnectionBuilder)
    (port : α) (stx : PropertyExprSyntax) (attributes : List AttributeSymbol) :
    (b.createConnection env port stx attributes).1.portSymbol = TPort.toSymbol port := by
  unfold createConnection
  repeat' first | split | dsimp only
  all_goals rfl

theorem implicitNamedPort_port {α : Type} [TPort α] (env : Env) (b : PortConnectionBuilder)
    (port : α) (attributes : List AttributeSymbol) (range : SourceRange) (isWildcard : Bool) :
    (b.implicitNamedPort env port attributes range isWildcard).1.portSymbol =
      TPort.toSymbol port := by
  unfold implicitNamedPort
  repeat' first | split | dsimp only
  all_goals rfl

theorem getConnection_port {α : Type} [TPort α] (env : Env) (b : PortConnectionBuilder)
    (port : α) : (b.getConnection env port).1.portSymbol = TPort.toSymbol port := by
  unfold getConnection
  repeat' first | split | dsimp only
  all_goals first
    | rfl
    | exact createConnection_port env _ port _ _
    | exact implicitNamedPort_port env _ port _ _ _

theorem getInterfaceExpr_port (env : Env) (b : PortConnectionBuilder)
    (port : InterfacePortSymbol) (stx : PropertyExprSyntax) (attributes : List AttributeSymbol)
    (r : PortConnection × PortConnectionBuilder)
    (h : b.getInterfaceExpr env port stx attributes = .ok r) :
    r.1.portSymbol = Symbol.InterfacePort port := by
  unfold getInterfaceExpr at h
  repeat' first | split at h | dsimp only at h
  all_goals
    cases h
    try rfl

theorem getImplicitInterface_port (env : Env) (b : PortConnectionBuilder)
    (port : InterfacePortSymbol) (range : SourceRange) (attributes : List AttributeSymbol)
    (r : PortConnection × PortConnectionBuilder)
    (h : b.getImplicitInterface env port range attributes = .ok r) :
    r.1.portSymbol = Symbol.InterfacePort port := by
  unfold getImplicitInterface at h
  repeat' first | split at h | dsimp only at h
  all_goals
    cases h
    try rfl

theorem getIfaceConnection_port (env : Env) (b : PortConnectionBuilder)
    (port : InterfacePortSymbol) (r : PortConnection × PortConnectionBuilder)
    (h : b.getIfaceConnection env port = .ok r) :
    r.1.portSymbol = Symbol.InterfacePort port := by
  unfold getIfaceConnection at h
  split at h
  · cases h
  · split at h
    · cases h
      rfl
    · split at h
      · dsimp only at h
        split at h
        · cases h
          rfl
        · exact getInterfaceExpr_port _ _ _ _ _ _ h
      · split at h
        · split at h
          · exact getImplicitInterface_port _ _ _ _ _ _ h
          · cases h
            rfl
        · dsimp only at h
          split at h
          · split at h
            · cases h
              rfl
            · exact getInterfaceExpr_port _ _ _ _ _ _ h
          · exact getImplicitInterface_port _ _ _ _ _ _ h

theorem PointerMap.mem_emplace (m : PointerMap) (key : Nat) (value : PortConnection)
    (e : Nat × PortConnection) (h : e ∈ m.emplace key value) : e ∈ m ∨ e = (key, value) := by
  unfold PointerMap.emplace at h
  split at h
  · exact Or.inl h
  · rcases List.mem_append.mp h with h | h
    · exact Or.inl h
    · exact Or.inr (List.mem_singleton.mp h)

theorem PointerMap.subset_emplace (m : PointerMap) (key : Nat) (value : PortConnection)
    (e : Nat × PortConnection) (h : e ∈ m) : e ∈ m.emplace key value := by
  unfold PointerMap.emplace
  split
  · exact h
  · exact List.mem_append_left _ h

theorem PointerMap.key_emplace (m : PointerMap) (key : Nat) (value : PortConnection) :
    ∃ e ∈ m.emplace key value, e.1 = key := by
  unfold PointerMap.emplace
  split
  · rename_i h
    obtain ⟨e, he, hk⟩ := List.any_eq_true.mp h
    exact ⟨e, he, by simpa using hk⟩
  · exact ⟨(key, value), List.mem_append_right _ (List.mem_singleton.mpr rfl), rfl⟩

theorem PointerMap.find_of_key (m : PointerMap) (key : Nat)
    (h : ∃ e ∈ m, e.1 = key) : ∃ c, m.find key = some c ∧ (key, c) ∈ m := by
  unfold PointerMap.find
  cases hf : List.find? (fun e => e.1 == key) m with
  | none =>
    obtain ⟨e, he, hk⟩ := h
    have := List.find?_eq_none.mp hf e he
    simp [hk] at this
  | some x =>
    have hx := List.find?_some hf
    have hm := List.mem_of_find?_eq_some hf
    have hk : x.1 = key := by simpa using hx
    refine ⟨x.2, rfl, ?_⟩
    rw [← hk]
    exact hm

/-- The loop of `makeConnections` keeps the entries the map had, adds entries that
are keyed by the address of a port of the list and hold a connection for that port
only, and leaves the map with an entry for the address of every port of the
list. -/
theorem connectPorts_results (env : Env) (ports : List Symbol) :
    ∀ (b : PortConnectionBuilder) (results : PointerMap)
      (r : PortConnectionBuilder × PointerMap),
      connectPorts env ports b results = .ok r →
      (∀ e ∈ results, e ∈ r.2) ∧
      (∀ e ∈ r.2, e ∈ results ∨ (e.2.portSymbol ∈ ports ∧ e.1 = e.2.portSymbol.addr)) ∧
      (∀ p ∈ ports, ∃ e ∈ r.2, e.1 = p.addr) := by
  induction ports with
  | nil =>
    intro b results r h
    simp only [connectPorts] at h
    cases h
    exact ⟨fun e he => he, fun e he => Or.inl he, by intro p hp; cases hp⟩
  | cons portBase rest ih =>
    intro b results r h
    have step : ∀ (conn : PortConnection) (b1 : PortConnectionBuilder),
        conn.portSymbol = portBase →
        connectPorts env rest b1 (results.emplace portBase.addr conn) = .ok r →
        (∀ e ∈ results, e ∈ r.2) ∧
        (∀ e ∈ r.2, e ∈ results ∨
          (e.2.portSymbol ∈ portBase :: rest ∧ e.1 = e.2.portSymbol.addr)) ∧
        (∀ p ∈ portBase :: rest, ∃ e ∈ r.2, e.1 = p.addr) := by
      intro conn b1 hconn hrest
      obtain ⟨h1, h2, h3⟩ := ih _ _ r hrest
      refine ⟨?_, ?_, ?_⟩
      · intro e he
        exact h1 e (PointerMap.subset_emplace _ _ _ e he)
      · intro e he
        rcases h2 e he with h | h
        · rcases PointerMap.mem_emplace _ _ _ e h with h | h
          · exact Or.inl h
          · right
            rw [h]
            exact ⟨by rw [hconn]; exact List.mem_cons_self _ _, by rw [hconn]⟩
        · exact Or.inr ⟨List.mem_cons_of_mem _ h.1, h.2⟩
      · intro p hp
        rcases List.mem_cons.mp hp with hp | hp
        · obtain ⟨e, he, hk⟩ := PointerMap.key_emplace results portBase.addr conn
          exact ⟨e, h1 e he, by rw [hk, hp]⟩
        · exact h3 p hp
    cases portBase with
    | Port port =>
      simp only [connectPorts] at h
      exact step _ _ (getConnection_port env b port) h
    | MultiPort port =>
      simp only [connectPorts] at h
      exact step _ _ (getConnection_port env b port) h
    | InterfacePort port =>
      simp only [connectPorts] at h
      split at h
      · cases h
      · rename_i r1 hr1
        exact step _ _ (getIfaceConnection_port env b port r1 hr1) h
    | Modport a n l d => simp [connectPorts] at h
    | Instance a n l d => simp [connectPorts] at h
    | InstanceArray a n l rg es => simp [connectPorts] at h
    | Variable a n l t => simp [connectPorts] at h
    | Other a n l => simp [connectPorts] at h

/-- The loop of `makeConnections` ends when the list holds ports only and the
resolution of its interface ports fails no assertion. -/
theorem connectPorts_returns (env : Env) (ports : List Symbol)
    (hkind : ∀ s ∈ ports, s.isPortKind = true)
    (hiface : ∀ (ip : InterfacePortSymbol) (b : PortConnectionBuilder),
      Symbol.InterfacePort ip ∈ ports → ∃ r, b.getIfaceConnection env ip = .ok r) :
    ∀ (b : PortConnectionBuilder) (results : PointerMap),
      ∃ r, connectPorts env ports b results = .ok r := by
  induction ports with
  | nil => intro b results; exact ⟨_, rfl⟩
  | cons portBase rest ih =>
    intro b results
    have ih2 := ih (fun s hs => hkind s (List.mem_cons_of_mem _ hs))
      (fun ip b1 hip => hiface ip b1 (List.mem_cons_of_mem _ hip))
    cases portBase with
    | Port port =>
      simp only [connectPorts]
      exact ih2 _ _
    | MultiPort port =>
      simp only [connectPorts]
      exact ih2 _ _
    | InterfacePort port =>
      obtain ⟨r1, hr1⟩ := hiface port b (List.mem_cons_self _ _)
      simp only [connectPorts, hr1]
      exact ih2 _ _
    | Modport a n l d =>
      exact absurd (hkind _ (List.mem_cons_self _ _)) (by simp [Symbol.isPortKind])
    | Instance a n l d =>
      exact absurd (hkind _ (List.mem_cons_self _ _)) (by simp [Symbol.isPortKind])
    | InstanceArray a n l rg es =>
      exact absurd (hkind _ (List.mem_cons_self _ _)) (by simp [Symbol.isPortKind])
    | Variable a n l t =>
      exact absurd (hkind _ (List.mem_cons_self _ _)) (by simp [Symbol.isPortKind])
    | Other a n l =>
      exact absurd (hkind _ (List.mem_cons_self _ _)) (by simp [Symbol.isPortKind])

/-- C1: for a port list whose symbols have consistent addresses, every map that
`makeConnections` produces from the empty map has, for every port of the list
(data port, multi-port or interface port), an entry keyed by the address of that
port, and the connection found under that key refers to that port; every entry
of the map is keyed by the address of the port its connection refers to, and
that port is in the list.  The map is produced whenever the list holds ports
only and the resolution of its interface ports fails no assertion. -/
theorem makeConnections_total (env : Env) (ports : List Symbol)
    (conns : List PortConnectionSyntax)
    (haddr : ∀ p ∈ ports, ∀ q ∈ ports, p.addr = q.addr → p = q) :
    (∀ r, makeConnections env ports conns [] = .ok r →
      (∀ p ∈ ports, ∃ conn, r.2.find p.addr = some conn ∧ conn.portSymbol = p) ∧
      (∀ e ∈ r.2, e.2.portSymbol ∈ ports ∧ e.1 = e.2.portSymbol.addr)) ∧
    ((∀ s ∈ ports, s.isPortKind = true) →
      (∀ (ip : InterfacePortSymbol) (b : PortConnectionBuilder),
        Symbol.InterfacePort ip ∈ ports → ∃ r, b.getIfaceConnection env ip = .ok r) →
      ∃ r, makeConnections env ports conns [] = .ok r) := by
  constructor
  · intro r hok
    obtain ⟨c, hc, _⟩ := makeConnections_ok env ports conns [] r hok
    obtain ⟨_, h2, h3⟩ := connectPorts_results env ports _ _ _ hc
    have hentries : ∀ e ∈ r.2, e.2.portSymbol ∈ ports ∧ e.1 = e.2.portSymbol.addr := by
      intro e he
      rcases h2 e he with h | h
      · cases h
      · exact h
    refine ⟨?_, hentries⟩
    intro p hp
    obtain ⟨conn, hfind, hmem⟩ := PointerMap.find_of_key r.2 p.addr (h3 p hp)
    refine ⟨conn, hfind, ?_⟩
    obtain ⟨hq, hk⟩ := hentries _ hmem
    exact haddr _ hq _ hp hk.symm
  · intro hkind hiface
    obtain ⟨r, hr⟩ := connectPorts_returns env ports hkind hiface
      (PortConnectionBuilder.create env conns) []
    refine ⟨(r.1.finalize env, r.2), ?_⟩
    unfold makeConnections
    rw [hr]

/-- In the environment `Demo.env` the resolution of the interface port `i` fails no
assertion, whatever the state of the builder. -/
theorem Demo.ifaceI_resolves (b : PortConnectionBuilder) :
    ∃ r, b.getIfaceConnection Demo.env Demo.ifaceI = .ok r := by
  have hexpr : ∀ (b1 : PortConnectionBuilder) (e : PropertyExprSyntax)
      (attrs : List AttributeSymbol),
      ∃ r, b1.getInterfaceExpr Demo.env Demo.ifaceI e attrs = .ok r := by
    intro b1 e attrs
    exact ⟨_, rfl⟩
  have himpl : ∀ (b1 : PortConnectionBuilder) (range : SourceRange)
      (attrs : List AttributeSymbol),
      ∃ r, b1.getImplicitInterface Demo.env Demo.ifaceI range attrs = .ok r := by
    intro b1 range attrs
    exact ⟨_, rfl⟩
  unfold getIfaceConnection
  rw [if_neg (by decide), if_neg (by decide)]
  split
  · dsimp only
    split
    · exact ⟨_, rfl⟩
    · exact hexpr _ _ _
  · split
    · split
      · exact himpl _ _ _
      · exact ⟨_, rfl⟩
    · dsimp only
      split
      · split
        · exact ⟨_, rfl⟩
        · exact hexpr _ _ _
      · exact himpl _ _ _

/-- The ports `a`, `{a, b}` and the interface port `i` against the connections
`(1, 2)`: the map is produced and has the entry of the interface port `i`. -/
theorem makeConnections_total_witness :
    ∃ r, makeConnections Demo.env
        [Symbol.Port Demo.portA, Symbol.MultiPort Demo.multiAB, Symbol.InterfacePort Demo.ifaceI]
        [Demo.ordered 1, Demo.ordered 2] [] = .ok r ∧
      ∃ conn, r.2.find Demo.ifaceI.addr = some conn ∧
        conn.portSymbol = Symbol.InterfacePort Demo.ifaceI :=
  have total := makeConnections_total Demo.env
    [Symbol.Port Demo.portA, Symbol.MultiPort Demo.multiAB, Symbol.InterfacePort Demo.ifaceI]
    [Demo.ordered 1, Demo.ordered 2]
    (by
      intro p hp q hq h
      simp only [List.mem_cons, List.mem_singleton, List.not_mem_nil, or_false] at hp hq
      rcases hp with rfl | rfl | rfl <;> rcases hq with rfl | rfl | rfl <;>
        first
          | rfl
          | exact absurd h (by decide))
  match total.2
    (by
      intro s hs
      simp only [List.mem_cons, List.mem_singleton, List.not_mem_nil, or_false] at hs
      rcases hs with rfl | rfl | rfl <;> rfl)
    (by
      intro ip b hip
      have hip2 : ip = Demo.ifaceI := by simpa using hip
      rw [hip2]
      exact Demo.ifaceI_resolves b) with
  | ⟨r, hr⟩ => ⟨r, hr, (total.1 r hr).1 (Symbol.InterfacePort Demo.ifaceI) (by simp)⟩

/-! ## Ordered mode: the port at position `k` and the connection at position `k` -/

/-- C2 as stated fails: of two unnamed ports without default that are left
without an ordered connection, the second gets its empty connection without any
diagnostic, and the whole instance ends with one `UnconnectedUnnamedPort`, not
two; and the non-empty ordered connection `1` at the position of a void port is
not bound: the connection has no expression and `NullPortExpression` is added. -/
theorem getConnection_second_unnamed_silent :
    ((PortConnectionBuilder.create Demo.env []).getConnection Demo.env Demo.unnamed1).2.usingOrdered
        = true ∧
      (((PortConnectionBuilder.create Demo.env []).getConnection Demo.env
          Demo.unnamed1).2.getConnection Demo.env Demo.unnamed2).1.expr = none ∧
      (((PortConnectionBuilder.create Demo.env []).getConnection Demo.env
          Demo.unnamed1).2.getConnection Demo.env Demo.unnamed2).2.diags =
        ((PortConnectionBuilder.create Demo.env []).getConnection Demo.env
          Demo.unnamed1).2.diags ∧
      countCode .UnconnectedUnnamedPort
        (PortConnectionBuilder.finalize Demo.env
          (((PortConnectionBuilder.create Demo.env []).getConnection Demo.env
            Demo.unnamed1).2.getConnection Demo.env Demo.unnamed2).2).diags = 1 ∧
      ((PortConnectionBuilder.create Demo.env [Demo.ordered 1]).getConnection Demo.env
        Demo.unnamed1).1.expr = none ∧
      ((PortConnectionBuilder.create Demo.env [Demo.ordered 1]).getConnection Demo.env
        Demo.unnamed1).2.diags.map (fun d => d.code) = [DiagCode.NullPortExpression] := by
  refine ⟨by rfl, by rfl, by rfl, by rfl, by rfl, by rfl⟩

/-- C2 (amended): in ordered mode, the port processed after the ports `pre`
takes the connection at position `pre.length` of the recorded ordered
connections and moves the index to `pre.length + 1`.  A non-empty connection is
handed to `createConnection`: a void port gets an empty connection and
`NullPortExpression`, an expression that is not simple gives an empty
connection, and otherwise the connection holds the bound expression.  An empty
connection gives the port's initializer (the default, or no expression) with the
connection's attributes and no diagnostic.  Past the end of the connections the
port gets its default without diagnostic if it has one; otherwise the connection
is empty, with `UnconnectedNamedPort` for a named port, and for an unnamed port
with `UnconnectedUnnamedPort` only when the instance has not been warned yet. -/
theorem getConnection_ordered_position {α : Type} [TPort α] (env : Env)
    (pre : List Symbol) (conns : List PortConnectionSyntax) (results : PointerMap)
    (st : PortConnectionBuilder × PointerMap) (port : α)
    (hmode : (PortConnectionBuilder.create env conns).usingOrdered = true)
    (hpre : connectPorts env pre (PortConnectionBuilder.create env conns) results = .ok st) :
    st.1.orderedIndex = pre.length ∧
    (st.1.getConnection env port).2.orderedIndex = pre.length + 1 ∧
    (∀ s, (PortConnectionBuilder.create env conns).orderedConns[pre.length]? =
        some (.Ordered s) →
      st.1.getConnection env port =
          st.1.advance.createConnection env port s.expr (env.fromSyntax s.attributes) ∧
        ((TPort.getType port).isVoid = true →
          st.1.getConnection env port =
            (.value (TPort.toSymbol port) none [],
             st.1.advance.addDiag
              { code := .NullPortExpression, location := s.expr.sourceRange.start,
                ranges := [s.expr.sourceRange],
                notes := [(.NoteDeclarationHere, TPort.location port)] })) ∧
        ((TPort.getType port).isVoid = false → env.requireSimpleExpr s.expr = none →
          st.1.getConnection env port = (.value (TPort.toSymbol port) none [], st.1.advance)) ∧
        ((TPort.getType port).isVoid = false → ∀ e, env.requireSimpleExpr s.expr = some e →
          st.1.getConnection env port =
            (.value (TPort.toSymbol port)
              (some (env.bindArgument (TPort.getType port) (TPort.direction port) e))
              (env.fromSyntax s.attributes), st.1.advance))) ∧
    (∀ s, (PortConnectionBuilder.create env conns).orderedConns[pre.length]? =
        some (.Empty s) →
      st.1.getConnection env port =
        (.value (TPort.toSymbol port) (TPort.getInitializer port) (env.fromSyntax s.attributes),
         st.1.advance)) ∧
    ((PortConnectionBuilder.create env conns).orderedConns.length ≤ pre.length →
      (∀ d, TPort.getInitializer port = some d →
        st.1.getConnection env port = (.value (TPort.toSymbol port) (some d) [], st.1.advance)) ∧
      (TPort.getInitializer port = none → TPort.name port ≠ "" →
        st.1.getConnection env port =
          (.value (TPort.toSymbol port) none [],
           st.1.advance.addDiag
            { code := .UnconnectedNamedPort, location := env.instanceLocation,
              args := [.str (TPort.name port)] })) ∧
      (TPort.getInitializer port = none → TPort.name port = "" →
        st.1.warnedAboutUnnamed = false →
        st.1.getConnection env port =
          (.value (TPort.toSymbol port) none [],
           { st.1.advance.addDiag
              { code := .UnconnectedUnnamedPort, location := env.instanceLocation,
                notes := [(.NoteDeclarationHere, TPort.location port)] } with
             warnedAboutUnnamed := true })) ∧
      (TPort.getInitializer port = none → TPort.name port = "" →
        st.1.warnedAboutUnnamed = true →
        st.1.getConnection env port = (.value (TPort.toSymbol port) none [], st.1.advance))) := by
  have hrun := connectPorts_run env pre _ _ _ hpre
  have hinv := create_ctorInv env conns
  have hm : st.1.usingOrdered = true := hrun.usingOrdered.trans hmode
  have hidx : st.1.orderedIndex = pre.length := by
    have := hrun.orderedIndex
    rw [hmode, if_pos rfl, hinv.orderedIndex] at this
    simpa using this
  have hoc : st.1.orderedConns = (PortConnectionBuilder.create env conns).orderedConns :=
    hrun.orderedConns
  rw [← hoc, ← hidx]
  generalize st.1 = b at hm ⊢
  have hin : ∀ pc, b.orderedConns[b.orderedIndex]? = some pc →
      ∃ h : ¬ b.orderedConns.length ≤ b.orderedIndex, b.orderedConns[b.orderedIndex] = pc := by
    intro pc hpc
    have hlt : b.orderedIndex < b.orderedConns.length := by
      by_contra hge
      rw [List.getElem?_eq_none (Nat.le_of_not_lt hge)] at hpc
      cases hpc
    refine ⟨Nat.not_le.mpr hlt, ?_⟩
    rw [List.getElem?_eq_getElem hlt] at hpc
    exact Option.some.inj hpc
  refine ⟨rfl, ?_, ?_, ?_, ?_⟩
  · have := (getConnection_step env b port).orderedIndex
    rw [hm, if_pos rfl] at this
    exact this
  · intro s hs
    obtain ⟨hnle, hget⟩ := hin _ hs
    have hcall : b.getConnection env port =
        b.advance.createConnection env port s.expr (env.fromSyntax s.attributes) := by
      unfold getConnection
      rw [if_pos hm, dif_neg hnle]
      dsimp only
      rw [hget]
      rfl
    refine ⟨hcall, ?_, ?_, ?_⟩
    · intro hvoid
      rw [hcall]
      simp [createConnection, hvoid, emptyConnection, addDiag, Diagnostic.atRange,
        Diagnostic.addNote]
    · intro hvoid hsimple
      rw [hcall]
      simp [createConnection, hvoid, hsimple, emptyConnection]
    · intro hvoid e hsimple
      rw [hcall]
      simp [createConnection, hvoid, hsimple, createConnectionExpr]
  · intro s hs
    obtain ⟨hnle, hget⟩ := hin _ hs
    unfold getConnection
    rw [if_pos hm, dif_neg hnle]
    dsimp only
    rw [hget]
    rfl
  · intro hpast
    refine ⟨?_, ?_, ?_, ?_⟩
    · intro d hd
      simp [getConnection, hm, dif_pos hpast, hd, createConnectionExpr, advance]
    · intro hd hname
      have hne := isEmpty_eq_false_of_ne hname
      simp [getConnection, hm, dif_pos hpast, hd, hne, emptyConnection, advance, addDiag,
        Diagnostic.atLocation, Diagnostic.arg]
    · intro hd hname hwarn
      have he : (TPort.name port).isEmpty = true := by rw [hname]; rfl
      simp [getConnection, hm, dif_pos hpast, hd, he, emptyConnection, advance, addDiag,
        warnUnnamed, hwarn, Diagnostic.atLocation, Diagnostic.addNote]
    · intro hd hname hwarn
      have he : (TPort.name port).isEmpty = true := by rw [hname]; rfl
      simp [getConnection, hm, dif_pos hpast, hd, he, emptyConnection, advance,
        warnUnnamed, hwarn]

/-- The port `b` after the port `a` against the connections `(1, 2)`: it takes the
connection number 2. -/
theorem getConnection_ordered_position_witness :
    ((PortConnectionBuilder.create Demo.env [Demo.ordered 1, Demo.ordered 2]).getConnection
        Demo.env Demo.portA).2.orderedIndex = 1 ∧
      (((PortConnectionBuilder.create Demo.env [Demo.ordered 1, Demo.ordered 2]).getConnection
        Demo.env Demo.portA).2.getConnection Demo.env Demo.portB).2.orderedIndex = 2 :=
  ⟨(getConnection_ordered_position Demo.env [Symbol.Port Demo.portA]
      [Demo.ordered 1, Demo.ordered 2] [] _ Demo.portB (by rfl) (by rfl)).1,
   (getConnection_ordered_position Demo.env [Symbol.Port Demo.portA]
      [Demo.ordered 1, Demo.ordered 2] [] _ Demo.portB (by rfl) (by rfl)).2.1⟩

/-! ## The constructor: duplicate named connections and wildcards -/

theorem Spec.firstNamed_append (name : String) (xs : List PortConnectionSyntax)
    (c : PortConnectionSyntax) :
    Spec.firstNamed name (xs ++ [c]) =
      match Spec.firstNamed name xs with
      | some s => some s
      | none => Spec.firstNamed name [c] := by
  induction xs with
  | nil => simp [Spec.firstNamed]
  | cons x xs ih =>
    cases x with
    | Named s =>
      by_cases h : (s.name.valueText == name) = true
      · simp [Spec.firstNamed, h]
      · simp only [List.cons_append, Spec.firstNamed, h]
        exact ih
    | Ordered s => simpa [Spec.firstNamed] using ih
    | Empty s => simpa [Spec.firstNamed] using ih
    | Wildcard s => simpa [Spec.firstNamed] using ih

theorem Spec.firstWildcard_append (xs : List PortConnectionSyntax)
    (c : PortConnectionSyntax) :
    Spec.firstWildcard (xs ++ [c]) =
      match Spec.firstWildcard xs with
      | some w => some w
      | none => Spec.firstWildcard [c] := by
  induction xs with
  | nil => simp [Spec.firstWildcard]
  | cons x xs ih =>
    cases x with
    | Wildcard s => simp [Spec.firstWildcard]
    | Ordered s => simpa [Spec.firstWildcard] using ih
    | Empty s => simpa [Spec.firstWildcard] using ih
    | Named s => simpa [Spec.firstWildcard] using ih

theorem findNamed_append (b : PortConnectionBuilder) (key : String)
    (npc : NamedPortConnectionSyntax) (name : String) :
    PortConnectionBuilder.findNamed
        { b with namedConns := b.namedConns ++ [(key, npc, false)] } name =
      match b.findNamed name with
      | some x => some x
      | none => if key == name then some (npc, false) else none := by
  unfold findNamed
  simp only [List.find?_append]
  cases h : List.find? (fun e => e.1 == name) b.namedConns with
  | some x => simp
  | none =>
    by_cases hk : (key == name) = true
    · simp [List.find?_cons, hk]
    · simp [List.find?_cons, hk]

theorem record_namedInv (env : Env) (earlier : List PortConnectionSyntax)
    (b : PortConnectionBuilder) (c : PortConnectionSyntax)
    (hc : c.isOrdered = false) (hinv : NamedInv env earlier b) :
    NamedInv env (earlier ++ [c]) (record env b c) ∧
      (record env b c).diags = b.diags ++ Spec.duplicateDiag earlier c := by
  cases c with
  | Ordered s => cases hc
  | Empty s => cases hc
  | Wildcard w =>
    cases hw : b.hasWildcard with
    | false =>
      have hnone : Spec.firstWildcard earlier = none := by
        have := hinv.hasWildcard
        rw [hw] at this
        cases hf : Spec.firstWildcard earlier with
        | none => rfl
        | some x => rw [hf] at this; cases this
      have hrec : record env b (.Wildcard w) =
          { b with hasWildcard := true,
                   wildcardRange := (PortConnectionSyntax.Wildcard w).sourceRange,
                   wildcardAttrs := env.fromSyntax (PortConnectionSyntax.Wildcard w).attributes } := by
        simp [record, hw]
      rw [hrec]
      refine ⟨⟨?_, ?_, ?_⟩, ?_⟩
      · intro name hname
        rw [Spec.firstNamed_append]
        have := hinv.named name hname
        cases hf : Spec.firstNamed name earlier with
        | none => rw [hf] at this; simpa [Spec.firstNamed] using this
        | some s => rw [hf] at this; simpa using this
      · rw [Spec.firstWildcard_append, hnone]
        rfl
      · intro w2 hw2
        rw [Spec.firstWildcard_append, hnone] at hw2
        simp only [Spec.firstWildcard, Option.some.injEq] at hw2
        subst hw2
        exact ⟨rfl, rfl⟩
      · simp [Spec.duplicateDiag, hnone]
    | true =>
      obtain ⟨first, hfirst⟩ : ∃ first, Spec.firstWildcard earlier = some first := by
        have := hinv.hasWildcard
        rw [hw] at this
        cases hf : Spec.firstWildcard earlier with
        | none => rw [hf] at this; cases this
        | some x => exact ⟨x, rfl⟩
      have hrange := (hinv.wildcard first hfirst).1
      have hrec : record env b (.Wildcard w) =
          b.addDiag ((Diagnostic.atRange .DuplicateWildcardPortConnection
            (PortConnectionSyntax.Wildcard w).sourceRange).addNote
            .NotePreviousUsage b.wildcardRange.start) := by
        simp [record, hw]
      rw [hrec]
      refine ⟨⟨?_, ?_, ?_⟩, ?_⟩
      · intro name hname
        rw [Spec.firstNamed_append]
        have := hinv.named name hname
        cases hf : Spec.firstNamed name earlier with
        | none => rw [hf] at this; simpa [Spec.firstNamed, addDiag, findNamed] using this
        | some s => rw [hf] at this; simpa [addDiag, findNamed] using this
      · rw [Spec.firstWildcard_append, hfirst]
        exact hw
      · intro w2 hw2
        rw [Spec.firstWildcard_append, hfirst] at hw2
        simp only [Option.some.injEq] at hw2
        subst hw2
        exact hinv.wildcard first hfirst
      · simp [Spec.duplicateDiag, hfirst, addDiag, Diagnostic.atRange, Diagnostic.addNote,
          hrange, PortConnectionSyntax.sourceRange]
  | Named npc =>
    by_cases hempty : npc.name.valueText = ""
    · have hrec : record env b (.Named npc) = b := by
        have he : npc.name.valueText.isEmpty = true := by rw [hempty]; rfl
        simp [record, he]
      rw [hrec]
      refine ⟨⟨?_, ?_, ?_⟩, ?_⟩
      · intro name hname
        rw [Spec.firstNamed_append]
        have := hinv.named name hname
        have hne : (npc.name.valueText == name) = false := by
          rw [hempty]
          simpa using fun h => hname h.symm
        cases hf : Spec.firstNamed name earlier with
        | none => rw [hf] at this; simpa [Spec.firstNamed, hne] using this
        | some s => rw [hf] at this; simpa using this
      · rw [Spec.firstWildcard_append]
        have := hinv.hasWildcard
        cases hf : Spec.firstWildcard earlier with
        | none => rw [hf] at this; simpa [Spec.firstWildcard] using this
        | some s => rw [hf] at this; simpa using this
      · intro w2 hw2
        rw [Spec.firstWildcard_append] at hw2
        cases hf : Spec.firstWildcard earlier with
        | none => rw [hf] at hw2; simp [Spec.firstWildcard] at hw2
        | some s =>
          rw [hf] at hw2
          simp only [Option.some.injEq] at hw2
          subst hw2
          exact hinv.wildcard s hf
      · simp [Spec.duplicateDiag, hempty]
    · have hne := isEmpty_eq_false_of_ne hempty
      have hlook := hinv.named _ hempty
      have hwild : ∀ b1 : PortConnectionBuilder, b1.hasWildcard = b.hasWildcard →
          b1.wildcardRange = b.wildcardRange → b1.wildcardAttrs = b.wildcardAttrs →
          b1.hasWildcard = (Spec.firstWildcard (earlier ++ [.Named npc])).isSome ∧
          ∀ w, Spec.firstWildcard (earlier ++ [.Named npc]) = some w →
            b1.wildcardRange = w.sourceRange ∧ b1.wildcardAttrs = env.fromSyntax w.attributes := by
        intro b1 h1 h2 h3
        rw [Spec.firstWildcard_append, h1, h2, h3]
        have := hinv.hasWildcard
        cases hf : Spec.firstWildcard earlier with
        | none =>
          rw [hf] at this
          refine ⟨by simpa [Spec.firstWildcard] using this, ?_⟩
          intro w hw
          simp [Spec.firstWildcard] at hw
        | some s =>
          rw [hf] at this
          refine ⟨by simpa using this, ?_⟩
          intro w hw
          simp only [Option.some.injEq] at hw
          subst hw
          exact hinv.wildcard s hf
      cases hf : Spec.firstNamed npc.name.valueText earlier with
      | none =>
        rw [hf] at hlook
        have hrec : record env b (.Named npc) =
            { b with namedConns := b.namedConns ++ [(npc.name.valueText, npc, false)] } := by
          simp [record, hne, hlook]
        rw [hrec]
        obtain ⟨hw1, hw2⟩ := hwild
          { b with namedConns := b.namedConns ++ [(npc.name.valueText, npc, false)] } rfl rfl rfl
        refine ⟨⟨?_, hw1, hw2⟩, ?_⟩
        · intro name hname
          rw [findNamed_append, Spec.firstNamed_append, hinv.named name hname]
          cases hf2 : Spec.firstNamed name earlier with
          | some s => simp
          | none =>
            by_cases hk : (npc.name.valueText == name) = true
            · simp [Spec.firstNamed, hk]
            · simp [Spec.firstNamed, hk]
        · simp [Spec.duplicateDiag, hempty, hf]
      | some first =>
        rw [hf] at hlook
        have hrec : record env b (.Named npc) =
            b.addDiag (((Diagnostic.atLocation .DuplicatePortConnection
              npc.name.location).arg (.str npc.name.valueText)).addNote
              .NotePreviousUsage first.name.location) := by
          simp [record, hne, hlook]
        rw [hrec]
        obtain ⟨hw1, hw2⟩ := hwild (b.addDiag (((Diagnostic.atLocation .DuplicatePortConnection
              npc.name.location).arg (.str npc.name.valueText)).addNote
              .NotePreviousUsage first.name.location)) rfl rfl rfl
        refine ⟨⟨?_, hw1, hw2⟩, ?_⟩
        · intro name hname
          rw [Spec.firstNamed_append]
          have := hinv.named name hname
          cases hf2 : Spec.firstNamed name earlier with
          | some s => rw [hf2] at this; simpa [addDiag, findNamed] using this
          | none =>
            rw [hf2] at this
            have hk : (npc.name.valueText == name) = false := by
              cases hk : (npc.name.valueText == name) with
              | false => rfl
              | true =>
                have : npc.name.valueText = name := by simpa using hk
                rw [this] at hf
                rw [hf] at hf2
                cases hf2
            simpa [Spec.firstNamed, hk, addDiag, findNamed] using this
        · simp [Spec.duplicateDiag, hempty, hf, addDiag, Diagnostic.atLocation, Diagnostic.arg,
            Diagnostic.addNote]

theorem scan_named (env : Env) (rest : List PortConnectionSyntax) :
    ∀ (earlier : List PortConnectionSyntax) (b : PortConnectionBuilder),
      (∀ c ∈ rest, c.isOrdered = false) → b.usingOrdered = false → NamedInv env earlier b →
      NamedInv env (earlier ++ rest) (scan env rest true b) ∧
        (scan env rest true b).diags = b.diags ++ Spec.duplicateDiags earlier rest := by
  induction rest with
  | nil =>
    intro earlier b _ _ hinv
    simp only [scan, List.append_nil, Spec.duplicateDiags]
    exact ⟨hinv, trivial⟩
  | cons c rest ih =>
    intro earlier b hall hmode hinv
    have hc : c.isOrdered = false := hall c (List.mem_cons_self _ _)
    have hs : scan env (c :: rest) true b = scan env rest true (record env b c) := by
      simp [scan, hc, hmode]
    obtain ⟨hinv2, hd2⟩ := record_namedInv env earlier b c hc hinv
    obtain ⟨hinv3, hd3⟩ := ih (earlier ++ [c]) (record env b c)
      (fun x hx => hall x (List.mem_cons_of_mem _ hx))
      (by rw [record_usingOrdered]; exact hmode) hinv2
    rw [hs]
    refine ⟨?_, ?_⟩
    · have : earlier ++ c :: rest = earlier ++ [c] ++ rest := by simp
      rw [this]
      exact hinv3
    · rw [hd3, hd2, Spec.duplicateDiags, List.append_assoc]

theorem create_namedInv (env : Env) (conns : List PortConnectionSyntax)
    (hnamed : ∀ c ∈ conns, c.isOrdered = false) :
    NamedInv env conns (PortConnectionBuilder.create env conns) ∧
      (PortConnectionBuilder.create env conns).diags = Spec.duplicateDiags [] conns := by
  have hinit : NamedInv env [] {} :=
    ⟨by intro name _; rfl, rfl, by intro w hw; cases hw⟩
  cases conns with
  | nil => exact ⟨⟨hinit.named, hinit.hasWildcard, hinit.wildcard⟩, rfl⟩
  | cons c rest =>
    have hc : c.isOrdered = false := hnamed c (List.mem_cons_self _ _)
    have hs : scan env (c :: rest) false {} =
        scan env rest true (record env { usingOrdered := c.isOrdered } c) := rfl
    have hinit2 : NamedInv env [] { usingOrdered := c.isOrdered } :=
      ⟨by intro name _; rfl, rfl, by intro w hw; cases hw⟩
    obtain ⟨hinv2, hd2⟩ := record_namedInv env [] _ c hc hinit2
    obtain ⟨hinv3, hd3⟩ := scan_named env rest ([] ++ [c]) _
      (fun x hx => hnamed x (List.mem_cons_of_mem _ hx))
      (by rw [record_usingOrdered]; exact hc) hinv2
    have hd : (scan env (c :: rest) false {}).diags = Spec.duplicateDiags [] (c :: rest) := by
      rw [hs, hd3, hd2]
      simp [Spec.duplicateDiags]
    have hi : NamedInv env (c :: rest) (scan env (c :: rest) false {}) := by
      rw [hs]
      simpa using hinv3
    exact ⟨⟨hi.named, hi.hasWildcard, hi.wildcard⟩, hd⟩

theorem findNamed_of_markAll (b c : PortConnectionBuilder) (names : List String)
    (hc : c.namedConns = markAll names b.namedConns) (name : String)
    (s : NamedPortConnectionSyntax) (u : Bool) (h : b.findNamed name = some (s, u)) :
    ∃ used, c.findNamed name = some (s, used) := by
  unfold findNamed at h ⊢
  rw [hc]
  unfold markAll
  rw [List.find?_map]
  have hcomp : ((fun e : String × NamedPortConnectionSyntax × Bool => e.1 == name) ∘
      fun e => if names.contains e.1 = true then (e.1, e.2.1, true) else e) =
      fun e => e.1 == name := by
    funext e
    simp only [Function.comp]
    split <;> rfl
  rw [hcomp]
  cases hf : List.find? (fun e => e.1 == name) b.namedConns with
  | none => rw [hf] at h; cases h
  | some e =>
    rw [hf] at h
    simp only [Option.map_some', Option.some.injEq] at h
    simp only [Option.map_some']
    split
    · exact ⟨true, by simp [h]⟩
    · exact ⟨u, by rw [← h]⟩

/-- C11: in a list of named-style connections, the diagnostics the constructor
adds are, in the order of the list, one `DuplicatePortConnection` (with a note
at the first connection of that name) for every `.name` whose non-empty name
occurred earlier and one `DuplicateWildcardPortConnection` (with a note at the
first wildcard) for every `.*` after the first; the connection recorded for a
name is the first one of that name, the wildcard recorded is the first one, and
the first connection of the name is the one every port finds under that name. -/
theorem create_duplicates (env : Env) (conns : List PortConnectionSyntax)
    (hnamed : ∀ c ∈ conns, c.isOrdered = false) :
    (PortConnectionBuilder.create env conns).diags = Spec.duplicateDiags [] conns ∧
    (∀ name : String, name ≠ "" →
      (PortConnectionBuilder.create env conns).findNamed name =
        (Spec.firstNamed name conns).map (fun s => (s, false))) ∧
    (PortConnectionBuilder.create env conns).hasWildcard = (Spec.firstWildcard conns).isSome ∧
    (∀ w, Spec.firstWildcard conns = some w →
      (PortConnectionBuilder.create env conns).wildcardRange = w.sourceRange ∧
      (PortConnectionBuilder.create env conns).wildcardAttrs = env.fromSyntax w.attributes) ∧
    (∀ (pre : List Symbol) (results : PointerMap) (st : PortConnectionBuilder × PointerMap)
      (name : String) (s : NamedPortConnectionSyntax),
      connectPorts env pre (PortConnectionBuilder.create env conns) results = .ok st →
      name ≠ "" → Spec.firstNamed name conns = some s →
      ∃ used, st.1.findNamed name = some (s, used)) := by
  obtain ⟨hinv, hd⟩ := create_namedInv env conns hnamed
  refine ⟨hd, hinv.named, hinv.hasWildcard, hinv.wildcard, ?_⟩
  intro pre results st name s hpre hname hfirst
  have hrun := connectPorts_run env pre _ _ _ hpre
  have hfind : (PortConnectionBuilder.create env conns).findNamed name = some (s, false) := by
    rw [hinv.named name hname, hfirst]
    rfl
  cases hm : (PortConnectionBuilder.create env conns).usingOrdered with
  | true =>
    have hnc := hrun.namedConns
    rw [hm, if_pos rfl] at hnc
    refine ⟨false, ?_⟩
    unfold findNamed at hfind ⊢
    rw [hnc]
    exact hfind
  | false =>
    have hnc := hrun.namedConns
    rw [hm] at hnc
    simp only [Bool.false_eq_true, if_false] at hnc
    exact findNamed_of_markAll _ _ _ hnc name s false hfind

/-- The list `.a(1), .*, .a(2), .*`: one diagnostic for the second `.a`, with a note
at the first, and one for the second wildcard. -/
theorem create_duplicates_witness :
    (PortConnectionBuilder.create Demo.env
        [.Named (Demo.namedNode "a" 1 true true), Demo.wildcardAt 2,
         .Named (Demo.namedNode "a" 3 true true), Demo.wildcardAt 4]).diags =
      [{ code := .DuplicatePortConnection, location := 3, args := [.str "a"],
         notes := [(.NotePreviousUsage, 1)] },
       { code := .DuplicateWildcardPortConnection, location := 4, ranges := [Demo.rangeAt 4],
         notes := [(.NotePreviousUsage, 2)] }] :=
  (create_duplicates Demo.env
    [.Named (Demo.namedNode "a" 1 true true), Demo.wildcardAt 2,
     .Named (Demo.namedNode "a" 3 true true), Demo.wildcardAt 4]
    (by decide)).1

/-! ## `UnconnectedUnnamedPort` is added once for an instance -/

theorem Quiet.quiet_refl (b : PortConnectionBuilder) : Quiet b b :=
  ⟨rfl, [], by simp, by simp⟩

theorem Quiet.quiet_trans {a b c : PortConnectionBuilder} (h1 : Quiet a b) (h2 : Quiet b c) :
    Quiet a c := by
  obtain ⟨hw1, ds1, hd1, hc1⟩ := h1
  obtain ⟨hw2, ds2, hd2, hc2⟩ := h2
  refine ⟨hw2.trans hw1, ds1 ++ ds2, by rw [hd2, hd1, List.append_assoc], ?_⟩
  intro d hd
  rcases List.mem_append.mp hd with h | h
  · exact hc1 d h
  · exact hc2 d h

theorem Quiet.quiet_addDiag (b : PortConnectionBuilder) (d : Diagnostic)
    (h : d.code ≠ .UnconnectedUnnamedPort) : Quiet b (b.addDiag d) :=
  ⟨rfl, [d], rfl, by intro x hx; rw [List.mem_singleton.mp hx]; exact h⟩

theorem Quiet.warnedOnce {b c : PortConnectionBuilder} (h : Quiet b c) (hb : WarnedOnce b) :
    WarnedOnce c := by
  obtain ⟨hw, ds, hd, hc⟩ := h
  unfold WarnedOnce at hb ⊢
  rw [hd, countCode_append, countCode_zero _ ds hc, hw, hb]
  rfl

theorem createConnection_quiet {α : Type} [TPort α] (env : Env) (b : PortConnectionBuilder)
    (port : α) (stx : PropertyExprSyntax) (attributes : List AttributeSymbol) :
    Quiet b (b.createConnection env port stx attributes).2 := by
  unfold createConnection
  split
  · exact Quiet.quiet_addDiag _ _ (by simp [Diagnostic.atRange, Diagnostic.addNote])
  · split
    · exact Quiet.quiet_refl _
    · exact Quiet.quiet_refl _

theorem implicitNamedPort_quiet {α : Type} [TPort α] (env : Env) (b : PortConnectionBuilder)
    (port : α) (attributes : List AttributeSymbol) (range : SourceRange) (isWildcard : Bool) :
    Quiet b (b.implicitNamedPort env port attributes range isWildcard).2 := by
  unfold implicitNamedPort
  repeat' first | split | dsimp only
  all_goals first
    | exact Quiet.quiet_refl _
    | exact Quiet.quiet_addDiag _ _ (by simp [Diagnostic.atRange, Diagnostic.addNote, Diagnostic.arg])
    | (refine Quiet.quiet_trans (Quiet.quiet_addDiag _ _ ?_) (Quiet.quiet_addDiag _ _ ?_) <;>
        simp [Diagnostic.atRange, Diagnostic.addNote, Diagnostic.arg])

theorem getInterfaceInstance_quiet (env : Env) (b : PortConnectionBuilder)
    (port : InterfacePortSymbol) (portDef : Definition) (portDims : List ConstantRange)
    (symbol : Symbol) (providedModport : String) (range : SourceRange)
    (r : Option Symbol × PortConnectionBuilder)
    (h : b.getInterfaceInstance env port portDef portDims symbol providedModport range = .ok r) :
    Quiet b r.2 := by
  unfold getInterfaceInstance at h
  repeat' first | split at h | dsimp only at h
  all_goals
    cases h
    try first
      | exact Quiet.quiet_refl _
      | exact Quiet.quiet_addDiag _ _
          (by simp [Diagnostic.atRange, Diagnostic.addNote, Diagnostic.arg])

theorem getInterface_quiet (env : Env) (b : PortConnectionBuilder)
    (port : InterfacePortSymbol) (symbol : Symbol) (providedModport : String)
    (range : SourceRange) (r : Option Symbol × PortConnectionBuilder)
    (h : b.getInterface env port symbol providedModport range = .ok r) : Quiet b r.2 := by
  unfold getInterface at h
  repeat' first | split at h | dsimp only at h
  all_goals first
    | exact getInterfaceInstance_quiet _ _ _ _ _ _ _ _ _ h
    | (cases h
       try first
         | exact Quiet.quiet_refl _
         | exact Quiet.quiet_addDiag _ _
             (by simp [Diagnostic.atRange, Diagnostic.addNote, Diagnostic.arg]))

theorem getInterfaceExpr_quiet (env : Env) (b : PortConnectionBuilder)
    (port : InterfacePortSymbol) (stx : PropertyExprSyntax) (attributes : List AttributeSymbol)
    (r : PortConnection × PortConnectionBuilder)
    (h : b.getInterfaceExpr env port stx attributes = .ok r) : Quiet b r.2 := by
  unfold getInterfaceExpr at h
  repeat' first | split at h | dsimp only at h
  all_goals
    cases h
    try first
      | exact Quiet.quiet_refl _
      | exact Quiet.quiet_addDiag _ _
          (by simp [Diagnostic.atRange, Diagnostic.addNote, Diagnostic.arg])
      | exact getInterface_quiet _ _ _ _ _ _ _ (by assumption)

theorem getImplicitInterface_quiet (env : Env) (b : PortConnectionBuilder)
    (port : InterfacePortSymbol) (range : SourceRange) (attributes : List AttributeSymbol)
    (r : PortConnection × PortConnectionBuilder)
    (h : b.getImplicitInterface env port range attributes = .ok r) : Quiet b r.2 := by
  unfold getImplicitInterface at h
  repeat' first | split at h | dsimp only at h
  all_goals
    cases h
    try first
      | exact Quiet.quiet_refl _
      | exact Quiet.quiet_addDiag _ _
          (by simp [Diagnostic.atRange, Diagnostic.addNote, Diagnostic.arg])
      | exact getInterface_quiet _ _ _ _ _ _ _ (by assumption)
      | (refine Quiet.quiet_trans (Quiet.quiet_addDiag _ _ ?_)
          (getInterface_quiet _ _ _ _ _ _ (_, _) (by assumption))
         simp [Diagnostic.atRange, Diagnostic.addNote, Diagnostic.arg])

theorem reportUnconnected_quiet (env : Env) (b : PortConnectionBuilder)
    (port : InterfacePortSymbol) : Quiet b (b.reportUnconnected env port).2 :=
  Quiet.quiet_addDiag _ _ (by simp [Diagnostic.atLocation, Diagnostic.addNote, Diagnostic.arg])

theorem warnUnnamed_warnedOnce {α : Type} [TPort α] (env : Env) (b : PortConnectionBuilder)
    (port : α) (hb : WarnedOnce b) : WarnedOnce (warnUnnamed env b port) := by
  unfold warnUnnamed
  cases hw : b.warnedAboutUnnamed with
  | true => simpa [hw] using hb
  | false =>
    unfold WarnedOnce at hb ⊢
    rw [hw] at hb
    simp only [Bool.not_false, if_true, PortConnectionBuilder.addDiag]
    rw [countCode_append, hb, countCode_singleton]
    simp [Diagnostic.atLocation, Diagnostic.addNote]

theorem Quiet.advance (b : PortConnectionBuilder) :
    Quiet b { b with orderedIndex := b.orderedIndex + 1 } :=
  ⟨rfl, [], by simp, by simp⟩

theorem Quiet.markUsed (b : PortConnectionBuilder) (name : String) :
    Quiet b (b.markUsed name) :=
  ⟨rfl, [], by simp [PortConnectionBuilder.markUsed], by simp⟩

theorem getConnection_warnedOnce {α : Type} [TPort α] (env : Env) (b : PortConnectionBuilder)
    (port : α) (hb : WarnedOnce b) : WarnedOnce (b.getConnection env port).2 := by
  have hadv : WarnedOnce { b with orderedIndex := b.orderedIndex + 1 } :=
    (Quiet.advance b).warnedOnce hb
  have hmark : WarnedOnce (b.markUsed (TPort.name port)) :=
    (Quiet.markUsed b _).warnedOnce hb
  unfold getConnection
  by_cases hm : b.usingOrdered = true
  · rw [if_pos hm]
    split
    · dsimp only
      split
      · exact hadv
      · split
        · exact warnUnnamed_warnedOnce env _ port hadv
        · exact (Quiet.quiet_addDiag _ _
            (by simp [Diagnostic.atLocation, Diagnostic.arg])).warnedOnce hadv
    · dsimp only
      split
      · exact (createConnection_quiet env _ port _ _).warnedOnce hadv
      · exact hadv
  · rw [if_neg hm]
    split
    · exact warnUnnamed_warnedOnce env _ port hb
    · split
      · split
        · exact (implicitNamedPort_quiet env _ port _ _ _).warnedOnce hb
        · split
          · exact hb
          · exact (Quiet.quiet_addDiag _ _
              (by simp [Diagnostic.atLocation, Diagnostic.arg])).warnedOnce hb
      · dsimp only
        split
        · split
          · exact (createConnection_quiet env _ port _ _).warnedOnce hmark
          · exact hmark
        · exact (implicitNamedPort_quiet env _ port _ _ _).warnedOnce hmark

theorem getIfaceConnection_quiet (env : Env) (b : PortConnectionBuilder)
    (port : InterfacePortSymbol) (r : PortConnection × PortConnectionBuilder)
    (h : b.getIfaceConnection env port = .ok r) : Quiet b r.2 := by
  unfold getIfaceConnection at h
  split at h
  · cases h
  · split at h
    · cases h
      unfold skipConnection
      split
      · exact Quiet.advance b
      · split
        · exact Quiet.markUsed b _
        · exact Quiet.quiet_refl b
    · split at h
      · dsimp only at h
        split at h
        · cases h
          exact Quiet.quiet_trans (Quiet.advance b) (reportUnconnected_quiet env _ port)
        · exact Quiet.quiet_trans (Quiet.advance b) (getInterfaceExpr_quiet _ _ _ _ _ _ h)
      · split at h
        · split at h
          · exact getImplicitInterface_quiet _ _ _ _ _ _ h
          · cases h
            exact reportUnconnected_quiet env _ port
        · dsimp only at h
          split at h
          · split at h
            · cases h
              exact Quiet.quiet_trans (Quiet.markUsed b _) (reportUnconnected_quiet env _ port)
            · exact Quiet.quiet_trans (Quiet.markUsed b _) (getInterfaceExpr_quiet _ _ _ _ _ _ h)
          · exact Quiet.quiet_trans (Quiet.markUsed b _) (getImplicitInterface_quiet _ _ _ _ _ _ h)

theorem connectPorts_warnedOnce (env : Env) (ports : List Symbol) :
    ∀ (b : PortConnectionBuilder) (results : PointerMap)
      (r : PortConnectionBuilder × PointerMap),
      connectPorts env ports b results = .ok r → WarnedOnce b → WarnedOnce r.1 := by
  induction ports with
  | nil =>
    intro b results r h hb
    simp only [connectPorts] at h
    cases h
    exact hb
  | cons portBase rest ih =>
    intro b results r h hb
    cases portBase with
    | Port port =>
      simp only [connectPorts] at h
      exact ih _ _ r h (getConnection_warnedOnce env b port hb)
    | MultiPort port =>
      simp only [connectPorts] at h
      exact ih _ _ r h (getConnection_warnedOnce env b port hb)
    | InterfacePort port =>
      simp only [connectPorts] at h
      split at h
      · cases h
      · rename_i r1 hr1
        exact ih _ _ r h ((getIfaceConnection_quiet env b port r1 hr1).warnedOnce hb)
    | Modport a n l d => simp [connectPorts] at h
    | Instance a n l d => simp [connectPorts] at h
    | InstanceArray a n l rg es => simp [connectPorts] at h
    | Variable a n l t => simp [connectPorts] at h
    | Other a n l => simp [connectPorts] at h

theorem record_warned (env : Env) (b : PortConnectionBuilder) (conn : PortConnectionSyntax) :
    (record env b conn).warnedAboutUnnamed = b.warnedAboutUnnamed := by
  unfold record
  cases conn with
  | Ordered s => rfl
  | Empty s => rfl
  | Wildcard s =>
    simp only
    split <;> rfl
  | Named npc =>
    simp only
    split
    · split <;> rfl
    · rfl

theorem scan_warned (env : Env) (conns : List PortConnectionSyntax) :
    ∀ (hasConnections : Bool) (b : PortConnectionBuilder),
      (scan env conns hasConnections b).warnedAboutUnnamed = b.warnedAboutUnnamed := by
  induction conns with
  | nil => intro _ b; simp [scan]
  | cons conn rest ih =>
    intro hasConnections b
    unfold scan
    dsimp only
    split
    · rw [ih, record_warned]
    · split
      · rfl
      · rw [ih, record_warned]

theorem create_warnedOnce (env : Env) (conns : List PortConnectionSyntax) :
    WarnedOnce (PortConnectionBuilder.create env conns) := by
  have hw : (PortConnectionBuilder.create env conns).warnedAboutUnnamed = false := by
    show (scan env conns false {}).warnedAboutUnnamed = false
    rw [scan_warned]
  unfold WarnedOnce
  rw [hw]
  apply countCode_zero
  intro d hd hcode
  have := (create_ctorInv env conns).diags d hd
  rw [hcode] at this
  cases this

/-- C12: whatever the ports and the connections of an instance, `makeConnections`
ends with at most one `UnconnectedUnnamedPort`; and in named mode the connection
made for an unnamed data port is the empty connection. -/
theorem makeConnections_unnamed_once (env : Env) (ports : List Symbol)
    (conns : List PortConnectionSyntax) (results : PointerMap)
    (r : PortConnectionBuilder × PointerMap)
    (hok : makeConnections env ports conns results = .ok r) :
    countCode .UnconnectedUnnamedPort r.1.diags ≤ 1 ∧
    (countCode .UnconnectedUnnamedPort r.1.diags = if r.1.warnedAboutUnnamed then 1 else 0) ∧
    (∀ (b : PortConnectionBuilder) (port : PortSymbol), b.usingOrdered = false →
      port.name = "" → (b.getConnection env port).1 = .value (Symbol.Port port) none []) ∧
    (∀ (b : PortConnectionBuilder) (port : MultiPortSymbol), b.usingOrdered = false →
      port.name = "" → (b.getConnection env port).1 = .value (Symbol.MultiPort port) none []) := by
  obtain ⟨c, hc, hr⟩ := makeConnections_ok env ports conns results r hok
  have hloop := connectPorts_warnedOnce env ports _ _ _ hc (create_warnedOnce env conns)
  obtain ⟨fs, hfs, hfcodes⟩ := finalize_diags env c
  have hfinal : Quiet c (c.finalize env) := by
    refine ⟨?_, fs, hfs, ?_⟩
    · unfold finalize
      split
      · split <;> rfl
      · rfl
    · intro d hd hcode
      rcases hfcodes d hd with h | h <;> rw [hcode] at h <;> cases h
  have hend : WarnedOnce r.1 := by
    rw [hr]
    exact hfinal.warnedOnce hloop
  refine ⟨?_, hend, ?_, ?_⟩
  · unfold WarnedOnce at hend
    rw [hend]
    split <;> decide
  · intro b port hm hname
    have he : (TPort.name port).isEmpty = true := by
      show port.name.isEmpty = true
      rw [hname]; rfl
    unfold getConnection
    rw [if_neg (by rw [hm]; decide), if_pos he]
    rfl
  · intro b port hm hname
    have he : (TPort.name port).isEmpty = true := by
      show port.name.isEmpty = true
      rw [hname]; rfl
    unfold getConnection
    rw [if_neg (by rw [hm]; decide), if_pos he]
    rfl

/-- Two unnamed ports without default and no connection, in ordered mode: one
diagnostic. -/
theorem makeConnections_unnamed_once_witness :
    countCode .UnconnectedUnnamedPort
      (PortConnectionBuilder.finalize Demo.env
        (((PortConnectionBuilder.create Demo.env []).getConnection Demo.env
          Demo.unnamed1).2.getConnection Demo.env Demo.unnamed2).2).diags ≤ 1 :=
  (makeConnections_unnamed_once Demo.env [Symbol.Port Demo.unnamed1, Symbol.Port Demo.unnamed2]
    [] []
    (PortConnectionBuilder.finalize Demo.env
      (((PortConnectionBuilder.create Demo.env []).getConnection Demo.env
        Demo.unnamed1).2.getConnection Demo.env Demo.unnamed2).2,
     PointerMap.emplace
      (PointerMap.emplace [] Demo.unnamed1.addr
        ((PortConnectionBuilder.create Demo.env []).getConnection Demo.env Demo.unnamed1).1)
      Demo.unnamed2.addr
      (((PortConnectionBuilder.create Demo.env []).getConnection Demo.env
        Demo.unnamed1).2.getConnection Demo.env Demo.unnamed2).1)
    (by rfl)).1

/-! ## The ANSI list builder: data ports -/

open AnsiPortListBuilder in
/-- The data-port `add` with a type syntax or a net type: the port, its internal
symbol and the builder it leaves. -/
theorem AnsiPortListBuilder.add_ok (b : AnsiPortListBuilder) (decl : DeclaratorSyntax)
    (direction : ArgumentDirection) (type : Option DataTypeSyntax) (netType : Option NetType)
    (attrs : List AttributeInstanceSyntax) (h : type ≠ none ∨ netType ≠ none) :
    ∃ (port : Built.PortSymbol) (st : AnsiPortListBuilder) (sym : InternalSymbol),
      b.add decl direction type netType attrs = .ok (.Port port, st) ∧
      port.internalSymbol = some sym ∧ port.direction = direction ∧
      port.name = decl.name.valueText ∧ port.location = decl.name.location ∧
      port.declaredType.typeSyntax = type ∧
      sym.name = decl.name.valueText ∧
      sym.kind = internalKind netType ∧
      st.diags = b.diags ++
        directionDiags decl.name.valueText decl.name.location direction netType ∧
      st.implicitMembers = b.implicitMembers ++ [(sym, port)] ∧
      st.lastDirection = direction ∧ st.lastType = type ∧ st.lastNetType = netType ∧
      st.lastInterface = none ∧ st.lastModport = "" := by
  obtain ⟨D, hD, hDt⟩ : ∃ D, declaredTypeOf decl type netType = .ok D ∧ D.typeSyntax = type := by
    cases type with
    | some t => exact ⟨_, rfl, rfl⟩
    | none =>
      cases netType with
      | none => simp at h
      | some nt =>
        unfold declaredTypeOf
        dsimp only
        split
        · exact ⟨_, rfl, rfl⟩
        · exact ⟨_, rfl, rfl⟩
  simp only [AnsiPortListBuilder.add, hD]
  exact ⟨_, _, _, rfl, rfl, rfl, rfl, rfl, hDt, rfl, rfl, rfl, rfl, rfl, rfl, rfl, rfl, rfl⟩

theorem AnsiPortListBuilder.directionDiags_spec (name : String) (location : SourceLocation)
    (direction : ArgumentDirection) (netType : Option NetType) :
    (AnsiPortListBuilder.directionDiags name location direction netType).length ≤ 1 ∧
    (countCode .InOutPortCannotBeVariable
        (AnsiPortListBuilder.directionDiags name location direction netType) =
      if name ≠ "" ∧ direction = .InOut ∧ netType = none then 1 else 0) ∧
    (countCode .RefPortMustBeVariable
        (AnsiPortListBuilder.directionDiags name location direction netType) =
      if name ≠ "" ∧ direction = .Ref ∧ netType ≠ none then 1 else 0) ∧
    (∀ d ∈ AnsiPortListBuilder.directionDiags name location direction netType,
      (d.code = .InOutPortCannotBeVariable ∨ d.code = .RefPortMustBeVariable) ∧
      d.location = location ∧ d.args = [.str name]) := by
  by_cases hname : name = ""
  · subst hname
    have hnil : AnsiPortListBuilder.directionDiags "" location direction netType = [] := rfl
    rw [hnil]
    simp [countCode]
  · have he := isEmpty_eq_false_of_ne hname
    cases direction <;> cases netType <;>
      simp [AnsiPortListBuilder.directionDiags, he, hname, countCode, Diagnostic.atLocation,
        Diagnostic.arg]

theorem InternalSymbol.isNet_of_kind (sym : InternalSymbol) (netType : Option NetType)
    (h : sym.kind = AnsiPortListBuilder.internalKind netType) :
    sym.isNet = netType.isSome := by
  unfold InternalSymbol.isNet
  rw [h]
  cases netType <;> rfl

/-- C18: when the ANSI builder makes a data port with `add`, it adds at most one
diagnostic, at the port's location and with the port's name:
`InOutPortCannotBeVariable` exactly when the name is not empty, the direction is
`inout` and the internal symbol is not a net, `RefPortMustBeVariable` exactly
when the name is not empty, the direction is `ref` and the internal symbol is a
net. -/
theorem AnsiPortListBuilder.add_direction_diags (b : AnsiPortListBuilder)
    (decl : DeclaratorSyntax) (direction : ArgumentDirection) (type : Option DataTypeSyntax)
    (netType : Option NetType) (attrs : List AttributeInstanceSyntax)
    (r : Built.Symbol × AnsiPortListBuilder)
    (hadd : b.add decl direction type netType attrs = .ok r) :
    ∃ (port : Built.PortSymbol) (sym : InternalSymbol) (ds : List Diagnostic),
      r.1 = .Port port ∧ port.internalSymbol = some sym ∧ r.2.diags = b.diags ++ ds ∧
      ds.length ≤ 1 ∧
      (countCode .InOutPortCannotBeVariable ds =
        if port.name ≠ "" ∧ port.direction = .InOut ∧ sym.isNet = false then 1 else 0) ∧
      (countCode .RefPortMustBeVariable ds =
        if port.name ≠ "" ∧ port.direction = .Ref ∧ sym.isNet = true then 1 else 0) ∧
      (∀ d ∈ ds, (d.code = .InOutPortCannotBeVariable ∨ d.code = .RefPortMustBeVariable) ∧
        d.location = port.location ∧ d.args = [.str port.name]) := by
  have h : type ≠ none ∨ netType ≠ none := by
    by_contra hc
    push_neg at hc
    rw [hc.1, hc.2] at hadd
    simp [AnsiPortListBuilder.add, AnsiPortListBuilder.declaredTypeOf] at hadd
  obtain ⟨port, st, sym, heq, hsym, hdir, hname, hloc, _, _, hkind, hdiags, _⟩ :=
    AnsiPortListBuilder.add_ok b decl direction type netType attrs h
  rw [heq] at hadd
  cases hadd
  have hnet := InternalSymbol.isNet_of_kind sym netType hkind
  obtain ⟨h1, h2, h3, h4⟩ := AnsiPortListBuilder.directionDiags_spec decl.name.valueText
    decl.name.location direction netType
  refine ⟨port, sym, _, rfl, hsym, hdiags, h1, ?_, ?_, ?_⟩
  · rw [h2, hname, hdir, hnet]
    cases netType <;> simp
  · rw [h3, hname, hdir, hnet]
    cases netType <;> simp
  · rw [hname, hloc]
    exact h4

/-- The port `inout var logic x`: a variable behind an `inout` port. -/
theorem AnsiPortListBuilder.add_direction_diags_witness :
    ∃ (port : Built.PortSymbol) (sym : InternalSymbol) (ds : List Diagnostic),
      (Built.Symbol.Port
        { name := "x", location := 7, externalLoc := 7, direction := .InOut,
          internalSymbol := some
            { kind := .Variable, name := "x", location := 7,
              declaredType := { typeSyntax := some Demo.logicSyntax },
              declarator := some (Demo.declarator "x" 7) },
          declaredType := { typeSyntax := some Demo.logicSyntax } },
       ({ lastDirection := .InOut, lastType := some Demo.logicSyntax,
          implicitMembers :=
            [({ kind := .Variable, name := "x", location := 7,
                declaredType := { typeSyntax := some Demo.logicSyntax },
                declarator := some (Demo.declarator "x" 7) },
              { name := "x", location := 7, externalLoc := 7, direction := .InOut,
                internalSymbol := some
                  { kind := .Variable, name := "x", location := 7,
                    declaredType := { typeSyntax := some Demo.logicSyntax },
                    declarator := some (Demo.declarator "x" 7) },
                declaredType := { typeSyntax := some Demo.logicSyntax } })],
          diags := [{ code := .InOutPortCannotBeVariable, location := 7,
                      args := [.str "x"] }] } : AnsiPortListBuilder)).1 = .Port port ∧
      port.internalSymbol = some sym ∧
      [({ code := .InOutPortCannotBeVariable, location := 7, args := [.str "x"] } :
          Diagnostic)] = [] ++ ds ∧
      ds.length ≤ 1 ∧
      (countCode .InOutPortCannotBeVariable ds =
        if port.name ≠ "" ∧ port.direction = .InOut ∧ sym.isNet = false then 1 else 0) ∧
      (countCode .RefPortMustBeVariable ds =
        if port.name ≠ "" ∧ port.direction = .Ref ∧ sym.isNet = true then 1 else 0) ∧
      (∀ d ∈ ds, (d.code = .InOutPortCannotBeVariable ∨ d.code = .RefPortMustBeVariable) ∧
        d.location = port.location ∧ d.args = [.str port.name]) :=
  AnsiPortListBuilder.add_direction_diags {} (Demo.declarator "x" 7) .InOut
    (some Demo.logicSyntax) none [] _ (by rfl)

/-! ## The ANSI list builder: net or variable -/

/-- An implicit ANSI port with a variable port header that does not inherit
everything, whose data type names no net type and, unless it names a type, no
definition, is made by the rules of 23.2.2.3. -/
theorem AnsiPortListBuilder.createPortImplicit_data (scope : ScopeEnv)
    (b : AnsiPortListBuilder) (stx : ImplicitAnsiPortSyntax)
    (header : VariablePortHeaderSyntax)
    (hheader : stx.header = .VariablePortHeader header)
    (hown : ¬ (header.direction = none ∧ header.varKeyword = none ∧
      AnsiPortListBuilder.isEmpty header.dataType = true))
    (hnet : header.dataType.simpleTypeName ≠ "" →
      ∀ nt, scope.lookupType header.dataType.simpleTypeName ≠ some (.NetType nt))
    (hdef : header.dataType.simpleTypeName ≠ "" →
      scope.lookupType header.dataType.simpleTypeName = some .DataType ∨
      scope.getDefinition header.dataType.simpleTypeName = none) :
    AnsiPortListBuilder.createPortImplicit scope b stx =
      AnsiPortListBuilder.addVariablePort scope b header stx.declarator stx.attributes := by
  unfold AnsiPortListBuilder.createPortImplicit
  rw [hheader]
  dsimp only
  have hown2 : ¬ ((header.direction.isNone && header.varKeyword.isNone &&
      AnsiPortListBuilder.isEmpty header.dataType) = true) := by
    intro h
    simp only [Bool.and_eq_true, Option.isNone_iff_eq_none] at h
    exact hown ⟨h.1.1, h.1.2, h.2⟩
  rw [if_neg hown2]
  by_cases hname : header.dataType.simpleTypeName = ""
  · have he : header.dataType.simpleTypeName.isEmpty = true := by rw [hname]; rfl
    simp [he]
  · have he := isEmpty_eq_false_of_ne hname
    simp only [he, Bool.not_false, if_true]
    have hn := hnet hname
    rcases hdef hname with h | h
    · rw [h]
    · cases hl : scope.lookupType header.dataType.simpleTypeName with
      | none => simp only []; rw [h]
      | some found =>
        cases found with
        | NetType nt => exact absurd hl (hn nt)
        | DataType => rfl
        | Other => simp only []; rw [h]

/-- What the rules of 23.2.2.3 make: a data port of the effective direction whose
internal symbol is a net of the type `getDefaultNetType` returns when `wantsNet`
holds, and a variable otherwise. -/
theorem AnsiPortListBuilder.addVariablePort_ok (scope : ScopeEnv)
    (b : AnsiPortListBuilder) (header : VariablePortHeaderSyntax) (decl : DeclaratorSyntax)
    (attrs : List AttributeInstanceSyntax) :
    ∃ (port : Built.PortSymbol) (st : AnsiPortListBuilder) (sym : InternalSymbol),
      AnsiPortListBuilder.addVariablePort scope b header decl attrs = .ok (.Port port, st) ∧
      port.internalSymbol = some sym ∧
      port.direction = b.getDirection header.direction ∧
      port.name = decl.name.valueText ∧
      port.declaredType.typeSyntax = some header.dataType ∧
      sym.kind =
        (if AnsiPortListBuilder.wantsNet header (b.getDirection header.direction) then
          InternalKind.Net (getDefaultNetType scope decl.name.location).1
         else InternalKind.Variable) ∧
      st.diags = b.diags ++
        (if AnsiPortListBuilder.wantsNet header (b.getDirection header.direction) then
          (getDefaultNetType scope decl.name.location).2 else []) ++
        AnsiPortListBuilder.directionDiags decl.name.valueText decl.name.location
          (b.getDirection header.direction)
          (if AnsiPortListBuilder.wantsNet header (b.getDirection header.direction) then
            some (getDefaultNetType scope decl.name.location).1 else none) := by
  unfold AnsiPortListBuilder.addVariablePort
  dsimp only
  by_cases hw : AnsiPortListBuilder.wantsNet header (b.getDirection header.direction) = true
  · have hw2 := hw
    unfold AnsiPortListBuilder.wantsNet at hw2
    rw [if_pos hw2, if_pos hw, if_pos hw, if_pos hw]
    obtain ⟨port, st, sym, heq, hsym, hdir, hname, _, htyp, _, hkind, hdiags, _⟩ :=
      AnsiPortListBuilder.add_ok
        { b with diags := b.diags ++ (getDefaultNetType scope decl.name.location).2 } decl
        (b.getDirection header.direction) (some header.dataType)
        (some (getDefaultNetType scope decl.name.location).1) attrs (Or.inl (by simp))
    exact ⟨port, st, sym, heq, hsym, hdir, hname, htyp, hkind, hdiags⟩
  · have hw2 := hw
    unfold AnsiPortListBuilder.wantsNet at hw2
    rw [if_neg hw2, if_neg hw, if_neg hw, if_neg hw]
    obtain ⟨port, st, sym, heq, hsym, hdir, hname, _, htyp, _, hkind, hdiags, _⟩ :=
      AnsiPortListBuilder.add_ok b decl (b.getDirection header.direction)
        (some header.dataType) none attrs (Or.inl (by simp))
    refine ⟨port, st, sym, heq, hsym, hdir, hname, htyp, hkind, ?_⟩
    rw [hdiags]
    simp

theorem AnsiPortListBuilder.directionDiags_count (code : DiagCode) (name : String)
    (location : SourceLocation) (direction : ArgumentDirection) (netType : Option NetType)
    (h1 : code ≠ .InOutPortCannotBeVariable) (h2 : code ≠ .RefPortMustBeVariable) :
    countCode code (AnsiPortListBuilder.directionDiags name location direction netType) = 0 := by
  apply countCode_zero
  intro d hd hcode
  rcases ((AnsiPortListBuilder.directionDiags_spec name location direction netType).2.2.2
    d hd).1 with h | h
  · exact h1 (hcode ▸ h)
  · exact h2 (hcode ▸ h)

/-- The fallback of `getDefaultNetType` as `createPort` sees it: under
`default_nettype none` the port `input x` (no `var`, implicit type) is a `wire`
net and `ImplicitNetPortNoDefault` is added. -/
theorem AnsiPortListBuilder.createPortImplicit_no_default_net :
    (AnsiPortListBuilder.createPortImplicit Demo.scopeNoDefault {}
        (Demo.ansiPort (some .InputKeyword) false Demo.emptySyntax "x" 7)).map
      (fun r => (r.1.internalKind, codes r.2.diags)) =
        .ok (some (.Net Demo.wire), [DiagCode.ImplicitNetPortNoDefault]) ∧
    Demo.scopeNoDefault.defaultNetType ≠ Demo.wire := by
  refine ⟨by rfl, by decide⟩

/-- C14: an implicit ANSI port with a variable port header that does not inherit
everything and whose data type names neither a net type nor a definition is a
data port of the effective direction `d`.  Its internal symbol is a variable if
`d` is `ref`; a variable if `d` is `in` or `out` and `var` is present; a
variable, with no `ImplicitNetPortNoDefault` added, if `d` is `in` or `out`,
`var` is absent and the data type is explicit; and if `d` is `in` or `out` with
no `var` and an implicit type it is a net of the default net type that
`getDefaultNetType` gives for the scope: the net type the scope is configured
with, without a diagnostic, and under `default_nettype none` the fallback
`wire` with one `ImplicitNetPortNoDefault`. -/
theorem AnsiPortListBuilder.createPortImplicit_kind (scope : ScopeEnv)
    (b : AnsiPortListBuilder) (stx : ImplicitAnsiPortSyntax)
    (header : VariablePortHeaderSyntax)
    (hheader : stx.header = .VariablePortHeader header)
    (hown : ¬ (header.direction = none ∧ header.varKeyword = none ∧
      AnsiPortListBuilder.isEmpty header.dataType = true))
    (hnet : header.dataType.simpleTypeName ≠ "" →
      ∀ nt, scope.lookupType header.dataType.simpleTypeName ≠ some (.NetType nt))
    (hdef : header.dataType.simpleTypeName ≠ "" →
      scope.lookupType header.dataType.simpleTypeName = some .DataType ∨
      scope.getDefinition header.dataType.simpleTypeName = none) :
    ∃ (port : Built.PortSymbol) (st : AnsiPortListBuilder) (sym : InternalSymbol),
      AnsiPortListBuilder.createPortImplicit scope b stx = .ok (.Port port, st) ∧
      port.internalSymbol = some sym ∧
      port.direction = b.getDirection header.direction ∧
      (b.getDirection header.direction = .Ref → sym.kind = .Variable) ∧
      ((b.getDirection header.direction = .In ∨ b.getDirection header.direction = .Out) →
        header.varKeyword ≠ none → sym.kind = .Variable) ∧
      ((b.getDirection header.direction = .In ∨ b.getDirection header.direction = .Out) →
        header.varKeyword = none → header.dataType.isImplicitType = false →
        sym.kind = .Variable ∧
        countCode .ImplicitNetPortNoDefault st.diags =
          countCode .ImplicitNetPortNoDefault b.diags) ∧
      ((b.getDirection header.direction = .In ∨ b.getDirection header.direction = .Out) →
        header.varKeyword = none → header.dataType.isImplicitType = true →
        sym.kind = .Net (getDefaultNetType scope stx.declarator.name.location).1 ∧
        (scope.defaultNetType.isError = false →
          sym.kind = .Net scope.defaultNetType ∧
          countCode .ImplicitNetPortNoDefault st.diags =
            countCode .ImplicitNetPortNoDefault b.diags) ∧
        (scope.defaultNetType.isError = true →
          sym.kind = .Net scope.wireNetType ∧
          countCode .ImplicitNetPortNoDefault st.diags =
            countCode .ImplicitNetPortNoDefault b.diags + 1)) := by
  rw [AnsiPortListBuilder.createPortImplicit_data scope b stx header hheader hown hnet hdef]
  obtain ⟨port, st, sym, heq, hsym, hdir, _, _, hkind, hdiags⟩ :=
    AnsiPortListBuilder.addVariablePort_ok scope b header stx.declarator stx.attributes
  have hcount : ∀ xs : List Diagnostic, ∀ nt : Option NetType,
      countCode .ImplicitNetPortNoDefault (b.diags ++ xs ++
        AnsiPortListBuilder.directionDiags stx.declarator.name.valueText
          stx.declarator.name.location (b.getDirection header.direction) nt) =
      countCode .ImplicitNetPortNoDefault b.diags +
        countCode .ImplicitNetPortNoDefault xs := by
    intro xs nt
    rw [countCode_append, countCode_append,
      AnsiPortListBuilder.directionDiags_count _ _ _ _ _ (by decide) (by decide)]
    rfl
  refine ⟨port, st, sym, heq, hsym, hdir, ?_, ?_, ?_, ?_⟩
  · intro hd
    rw [hkind, hd]
    simp [AnsiPortListBuilder.wantsNet]
  · intro _ hvar
    rw [hkind]
    have : header.varKeyword.isNone = false := by
      cases hv : header.varKeyword with
      | none => exact absurd hv hvar
      | some v => rfl
    simp [AnsiPortListBuilder.wantsNet, this]
  · intro hd hvar himp
    have hw : AnsiPortListBuilder.wantsNet header (b.getDirection header.direction) = false := by
      rcases hd with hd | hd <;> simp [AnsiPortListBuilder.wantsNet, hd, himp]
    rw [hkind, hdiags, hw]
    refine ⟨by simp, ?_⟩
    rw [hcount]
    simp [countCode]
  · intro hd hvar himp
    have hw : AnsiPortListBuilder.wantsNet header (b.getDirection header.direction) = true := by
      rcases hd with hd | hd <;> simp [AnsiPortListBuilder.wantsNet, hd, himp, hvar]
    rw [hkind, hdiags, hw]
    simp only [if_true]
    refine ⟨trivial, ?_, ?_⟩
    · intro herr
      rw [hcount]
      simp [getDefaultNetType, herr, countCode]
    · intro herr
      rw [hcount]
      simp [getDefaultNetType, herr, countCode, Diagnostic.atLocation]

/-- The port `input int i`, with an explicit data type: a variable. -/
theorem AnsiPortListBuilder.createPortImplicit_kind_witness :
    ∃ (port : Built.PortSymbol) (st : AnsiPortListBuilder) (sym : InternalSymbol),
      AnsiPortListBuilder.createPortImplicit Demo.scope {}
          (Demo.ansiPort (some .InputKeyword) false Demo.logicSyntax "i" 7) =
        .ok (.Port port, st) ∧
      port.internalSymbol = some sym ∧ sym.kind = .Variable ∧
      countCode .ImplicitNetPortNoDefault st.diags = 0 :=
  match AnsiPortListBuilder.createPortImplicit_kind Demo.scope {}
      (Demo.ansiPort (some .InputKeyword) false Demo.logicSyntax "i" 7)
      { constKeyword := none, direction := some (Demo.dir .InputKeyword), varKeyword := none,
        dataType := Demo.logicSyntax }
      rfl (by decide) (by intro h; exact absurd rfl h) (by intro h; exact absurd rfl h) with
  | ⟨port, st, sym, heq, hsym, _, _, _, h3, _⟩ =>
    ⟨port, st, sym, heq, hsym, (h3 (Or.inl rfl) rfl rfl).1, (h3 (Or.inl rfl) rfl rfl).2⟩

/-- C15 as stated fails: the port `inout var logic x` has effective direction
inout and its internal symbol is a variable, reported with
`InOutPortCannotBeVariable`. -/
theorem AnsiPortListBuilder.createPortImplicit_inout_var :
    (AnsiPortListBuilder.createPortImplicit Demo.scope {}
        (Demo.ansiPort (some .InOutKeyword) true Demo.logicSyntax "x" 7)).map
      (fun r => (r.1.direction, r.1.internalKind, codes r.2.diags)) =
        .ok (some .InOut, some .Variable, [DiagCode.InOutPortCannotBeVariable]) := by
  rfl

/-- C15 (amended): for an implicit ANSI port with a variable port header that
does not inherit everything, whose data type names neither a net type nor a
definition, and whose effective direction is inout: without `var` the internal
symbol is a net, whatever the data type is, and no `InOutPortCannotBeVariable`
is added; with `var` it is a variable, and one `InOutPortCannotBeVariable` is
added when the port has a name. -/
theorem AnsiPortListBuilder.createPortImplicit_inout (scope : ScopeEnv)
    (b : AnsiPortListBuilder) (stx : ImplicitAnsiPortSyntax)
    (header : VariablePortHeaderSyntax)
    (hheader : stx.header = .VariablePortHeader header)
    (hown : ¬ (header.direction = none ∧ header.varKeyword = none ∧
      AnsiPortListBuilder.isEmpty header.dataType = true))
    (hnet : header.dataType.simpleTypeName ≠ "" →
      ∀ nt, scope.lookupType header.dataType.simpleTypeName ≠ some (.NetType nt))
    (hdef : header.dataType.simpleTypeName ≠ "" →
      scope.lookupType header.dataType.simpleTypeName = some .DataType ∨
      scope.getDefinition header.dataType.simpleTypeName = none)
    (hd : b.getDirection header.direction = .InOut) :
    ∃ (port : Built.PortSymbol) (st : AnsiPortListBuilder) (sym : InternalSymbol),
      AnsiPortListBuilder.createPortImplicit scope b stx = .ok (.Port port, st) ∧
      port.internalSymbol = some sym ∧ port.direction = .InOut ∧
      (header.varKeyword = none →
        sym.isNet = true ∧
        sym.kind = .Net (getDefaultNetType scope stx.declarator.name.location).1 ∧
        countCode .InOutPortCannotBeVariable st.diags =
          countCode .InOutPortCannotBeVariable b.diags) ∧
      (header.varKeyword ≠ none →
        sym.isNet = false ∧ sym.kind = .Variable ∧
        (stx.declarator.name.valueText ≠ "" →
          countCode .InOutPortCannotBeVariable st.diags =
            countCode .InOutPortCannotBeVariable b.diags + 1)) := by
  rw [AnsiPortListBuilder.createPortImplicit_data scope b stx header hheader hown hnet hdef]
  obtain ⟨port, st, sym, heq, hsym, hdir, _, _, hkind, hdiags⟩ :=
    AnsiPortListBuilder.addVariablePort_ok scope b header stx.declarator stx.attributes
  refine ⟨port, st, sym, heq, hsym, hdir.trans hd, ?_, ?_⟩
  · intro hvar
    have hw : AnsiPortListBuilder.wantsNet header (b.getDirection header.direction) = true := by
      simp [AnsiPortListBuilder.wantsNet, hd, hvar]
    rw [hw] at hkind hdiags
    simp only [if_true] at hkind hdiags
    refine ⟨by simp [InternalSymbol.isNet, hkind], hkind, ?_⟩
    rw [hdiags, countCode_append, countCode_append,
      (AnsiPortListBuilder.directionDiags_spec _ _ _ _).2.1]
    have h0 : countCode .InOutPortCannotBeVariable
        (getDefaultNetType scope stx.declarator.name.location).2 = 0 := by
      unfold getDefaultNetType
      split <;> simp [countCode, Diagnostic.atLocation]
    rw [h0]
    simp
  · intro hvar
    have hv : header.varKeyword.isNone = false := by
      cases hv : header.varKeyword with
      | none => exact absurd hv hvar
      | some v => rfl
    have hw : AnsiPortListBuilder.wantsNet header (b.getDirection header.direction) = false := by
      simp [AnsiPortListBuilder.wantsNet, hv]
    rw [hw] at hkind hdiags
    simp only [Bool.false_eq_true, if_false] at hkind hdiags
    refine ⟨by simp [InternalSymbol.isNet, hkind], hkind, ?_⟩
    intro hname
    rw [hdiags, countCode_append, countCode_append,
      (AnsiPortListBuilder.directionDiags_spec _ _ _ _).2.1, hd]
    simp [countCode, hname]

/-- The port `inout logic x`, without `var`: a net. -/
theorem AnsiPortListBuilder.createPortImplicit_inout_witness :
    ∃ (port : Built.PortSymbol) (st : AnsiPortListBuilder) (sym : InternalSymbol),
      AnsiPortListBuilder.createPortImplicit Demo.scope {}
          (Demo.ansiPort (some .InOutKeyword) false Demo.logicSyntax "x" 7) =
        .ok (.Port port, st) ∧
      port.internalSymbol = some sym ∧ port.direction = .InOut ∧ sym.isNet = true :=
  match AnsiPortListBuilder.createPortImplicit_inout Demo.scope {}
      (Demo.ansiPort (some .InOutKeyword) false Demo.logicSyntax "x" 7)
      { constKeyword := none, direction := some (Demo.dir .InOutKeyword), varKeyword := none,
        dataType := Demo.logicSyntax }
      rfl (by decide) (by intro h; exact absurd rfl h) (by intro h; exact absurd rfl h) rfl with
  | ⟨port, st, sym, heq, hsym, hdir, h1, _⟩ => ⟨port, st, sym, heq, hsym, hdir, (h1 rfl).1⟩

/-- C17 as stated fails: after the explicit port `input .a()` the last direction
of the builder is `in`, not the `inout` of the initial state, and a following
port that omits everything is an `in` port. -/
theorem AnsiPortListBuilder.createPortExplicit_keeps_direction :
    (AnsiPortListBuilder.createPortExplicit {}
      (Demo.explicitPort (some .InputKeyword) "a" 7)).2.lastDirection = .In ∧
    ({} : AnsiPortListBuilder).lastDirection = .InOut ∧
    (AnsiPortListBuilder.createPorts Demo.scope {}
        [.ExplicitAnsiPort (Demo.explicitPort (some .InputKeyword) "a" 7),
         .ImplicitAnsiPort (Demo.ansiPort none false Demo.emptySyntax "b" 8)]).map
      (fun r => r.1.map (fun s => s.direction)) = .ok [some .In, some .In] := by
  refine ⟨rfl, rfl, ?_⟩
  rfl

/-- C17 (amended): creating an explicit ANSI port sets the last type, the last
net type, the last interface and the last modport of the builder back to their
initial values and sets the last direction to the direction of the explicit
port.  A following port that omits everything takes that direction and nothing
else: it is a data port with an empty implicit type and a variable as internal
symbol. -/
theorem AnsiPortListBuilder.createPortExplicit_state (b : AnsiPortListBuilder)
    (stx : ExplicitAnsiPortSyntax) :
    (b.createPortExplicit stx).1.direction = some (b.getDirection stx.direction) ∧
    (b.createPortExplicit stx).2.lastDirection = b.getDirection stx.direction ∧
    (b.createPortExplicit stx).2.lastType = ({} : AnsiPortListBuilder).lastType ∧
    (b.createPortExplicit stx).2.lastNetType = ({} : AnsiPortListBuilder).lastNetType ∧
    (b.createPortExplicit stx).2.lastInterface = ({} : AnsiPortListBuilder).lastInterface ∧
    (b.createPortExplicit stx).2.lastModport = ({} : AnsiPortListBuilder).lastModport ∧
    (∀ (decl : DeclaratorSyntax) (attrs : List AttributeInstanceSyntax),
      ∃ (port : Built.PortSymbol) (st : AnsiPortListBuilder) (sym : InternalSymbol),
        (b.createPortExplicit stx).2.addInherited decl attrs = .ok (.Port port, st) ∧
        port.internalSymbol = some sym ∧
        port.direction = b.getDirection stx.direction ∧
        port.declaredType.typeSyntax = some (createEmptyTypeSyntax decl.firstToken) ∧
        sym.kind = .Variable) := by
  refine ⟨rfl, rfl, rfl, rfl, rfl, rfl, ?_⟩
  intro decl attrs
  obtain ⟨port, st, sym, heq, hsym, hdir, _, _, htyp, _, hkind, _⟩ :=
    AnsiPortListBuilder.add_ok
      { (b.createPortExplicit stx).2 with
        lastType := some (createEmptyTypeSyntax decl.firstToken) } decl
      (b.getDirection stx.direction) (some (createEmptyTypeSyntax decl.firstToken)) none attrs
      (Or.inl (by simp))
  exact ⟨port, st, sym, heq, hsym, hdir, htyp, hkind⟩

/-- C20 as stated fails: in a scope where `top` names a module and no type, the
port `input top p` is an interface port without definition and without internal
symbol; `PortTypeNotInterfaceOrData` is added. -/
theorem AnsiPortListBuilder.createPortImplicit_module_name :
    (AnsiPortListBuilder.createPortImplicit Demo.scope {}
        (Demo.ansiPort (some .InputKeyword) false (Demo.namedSyntax "top") "p" 7)).map
      (fun r => (r.1.isInterfacePort, r.1.internalKind, r.2.implicitMembers.length,
        codes r.2.diags)) =
        .ok (true, none, 0, [DiagCode.PortTypeNotInterfaceOrData]) := by
  rfl

/-- C20 (amended): for an implicit ANSI port that does not inherit everything and
whose data type is a simple identifier that resolves to no type but to a
definition that is not an interface, the builder adds one
`PortTypeNotInterfaceOrData`, with the name of the definition and a note at its
declaration, and the result is an interface port without definition and without
modport: no internal symbol is made, no interface is noted, and the builder
remembers no interface for the next port. -/
theorem AnsiPortListBuilder.createPortImplicit_not_interface (scope : ScopeEnv)
    (b : AnsiPortListBuilder) (stx : ImplicitAnsiPortSyntax)
    (header : VariablePortHeaderSyntax) (definition : Definition)
    (hheader : stx.header = .VariablePortHeader header)
    (hown : ¬ (header.direction = none ∧ header.varKeyword = none ∧
      AnsiPortListBuilder.isEmpty header.dataType = true))
    (hname : header.dataType.simpleTypeName ≠ "")
    (hfound : scope.lookupType header.dataType.simpleTypeName = none ∨
      scope.lookupType header.dataType.simpleTypeName = some .Other)
    (hdef : scope.getDefinition header.dataType.simpleTypeName = some definition)
    (hkind : definition.definitionKind ≠ .Interface) :
    ∃ (port : Built.InterfacePortSymbol) (st : AnsiPortListBuilder),
      AnsiPortListBuilder.createPortImplicit scope b stx = .ok (.InterfacePort port, st) ∧
      port.name = stx.declarator.name.valueText ∧
      port.interfaceDef = none ∧ port.modport = "" ∧
      st.diags = b.diags ++
        [((Diagnostic.atRange .PortTypeNotInterfaceOrData header.dataType.sourceRange).arg
          (.str definition.name)).addNote .NoteDeclarationHere definition.location] ∧
      st.implicitMembers = b.implicitMembers ∧
      st.notedInterfacePorts = b.notedInterfacePorts ∧
      st.lastInterface = none := by
  have hinh : (header.direction.isNone && header.varKeyword.isNone &&
      AnsiPortListBuilder.isEmpty header.dataType) = false := by
    cases h : (header.direction.isNone && header.varKeyword.isNone &&
      AnsiPortListBuilder.isEmpty header.dataType) with
    | false => rfl
    | true =>
      exfalso
      apply hown
      simp only [Bool.and_eq_true, Option.isNone_iff_eq_none] at h
      exact ⟨h.1.1, h.1.2, h.2⟩
  have he := isEmpty_eq_false_of_ne hname
  have hk : (definition.definitionKind != DefinitionKind.Interface) = true := by
    simp [hkind]
  unfold AnsiPortListBuilder.createPortImplicit
  simp only [hheader]
  rw [if_neg (by rw [hinh]; simp)]
  simp only [he, Bool.not_false, if_true]
  rcases hfound with hf | hf
  · simp only [hf, hdef, AnsiPortListBuilder.addForDefinition, hk, if_true]
    exact ⟨_, _, rfl, rfl, rfl, rfl, rfl, rfl, rfl, rfl⟩
  · simp only [hf, hdef, AnsiPortListBuilder.addForDefinition, hk, if_true]
    exact ⟨_, _, rfl, rfl, rfl, rfl, rfl, rfl, rfl, rfl⟩

/-- The port `input top p`, where `top` is a module. -/
theorem AnsiPortListBuilder.createPortImplicit_not_interface_witness :
    ∃ (port : Built.InterfacePortSymbol) (st : AnsiPortListBuilder),
      AnsiPortListBuilder.createPortImplicit Demo.scope {}
          (Demo.ansiPort (some .InputKeyword) false (Demo.namedSyntax "top") "p" 7) =
        .ok (.InterfacePort port, st) ∧
      port.interfaceDef = none ∧
      countCode .PortTypeNotInterfaceOrData st.diags = 1 :=
  match AnsiPortListBuilder.createPortImplicit_not_interface Demo.scope {}
      (Demo.ansiPort (some .InputKeyword) false (Demo.namedSyntax "top") "p" 7)
      { constKeyword := none, direction := some (Demo.dir .InputKeyword), varKeyword := none,
        dataType := Demo.namedSyntax "top" } Demo.topDef
      rfl (by decide) (by decide) (Or.inl rfl) rfl (by decide) with
  | ⟨port, st, heq, _, hdef, _, hdiags, _⟩ =>
    ⟨port, st, heq, hdef, by rw [hdiags]; rfl⟩

theorem AnsiPortListBuilder.add_remembers (b : AnsiPortListBuilder) (decl : DeclaratorSyntax)
    (direction : ArgumentDirection) (type : Option DataTypeSyntax) (netType : Option NetType)
    (attrs : List AttributeInstanceSyntax) (r : Built.Symbol × AnsiPortListBuilder)
    (h : b.add decl direction type netType attrs = .ok r) :
    AnsiPortListBuilder.Remembers r.1 r.2 := by
  by_cases hn : type ≠ none ∨ netType ≠ none
  · obtain ⟨port, st, sym, heq, hsym, hdir, _, _, htyp, _, hkind, _, _, hld, hlt, hln, hli, _⟩ :=
      AnsiPortListBuilder.add_ok b decl direction type netType attrs hn
    rw [heq] at h
    cases h
    refine Or.inl ⟨port, sym, rfl, hsym, hli, ?_, ?_, ?_, ?_⟩
    · exact hld.trans hdir.symm
    · exact hlt.trans htyp.symm
    · rw [hln]; exact hkind
    · rw [hlt, hln]; exact hn
  · have h1 : type = none := by
      by_contra hc
      exact hn (Or.inl hc)
    have h2 : netType = none := by
      by_contra hc
      exact hn (Or.inr hc)
    subst h1
    subst h2
    simp [AnsiPortListBuilder.add, AnsiPortListBuilder.declaredTypeOf] at h

theorem AnsiPortListBuilder.addIface_remembers (b : AnsiPortListBuilder)
    (decl : DeclaratorSyntax) (iface : Option Definition) (modport : String)
    (attrs : List AttributeInstanceSyntax) :
    AnsiPortListBuilder.Remembers (b.addIface decl iface modport attrs).1
      (b.addIface decl iface modport attrs).2 :=
  Or.inr ⟨_, rfl, rfl, rfl, rfl, rfl, rfl⟩

theorem AnsiPortListBuilder.addInherited_remembers (b : AnsiPortListBuilder)
    (decl : DeclaratorSyntax) (attrs : List AttributeInstanceSyntax)
    (r : Built.Symbol × AnsiPortListBuilder)
    (h : b.addInherited decl attrs = .ok r) :
    AnsiPortListBuilder.Remembers r.1 r.2 := by
  unfold AnsiPortListBuilder.addInherited at h
  split at h
  · cases h
    exact AnsiPortListBuilder.addIface_remembers _ _ _ _ _
  · exact AnsiPortListBuilder.add_remembers _ _ _ _ _ _ _ h

theorem AnsiPortListBuilder.addVariablePort_remembers (scope : ScopeEnv)
    (b : AnsiPortListBuilder) (header : VariablePortHeaderSyntax) (decl : DeclaratorSyntax)
    (attrs : List AttributeInstanceSyntax) (r : Built.Symbol × AnsiPortListBuilder)
    (h : AnsiPortListBuilder.addVariablePort scope b header decl attrs = .ok r) :
    AnsiPortListBuilder.Remembers r.1 r.2 := by
  unfold AnsiPortListBuilder.addVariablePort at h
  dsimp only at h
  split at h
  · exact AnsiPortListBuilder.add_remembers _ _ _ _ _ _ _ h
  · exact AnsiPortListBuilder.add_remembers _ _ _ _ _ _ _ h

theorem AnsiPortListBuilder.addForDefinition_remembers (b : AnsiPortListBuilder)
    (header : VariablePortHeaderSyntax) (decl : DeclaratorSyntax)
    (attrs : List AttributeInstanceSyntax) (definition : Definition) :
    AnsiPortListBuilder.Remembers (b.addForDefinition header decl attrs definition).1
      (b.addForDefinition header decl attrs definition).2 := by
  unfold AnsiPortListBuilder.addForDefinition
  split
  · exact AnsiPortListBuilder.addIface_remembers _ _ _ _ _
  · exact AnsiPortListBuilder.addIface_remembers _ _ _ _ _

theorem AnsiPortListBuilder.createPortImplicit_remembers (scope : ScopeEnv)
    (b : AnsiPortListBuilder) (stx : ImplicitAnsiPortSyntax)
    (r : Built.Symbol × AnsiPortListBuilder)
    (h : b.createPortImplicit scope stx = .ok r) :
    AnsiPortListBuilder.Remembers r.1 r.2 := by
  unfold AnsiPortListBuilder.createPortImplicit at h
  dsimp only at h
  split at h
  · split at h
    · exact AnsiPortListBuilder.addInherited_remembers _ _ _ _ h
    · split at h
      · split at h
        · exact AnsiPortListBuilder.add_remembers _ _ _ _ _ _ _ h
        · exact AnsiPortListBuilder.addVariablePort_remembers _ _ _ _ _ _ h
        · split at h
          · cases h
            exact AnsiPortListBuilder.addForDefinition_remembers _ _ _ _ _
          · exact AnsiPortListBuilder.addVariablePort_remembers _ _ _ _ _ _ h
      · exact AnsiPortListBuilder.addVariablePort_remembers _ _ _ _ _ _ h
  · exact AnsiPortListBuilder.add_remembers _ _ _ _ _ _ _ h
  · cases h
    exact AnsiPortListBuilder.addIface_remembers _ _ _ _ _

theorem AnsiPortListBuilder.createPortImplicit_inherit (scope : ScopeEnv)
    (b : AnsiPortListBuilder) (stx : ImplicitAnsiPortSyntax)
    (header : VariablePortHeaderSyntax)
    (hheader : stx.header = .VariablePortHeader header)
    (hinh : header.direction = none ∧ header.varKeyword = none ∧
      AnsiPortListBuilder.isEmpty header.dataType = true) :
    b.createPortImplicit scope stx = b.addInherited stx.declarator stx.attributes := by
  unfold AnsiPortListBuilder.createPortImplicit
  simp [hheader, hinh.1, hinh.2.1, hinh.2.2]

/-- C16 as stated fails after an interface port whose interface is unknown: in
the list `nosuch p, q` the port `p` is an interface port and the port `q`, which
omits everything, is a data port of direction inout with a variable as internal
symbol. -/
theorem AnsiPortListBuilder.inherit_after_unknown_interface :
    (AnsiPortListBuilder.createPorts Demo.scope {}
        [.ImplicitAnsiPort (Demo.ansiIfacePort "nosuch" "p" 7),
         .ImplicitAnsiPort (Demo.ansiPort none false Demo.emptySyntax "q" 8)]).map
      (fun r => r.1.map (fun s => (s.isInterfacePort, s.direction, s.internalKind))) =
        .ok [(true, none, none), (false, some .InOut, some .Variable)] := by
  rfl

/-- C16 (amended): in an ANSI port list, a port whose header has no direction, no
`var` keyword and an empty implicit type inherits from the implicit port before
it.  After a data port it is a data port with the same direction, the same data
type syntax and an internal symbol of the same kind (a net of the same net type,
or a variable).  After an interface port whose definition was found it is an
interface port with the same definition and modport; after an interface port
without definition it is a data port of direction inout with an empty implicit
type and a variable as internal symbol. -/
theorem AnsiPortListBuilder.createPortImplicit_inherits (scope : ScopeEnv)
    (b b1 : AnsiPortListBuilder) (prevStx stx : ImplicitAnsiPortSyntax)
    (prev : Built.Symbol) (header : VariablePortHeaderSyntax)
    (hprev : b.createPortImplicit scope prevStx = .ok (prev, b1))
    (hheader : stx.header = .VariablePortHeader header)
    (hinh : header.direction = none ∧ header.varKeyword = none ∧
      AnsiPortListBuilder.isEmpty header.dataType = true) :
    (∀ p : Built.PortSymbol, prev = .Port p →
      ∃ (port : Built.PortSymbol) (st : AnsiPortListBuilder) (sym psym : InternalSymbol),
        b1.createPortImplicit scope stx = .ok (.Port port, st) ∧
        p.internalSymbol = some psym ∧ port.internalSymbol = some sym ∧
        port.name = stx.declarator.name.valueText ∧
        port.direction = p.direction ∧
        port.declaredType.typeSyntax = p.declaredType.typeSyntax ∧
        sym.kind = psym.kind) ∧
    (∀ (p : Built.InterfacePortSymbol) (d : Definition), prev = .InterfacePort p →
      p.interfaceDef = some d →
      ∃ (port : Built.InterfacePortSymbol) (st : AnsiPortListBuilder),
        b1.createPortImplicit scope stx = .ok (.InterfacePort port, st) ∧
        port.name = stx.declarator.name.valueText ∧
        port.interfaceDef = some d ∧ port.modport = p.modport) ∧
    (∀ p : Built.InterfacePortSymbol, prev = .InterfacePort p → p.interfaceDef = none →
      ∃ (port : Built.PortSymbol) (st : AnsiPortListBuilder) (sym : InternalSymbol),
        b1.createPortImplicit scope stx = .ok (.Port port, st) ∧
        port.internalSymbol = some sym ∧
        port.name = stx.declarator.name.valueText ∧
        port.direction = .InOut ∧
        port.declaredType.typeSyntax =
          some (createEmptyTypeSyntax stx.declarator.firstToken) ∧
        sym.kind = .Variable) := by
  rw [AnsiPortListBuilder.createPortImplicit_inherit scope b1 stx header hheader hinh]
  have hrem := AnsiPortListBuilder.createPortImplicit_remembers scope b prevStx _ hprev
  refine ⟨?_, ?_, ?_⟩
  · intro p hp
    rcases hrem with ⟨p2, psym, hp2, hpsym, hli, hld, hlt, hk, hn⟩ | ⟨p2, hp2, _⟩
    · dsimp only at hp2 hli hld hlt hk hn
      rw [hp] at hp2
      cases hp2
      have hnot : (b1.lastType.isNone && b1.lastNetType.isNone) = false := by
        rcases hn with hn | hn
        · cases hx : b1.lastType with
          | none => exact absurd hx hn
          | some t => rfl
        · cases hx : b1.lastNetType with
          | none => exact absurd hx hn
          | some t => simp
      obtain ⟨port, st, sym, heq, hsym, hdir, hname, _, htyp, _, hkind, _⟩ :=
        AnsiPortListBuilder.add_ok b1 stx.declarator b1.lastDirection b1.lastType
          b1.lastNetType stx.attributes hn
      refine ⟨port, st, sym, psym, ?_, hpsym, hsym, hname, hdir.trans hld, htyp.trans hlt,
        hkind.trans hk.symm⟩
      unfold AnsiPortListBuilder.addInherited
      rw [hli]
      simp only [hnot, Bool.false_eq_true, if_false]
      exact heq
    · dsimp only at hp2
      rw [hp] at hp2
      cases hp2
  · intro p d hp hd
    rcases hrem with ⟨p2, _, hp2, _⟩ | ⟨p2, hp2, hli, hlm, _⟩
    · dsimp only at hp2
      rw [hp] at hp2
      cases hp2
    · dsimp only at hp2 hli hlm
      rw [hp] at hp2
      cases hp2
      unfold AnsiPortListBuilder.addInherited
      rw [hli, hd]
      exact ⟨_, _, rfl, rfl, rfl, hlm⟩
  · intro p hp hd
    rcases hrem with ⟨p2, _, hp2, _⟩ | ⟨p2, hp2, hli, _, hld, hlt, hln⟩
    · dsimp only at hp2
      rw [hp] at hp2
      cases hp2
    · dsimp only at hp2 hli hld hlt hln
      rw [hp] at hp2
      cases hp2
      obtain ⟨port, st, sym, heq, hsym, hdir, hname, _, htyp, _, hkind, _⟩ :=
        AnsiPortListBuilder.add_ok
          { b1 with lastType := some (createEmptyTypeSyntax stx.declarator.firstToken) }
          stx.declarator .InOut (some (createEmptyTypeSyntax stx.declarator.firstToken))
          none stx.attributes (Or.inl (by simp))
      refine ⟨port, st, sym, ?_, hsym, hname, hdir, htyp, hkind⟩
      unfold AnsiPortListBuilder.addInherited
      rw [hli, hd]
      simp only [hlt, hln, hld, Option.isNone_none, Bool.and_self, if_true]
      exact heq

/-- The list `input logic a, b, c`: the port `b` after the port `a`, and the three
ports of the list, all of direction in, all of type `logic`, each with a
variable as internal symbol. -/
theorem AnsiPortListBuilder.createPortImplicit_inherits_witness :
    (∃ (prev : Built.Symbol) (b1 : AnsiPortListBuilder) (port : Built.PortSymbol)
        (st : AnsiPortListBuilder) (sym : InternalSymbol),
      AnsiPortListBuilder.createPortImplicit Demo.scope {}
          (Demo.ansiPort (some .InputKeyword) false Demo.logicSyntax "a" 1) = .ok (prev, b1) ∧
      AnsiPortListBuilder.createPortImplicit Demo.scope b1
          (Demo.ansiPort none false Demo.emptySyntax "b" 2) = .ok (.Port port, st) ∧
      port.internalSymbol = some sym ∧ port.direction = .In ∧
      port.declaredType.typeSyntax = some Demo.logicSyntax ∧ sym.kind = .Variable) ∧
    (AnsiPortListBuilder.createPorts Demo.scope {} Demo.inputLogicABC).map
      (fun r => r.1.map (fun s => s.summary)) =
        .ok [some ("a", .In, some 1, some .Variable), some ("b", .In, some 1, some .Variable),
          some ("c", .In, some 1, some .Variable)] :=
  ⟨match AnsiPortListBuilder.createPortImplicit_inherits Demo.scope {} _
      (Demo.ansiPort (some .InputKeyword) false Demo.logicSyntax "a" 1)
      (Demo.ansiPort none false Demo.emptySyntax "b" 2) _
      { constKeyword := none, direction := none, varKeyword := none,
        dataType := Demo.emptySyntax } rfl rfl (by decide) with
    | ⟨h1, _, _⟩ =>
      match h1 _ rfl with
      | ⟨port, st, sym, psym, heq, hpsym, hsym, _, hdir, htyp, hkind⟩ =>
        ⟨_, _, port, st, sym, rfl, heq, hsym, hdir, htyp, by
          rw [hkind]
          cases hpsym
          rfl⟩,
   by rfl⟩

theorem DirectionChecked.mono {ds ds2 : List Diagnostic} {direction : ArgumentDirection}
    {location : SourceLocation} {sym : InternalSymbol}
    (h : DirectionChecked ds direction location sym) (hsub : ∀ d ∈ ds, d ∈ ds2) :
    DirectionChecked ds2 direction location sym := by
  refine ⟨fun hd => ?_, fun hd => ?_⟩
  · rcases h.1 hd with h1 | ⟨d, hmem, hc⟩
    · exact Or.inl h1
    · exact Or.inr ⟨d, hsub d hmem, hc⟩
  · rcases h.2 hd with h1 | ⟨d, hmem, hc⟩
    · exact Or.inl h1
    · exact Or.inr ⟨d, hsub d hmem, hc⟩

theorem Built.PortSymbol.Checked.mono_port {ds ds2 : List Diagnostic} {p : Built.PortSymbol}
    (h : p.Checked ds) (hsub : ∀ d ∈ ds, d ∈ ds2) : p.Checked ds2 :=
  fun sym hsym => (h sym hsym).mono hsub

theorem PortInfo.Checked.mono_info {ds ds2 : List Diagnostic} {info : PortInfo}
    (h : info.Checked ds) (hsub : ∀ d ∈ ds, d ∈ ds2) : info.Checked ds2 :=
  fun sym hsym => (h sym hsym).mono hsub

theorem AnsiPortListBuilder.directionDiags_checked (name : String) (location : SourceLocation)
    (direction : ArgumentDirection) (netType : Option NetType) (sym : InternalSymbol)
    (hname : name ≠ "") (hkind : sym.kind = AnsiPortListBuilder.internalKind netType) :
    DirectionChecked (AnsiPortListBuilder.directionDiags name location direction netType)
      direction location sym := by
  have he := isEmpty_eq_false_of_ne hname
  have hnet := InternalSymbol.isNet_of_kind sym netType hkind
  refine ⟨fun hd => ?_, fun hd => ?_⟩
  · cases netType with
    | some nt => exact Or.inl (by rw [hnet]; rfl)
    | none =>
      refine Or.inr ⟨(Diagnostic.atLocation .InOutPortCannotBeVariable location).arg (.str name),
        ?_, rfl, rfl⟩
      simp [AnsiPortListBuilder.directionDiags, he, hd]
  · cases netType with
    | none => exact Or.inl (by rw [hnet]; rfl)
    | some nt =>
      refine Or.inr ⟨(Diagnostic.atLocation .RefPortMustBeVariable location).arg (.str name),
        ?_, rfl, rfl⟩
      simp [AnsiPortListBuilder.directionDiags, he, hd]

theorem AnsiPortListBuilder.add_step (b : AnsiPortListBuilder) (decl : DeclaratorSyntax)
    (direction : ArgumentDirection) (type : Option DataTypeSyntax) (netType : Option NetType)
    (attrs : List AttributeInstanceSyntax) (r : Built.Symbol × AnsiPortListBuilder)
    (h : b.add decl direction type netType attrs = .ok r) :
    AnsiPortListBuilder.Step b r := by
  by_cases hn : type ≠ none ∨ netType ≠ none
  · obtain ⟨port, st, sym, heq, hsym, hdir, hname, hloc, _, _, hkind, hdiags, _⟩ :=
      AnsiPortListBuilder.add_ok b decl direction type netType attrs hn
    rw [heq] at h
    cases h
    refine ⟨?_, ?_⟩
    · intro d hd
      show d ∈ st.diags
      rw [hdiags]
      exact List.mem_append_left _ hd
    · intro p hp hne s hs
      cases hp
      rw [hsym] at hs
      cases hs
      show DirectionChecked st.diags _ _ _
      rw [hdiags, hdir, hloc]
      rw [hname] at hne
      exact (AnsiPortListBuilder.directionDiags_checked _ _ _ _ _ hne hkind).mono
        (fun d hd => List.mem_append_right _ hd)
  · have h1 : type = none := by
      by_contra hc
      exact hn (Or.inl hc)
    have h2 : netType = none := by
      by_contra hc
      exact hn (Or.inr hc)
    subst h1
    subst h2
    simp [AnsiPortListBuilder.add, AnsiPortListBuilder.declaredTypeOf] at h

theorem AnsiPortListBuilder.addIface_step (b : AnsiPortListBuilder)
    (decl : DeclaratorSyntax) (iface : Option Definition) (modport : String)
    (attrs : List AttributeInstanceSyntax) :
    AnsiPortListBuilder.Step b (b.addIface decl iface modport attrs) :=
  ⟨fun _ hd => hd, fun _ hp => by cases hp⟩

theorem AnsiPortListBuilder.Step.of_sub {b b2 : AnsiPortListBuilder}
    {r : Built.Symbol × AnsiPortListBuilder}
    (h : AnsiPortListBuilder.Step b2 r) (hsub : ∀ d ∈ b.diags, d ∈ b2.diags) :
    AnsiPortListBuilder.Step b r :=
  ⟨fun d hd => h.1 d (hsub d hd), h.2⟩

theorem AnsiPortListBuilder.Step.of_more {b : AnsiPortListBuilder} {ds : List Diagnostic}
    {r : Built.Symbol × AnsiPortListBuilder}
    (h : AnsiPortListBuilder.Step { b with diags := b.diags ++ ds } r) :
    AnsiPortListBuilder.Step b r :=
  h.of_sub (fun _ hd => List.mem_append_left _ hd)

theorem AnsiPortListBuilder.addInherited_step (b : AnsiPortListBuilder)
    (decl : DeclaratorSyntax) (attrs : List AttributeInstanceSyntax)
    (r : Built.Symbol × AnsiPortListBuilder)
    (h : b.addInherited decl attrs = .ok r) :
    AnsiPortListBuilder.Step b r := by
  unfold AnsiPortListBuilder.addInherited at h
  split at h
  · cases h
    exact AnsiPortListBuilder.addIface_step _ _ _ _ _
  · dsimp only at h
    split at h
    · exact (AnsiPortListBuilder.add_step _ _ _ _ _ _ _ h).of_sub (fun _ hd => hd)
    · exact AnsiPortListBuilder.add_step _ _ _ _ _ _ _ h

theorem AnsiPortListBuilder.addVariablePort_step (scope : ScopeEnv)
    (b : AnsiPortListBuilder) (header : VariablePortHeaderSyntax) (decl : DeclaratorSyntax)
    (attrs : List AttributeInstanceSyntax) (r : Built.Symbol × AnsiPortListBuilder)
    (h : AnsiPortListBuilder.addVariablePort scope b header decl attrs = .ok r) :
    AnsiPortListBuilder.Step b r := by
  unfold AnsiPortListBuilder.addVariablePort at h
  dsimp only at h
  split at h
  · exact (AnsiPortListBuilder.add_step _ _ _ _ _ _ _ h).of_more
  · exact AnsiPortListBuilder.add_step _ _ _ _ _ _ _ h

theorem AnsiPortListBuilder.addForDefinition_step (b : AnsiPortListBuilder)
    (header : VariablePortHeaderSyntax) (decl : DeclaratorSyntax)
    (attrs : List AttributeInstanceSyntax) (definition : Definition) :
    AnsiPortListBuilder.Step b (b.addForDefinition header decl attrs definition) := by
  unfold AnsiPortListBuilder.addForDefinition
  split
  · exact (AnsiPortListBuilder.addIface_step _ _ _ _ _).of_more
  · dsimp only
    refine (AnsiPortListBuilder.addIface_step _ _ _ _ _).of_sub ?_
    intro d hd
    exact List.mem_append_left _ (List.mem_append_left _ hd)

theorem AnsiPortListBuilder.createPortImplicit_step (scope : ScopeEnv)
    (b : AnsiPortListBuilder) (stx : ImplicitAnsiPortSyntax)
    (r : Built.Symbol × AnsiPortListBuilder)
    (h : b.createPortImplicit scope stx = .ok r) :
    AnsiPortListBuilder.Step b r := by
  unfold AnsiPortListBuilder.createPortImplicit at h
  dsimp only at h
  split at h
  · split at h
    · exact AnsiPortListBuilder.addInherited_step _ _ _ _ h
    · split at h
      · split at h
        · exact AnsiPortListBuilder.add_step _ _ _ _ _ _ _ h
        · exact AnsiPortListBuilder.addVariablePort_step _ _ _ _ _ _ h
        · split at h
          · cases h
            exact AnsiPortListBuilder.addForDefinition_step _ _ _ _ _
          · exact AnsiPortListBuilder.addVariablePort_step _ _ _ _ _ _ h
      · exact AnsiPortListBuilder.addVariablePort_step _ _ _ _ _ _ h
  · exact AnsiPortListBuilder.add_step _ _ _ _ _ _ _ h
  · cases h
    exact (AnsiPortListBuilder.addIface_step _ _ _ _ _).of_more

theorem AnsiPortListBuilder.createPort_step (scope : ScopeEnv)
    (b : AnsiPortListBuilder) (stx : AnsiPortSyntax)
    (r : Built.Symbol × AnsiPortListBuilder)
    (h : b.createPort scope stx = .ok r) :
    AnsiPortListBuilder.Step b r := by
  cases stx with
  | ImplicitAnsiPort s => exact AnsiPortListBuilder.createPortImplicit_step scope b s r h
  | ExplicitAnsiPort s =>
    simp only [AnsiPortListBuilder.createPort] at h
    cases h
    refine ⟨fun _ hd => hd, ?_⟩
    intro p hp _ sym hsym
    simp only [AnsiPortListBuilder.createPortExplicit] at hp
    cases hp
    cases hsym

theorem AnsiPortListBuilder.createPorts_checked (scope : ScopeEnv)
    (ports : List AnsiPortSyntax) :
    ∀ (b : AnsiPortListBuilder) (symbols : List Built.Symbol) (st : AnsiPortListBuilder),
      b.createPorts scope ports = .ok (symbols, st) →
      (∀ d ∈ b.diags, d ∈ st.diags) ∧
      ∀ p, Built.Symbol.Port p ∈ symbols → p.name ≠ "" → p.Checked st.diags := by
  induction ports with
  | nil =>
    intro b symbols st h
    simp only [AnsiPortListBuilder.createPorts] at h
    cases h
    exact ⟨fun _ hd => hd, fun p hp => by cases hp⟩
  | cons port rest ih =>
    intro b symbols st h
    simp only [AnsiPortListBuilder.createPorts] at h
    split at h
    · cases h
    · rename_i symbol b1 h1
      split at h
      · cases h
      · rename_i symbols2 b2 h2
        cases h
        have hstep := AnsiPortListBuilder.createPort_step scope b port _ h1
        have hrest := ih b1 symbols2 st h2
        refine ⟨fun d hd => hrest.1 d (hstep.1 d hd), ?_⟩
        intro p hp hne
        rcases List.mem_cons.mp hp with hp | hp
        · exact (hstep.2 p hp.symm hne).mono_port hrest.1
        · exact hrest.2 p hp hne

theorem NonAnsiPortListBuilder.Extends.extends_refl (b : NonAnsiPortListBuilder) :
    NonAnsiPortListBuilder.Extends b b :=
  ⟨rfl, fun _ hd => hd⟩

theorem NonAnsiPortListBuilder.Extends.extends_trans {b b2 b3 : NonAnsiPortListBuilder}
    (h1 : NonAnsiPortListBuilder.Extends b b2) (h2 : NonAnsiPortListBuilder.Extends b2 b3) :
    NonAnsiPortListBuilder.Extends b b3 :=
  ⟨h2.1.trans h1.1, fun d hd => h2.2 d (h1.2 d hd)⟩

theorem NonAnsiPortListBuilder.Extends.extends_addDiag (b : NonAnsiPortListBuilder) (d : Diagnostic) :
    NonAnsiPortListBuilder.Extends b (b.addDiag d) :=
  ⟨rfl, fun _ hd => List.mem_append_left _ hd⟩

theorem NonAnsiPortListBuilder.Extends.more (b : NonAnsiPortListBuilder)
    (ds : List Diagnostic) :
    NonAnsiPortListBuilder.Extends b { b with diags := b.diags ++ ds } :=
  ⟨rfl, fun _ hd => List.mem_append_left _ hd⟩

theorem PortInfo.InOutChecked.mono_inout {ds ds2 : List Diagnostic} {info : PortInfo}
    (h : info.InOutChecked ds) (hsub : ∀ d ∈ ds, d ∈ ds2) : info.InOutChecked ds2 := by
  intro sym hsym hd
  rcases h sym hsym hd with h1 | ⟨d, hmem, hc⟩
  · exact Or.inl h1
  · exact Or.inr ⟨d, hsub d hmem, hc⟩

theorem NonAnsiPortListBuilder.setInternalSymbol_spec (b : NonAnsiPortListBuilder)
    (symbol : InternalSymbol) (decl : DeclaratorSyntax) (dataType : Option DataTypeSyntax)
    (info : PortInfo) (insertionPoint : Option InsertionPoint) :
    (b.setInternalSymbol symbol decl dataType info insertionPoint).1.decl = info.decl ∧
    (b.setInternalSymbol symbol decl dataType info insertionPoint).1.direction =
      info.direction ∧
    (b.setInternalSymbol symbol decl dataType info insertionPoint).1.isIface = info.isIface ∧
    NonAnsiPortListBuilder.Extends b
      (b.setInternalSymbol symbol decl dataType info insertionPoint).2 ∧
    ∃ sym, (b.setInternalSymbol symbol decl dataType info insertionPoint).1.internalSymbol =
      some sym ∧ sym.kind = symbol.kind :=
  ⟨rfl, rfl, rfl, ⟨rfl, fun _ hd => hd⟩, _, rfl, rfl⟩

theorem NonAnsiPortListBuilder.checkInOut_spec (decl : DeclaratorSyntax)
    (r : PortInfo × NonAnsiPortListBuilder) (hdecl : r.1.decl = decl) :
    (NonAnsiPortListBuilder.checkInOut decl r).1 = r.1 ∧
    NonAnsiPortListBuilder.Extends r.2 (NonAnsiPortListBuilder.checkInOut decl r).2 ∧
    r.1.InOutChecked (NonAnsiPortListBuilder.checkInOut decl r).2.diags := by
  unfold NonAnsiPortListBuilder.checkInOut
  split
  · rename_i hc
    refine ⟨rfl, NonAnsiPortListBuilder.Extends.extends_addDiag _ _, ?_⟩
    intro sym hsym hd
    refine Or.inr ⟨_, List.mem_append_right _ (List.mem_singleton.mpr rfl), rfl, ?_⟩
    rw [hdecl]
    rfl
  · rename_i hc
    refine ⟨rfl, NonAnsiPortListBuilder.Extends.extends_refl _, ?_⟩
    intro sym hsym hd
    refine Or.inl ?_
    cases hn : sym.isNet with
    | true => rfl
    | false =>
      exfalso
      apply hc
      simp [hsym, hd, hn]

theorem InternalSymbol.isNet_net (sym : InternalSymbol) (netType : NetType)
    (h : sym.kind = .Net netType) : sym.isNet = true := by
  simp [InternalSymbol.isNet, h]

theorem NonAnsiPortListBuilder.handleVariablePortHeader_spec (scope : ScopeEnv)
    (b : NonAnsiPortListBuilder) (varHeader : VariablePortHeaderSyntax) (info : PortInfo)
    (insertionPoint : Option InsertionPoint) (r : PortInfo × NonAnsiPortListBuilder)
    (h : NonAnsiPortListBuilder.handleVariablePortHeader scope b varHeader info
      insertionPoint = .ok r) :
    r.1.decl = info.decl ∧ NonAnsiPortListBuilder.Extends b r.2 ∧
    r.1.InOutChecked r.2.diags := by
  unfold NonAnsiPortListBuilder.handleVariablePortHeader at h
  dsimp only at h
  split at h
  · cases h
  · rename_i direction hdir
    have hb0 : NonAnsiPortListBuilder.Extends b
        (match varHeader.constKeyword with
          | some k => b.addDiag (Diagnostic.atRange .ConstPortNotAllowed k.range)
          | none => b) := by
      split
      · exact NonAnsiPortListBuilder.Extends.extends_addDiag _ _
      · exact NonAnsiPortListBuilder.Extends.extends_refl _
    split at h
    · split at h
      · cases h
        obtain ⟨h1, _, _, h4, sym, h5, h6⟩ :=
          NonAnsiPortListBuilder.setInternalSymbol_spec
            (match varHeader.constKeyword with
              | some k => b.addDiag (Diagnostic.atRange .ConstPortNotAllowed k.range)
              | none => b)
            { kind := .Net ‹NetType›, name := info.decl.name.valueText,
              location := info.decl.name.location }
            info.decl none
            { info with direction := SemanticFacts.getDirection direction.kind } insertionPoint
        refine ⟨h1, hb0.extends_trans h4, ?_⟩
        intro s hs _
        rw [h5] at hs
        cases hs
        exact Or.inl (InternalSymbol.isNet_net _ _ h6)
      · cases h
        obtain ⟨h1, _, _, h4, _⟩ :=
          NonAnsiPortListBuilder.setInternalSymbol_spec
            (match varHeader.constKeyword with
              | some k => b.addDiag (Diagnostic.atRange .ConstPortNotAllowed k.range)
              | none => b)
            { kind := .Variable, name := info.decl.name.valueText,
              location := info.decl.name.location }
            info.decl (some varHeader.dataType)
            { info with direction := SemanticFacts.getDirection direction.kind } insertionPoint
        obtain ⟨c1, c2, c3⟩ := NonAnsiPortListBuilder.checkInOut_spec info.decl _ h1
        rw [c1]
        exact ⟨h1, (hb0.extends_trans h4).extends_trans c2, c3⟩
    · split at h
      · cases h
        obtain ⟨c1, c2, c3⟩ := NonAnsiPortListBuilder.checkInOut_spec info.decl
          (NonAnsiPortListBuilder.mergeWithSymbol ‹InternalSymbol› varHeader info.decl
            { info with direction := SemanticFacts.getDirection direction.kind } insertionPoint,
           (match varHeader.constKeyword with
              | some k => b.addDiag (Diagnostic.atRange .ConstPortNotAllowed k.range)
              | none => b)) rfl
        rw [c1]
        exact ⟨rfl, hb0.extends_trans c2, c3⟩
      · cases h
        obtain ⟨h1, _, _, h4, _⟩ :=
          NonAnsiPortListBuilder.setInternalSymbol_spec
            { (match varHeader.constKeyword with
                | some k => b.addDiag (Diagnostic.atRange .ConstPortNotAllowed k.range)
                | none => b) with
              diags := (match varHeader.constKeyword with
                | some k => b.addDiag (Diagnostic.atRange .ConstPortNotAllowed k.range)
                | none => b).diags ++ (getDefaultNetType scope info.decl.name.location).2 }
            { kind := .Net (getDefaultNetType scope info.decl.name.location).1,
              name := info.decl.name.valueText, location := info.decl.name.location }
            info.decl (some varHeader.dataType)
            { info with direction := SemanticFacts.getDirection direction.kind } insertionPoint
        obtain ⟨c1, c2, c3⟩ := NonAnsiPortListBuilder.checkInOut_spec info.decl _ h1
        rw [c1]
        exact ⟨h1, ((hb0.extends_trans (NonAnsiPortListBuilder.Extends.more _ _)).extends_trans h4).extends_trans c2, c3⟩

theorem NonAnsiPortListBuilder.checkIODecl_spec (r : PortInfo × NonAnsiPortListBuilder) :
    (NonAnsiPortListBuilder.checkIODecl r).1 = r.1 ∧
    NonAnsiPortListBuilder.Extends r.2 (NonAnsiPortListBuilder.checkIODecl r).2 ∧
    (∀ sym, r.1.internalSymbol = some sym → r.1.direction = .Ref →
      sym.isNet = false ∨
      ∃ d ∈ (NonAnsiPortListBuilder.checkIODecl r).2.diags,
        d.code = .RefPortMustBeVariable ∧ d.location = r.1.decl.name.location) := by
  have hsecond : ∀ b0 : NonAnsiPortListBuilder, ∀ isNet : Bool,
      NonAnsiPortListBuilder.Extends b0
        (match r.1.decl.initializer with
          | some init =>
            if (r.1.direction != ArgumentDirection.Out || isNet) = true then
              b0.addDiag (Diagnostic.atRange .DisallowedPortDefault init.sourceRange)
            else b0
          | none => b0) := by
    intro b0 isNet
    split
    · split
      · exact NonAnsiPortListBuilder.Extends.extends_addDiag _ _
      · exact NonAnsiPortListBuilder.Extends.extends_refl _
    · exact NonAnsiPortListBuilder.Extends.extends_refl _
  have hfirst : NonAnsiPortListBuilder.Extends r.2
      (if (r.1.direction == ArgumentDirection.Ref &&
          (match r.1.internalSymbol with
            | some s => s.isNet
            | none => false)) = true then
        r.2.addDiag ((Diagnostic.atLocation .RefPortMustBeVariable r.1.decl.name.location).arg
          (.str r.1.decl.name.valueText))
      else r.2) := by
    split
    · exact NonAnsiPortListBuilder.Extends.extends_addDiag _ _
    · exact NonAnsiPortListBuilder.Extends.extends_refl _
  refine ⟨rfl, hfirst.extends_trans (hsecond _ _), ?_⟩
  intro sym hsym hd
  cases hn : sym.isNet with
  | false => exact Or.inl rfl
  | true =>
    refine Or.inr ⟨(Diagnostic.atLocation .RefPortMustBeVariable r.1.decl.name.location).arg
      (.str r.1.decl.name.valueText), ?_, rfl, rfl⟩
    apply (hsecond _ _).2
    rw [if_pos (by simp [hsym, hd, hn])]
    exact List.mem_append_right _ (List.mem_singleton.mpr rfl)

theorem NonAnsiPortListBuilder.handleIODecl_spec (scope : ScopeEnv)
    (b : NonAnsiPortListBuilder) (header : PortHeaderSyntax) (info : PortInfo)
    (insertionPoint : Option InsertionPoint) (r : PortInfo × NonAnsiPortListBuilder)
    (hfresh : info.internalSymbol = none)
    (h : NonAnsiPortListBuilder.handleIODecl scope b header info insertionPoint = .ok r) :
    r.1.decl = info.decl ∧ NonAnsiPortListBuilder.Extends b r.2 ∧ r.1.Checked r.2.diags := by
  have key : ∀ r0 : PortInfo × NonAnsiPortListBuilder,
      r0.1.decl = info.decl → NonAnsiPortListBuilder.Extends b r0.2 →
      r0.1.InOutChecked r0.2.diags →
      (NonAnsiPortListBuilder.checkIODecl r0).1.decl = info.decl ∧
      NonAnsiPortListBuilder.Extends b (NonAnsiPortListBuilder.checkIODecl r0).2 ∧
      (NonAnsiPortListBuilder.checkIODecl r0).1.Checked
        (NonAnsiPortListBuilder.checkIODecl r0).2.diags := by
    intro r0 h1 h2 h3
    obtain ⟨c1, c2, c3⟩ := NonAnsiPortListBuilder.checkIODecl_spec r0
    rw [c1]
    refine ⟨h1, h2.extends_trans c2, ?_⟩
    intro sym hsym
    exact ⟨fun hd => (h3.mono_inout c2.2) sym hsym hd, fun hd => c3 sym hsym hd⟩
  unfold NonAnsiPortListBuilder.handleIODecl at h
  split at h
  · cases h
  · split at h
    · cases h
    · rename_i r0 hr0
      cases h
      split at hr0
      · obtain ⟨h1, h2, h3⟩ :=
          NonAnsiPortListBuilder.handleVariablePortHeader_spec _ _ _ _ _ _ hr0
        exact key r0 h1 h2 h3
      · unfold NonAnsiPortListBuilder.handleNetPortHeader at hr0
        dsimp only at hr0
        split at hr0
        · cases hr0
        · rename_i direction hdir
          cases hr0
          obtain ⟨h1, _, _, h4, sym, h5, h6⟩ :=
            NonAnsiPortListBuilder.setInternalSymbol_spec b
              { kind := .Net (scope.getNetType ‹NetPortHeaderSyntax›.netTypeKind),
                name := info.decl.name.valueText, location := info.decl.name.location }
              info.decl (some ‹NetPortHeaderSyntax›.dataType)
              { info with direction := SemanticFacts.getDirection direction.kind } insertionPoint
          refine key _ h1 h4 ?_
          intro s hs _
          rw [h5] at hs
          cases hs
          exact Or.inl (InternalSymbol.isNet_net _ _ h6)
      · unfold NonAnsiPortListBuilder.handleInterfacePortHeader at hr0
        dsimp only at hr0
        split at hr0
        · cases hr0
        · cases hr0
          refine key _ rfl (NonAnsiPortListBuilder.Extends.more _ _) ?_
          intro s hs _
          have hs2 : info.internalSymbol = some s := hs
          rw [hfresh] at hs2
          cases hs2

theorem NonAnsiPortListBuilder.Checked.extend {b b2 : NonAnsiPortListBuilder}
    (h : b.Checked) (hext : NonAnsiPortListBuilder.Extends b b2) : b2.Checked := by
  intro e he
  rw [hext.1] at he
  exact (h e he).mono_info hext.2

theorem NonAnsiPortListBuilder.indexDeclarators_checked (scope : ScopeEnv)
    (port : PortDeclarationSyntax) (insertionPoint : Option InsertionPoint)
    (decls : List DeclaratorSyntax) :
    ∀ (b b2 : NonAnsiPortListBuilder), b.Checked →
      NonAnsiPortListBuilder.indexDeclarators scope port insertionPoint b decls = .ok b2 →
      b2.Checked ∧ ∀ d ∈ b.diags, d ∈ b2.diags := by
  induction decls with
  | nil =>
    intro b b2 hb h
    simp only [NonAnsiPortListBuilder.indexDeclarators] at h
    cases h
    exact ⟨hb, fun _ hd => hd⟩
  | cons decl rest ih =>
    intro b b2 hb h
    simp only [NonAnsiPortListBuilder.indexDeclarators] at h
    split at h
    · split at h
      · split at h
        · cases h
        · rename_i info b1 h1
          obtain ⟨_, hext, hchk⟩ :=
            NonAnsiPortListBuilder.handleIODecl_spec scope b port.header
              { decl := decl, attrs := port.attributes } insertionPoint _ rfl h1
          have hnew : NonAnsiPortListBuilder.Checked
              { b1 with portInfos := b1.portInfos ++ [(decl.name.valueText, info)] } := by
            intro e he
            rcases List.mem_append.mp he with he | he
            · exact hb.extend hext e he
            · rw [List.mem_singleton.mp he]
              exact hchk
          obtain ⟨r1, r2⟩ := ih _ b2 hnew h
          exact ⟨r1, fun d hd => r2 d (hext.2 d hd)⟩
      · obtain ⟨r1, r2⟩ := ih _ b2 (hb.extend (NonAnsiPortListBuilder.Extends.extends_addDiag _ _)) h
        exact ⟨r1, fun d hd => r2 d (List.mem_append_left _ hd)⟩
    · exact ih b b2 hb h

theorem NonAnsiPortListBuilder.indexDeclarations_checked (scope : ScopeEnv)
    (decls : List (PortDeclarationSyntax × Option InsertionPoint)) :
    ∀ (b b2 : NonAnsiPortListBuilder), b.Checked →
      NonAnsiPortListBuilder.indexDeclarations scope b decls = .ok b2 → b2.Checked := by
  induction decls with
  | nil =>
    intro b b2 hb h
    simp only [NonAnsiPortListBuilder.indexDeclarations] at h
    cases h
    exact hb
  | cons decl rest ih =>
    intro b b2 hb h
    obtain ⟨port, insertionPoint⟩ := decl
    simp only [NonAnsiPortListBuilder.indexDeclarations] at h
    split at h
    · cases h
    · rename_i b1 h1
      exact ih b1 b2
        (NonAnsiPortListBuilder.indexDeclarators_checked scope port insertionPoint _ b b1 hb h1).1
        h

theorem NonAnsiPortListBuilder.create_checked (scope : ScopeEnv)
    (decls : List (PortDeclarationSyntax × Option InsertionPoint))
    (b : NonAnsiPortListBuilder)
    (h : NonAnsiPortListBuilder.create scope decls = .ok b) : b.Checked :=
  NonAnsiPortListBuilder.indexDeclarations_checked scope decls {} b
    (fun _ he => by cases he) h

theorem NonAnsiPortListBuilder.find_mem (b : NonAnsiPortListBuilder) (name : String)
    (info : PortInfo) (h : b.find name = some info) : (name, info) ∈ b.portInfos := by
  unfold NonAnsiPortListBuilder.find at h
  cases hf : b.portInfos.find? (fun e => e.1 == name) with
  | none => simp [hf] at h
  | some e =>
    rw [hf] at h
    cases h
    have h1 := List.find?_some hf
    have h2 := List.mem_of_find?_eq_some hf
    have h3 : e.1 = name := by simpa using h1
    rw [← h3]
    exact h2

theorem NonAnsiPortListBuilder.setUsed_checked (diags : List Diagnostic) (name : String)
    (infos : List (String × PortInfo)) (h : ∀ e ∈ infos, e.2.Checked diags) :
    ∀ e ∈ NonAnsiPortListBuilder.setUsed name infos, e.2.Checked diags := by
  induction infos with
  | nil =>
    intro e he
    cases he
  | cons x rest ih =>
    intro e he
    simp only [NonAnsiPortListBuilder.setUsed] at he
    split at he
    · rcases List.mem_cons.mp he with he | he
      · rw [he]
        exact h x (List.mem_cons_self _ _)
      · exact h e (List.mem_cons_of_mem _ he)
    · rcases List.mem_cons.mp he with he | he
      · rw [he]
        exact h x (List.mem_cons_self _ _)
      · exact ih (fun e2 he2 => h e2 (List.mem_cons_of_mem _ he2)) e he

theorem NonAnsiPortListBuilder.getInfo_spec (b : NonAnsiPortListBuilder) (name : String)
    (hb : b.Checked) :
    (b.getInfo name).2.Checked ∧ (b.getInfo name).2.diags = b.diags ∧
    ∀ info, (b.getInfo name).1 = some info → info.Checked b.diags := by
  unfold NonAnsiPortListBuilder.getInfo
  split
  · exact ⟨hb, rfl, fun _ h => by cases h⟩
  · rename_i info hfind
    refine ⟨NonAnsiPortListBuilder.setUsed_checked b.diags name b.portInfos hb, rfl, ?_⟩
    intro i hi
    cases hi
    exact hb _ (NonAnsiPortListBuilder.find_mem b name info hfind)

theorem NonAnsiPortListBuilder.createPortReference_spec (b : NonAnsiPortListBuilder)
    (externalName : String) (externalLoc : SourceLocation) (stx : PortReferenceSyntax)
    (r : Built.Symbol × NonAnsiPortListBuilder) (hb : b.Checked)
    (h : b.createPortReference externalName externalLoc stx = .ok r) :
    r.2.Checked ∧ r.2.diags = b.diags ∧
    (∀ p, r.1 = .Port p → p.Checked r.2.diags) ∧ (∀ p, r.1 ≠ .MultiPort p) := by
  obtain ⟨g1, g2, g3⟩ := NonAnsiPortListBuilder.getInfo_spec b stx.name.valueText hb
  unfold NonAnsiPortListBuilder.createPortReference at h
  dsimp only at h
  split at h
  · rename_i b1 hg
    cases h
    rw [hg] at g1 g2
    exact ⟨g1, g2, fun p hp => (by cases hp), fun p hp => (by cases hp)⟩
  · rename_i info b1 hg
    rw [hg] at g1 g2 g3
    have hinfo := g3 info rfl
    split at h
    · cases h
      exact ⟨g1, g2, fun p hp => (by cases hp), fun p hp => (by cases hp)⟩
    · split at h
      · cases h
      · rename_i symbol hsym
        cases h
        refine ⟨g1, g2, ?_, fun p hp => (by cases hp)⟩
        intro p hp s hs
        cases hp
        have hs2 : some symbol = some s := hs
        cases hs2
        exact (hinfo symbol hsym).mono (fun d hd => by
          show d ∈ b1.diags
          rw [g2]
          exact hd)

theorem NonAnsiPortListBuilder.reportDirError_spec (stx : PortConcatenationSyntax)
    (code : DiagCode) (r : NonAnsiPortListBuilder.ConcatState × NonAnsiPortListBuilder) :
    NonAnsiPortListBuilder.Extends r.2 (NonAnsiPortListBuilder.reportDirError stx code r).2 ∧
    (NonAnsiPortListBuilder.reportDirError stx code r).1.buffer = r.1.buffer ∧
    (NonAnsiPortListBuilder.reportDirError stx code r).1.dir = r.1.dir := by
  unfold NonAnsiPortListBuilder.reportDirError
  split
  · exact ⟨NonAnsiPortListBuilder.Extends.extends_addDiag _ _, rfl, rfl⟩
  · exact ⟨NonAnsiPortListBuilder.Extends.extends_refl _, rfl, rfl⟩

theorem NonAnsiPortListBuilder.mergeDirection_spec (stx : PortConcatenationSyntax)
    (ps : Built.PortSymbol)
    (r : NonAnsiPortListBuilder.ConcatState × NonAnsiPortListBuilder) :
    NonAnsiPortListBuilder.Extends r.2 (NonAnsiPortListBuilder.mergeDirection stx ps r).2 ∧
    (NonAnsiPortListBuilder.mergeDirection stx ps r).1.buffer = r.1.buffer := by
  unfold NonAnsiPortListBuilder.mergeDirection
  split
  · dsimp only
    split
    · exact ⟨(NonAnsiPortListBuilder.reportDirError_spec _ _ _).1,
        (NonAnsiPortListBuilder.reportDirError_spec _ _ _).2.1⟩
    · exact ⟨NonAnsiPortListBuilder.Extends.extends_refl _, rfl⟩
  · split
    · dsimp only
      split
      · exact ⟨(NonAnsiPortListBuilder.reportDirError_spec _ _ _).1,
          (NonAnsiPortListBuilder.reportDirError_spec _ _ _).2.1⟩
      · exact ⟨NonAnsiPortListBuilder.Extends.extends_refl _, rfl⟩
    · split
      · exact ⟨NonAnsiPortListBuilder.Extends.extends_refl _, rfl⟩
      · exact ⟨NonAnsiPortListBuilder.Extends.extends_refl _, rfl⟩

theorem NonAnsiPortListBuilder.mergeKind_spec (stx : PortConcatenationSyntax)
    (sym : InternalSymbol)
    (r : NonAnsiPortListBuilder.ConcatState × NonAnsiPortListBuilder) :
    NonAnsiPortListBuilder.Extends r.2 (NonAnsiPortListBuilder.mergeKind stx sym r).2 ∧
    (NonAnsiPortListBuilder.mergeKind stx sym r).1.buffer = r.1.buffer := by
  unfold NonAnsiPortListBuilder.mergeKind
  split
  · dsimp only
    split
    · exact ⟨(NonAnsiPortListBuilder.reportDirError_spec _ _ _).1,
        (NonAnsiPortListBuilder.reportDirError_spec _ _ _).2.1⟩
    · exact ⟨NonAnsiPortListBuilder.Extends.extends_refl _, rfl⟩
  · dsimp only
    split
    · exact ⟨(NonAnsiPortListBuilder.reportDirError_spec _ _ _).1,
        (NonAnsiPortListBuilder.reportDirError_spec _ _ _).2.1⟩
    · exact ⟨NonAnsiPortListBuilder.Extends.extends_refl _, rfl⟩

theorem NonAnsiPortListBuilder.concatPort_spec (stx : PortConcatenationSyntax)
    (ps : Built.PortSymbol)
    (r r2 : NonAnsiPortListBuilder.ConcatState × NonAnsiPortListBuilder)
    (h : NonAnsiPortListBuilder.concatPort stx ps r = .ok r2) :
    NonAnsiPortListBuilder.Extends r.2 r2.2 ∧ r2.1.buffer = r.1.buffer ++ [ps] := by
  unfold NonAnsiPortListBuilder.concatPort at h
  dsimp only at h
  split at h
  · cases h
  · cases h
    obtain ⟨d1, d2⟩ := NonAnsiPortListBuilder.mergeDirection_spec stx ps
      ({ r.1 with buffer := r.1.buffer ++ [ps] }, r.2)
    obtain ⟨k1, k2⟩ := NonAnsiPortListBuilder.mergeKind_spec stx ‹InternalSymbol›
      (NonAnsiPortListBuilder.mergeDirection stx ps
        ({ r.1 with buffer := r.1.buffer ++ [ps] }, r.2))
    exact ⟨d1.extends_trans k1, k2.trans d2⟩

theorem NonAnsiPortListBuilder.concatLoop_spec (stx : PortConcatenationSyntax)
    (items : List PortReferenceSyntax) :
    ∀ (r r2 : NonAnsiPortListBuilder.ConcatState × NonAnsiPortListBuilder),
      r.2.Checked → (∀ p ∈ r.1.buffer, p.Checked r.2.diags) →
      NonAnsiPortListBuilder.concatLoop stx r items = .ok r2 →
      r2.2.Checked ∧ (∀ d ∈ r.2.diags, d ∈ r2.2.diags) ∧
      ∀ p ∈ r2.1.buffer, p.Checked r2.2.diags := by
  induction items with
  | nil =>
    intro r r2 hb hbuf h
    simp only [NonAnsiPortListBuilder.concatLoop] at h
    cases h
    exact ⟨hb, fun _ hd => hd, hbuf⟩
  | cons item rest ih =>
    intro r r2 hb hbuf h
    simp only [NonAnsiPortListBuilder.concatLoop] at h
    split at h
    · cases h
    · rename_i ps b1 hc
      obtain ⟨c1, c2, c3, _⟩ :=
        NonAnsiPortListBuilder.createPortReference_spec r.2 "" item.firstToken item _ hb hc
      split at h
      · cases h
      · rename_i r1 hp
        obtain ⟨p1, p2⟩ := NonAnsiPortListBuilder.concatPort_spec stx ps (r.1, b1) r1 hp
        have hsub : ∀ d ∈ r.2.diags, d ∈ r1.2.diags := by
          intro d hd
          apply p1.2
          show d ∈ b1.diags
          have : b1.diags = r.2.diags := c2
          rw [this]
          exact hd
        obtain ⟨i1, i2, i3⟩ := ih r1 r2 (c1.extend p1) (by
          intro p hp
          rw [p2] at hp
          rcases List.mem_append.mp hp with hp | hp
          · exact (hbuf p hp).mono_port hsub
          · rw [List.mem_singleton.mp hp]
            exact (c3 ps rfl).mono_port p1.2) h
        exact ⟨i1, fun d hd => i2 d (hsub d hd), i3⟩
    · rename_i ip b1 hc
      obtain ⟨c1, c2, _, _⟩ :=
        NonAnsiPortListBuilder.createPortReference_spec r.2 "" item.firstToken item _ hb hc
      have hsame : b1.diags = r.2.diags := c2
      split at h
      · obtain ⟨i1, i2, i3⟩ := ih _ r2
          (show NonAnsiPortListBuilder.Checked
            { b1 with implicitMembers := b1.implicitMembers ++
              [.Provisional { ip with multiPortLoc := some item.firstToken }] } from
            c1.extend ⟨rfl, fun _ hd => hd⟩)
          (by
            intro p hp
            exact (hbuf p hp).mono_port (fun d hd => by
              show d ∈ b1.diags
              rw [hsame]
              exact hd)) h
        exact ⟨i1, fun d hd => i2 d (by
          show d ∈ b1.diags
          rw [hsame]
          exact hd), i3⟩
      · obtain ⟨i1, i2, i3⟩ := ih _ r2
          (c1.extend (NonAnsiPortListBuilder.Extends.extends_addDiag _ _))
          (by
            intro p hp
            exact (hbuf p hp).mono_port (fun d hd => by
              apply List.mem_append_left
              show d ∈ b1.diags
              rw [hsame]
              exact hd)) h
        exact ⟨i1, fun d hd => i2 d (by
          apply List.mem_append_left
          show d ∈ b1.diags
          rw [hsame]
          exact hd), i3⟩
    · cases h

theorem NonAnsiPortListBuilder.createPortExpression_spec (b : NonAnsiPortListBuilder)
    (name : String) (loc : SourceLocation) (expr : PortExpressionSyntax)
    (r : Built.Symbol × NonAnsiPortListBuilder) (hb : b.Checked)
    (h : b.createPortExpression name loc expr = .ok r) :
    r.2.Checked ∧ (∀ d ∈ b.diags, d ∈ r.2.diags) ∧ ∀ p ∈ r.1.ports, p.Checked r.2.diags := by
  cases expr with
  | PortReference stx =>
    obtain ⟨c1, c2, c3, _⟩ :=
      NonAnsiPortListBuilder.createPortReference_spec b name loc stx r hb h
    refine ⟨c1, fun d hd => by rw [c2]; exact hd, ?_⟩
    intro p hp
    cases hr : r.1 with
    | Port q =>
      rw [hr] at hp
      rw [List.mem_singleton.mp hp]
      exact c3 q hr
    | InterfacePort q =>
      rw [hr] at hp
      cases hp
    | MultiPort q =>
      rw [hr] at hp
      exact absurd hr (by
        intro hq
        rename_i c4
        exact c4 q hq)
  | PortConcatenation stx =>
    simp only [NonAnsiPortListBuilder.createPortExpression,
      NonAnsiPortListBuilder.createPortConcatenation] at h
    split at h
    · cases h
    · rename_i st b1 hl
      cases h
      obtain ⟨l1, l2, l3⟩ :=
        NonAnsiPortListBuilder.concatLoop_spec stx stx.references ({}, b) (st, b1) hb
          (fun p hp => by cases hp) hl
      exact ⟨l1, l2, l3⟩

theorem NonAnsiPortListBuilder.createPort_spec (scope : ScopeEnv)
    (b : NonAnsiPortListBuilder) (stx : NonAnsiPortSyntax)
    (r : Built.Symbol × NonAnsiPortListBuilder) (hb : b.Checked)
    (h : b.createPort scope stx = .ok r) :
    r.2.Checked ∧ (∀ d ∈ b.diags, d ∈ r.2.diags) ∧ ∀ p ∈ r.1.ports, p.Checked r.2.diags := by
  cases stx with
  | ImplicitNonAnsiPort s =>
    exact NonAnsiPortListBuilder.createPortExpression_spec b _ _ _ r hb h
  | ExplicitNonAnsiPort s =>
    simp only [NonAnsiPortListBuilder.createPort,
      NonAnsiPortListBuilder.createPortExplicit] at h
    split at h
    · cases h
      refine ⟨hb, fun _ hd => hd, ?_⟩
      intro p hp sym hsym
      rw [List.mem_singleton.mp hp] at hsym
      cases hsym
    · exact NonAnsiPortListBuilder.createPortExpression_spec b _ _ _ r hb h
  | EmptyNonAnsiPort s =>
    simp only [NonAnsiPortListBuilder.createPort, NonAnsiPortListBuilder.createPortEmpty] at h
    cases h
    refine ⟨hb, fun _ hd => hd, ?_⟩
    intro p hp sym hsym
    rw [List.mem_singleton.mp hp] at hsym
    cases hsym

theorem NonAnsiPortListBuilder.createPorts_ports_checked (scope : ScopeEnv)
    (ports : List NonAnsiPortSyntax) :
    ∀ (b : NonAnsiPortListBuilder) (symbols : List Built.Symbol) (st : NonAnsiPortListBuilder),
      b.Checked → b.createPorts scope ports = .ok (symbols, st) →
      (∀ d ∈ b.diags, d ∈ st.diags) ∧
      ∀ s ∈ symbols, ∀ p ∈ s.ports, p.Checked st.diags := by
  induction ports with
  | nil =>
    intro b symbols st _ h
    simp only [NonAnsiPortListBuilder.createPorts] at h
    cases h
    exact ⟨fun _ hd => hd, fun s hs => by cases hs⟩
  | cons port rest ih =>
    intro b symbols st hb h
    simp only [NonAnsiPortListBuilder.createPorts] at h
    split at h
    · cases h
    · rename_i symbol b1 h1
      split at h
      · cases h
      · rename_i symbols2 b2 h2
        cases h
        obtain ⟨c1, c2, c3⟩ := NonAnsiPortListBuilder.createPort_spec scope b port _ hb h1
        obtain ⟨r1, r2⟩ := ih b1 symbols2 st c1 h2
        refine ⟨fun d hd => r1 d (c2 d hd), ?_⟩
        intro s hs p hp
        rcases List.mem_cons.mp hs with hs | hs
        · rw [hs] at hp
          exact (c3 p hp).mono_port r1
        · exact r2 s hs p hp

theorem NonAnsiPortListBuilder.fromSyntax_checked (scope : ScopeEnv)
    (ports : List NonAnsiPortSyntax)
    (decls : List (PortDeclarationSyntax × Option InsertionPoint))
    (symbols : List Built.Symbol) (st : NonAnsiPortListBuilder)
    (h : NonAnsiPortListBuilder.fromSyntax scope ports decls = .ok (symbols, st)) :
    ∀ s ∈ symbols, ∀ p ∈ s.ports, p.Checked st.diags := by
  unfold NonAnsiPortListBuilder.fromSyntax at h
  split at h
  · cases h
  · rename_i b hb
    split at h
    · cases h
    · rename_i symbols2 b2 h2
      cases h
      obtain ⟨_, r2⟩ := NonAnsiPortListBuilder.createPorts_ports_checked scope ports b _ b2
        (NonAnsiPortListBuilder.create_checked scope decls b hb) h2
      intro s hs p hp
      exact (r2 s hs p hp).mono_port (fun d hd => List.mem_append_left _ hd)

/-- C19 as stated fails: the ANSI port `inout var logic x` is a named inout port
whose internal symbol is set and is a variable, and the ANSI port `ref wire r`
is a named ref port whose internal symbol is a net. -/
theorem ports_direction_unchecked :
    (AnsiPortListBuilder.createPorts Demo.scope {}
        [.ImplicitAnsiPort (Demo.ansiPort (some .InOutKeyword) true Demo.logicSyntax "x" 7)]).map
      (fun r => r.1.map (fun s => s.summary)) =
        .ok [some ("x", .InOut, some 1, some .Variable)] ∧
    (AnsiPortListBuilder.createPorts Demo.scope {}
        [.ImplicitAnsiPort (Demo.ansiNetPort .RefKeyword "r" 7)]).map
      (fun r => r.1.map (fun s => s.summary)) =
        .ok [some ("r", .Ref, some 3, some (.Net Demo.wire))] := by
  refine ⟨?_, ?_⟩ <;> rfl

/-- C19 (amended): for every Port with a non-empty name and an internal symbol
that the ANSI list builder or the non-ANSI list builder produces (as an entry of
the port list or as a component of a port concatenation): if its direction is
inout, the internal symbol is a net, or `InOutPortCannotBeVariable` was reported
at the location of the port; if its direction is ref, the internal symbol is a
variable, or `RefPortMustBeVariable` was reported at the location of the
port. -/
theorem ports_direction_checked (scope : ScopeEnv)
    (ansiPorts : List AnsiPortSyntax) (ansiSymbols : List Built.Symbol)
    (ansiSt : AnsiPortListBuilder)
    (ports : List NonAnsiPortSyntax)
    (decls : List (PortDeclarationSyntax × Option InsertionPoint))
    (symbols : List Built.Symbol) (st : NonAnsiPortListBuilder)
    (hansi : AnsiPortListBuilder.createPorts scope {} ansiPorts = .ok (ansiSymbols, ansiSt))
    (hnon : NonAnsiPortListBuilder.fromSyntax scope ports decls = .ok (symbols, st)) :
    (∀ (p : Built.PortSymbol) (sym : InternalSymbol), Built.Symbol.Port p ∈ ansiSymbols →
      p.name ≠ "" → p.internalSymbol = some sym →
      (p.direction = .InOut → sym.isNet = true ∨
        ∃ d ∈ ansiSt.diags, d.code = .InOutPortCannotBeVariable ∧ d.location = p.location) ∧
      (p.direction = .Ref → sym.isNet = false ∨
        ∃ d ∈ ansiSt.diags, d.code = .RefPortMustBeVariable ∧ d.location = p.location)) ∧
    (∀ (s : Built.Symbol) (p : Built.PortSymbol) (sym : InternalSymbol), s ∈ symbols →
      p ∈ s.ports → p.name ≠ "" → p.internalSymbol = some sym →
      (p.direction = .InOut → sym.isNet = true ∨
        ∃ d ∈ st.diags, d.code = .InOutPortCannotBeVariable ∧ d.location = p.location) ∧
      (p.direction = .Ref → sym.isNet = false ∨
        ∃ d ∈ st.diags, d.code = .RefPortMustBeVariable ∧ d.location = p.location)) := by
  refine ⟨?_, ?_⟩
  · intro p sym hp hname hsym
    exact (AnsiPortListBuilder.createPorts_checked scope ansiPorts {} ansiSymbols ansiSt
      hansi).2 p hp hname sym hsym
  · intro s p sym hs hp _ hsym
    exact NonAnsiPortListBuilder.fromSyntax_checked scope ports decls symbols st hnon s hs p hp
      sym hsym

/-- The ANSI list `inout wire w, inout var logic x` and the non-ANSI list `(a, b)`
with `inout wire a; ref var logic b;`. -/
theorem ports_direction_checked_witness :
    ∃ (ansiSymbols : List Built.Symbol) (ansiSt : AnsiPortListBuilder)
      (symbols : List Built.Symbol) (st : NonAnsiPortListBuilder),
      AnsiPortListBuilder.createPorts Demo.scope {} Demo.inoutAnsiList =
        .ok (ansiSymbols, ansiSt) ∧
      NonAnsiPortListBuilder.fromSyntax Demo.scope Demo.inoutRefList Demo.inoutRefDecls =
        .ok (symbols, st) ∧
      ansiSymbols.map (fun s => s.summary) =
        [some ("w", .InOut, some 3, some (.Net Demo.wire)),
         some ("x", .InOut, some 1, some .Variable)] ∧
      codes ansiSt.diags = [.InOutPortCannotBeVariable] ∧
      symbols.map (fun s => s.summary) =
        [some ("a", .InOut, some 3, some (.Net Demo.wire)),
         some ("b", .Ref, some 1, some .Variable)] ∧
      codes st.diags = [] ∧
      ((∀ (p : Built.PortSymbol) (sym : InternalSymbol), Built.Symbol.Port p ∈ ansiSymbols →
        p.name ≠ "" → p.internalSymbol = some sym →
        (p.direction = .InOut → sym.isNet = true ∨
          ∃ d ∈ ansiSt.diags, d.code = .InOutPortCannotBeVariable ∧ d.location = p.location) ∧
        (p.direction = .Ref → sym.isNet = false ∨
          ∃ d ∈ ansiSt.diags, d.code = .RefPortMustBeVariable ∧ d.location = p.location)) ∧
      (∀ (s : Built.Symbol) (p : Built.PortSymbol) (sym : InternalSymbol), s ∈ symbols →
        p ∈ s.ports → p.name ≠ "" → p.internalSymbol = some sym →
        (p.direction = .InOut → sym.isNet = true ∨
          ∃ d ∈ st.diags, d.code = .InOutPortCannotBeVariable ∧ d.location = p.location) ∧
        (p.direction = .Ref → sym.isNet = false ∨
          ∃ d ∈ st.diags, d.code = .RefPortMustBeVariable ∧ d.location = p.location))) :=
  ⟨_, _, _, _, rfl, rfl, rfl, rfl, rfl, rfl,
    ports_direction_checked Demo.scope Demo.inoutAnsiList _ _ Demo.inoutRefList
      Demo.inoutRefDecls _ _ rfl rfl⟩

theorem PortConnectionBuilder.createConnection_void {α : Type} [TPort α] (env : Env)
    (b : PortConnectionBuilder) (port : α) (stx : PropertyExprSyntax)
    (attributes : List AttributeSymbol) (hvoid : (TPort.getType port).isVoid = true) :
    b.createConnection env port stx attributes =
      (.value (TPort.toSymbol port) none [],
       { b with diags := b.diags ++
          [{ code := .NullPortExpression, location := stx.sourceRange.start,
             ranges := [stx.sourceRange],
             notes := [(.NoteDeclarationHere, TPort.location port)] }] }) := by
  simp [PortConnectionBuilder.createConnection, hvoid, PortConnectionBuilder.emptyConnection,
    PortConnectionBuilder.addDiag, Diagnostic.atRange, Diagnostic.addNote]

theorem PortConnectionBuilder.implicitNamedPort_no_expr {α : Type} [TPort α] (env : Env)
    (b : PortConnectionBuilder) (port : α) (attributes : List AttributeSymbol)
    (range : SourceRange) (isWildcard : Bool)
    (hinit : TPort.getInitializer port = none)
    (hequiv : ∀ symbol range, (env.fromSymbol symbol range).bad = false →
      env.isEquivalent (env.fromSymbol symbol range).type (TPort.getType port) = false) :
    (b.implicitNamedPort env port attributes range isWildcard).1.expr = none := by
  unfold PortConnectionBuilder.implicitNamedPort
  dsimp only
  split
  · rw [hinit]
    simp [PortConnectionBuilder.emptyConnection, PortConnection.expr]
  · rename_i symbol _
    split
    · rfl
    · split
      · rfl
      · rename_i hbad
        have hb : (env.fromSymbol symbol range).bad = false := by
          simpa using hbad
        rw [hequiv symbol range hb]
        simp [PortConnectionBuilder.emptyConnection, PortConnection.expr]

/-- C13: for a data port or multi-port whose type is void, an ordered expression
(in ordered mode) and a connection `.name(expr)` (in named mode) give the
connection without expression and add exactly one `NullPortExpression`, at the
range of the expression and with a note at the port.  No connection of a void
port carries an expression, given that the port has no default value (the
builder gives an empty port none) and that no symbol of the scope yields a valid
expression whose type is equivalent to the type of the port.  The non-ANSI list
builder makes the empty ports `.x()` and the empty entry with the type void,
direction in, no internal symbol and no initializer. -/
theorem getConnection_void {α : Type} [TPort α] (env : Env)
    (b : PortConnectionBuilder) (port : α)
    (hvoid : (TPort.getType port).isVoid = true) :
    (∀ (s : OrderedPortConnectionSyntax), b.usingOrdered = true →
      b.orderedConns[b.orderedIndex]? = some (.Ordered s) →
      (b.getConnection env port).1 = .value (TPort.toSymbol port) none [] ∧
      (b.getConnection env port).2.diags = b.diags ++
        [{ code := .NullPortExpression, location := s.expr.sourceRange.start,
           ranges := [s.expr.sourceRange],
           notes := [(.NoteDeclarationHere, TPort.location port)] }]) ∧
    (∀ (conn : NamedPortConnectionSyntax) (used : Bool) (e : PropertyExprSyntax),
      b.usingOrdered = false → TPort.name port ≠ "" →
      b.findNamed (TPort.name port) = some (conn, used) → conn.openParen = true →
      conn.expr = some e →
      (b.getConnection env port).1 = .value (TPort.toSymbol port) none [] ∧
      (b.getConnection env port).2.diags = b.diags ++
        [{ code := .NullPortExpression, location := e.sourceRange.start,
           ranges := [e.sourceRange],
           notes := [(.NoteDeclarationHere, TPort.location port)] }]) ∧
    (TPort.getInitializer port = none →
      (∀ symbol range, (env.fromSymbol symbol range).bad = false →
        env.isEquivalent (env.fromSymbol symbol range).type (TPort.getType port) = false) →
      (b.getConnection env port).1.expr = none) ∧
    (∀ (scope : ScopeEnv) (nb : NonAnsiPortListBuilder) (stx : ExplicitNonAnsiPortSyntax),
      stx.expr = none →
      ∃ p, nb.createPortExplicit scope stx = .ok (.Port p, nb) ∧
        p.name = stx.name.valueText ∧ p.declaredType.resolved = some scope.voidType ∧
        p.direction = .In ∧ p.internalSymbol = none ∧ p.initializerSyntax = none) ∧
    (∀ (scope : ScopeEnv) (nb : NonAnsiPortListBuilder) (stx : EmptyNonAnsiPortSyntax),
      ∃ p, nb.createPortEmpty scope stx = (.Port p, nb) ∧
        p.name = "" ∧ p.declaredType.resolved = some scope.voidType ∧
        p.direction = .In ∧ p.internalSymbol = none ∧ p.initializerSyntax = none) := by
  refine ⟨?_, ?_, ?_, ?_, ?_⟩
  · intro s hmode hconn
    have hlt : b.orderedIndex < b.orderedConns.length := by
      by_contra hc
      rw [List.getElem?_eq_none (Nat.le_of_not_lt hc)] at hconn
      cases hconn
    have hget : b.orderedConns[b.orderedIndex] = .Ordered s := by
      rw [List.getElem?_eq_getElem hlt] at hconn
      exact Option.some.inj hconn
    unfold PortConnectionBuilder.getConnection
    dsimp only
    rw [if_pos hmode, dif_neg (Nat.not_le_of_lt hlt)]
    simp only [hget]
    rw [PortConnectionBuilder.createConnection_void env _ port s.expr _ hvoid]
    exact ⟨rfl, rfl⟩
  · intro conn used e hmode hname hhit hparen hexpr
    have hne := isEmpty_eq_false_of_ne hname
    unfold PortConnectionBuilder.getConnection
    dsimp only
    rw [if_neg (by simp [hmode]), if_neg (by simp [hne])]
    simp only [hhit, hparen, hexpr, if_true]
    rw [PortConnectionBuilder.createConnection_void env _ port e _ hvoid]
    exact ⟨rfl, rfl⟩
  · intro hinit hequiv
    unfold PortConnectionBuilder.getConnection
    dsimp only
    rw [hinit]
    split
    · split
      · simp only [Option.isSome_none, Bool.false_eq_true, if_false]
        split <;> rfl
      · split
        · rw [PortConnectionBuilder.createConnection_void env _ port _ _ hvoid]
          rfl
        · rfl
    · split
      · rfl
      · split
        · split
          · exact PortConnectionBuilder.implicitNamedPort_no_expr env b port _ _ _ hinit hequiv
          · simp [PortConnectionBuilder.emptyConnection, PortConnection.expr]
        · split
          · split
            · rw [PortConnectionBuilder.createConnection_void env _ port _ _ hvoid]
              rfl
            · rfl
          · exact PortConnectionBuilder.implicitNamedPort_no_expr env _ port _ _ _ hinit hequiv
  · intro scope nb stx hexpr
    simp only [NonAnsiPortListBuilder.createPortExplicit, hexpr]
    exact ⟨_, rfl, rfl, rfl, rfl, rfl, rfl⟩
  · intro scope nb stx
    exact ⟨_, rfl, rfl, rfl, rfl, rfl, rfl⟩

/-- The unnamed void port against the ordered list `(3)`, and the void port `x`
against the named list `.x(3)`. -/
theorem getConnection_void_witness :
    ((PortConnectionBuilder.create Demo.env [Demo.ordered 3]).getConnection Demo.env
        Demo.unnamed1).1.expr = none ∧
    codes ((PortConnectionBuilder.create Demo.env [Demo.ordered 3]).getConnection Demo.env
        Demo.unnamed1).2.diags = [.NullPortExpression] ∧
    ((PortConnectionBuilder.create Demo.env
        [.Named (Demo.namedNode "x" 3 true true)]).getConnection Demo.env
        Demo.voidX).1.expr = none ∧
    codes ((PortConnectionBuilder.create Demo.env
        [.Named (Demo.namedNode "x" 3 true true)]).getConnection Demo.env
        Demo.voidX).2.diags = [.NullPortExpression] :=
  ⟨(getConnection_void Demo.env (PortConnectionBuilder.create Demo.env [Demo.ordered 3])
      Demo.unnamed1 rfl).2.2.1 rfl (fun _ _ _ => rfl),
   by
    rw [((getConnection_void Demo.env (PortConnectionBuilder.create Demo.env [Demo.ordered 3])
      Demo.unnamed1 rfl).1 _ rfl rfl).2]
    rfl,
   (getConnection_void Demo.env
      (PortConnectionBuilder.create Demo.env [.Named (Demo.namedNode "x" 3 true true)])
      Demo.voidX rfl).2.2.1 rfl (fun _ _ _ => rfl),
   by
    rw [((getConnection_void Demo.env
      (PortConnectionBuilder.create Demo.env [.Named (Demo.namedNode "x" 3 true true)])
      Demo.voidX rfl).2.1 (Demo.namedNode "x" 3 true true) false _ rfl (by decide) rfl rfl
      rfl).2]
    rfl⟩

/-! ## `getInterfacePortInfo` -/

/-- C21: `getInterfacePortInfo` returns no definition, an empty modport and one
`UnknownInterface` when the name resolves to no definition; no definition, an
empty modport and one `PortTypeNotInterfaceOrData` when the definition is not an
interface; the definition, an empty modport and one `NotAModport` when the
header names a non-empty modport that the interface does not have; and
otherwise the definition and the named modport (the empty one when the header
names none) without a diagnostic.  A non-empty returned modport is a modport of
the returned definition, which is an interface. -/
theorem getInterfacePortInfo_cases (scope : ScopeEnv) (header : InterfacePortHeaderSyntax) :
    (scope.getDefinition header.nameOrKeyword.valueText = none →
      getInterfacePortInfo scope header =
        (none, "",
          [{ code := .UnknownInterface, location := header.nameOrKeyword.range.start,
             ranges := [header.nameOrKeyword.range],
             args := [.str header.nameOrKeyword.valueText] }])) ∧
    (∀ d, scope.getDefinition header.nameOrKeyword.valueText = some d →
      d.definitionKind ≠ .Interface →
      getInterfacePortInfo scope header =
        (none, "",
          [{ code := .PortTypeNotInterfaceOrData, location := header.nameOrKeyword.range.start,
             ranges := [header.nameOrKeyword.range], args := [.str d.name],
             notes := [(.NoteDeclarationHere, d.location)] }])) ∧
    (∀ d member, scope.getDefinition header.nameOrKeyword.valueText = some d →
      d.definitionKind = .Interface → header.modport = some member →
      member.valueText ≠ "" → member.valueText ∉ d.modports →
      getInterfacePortInfo scope header =
        (some d, "",
          [{ code := .NotAModport, location := member.range.start, ranges := [member.range],
             args := [.str member.valueText, .str d.name] }])) ∧
    (∀ d member, scope.getDefinition header.nameOrKeyword.valueText = some d →
      d.definitionKind = .Interface → header.modport = some member →
      (member.valueText = "" ∨ member.valueText ∈ d.modports) →
      getInterfacePortInfo scope header = (some d, member.valueText, [])) ∧
    (∀ d, scope.getDefinition header.nameOrKeyword.valueText = some d →
      d.definitionKind = .Interface → header.modport = none →
      getInterfacePortInfo scope header = (some d, "", [])) ∧
    (∀ d, (getInterfacePortInfo scope header).1 = some d →
      d.definitionKind = .Interface ∧
      ((getInterfacePortInfo scope header).2.1 ≠ "" →
        (getInterfacePortInfo scope header).2.1 ∈ d.modports)) := by
  have p1 : scope.getDefinition header.nameOrKeyword.valueText = none →
      getInterfacePortInfo scope header =
        (none, "",
          [{ code := .UnknownInterface, location := header.nameOrKeyword.range.start,
             ranges := [header.nameOrKeyword.range],
             args := [.str header.nameOrKeyword.valueText] }]) := by
    intro h
    simp [getInterfacePortInfo, h, Diagnostic.atRange, Diagnostic.arg]
  have p2 : ∀ d, scope.getDefinition header.nameOrKeyword.valueText = some d →
      d.definitionKind ≠ .Interface →
      getInterfacePortInfo scope header =
        (none, "",
          [{ code := .PortTypeNotInterfaceOrData, location := header.nameOrKeyword.range.start,
             ranges := [header.nameOrKeyword.range], args := [.str d.name],
             notes := [(.NoteDeclarationHere, d.location)] }]) := by
    intro d h hk
    simp [getInterfacePortInfo, h, hk, Diagnostic.atRange, Diagnostic.arg, Diagnostic.addNote]
  have p3 : ∀ d member, scope.getDefinition header.nameOrKeyword.valueText = some d →
      d.definitionKind = .Interface → header.modport = some member →
      member.valueText ≠ "" → member.valueText ∉ d.modports →
      getInterfacePortInfo scope header =
        (some d, "",
          [{ code := .NotAModport, location := member.range.start, ranges := [member.range],
             args := [.str member.valueText, .str d.name] }]) := by
    intro d member h hk hm hne hnot
    have he := isEmpty_eq_false_of_ne hne
    simp [getInterfacePortInfo, h, hk, hm, he, hnot, Diagnostic.atRange, Diagnostic.arg]
  have p4 : ∀ d member, scope.getDefinition header.nameOrKeyword.valueText = some d →
      d.definitionKind = .Interface → header.modport = some member →
      (member.valueText = "" ∨ member.valueText ∈ d.modports) →
      getInterfacePortInfo scope header = (some d, member.valueText, []) := by
    intro d member h hk hm hor
    have hempty : ("" : String).isEmpty = true := rfl
    rcases hor with hor | hor
    · simp [getInterfacePortInfo, h, hk, hm, hor, hempty]
    · simp [getInterfacePortInfo, h, hk, hm, hor]
  have p5 : ∀ d, scope.getDefinition header.nameOrKeyword.valueText = some d →
      d.definitionKind = .Interface → header.modport = none →
      getInterfacePortInfo scope header = (some d, "", []) := by
    intro d h hk hm
    simp [getInterfacePortInfo, h, hk, hm]
  refine ⟨p1, p2, p3, p4, p5, ?_⟩
  intro d hd
  cases hdef : scope.getDefinition header.nameOrKeyword.valueText with
  | none =>
    rw [p1 hdef] at hd
    cases hd
  | some d0 =>
    by_cases hk : d0.definitionKind = .Interface
    · cases hm : header.modport with
      | none =>
        rw [p5 d0 hdef hk hm] at hd ⊢
        cases hd
        exact ⟨hk, fun h => absurd rfl h⟩
      | some member =>
        by_cases hor : member.valueText = "" ∨ member.valueText ∈ d0.modports
        · rw [p4 d0 member hdef hk hm hor] at hd ⊢
          cases hd
          refine ⟨hk, fun hne => ?_⟩
          rcases hor with hor | hor
          · exact absurd hor hne
          · exact hor
        · push_neg at hor
          rw [p3 d0 member hdef hk hm hor.1 hor.2] at hd ⊢
          cases hd
          exact ⟨hk, fun h => absurd rfl h⟩
    · rw [p2 d0 hdef hk] at hd
      cases hd

/-! ## References to names that are not indexed -/

/-! ## The non-ANSI list builder: references to names without declaration -/

/-- C30: a non-ANSI port reference whose name matches no indexed port declaration
gives an interface port with `isMissingIO` set and without interface definition,
named by the external name, or by the referenced name when the external name is
empty, and leaves the builder as it was: no diagnostic is added.  So the entry
`a` of a port list is named `a`, and the entry `.x(a)` is named `x`. -/
theorem createPortReference_unknown (scope : ScopeEnv) (b : NonAnsiPortListBuilder)
    (stx : PortReferenceSyntax)
    (hmiss : b.find stx.name.valueText = none) :
    (∀ (externalName : String) (externalLoc : SourceLocation),
      b.createPortReference externalName externalLoc stx =
        .ok (.InterfacePort
          { name := if externalName = "" then stx.name.valueText else externalName,
            location := externalLoc, interfaceDef := none, modport := "", isMissingIO := true,
            multiPortLoc := none, declarator := none, attributes := [] }, b)) ∧
    b.createPort scope (.ImplicitNonAnsiPort { expr := .PortReference stx }) =
      .ok (.InterfacePort
        { name := stx.name.valueText, location := stx.firstToken, isMissingIO := true }, b) ∧
    (∀ (name : Token), name.valueText ≠ "" →
      b.createPort scope
          (.ExplicitNonAnsiPort { name := name, expr := some (.PortReference stx) }) =
        .ok (.InterfacePort
          { name := name.valueText, location := name.location, isMissingIO := true }, b)) := by
  have key : ∀ (externalName : String) (externalLoc : SourceLocation),
      b.createPortReference externalName externalLoc stx =
        .ok (.InterfacePort
          { name := if externalName = "" then stx.name.valueText else externalName,
            location := externalLoc, interfaceDef := none, modport := "", isMissingIO := true,
            multiPortLoc := none, declarator := none, attributes := [] }, b) := by
    intro externalName externalLoc
    unfold NonAnsiPortListBuilder.createPortReference NonAnsiPortListBuilder.getInfo
    simp only [hmiss]
    by_cases he : externalName = ""
    · subst he
      rfl
    · rw [if_neg he, isEmpty_eq_false_of_ne he]
      rfl
  refine ⟨key, ?_, ?_⟩
  · show b.createPortReference "" stx.firstToken stx = _
    rw [key]
    rfl
  · intro name hne
    show b.createPortReference name.valueText name.location stx = _
    rw [key, if_neg hne]

/-- The entry `a` of a port list without any port declaration. -/
theorem createPortReference_unknown_witness :
    NonAnsiPortListBuilder.createPort Demo.scope {} (Demo.nonAnsiPort "a" 1) =
      .ok (.InterfacePort { name := "a", location := 1, isMissingIO := true }, {}) :=
  (createPortReference_unknown Demo.scope {} (Demo.portRef "a" 1) rfl).2.1

/-! ## The index of the port declarations -/

theorem NonAnsiPortListBuilder.Adds.adds_refl (b : NonAnsiPortListBuilder) :
    NonAnsiPortListBuilder.Adds b b :=
  ⟨rfl, [], by simp, fun _ h => by cases h⟩

theorem NonAnsiPortListBuilder.Adds.adds_trans {b b2 b3 : NonAnsiPortListBuilder}
    (h1 : NonAnsiPortListBuilder.Adds b b2) (h2 : NonAnsiPortListBuilder.Adds b2 b3) :
    NonAnsiPortListBuilder.Adds b b3 := by
  obtain ⟨p1, ds1, e1, c1⟩ := h1
  obtain ⟨p2, ds2, e2, c2⟩ := h2
  refine ⟨p2.trans p1, ds1 ++ ds2, by rw [e2, e1, List.append_assoc], ?_⟩
  intro d hd
  rcases List.mem_append.mp hd with hd | hd
  · exact c1 d hd
  · exact c2 d hd

theorem NonAnsiPortListBuilder.Adds.adds_diag (b : NonAnsiPortListBuilder) (d : Diagnostic)
    (h : NonAnsiPortListBuilder.isIODeclDiag d.code = true) :
    NonAnsiPortListBuilder.Adds b (b.addDiag d) :=
  ⟨rfl, [d], rfl, fun x hx => by rw [List.mem_singleton.mp hx]; exact h⟩

theorem NonAnsiPortListBuilder.Adds.adds_more (b : NonAnsiPortListBuilder)
    (ds : List Diagnostic) (h : ∀ d ∈ ds, NonAnsiPortListBuilder.isIODeclDiag d.code = true) :
    NonAnsiPortListBuilder.Adds b { b with diags := b.diags ++ ds } :=
  ⟨rfl, ds, rfl, h⟩

theorem getDefaultNetType_codes (scope : ScopeEnv) (location : SourceLocation) :
    ∀ d ∈ (getDefaultNetType scope location).2,
      NonAnsiPortListBuilder.isIODeclDiag d.code = true := by
  intro d hd
  unfold getDefaultNetType at hd
  split at hd
  · cases hd
  · rw [List.mem_singleton.mp hd]
    rfl

theorem getInterfacePortInfo_codes (scope : ScopeEnv) (header : InterfacePortHeaderSyntax) :
    ∀ d ∈ (getInterfacePortInfo scope header).2.2,
      NonAnsiPortListBuilder.isIODeclDiag d.code = true := by
  intro d hd
  unfold getInterfacePortInfo at hd
  dsimp only at hd
  repeat' split at hd
  all_goals first
    | (rw [List.mem_singleton.mp hd]; rfl)
    | exact absurd hd (List.not_mem_nil _)

/-- What `setInternalSymbol` does: the symbol, with the declarator, the
attributes and the declared type set, becomes the internal symbol and a new
implicit member. -/
theorem NonAnsiPortListBuilder.setInternalSymbol_fresh (b : NonAnsiPortListBuilder)
    (symbol : InternalSymbol) (decl : DeclaratorSyntax) (dataType : Option DataTypeSyntax)
    (info : PortInfo) (insertionPoint : Option InsertionPoint) :
    ∃ sym,
      (b.setInternalSymbol symbol decl dataType info insertionPoint).1 =
        { info with internalSymbol := some sym } ∧
      (b.setInternalSymbol symbol decl dataType info insertionPoint).2 =
        { b with implicitMembers := b.implicitMembers ++ [.Value sym insertionPoint] } ∧
      sym.kind = symbol.kind ∧ sym.name = symbol.name ∧ sym.location = symbol.location :=
  ⟨_, rfl, rfl, rfl, rfl, rfl⟩

theorem NonAnsiPortListBuilder.checkInOut_keeps (decl : DeclaratorSyntax)
    (r : PortInfo × NonAnsiPortListBuilder) :
    (NonAnsiPortListBuilder.checkInOut decl r).1 = r.1 ∧
    (NonAnsiPortListBuilder.checkInOut decl r).2.implicitMembers = r.2.implicitMembers ∧
    NonAnsiPortListBuilder.Adds r.2 (NonAnsiPortListBuilder.checkInOut decl r).2 := by
  unfold NonAnsiPortListBuilder.checkInOut
  split
  · exact ⟨rfl, rfl, NonAnsiPortListBuilder.Adds.adds_diag _ _ (by rfl)⟩
  · exact ⟨rfl, rfl, NonAnsiPortListBuilder.Adds.adds_refl _⟩

theorem NonAnsiPortListBuilder.checkIODecl_keeps (r : PortInfo × NonAnsiPortListBuilder) :
    (NonAnsiPortListBuilder.checkIODecl r).1 = r.1 ∧
    (NonAnsiPortListBuilder.checkIODecl r).2.implicitMembers = r.2.implicitMembers ∧
    NonAnsiPortListBuilder.Adds r.2 (NonAnsiPortListBuilder.checkIODecl r).2 := by
  unfold NonAnsiPortListBuilder.checkIODecl
  dsimp only
  refine ⟨rfl, ?_, ?_⟩
  · split <;> split <;> (try split) <;> rfl
  · have h1 : NonAnsiPortListBuilder.Adds r.2
        (if (r.1.direction == ArgumentDirection.Ref &&
            (match r.1.internalSymbol with
              | some s => s.isNet
              | none => false)) = true then
          r.2.addDiag
            ((Diagnostic.atLocation .RefPortMustBeVariable r.1.decl.name.location).arg
              (.str r.1.decl.name.valueText))
        else r.2) := by
      split
      · exact NonAnsiPortListBuilder.Adds.adds_diag _ _ (by rfl)
      · exact NonAnsiPortListBuilder.Adds.adds_refl _
    have h2 : ∀ (b0 : NonAnsiPortListBuilder) (isNet : Bool),
        NonAnsiPortListBuilder.Adds b0
          (match r.1.decl.initializer with
            | some init =>
              if (r.1.direction != ArgumentDirection.Out || isNet) = true then
                b0.addDiag (Diagnostic.atRange .DisallowedPortDefault init.sourceRange)
              else b0
            | none => b0) := by
      intro b0 isNet
      split
      · split
        · exact NonAnsiPortListBuilder.Adds.adds_diag _ _ (by rfl)
        · exact NonAnsiPortListBuilder.Adds.adds_refl _
      · exact NonAnsiPortListBuilder.Adds.adds_refl _
    exact h1.adds_trans (h2 _ _)

/-! ## What `handleIODecl` adds -/

theorem NonAnsiPortListBuilder.setInternalSymbol_adds (b : NonAnsiPortListBuilder)
    (symbol : InternalSymbol) (decl : DeclaratorSyntax) (dataType : Option DataTypeSyntax)
    (info : PortInfo) (insertionPoint : Option InsertionPoint) :
    NonAnsiPortListBuilder.Adds b
      (b.setInternalSymbol symbol decl dataType info insertionPoint).2 :=
  ⟨rfl, [], (List.append_nil _).symm, fun _ hd => absurd hd (List.not_mem_nil _)⟩

theorem NonAnsiPortListBuilder.handleVariablePortHeader_adds (scope : ScopeEnv)
    (b : NonAnsiPortListBuilder) (varHeader : VariablePortHeaderSyntax) (info : PortInfo)
    (insertionPoint : Option InsertionPoint) (r : PortInfo × NonAnsiPortListBuilder)
    (h : NonAnsiPortListBuilder.handleVariablePortHeader scope b varHeader info
      insertionPoint = .ok r) :
    NonAnsiPortListBuilder.Adds b r.2 ∧ r.1.decl = info.decl ∧ r.1.used = info.used ∧
    r.1.attrs = info.attrs ∧ r.1.isIface = info.isIface := by
  unfold NonAnsiPortListBuilder.handleVariablePortHeader at h
  dsimp only at h
  split at h
  · cases h
  · rename_i direction hdir
    have hb0 : NonAnsiPortListBuilder.Adds b
        (match varHeader.constKeyword with
          | some k => b.addDiag (Diagnostic.atRange .ConstPortNotAllowed k.range)
          | none => b) := by
      split
      · exact NonAnsiPortListBuilder.Adds.adds_diag _ _ (by rfl)
      · exact NonAnsiPortListBuilder.Adds.adds_refl _
    split at h
    · split at h
      · cases h
        exact ⟨hb0.adds_trans (NonAnsiPortListBuilder.setInternalSymbol_adds _ _ _ _ _ _), rfl, rfl, rfl, rfl⟩
      · cases h
        obtain ⟨c1, _, c3⟩ := NonAnsiPortListBuilder.checkInOut_keeps info.decl
          ((match varHeader.constKeyword with
            | some k => b.addDiag (Diagnostic.atRange .ConstPortNotAllowed k.range)
            | none => b).setInternalSymbol
            { kind := .Variable, name := info.decl.name.valueText,
              location := info.decl.name.location }
            info.decl (some varHeader.dataType)
            { info with direction := SemanticFacts.getDirection direction.kind } insertionPoint)
        exact ⟨(hb0.adds_trans
          (NonAnsiPortListBuilder.setInternalSymbol_adds _ _ _ _ _ _)).adds_trans c3,
          (congrArg PortInfo.decl c1).trans rfl, (congrArg PortInfo.used c1).trans rfl, (congrArg PortInfo.attrs c1).trans rfl,
          (congrArg PortInfo.isIface c1).trans rfl⟩
    · split at h
      · cases h
        obtain ⟨c1, _, c3⟩ := NonAnsiPortListBuilder.checkInOut_keeps info.decl
          (NonAnsiPortListBuilder.mergeWithSymbol ‹InternalSymbol› varHeader info.decl
            { info with direction := SemanticFacts.getDirection direction.kind } insertionPoint,
           (match varHeader.constKeyword with
              | some k => b.addDiag (Diagnostic.atRange .ConstPortNotAllowed k.range)
              | none => b))
        exact ⟨hb0.adds_trans c3, (congrArg PortInfo.decl c1).trans rfl, (congrArg PortInfo.used c1).trans rfl,
          (congrArg PortInfo.attrs c1).trans rfl, (congrArg PortInfo.isIface c1).trans rfl⟩
      · cases h
        obtain ⟨c1, _, c3⟩ := NonAnsiPortListBuilder.checkInOut_keeps info.decl
          (NonAnsiPortListBuilder.setInternalSymbol
            { (match varHeader.constKeyword with
                | some k => b.addDiag (Diagnostic.atRange .ConstPortNotAllowed k.range)
                | none => b) with
              diags := (match varHeader.constKeyword with
                | some k => b.addDiag (Diagnostic.atRange .ConstPortNotAllowed k.range)
                | none => b).diags ++ (getDefaultNetType scope info.decl.name.location).2 }
            { kind := .Net (getDefaultNetType scope info.decl.name.location).1,
              name := info.decl.name.valueText, location := info.decl.name.location }
            info.decl (some varHeader.dataType)
            { info with direction := SemanticFacts.getDirection direction.kind } insertionPoint)
        exact ⟨((hb0.adds_trans (NonAnsiPortListBuilder.Adds.adds_more _ _
          (getDefaultNetType_codes scope info.decl.name.location))).adds_trans
            (NonAnsiPortListBuilder.setInternalSymbol_adds _ _ _ _ _ _)).adds_trans c3,
          (congrArg PortInfo.decl c1).trans rfl, (congrArg PortInfo.used c1).trans rfl, (congrArg PortInfo.attrs c1).trans rfl,
          (congrArg PortInfo.isIface c1).trans rfl⟩

theorem NonAnsiPortListBuilder.handleIODecl_adds (scope : ScopeEnv)
    (b : NonAnsiPortListBuilder) (header : PortHeaderSyntax) (info : PortInfo)
    (insertionPoint : Option InsertionPoint) (r : PortInfo × NonAnsiPortListBuilder)
    (h : NonAnsiPortListBuilder.handleIODecl scope b header info insertionPoint = .ok r) :
    NonAnsiPortListBuilder.Adds b r.2 ∧ r.1.decl = info.decl ∧ r.1.used = info.used ∧
    r.1.attrs = info.attrs ∧ info.decl.name.valueText ≠ "" := by
  unfold NonAnsiPortListBuilder.handleIODecl at h
  split at h
  · cases h
  · rename_i hname
    have hne : info.decl.name.valueText ≠ "" := by
      intro hc
      rw [hc] at hname
      exact hname rfl
    split at h
    · cases h
    · rename_i r0 hr0
      cases h
      obtain ⟨k1, _, k3⟩ := NonAnsiPortListBuilder.checkIODecl_keeps r0
      show NonAnsiPortListBuilder.Adds b (NonAnsiPortListBuilder.checkIODecl r0).2 ∧
        (NonAnsiPortListBuilder.checkIODecl r0).1.decl = info.decl ∧
        (NonAnsiPortListBuilder.checkIODecl r0).1.used = info.used ∧
        (NonAnsiPortListBuilder.checkIODecl r0).1.attrs = info.attrs ∧
        info.decl.name.valueText ≠ ""
      rw [k1]
      split at hr0
      · obtain ⟨h1, h2, h3, h4, _⟩ :=
          NonAnsiPortListBuilder.handleVariablePortHeader_adds _ _ _ _ _ _ hr0
        exact ⟨h1.adds_trans k3, h2, h3, h4, hne⟩
      · unfold NonAnsiPortListBuilder.handleNetPortHeader at hr0
        dsimp only at hr0
        split at hr0
        · cases hr0
        · cases hr0
          exact ⟨NonAnsiPortListBuilder.Adds.adds_trans
            (NonAnsiPortListBuilder.setInternalSymbol_adds _ _ _ _ _ _) k3, rfl, rfl, rfl, hne⟩
      · unfold NonAnsiPortListBuilder.handleInterfacePortHeader at hr0
        dsimp only at hr0
        split at hr0
        · cases hr0
        · cases hr0
          exact ⟨(NonAnsiPortListBuilder.Adds.adds_more _ _
            (getInterfacePortInfo_codes scope _)).adds_trans k3, rfl, rfl, rfl, hne⟩

/-! ## The internal symbol of a port declaration -/

/-- The four branches of the case `VariablePortHeader` of `handleIODecl`; `b0` is
the builder after the check of `const`. -/
theorem NonAnsiPortListBuilder.handleVariablePortHeader_branches (scope : ScopeEnv)
    (b : NonAnsiPortListBuilder) (h : VariablePortHeaderSyntax) (info : PortInfo)
    (insertionPoint : Option InsertionPoint) (d : DirectionToken)
    (hd : h.direction = some d) :
    ∃ b0 : NonAnsiPortListBuilder,
      NonAnsiPortListBuilder.Adds b b0 ∧ b0.implicitMembers = b.implicitMembers ∧
      (∀ nt, (h.varKeyword ≠ none ∨ h.dataType.isImplicitType = false) →
        h.varKeyword = none →
        scope.lookupType h.dataType.simpleTypeName = some (.NetType nt) →
        NonAnsiPortListBuilder.handleVariablePortHeader scope b h info insertionPoint =
          .ok (b0.setInternalSymbol
            { kind := .Net nt, name := info.decl.name.valueText,
              location := info.decl.name.location }
            info.decl none
            { info with direction := SemanticFacts.getDirection d.kind } insertionPoint)) ∧
      ((h.varKeyword ≠ none ∨ h.dataType.isImplicitType = false) →
        (h.varKeyword ≠ none ∨
          ∀ nt, scope.lookupType h.dataType.simpleTypeName ≠ some (.NetType nt)) →
        NonAnsiPortListBuilder.handleVariablePortHeader scope b h info insertionPoint =
          .ok (NonAnsiPortListBuilder.checkInOut info.decl
            (b0.setInternalSymbol
              { kind := .Variable, name := info.decl.name.valueText,
                location := info.decl.name.location }
              info.decl (some h.dataType)
              { info with direction := SemanticFacts.getDirection d.kind } insertionPoint))) ∧
      (∀ symbol, h.varKeyword = none → h.dataType.isImplicitType = true →
        scope.find info.decl.name.valueText = some (.Value symbol) →
        NonAnsiPortListBuilder.handleVariablePortHeader scope b h info insertionPoint =
          .ok (NonAnsiPortListBuilder.checkInOut info.decl
            (NonAnsiPortListBuilder.mergeWithSymbol symbol h info.decl
              { info with direction := SemanticFacts.getDirection d.kind } insertionPoint,
             b0))) ∧
      (h.varKeyword = none → h.dataType.isImplicitType = true →
        (∀ symbol, scope.find info.decl.name.valueText ≠ some (.Value symbol)) →
        NonAnsiPortListBuilder.handleVariablePortHeader scope b h info insertionPoint =
          .ok (NonAnsiPortListBuilder.checkInOut info.decl
            (NonAnsiPortListBuilder.setInternalSymbol
              { b0 with diags := b0.diags ++
                  (getDefaultNetType scope info.decl.name.location).2 }
              { kind := .Net (getDefaultNetType scope info.decl.name.location).1,
                name := info.decl.name.valueText, location := info.decl.name.location }
              info.decl (some h.dataType)
              { info with direction := SemanticFacts.getDirection d.kind }
              insertionPoint))) := by
  refine ⟨(match h.constKeyword with
      | some k => b.addDiag (Diagnostic.atRange .ConstPortNotAllowed k.range)
      | none => b), ?_, ?_, ?_, ?_, ?_, ?_⟩
  · split
    · exact NonAnsiPortListBuilder.Adds.adds_diag _ _ (by rfl)
    · exact NonAnsiPortListBuilder.Adds.adds_refl _
  · split <;> rfl
  · intro nt hcond hvar hlook
    have hc : (h.varKeyword.isSome || !h.dataType.isImplicitType) = true := by
      rcases hcond with hc | hc
      · exact absurd hvar hc
      · simp [hc]
    unfold NonAnsiPortListBuilder.handleVariablePortHeader
    simp only [hd]
    rw [if_pos hc]
    simp only [hvar, hlook, Option.isNone_none, if_true]
  · intro hcond hnot
    have hc : (h.varKeyword.isSome || !h.dataType.isImplicitType) = true := by
      rcases hcond with hc | hc
      · cases hv : h.varKeyword with
        | none => exact absurd hv hc
        | some v => rfl
      · simp [hc]
    unfold NonAnsiPortListBuilder.handleVariablePortHeader
    simp only [hd]
    rw [if_pos hc]
    split
    · rename_i nt hL
      exfalso
      rcases hnot with hv | hl
      · cases hvk : h.varKeyword with
        | none => exact hv hvk
        | some v =>
          rw [hvk] at hL
          simp at hL
      · cases hvk : h.varKeyword with
        | none =>
          rw [hvk] at hL
          simp at hL
          exact hl nt hL
        | some v =>
          rw [hvk] at hL
          simp at hL
    · rfl
  · intro symbol hvar himp hfind
    have hc : (h.varKeyword.isSome || !h.dataType.isImplicitType) = false := by
      simp [hvar, himp]
    unfold NonAnsiPortListBuilder.handleVariablePortHeader
    simp only [hd]
    rw [if_neg (by rw [hc]; simp)]
    simp only [hfind]
  · intro hvar himp hfind
    have hc : (h.varKeyword.isSome || !h.dataType.isImplicitType) = false := by
      simp [hvar, himp]
    unfold NonAnsiPortListBuilder.handleVariablePortHeader
    simp only [hd]
    rw [if_neg (by rw [hc]; simp)]

/-- C27: how the indexing phase chooses the internal symbol of a port declarator
with a non-empty name.  A net port header makes a new net of the named net type,
appended to the implicit members, and adds no diagnostic unless the direction is
ref or the declarator has an initializer.  A variable port header with `var` or
with an explicit type makes a new symbol, appended to the implicit members: a
net if there is no `var` and the type names a net type, a variable otherwise.  A
variable port header with neither takes the variable or net of that name that
the scope has: that symbol is the internal symbol, no implicit member is
appended and no `Redefinition` is added; if the scope has none, it makes a new
net of the default net type, appended to the implicit members. -/
theorem handleIODecl_internal_symbol (scope : ScopeEnv) (b : NonAnsiPortListBuilder)
    (info : PortInfo) (insertionPoint : Option InsertionPoint)
    (hname : info.decl.name.valueText ≠ "") :
    (∀ (h : NetPortHeaderSyntax) (d : DirectionToken), h.direction = some d →
      ∃ (info2 : PortInfo) (b2 : NonAnsiPortListBuilder) (sym : InternalSymbol),
        NonAnsiPortListBuilder.handleIODecl scope b (.NetPortHeader h) info insertionPoint =
          .ok (info2, b2) ∧
        info2.internalSymbol = some sym ∧
        sym.kind = .Net (scope.getNetType h.netTypeKind) ∧
        sym.name = info.decl.name.valueText ∧
        info2.direction = SemanticFacts.getDirection d.kind ∧
        b2.implicitMembers = b.implicitMembers ++ [.Value sym insertionPoint] ∧
        (d.kind ≠ .RefKeyword → info.decl.initializer = none → b2.diags = b.diags)) ∧
    (∀ (h : VariablePortHeaderSyntax) (d : DirectionToken), h.direction = some d →
      (h.varKeyword ≠ none ∨ h.dataType.isImplicitType = false) →
      ∃ (info2 : PortInfo) (b2 : NonAnsiPortListBuilder) (sym : InternalSymbol),
        NonAnsiPortListBuilder.handleIODecl scope b (.VariablePortHeader h) info
          insertionPoint = .ok (info2, b2) ∧
        info2.internalSymbol = some sym ∧
        sym.name = info.decl.name.valueText ∧
        info2.direction = SemanticFacts.getDirection d.kind ∧
        b2.implicitMembers = b.implicitMembers ++ [.Value sym insertionPoint] ∧
        (∀ nt, h.varKeyword = none →
          scope.lookupType h.dataType.simpleTypeName = some (.NetType nt) →
          sym.kind = .Net nt) ∧
        ((h.varKeyword ≠ none ∨
            ∀ nt, scope.lookupType h.dataType.simpleTypeName ≠ some (.NetType nt)) →
          sym.kind = .Variable)) ∧
    (∀ (h : VariablePortHeaderSyntax) (d : DirectionToken) (symbol : InternalSymbol),
      h.direction = some d → h.varKeyword = none → h.dataType.isImplicitType = true →
      scope.find info.decl.name.valueText = some (.Value symbol) →
      ∃ (info2 : PortInfo) (b2 : NonAnsiPortListBuilder) (sym : InternalSymbol),
        NonAnsiPortListBuilder.handleIODecl scope b (.VariablePortHeader h) info
          insertionPoint = .ok (info2, b2) ∧
        info2.internalSymbol = some sym ∧
        sym.kind = symbol.kind ∧ sym.name = symbol.name ∧ sym.location = symbol.location ∧
        sym.declarator = symbol.declarator ∧
        info2.direction = SemanticFacts.getDirection d.kind ∧
        b2.implicitMembers = b.implicitMembers ∧
        countCode .Redefinition b2.diags = countCode .Redefinition b.diags) ∧
    (∀ (h : VariablePortHeaderSyntax) (d : DirectionToken),
      h.direction = some d → h.varKeyword = none → h.dataType.isImplicitType = true →
      (∀ symbol, scope.find info.decl.name.valueText ≠ some (.Value symbol)) →
      ∃ (info2 : PortInfo) (b2 : NonAnsiPortListBuilder) (sym : InternalSymbol),
        NonAnsiPortListBuilder.handleIODecl scope b (.VariablePortHeader h) info
          insertionPoint = .ok (info2, b2) ∧
        info2.internalSymbol = some sym ∧
        sym.kind = .Net (getDefaultNetType scope info.decl.name.location).1 ∧
        sym.name = info.decl.name.valueText ∧
        info2.direction = SemanticFacts.getDirection d.kind ∧
        b2.implicitMembers = b.implicitMembers ++ [.Value sym insertionPoint]) := by
  have hne := isEmpty_eq_false_of_ne hname
  -- the end of `handleIODecl` keeps the declaration and the implicit members
  have hcheck : ∀ r : PortInfo × NonAnsiPortListBuilder,
      (NonAnsiPortListBuilder.checkIODecl r).1 = r.1 ∧
      (NonAnsiPortListBuilder.checkIODecl r).2.implicitMembers = r.2.implicitMembers :=
    fun r => ⟨(NonAnsiPortListBuilder.checkIODecl_keeps r).1,
      (NonAnsiPortListBuilder.checkIODecl_keeps r).2.1⟩
  have hinout : ∀ r : PortInfo × NonAnsiPortListBuilder,
      (NonAnsiPortListBuilder.checkInOut info.decl r).1 = r.1 ∧
      (NonAnsiPortListBuilder.checkInOut info.decl r).2.implicitMembers =
        r.2.implicitMembers :=
    fun r => ⟨(NonAnsiPortListBuilder.checkInOut_keeps info.decl r).1,
      (NonAnsiPortListBuilder.checkInOut_keeps info.decl r).2.1⟩
  have hV : ∀ (h : VariablePortHeaderSyntax) (r0 : PortInfo × NonAnsiPortListBuilder),
      NonAnsiPortListBuilder.handleVariablePortHeader scope b h info insertionPoint = .ok r0 →
      NonAnsiPortListBuilder.handleIODecl scope b (.VariablePortHeader h) info insertionPoint =
        .ok (NonAnsiPortListBuilder.checkIODecl r0) := by
    intro h r0 h0
    simp only [NonAnsiPortListBuilder.handleIODecl, hne, h0, Bool.false_eq_true, if_false]
  refine ⟨?_, ?_, ?_, ?_⟩
  · intro h d hd
    have hE : NonAnsiPortListBuilder.handleIODecl scope b (.NetPortHeader h) info
        insertionPoint =
        .ok (NonAnsiPortListBuilder.checkIODecl
          (b.setInternalSymbol
            { kind := .Net (scope.getNetType h.netTypeKind), name := info.decl.name.valueText,
              location := info.decl.name.location }
            info.decl (some h.dataType)
            { info with direction := SemanticFacts.getDirection d.kind } insertionPoint)) := by
      simp only [NonAnsiPortListBuilder.handleIODecl, hne, NonAnsiPortListBuilder.handleNetPortHeader,
        hd, Bool.false_eq_true, if_false]
    obtain ⟨sym, s1, s2, s3, s4, _⟩ := NonAnsiPortListBuilder.setInternalSymbol_fresh b
      { kind := .Net (scope.getNetType h.netTypeKind), name := info.decl.name.valueText,
        location := info.decl.name.location }
      info.decl (some h.dataType)
      { info with direction := SemanticFacts.getDirection d.kind } insertionPoint
    obtain ⟨k1, k2⟩ := hcheck (b.setInternalSymbol
      { kind := .Net (scope.getNetType h.netTypeKind), name := info.decl.name.valueText,
        location := info.decl.name.location }
      info.decl (some h.dataType)
      { info with direction := SemanticFacts.getDirection d.kind } insertionPoint)
    refine ⟨_, _, sym, hE, (congrArg PortInfo.internalSymbol (k1.trans s1)).trans rfl, s3, s4,
      (congrArg PortInfo.direction (k1.trans s1)).trans rfl,
      k2.trans (congrArg NonAnsiPortListBuilder.implicitMembers s2), ?_⟩
    · intro hk hinit
      have hdir : (SemanticFacts.getDirection d.kind == ArgumentDirection.Ref) = false := by
        cases hkind : d.kind <;> first | rfl | exact absurd hkind hk
      simp [NonAnsiPortListBuilder.checkIODecl, NonAnsiPortListBuilder.setInternalSymbol, hinit,
        hdir]
  · intro h d hd hcond
    obtain ⟨b0, _, himpl, hnet, hvar, _, _⟩ :=
      NonAnsiPortListBuilder.handleVariablePortHeader_branches scope b h info insertionPoint d hd
    by_cases hN : h.varKeyword = none ∧
        ∃ nt, scope.lookupType h.dataType.simpleTypeName = some (.NetType nt)
    · obtain ⟨hv, nt, hl⟩ := hN
      obtain ⟨sym, s1, s2, s3, s4, _⟩ := NonAnsiPortListBuilder.setInternalSymbol_fresh b0
        { kind := .Net nt, name := info.decl.name.valueText,
          location := info.decl.name.location }
        info.decl none
        { info with direction := SemanticFacts.getDirection d.kind } insertionPoint
      obtain ⟨k1, k2⟩ := hcheck (b0.setInternalSymbol
        { kind := .Net nt, name := info.decl.name.valueText,
          location := info.decl.name.location }
        info.decl none
        { info with direction := SemanticFacts.getDirection d.kind } insertionPoint)
      refine ⟨_, _, sym, hV h _ (hnet nt hcond hv hl),
        (congrArg PortInfo.internalSymbol (k1.trans s1)).trans rfl, s4,
        (congrArg PortInfo.direction (k1.trans s1)).trans rfl,
        (k2.trans (congrArg NonAnsiPortListBuilder.implicitMembers s2)).trans
          (by rw [← himpl]), ?_, ?_⟩
      · intro nt2 _ hl2
        rw [hl] at hl2
        cases hl2
        exact s3
      · intro hor
        rcases hor with hor | hor
        · exact absurd hv hor
        · exact absurd hl (hor nt)
    · have hnot : h.varKeyword ≠ none ∨
          ∀ nt, scope.lookupType h.dataType.simpleTypeName ≠ some (.NetType nt) := by
        by_cases hv : h.varKeyword = none
        · exact Or.inr (fun nt hl => hN ⟨hv, nt, hl⟩)
        · exact Or.inl hv
      obtain ⟨sym, s1, s2, s3, s4, _⟩ := NonAnsiPortListBuilder.setInternalSymbol_fresh b0
        { kind := .Variable, name := info.decl.name.valueText,
          location := info.decl.name.location }
        info.decl (some h.dataType)
        { info with direction := SemanticFacts.getDirection d.kind } insertionPoint
      obtain ⟨c1, c2⟩ := hinout (b0.setInternalSymbol
        { kind := .Variable, name := info.decl.name.valueText,
          location := info.decl.name.location }
        info.decl (some h.dataType)
        { info with direction := SemanticFacts.getDirection d.kind } insertionPoint)
      obtain ⟨k1, k2⟩ := hcheck (NonAnsiPortListBuilder.checkInOut info.decl
        (b0.setInternalSymbol
          { kind := .Variable, name := info.decl.name.valueText,
            location := info.decl.name.location }
          info.decl (some h.dataType)
          { info with direction := SemanticFacts.getDirection d.kind } insertionPoint))
      refine ⟨_, _, sym, hV h _ (hvar hcond hnot),
        (congrArg PortInfo.internalSymbol ((k1.trans c1).trans s1)).trans rfl, s4,
        (congrArg PortInfo.direction ((k1.trans c1).trans s1)).trans rfl,
        ((k2.trans c2).trans (congrArg NonAnsiPortListBuilder.implicitMembers s2)).trans
          (by rw [← himpl]), ?_, ?_⟩
      · intro nt hv hl
        exact absurd ⟨hv, nt, hl⟩ hN
      · intro _
        exact s3
  · intro h d symbol hd hv himp hfind
    obtain ⟨b0, hadds, himpl, _, _, hreuse, _⟩ :=
      NonAnsiPortListBuilder.handleVariablePortHeader_branches scope b h info insertionPoint d hd
    obtain ⟨c1, c2, c3⟩ := NonAnsiPortListBuilder.checkInOut_keeps info.decl
      (NonAnsiPortListBuilder.mergeWithSymbol symbol h info.decl
        { info with direction := SemanticFacts.getDirection d.kind } insertionPoint, b0)
    obtain ⟨k1, k2, k3⟩ := NonAnsiPortListBuilder.checkIODecl_keeps
      (NonAnsiPortListBuilder.checkInOut info.decl
        (NonAnsiPortListBuilder.mergeWithSymbol symbol h info.decl
          { info with direction := SemanticFacts.getDirection d.kind } insertionPoint, b0))
    obtain ⟨_, ds, hds, hcodes⟩ := (hadds.adds_trans c3).adds_trans k3
    have hm : ∃ sym,
        (NonAnsiPortListBuilder.mergeWithSymbol symbol h info.decl
          { info with direction := SemanticFacts.getDirection d.kind }
          insertionPoint).internalSymbol = some sym ∧
        sym.kind = symbol.kind ∧ sym.name = symbol.name ∧ sym.location = symbol.location ∧
        sym.declarator = symbol.declarator := by
      unfold NonAnsiPortListBuilder.mergeWithSymbol
      dsimp only
      split
      · exact ⟨_, rfl, rfl, rfl, rfl, rfl⟩
      · exact ⟨_, rfl, rfl, rfl, rfl, rfl⟩
    obtain ⟨sym, m1, m2, m3, m4, m5⟩ := hm
    refine ⟨_, _, sym, hV h _ (hreuse symbol hv himp hfind),
      (congrArg PortInfo.internalSymbol (k1.trans c1)).trans m1, m2, m3, m4, m5,
      (congrArg PortInfo.direction (k1.trans c1)).trans rfl,
      (k2.trans c2).trans himpl, ?_⟩
    have hz : countCode .Redefinition ds = 0 := by
      apply countCode_zero
      intro x hx hc
      have := hcodes x hx
      rw [hc] at this
      cases this
    exact (congrArg (countCode .Redefinition) hds).trans
      (by rw [countCode_append, hz]; rfl)
  · intro h d hd hv himp hfind
    obtain ⟨b0, _, himpl, _, _, _, hdef⟩ :=
      NonAnsiPortListBuilder.handleVariablePortHeader_branches scope b h info insertionPoint d hd
    obtain ⟨sym, s1, s2, s3, s4, _⟩ := NonAnsiPortListBuilder.setInternalSymbol_fresh
      { b0 with diags := b0.diags ++ (getDefaultNetType scope info.decl.name.location).2 }
      { kind := .Net (getDefaultNetType scope info.decl.name.location).1,
        name := info.decl.name.valueText, location := info.decl.name.location }
      info.decl (some h.dataType)
      { info with direction := SemanticFacts.getDirection d.kind } insertionPoint
    obtain ⟨c1, c2⟩ := hinout (NonAnsiPortListBuilder.setInternalSymbol
      { b0 with diags := b0.diags ++ (getDefaultNetType scope info.decl.name.location).2 }
      { kind := .Net (getDefaultNetType scope info.decl.name.location).1,
        name := info.decl.name.valueText, location := info.decl.name.location }
      info.decl (some h.dataType)
      { info with direction := SemanticFacts.getDirection d.kind } insertionPoint)
    obtain ⟨k1, k2⟩ := hcheck (NonAnsiPortListBuilder.checkInOut info.decl
      (NonAnsiPortListBuilder.setInternalSymbol
        { b0 with diags := b0.diags ++ (getDefaultNetType scope info.decl.name.location).2 }
        { kind := .Net (getDefaultNetType scope info.decl.name.location).1,
          name := info.decl.name.valueText, location := info.decl.name.location }
        info.decl (some h.dataType)
        { info with direction := SemanticFacts.getDirection d.kind } insertionPoint))
    refine ⟨_, _, sym, hV h _ (hdef hv himp hfind),
      (congrArg PortInfo.internalSymbol ((k1.trans c1).trans s1)).trans rfl, s3, s4,
      (congrArg PortInfo.direction ((k1.trans c1).trans s1)).trans rfl,
      ((k2.trans c2).trans (congrArg NonAnsiPortListBuilder.implicitMembers s2)).trans
        (by rw [← himpl])⟩

/-! ## The flags `used` of the index -/

/-! ## Port concatenations -/

theorem NonAnsiPortListBuilder.setUsed_unmark (name : String)
    (infos : List (String × PortInfo)) :
    (NonAnsiPortListBuilder.setUsed name infos).map NonAnsiPortListBuilder.unmark =
      infos.map NonAnsiPortListBuilder.unmark := by
  induction infos with
  | nil => rfl
  | cons e rest ih =>
    simp only [NonAnsiPortListBuilder.setUsed]
    split
    · rfl
    · simp only [List.map_cons, ih]

theorem NonAnsiPortListBuilder.setUsedAll_unmark (names : List String) :
    ∀ infos : List (String × PortInfo),
      (NonAnsiPortListBuilder.setUsedAll names infos).map NonAnsiPortListBuilder.unmark =
        infos.map NonAnsiPortListBuilder.unmark := by
  induction names with
  | nil => intro infos; rfl
  | cons n rest ih =>
    intro infos
    show (NonAnsiPortListBuilder.setUsedAll rest (NonAnsiPortListBuilder.setUsed n infos)).map
      NonAnsiPortListBuilder.unmark = _
    rw [ih, NonAnsiPortListBuilder.setUsed_unmark]

theorem NonAnsiPortListBuilder.setUsedAll_append (xs ys : List String)
    (infos : List (String × PortInfo)) :
    NonAnsiPortListBuilder.setUsedAll (xs ++ ys) infos =
      NonAnsiPortListBuilder.setUsedAll ys (NonAnsiPortListBuilder.setUsedAll xs infos) := by
  simp [NonAnsiPortListBuilder.setUsedAll, List.foldl_append]

theorem NonAnsiPortListBuilder.find_unmark (b b2 : NonAnsiPortListBuilder) (name : String)
    (h : b2.portInfos.map NonAnsiPortListBuilder.unmark =
      b.portInfos.map NonAnsiPortListBuilder.unmark) :
    (b2.find name).map (fun i => { i with used := false }) =
      (b.find name).map (fun i => { i with used := false }) := by
  have key : ∀ l : List (String × PortInfo),
      ((l.find? (fun e => e.1 == name)).map (fun e => e.2)).map
          (fun i => { i with used := false }) =
        ((l.map NonAnsiPortListBuilder.unmark).find? (fun e => e.1 == name)).map
          (fun e => e.2) := by
    intro l
    induction l with
    | nil => rfl
    | cons e rest ih =>
      simp only [List.find?_cons, List.map_cons, NonAnsiPortListBuilder.unmark]
      cases hk : (e.1 == name)
      · simpa [NonAnsiPortListBuilder.unmark] using ih
      · rfl
  unfold NonAnsiPortListBuilder.find
  rw [key, key, h]

theorem NonAnsiPortListBuilder.setUsed_of_miss (name : String)
    (infos : List (String × PortInfo))
    (h : infos.find? (fun e => e.1 == name) = none) :
    NonAnsiPortListBuilder.setUsed name infos = infos := by
  induction infos with
  | nil => rfl
  | cons e rest ih =>
    simp only [List.find?_cons] at h
    cases hk : (e.1 == name)
    · rw [hk] at h
      simp only [NonAnsiPortListBuilder.setUsed, hk, Bool.false_eq_true, if_false]
      rw [ih h]
    · rw [hk] at h
      cases h

/-- What `createPort` for a reference does to the builder: the entry of the name
is marked as used; nothing is reported and no implicit member is added. -/
theorem NonAnsiPortListBuilder.createPortReference_run (b : NonAnsiPortListBuilder)
    (externalName : String) (externalLoc : SourceLocation) (stx : PortReferenceSyntax)
    (r : Built.Symbol × NonAnsiPortListBuilder)
    (h : b.createPortReference externalName externalLoc stx = .ok r) :
    r.2.portInfos = NonAnsiPortListBuilder.setUsed stx.name.valueText b.portInfos ∧
    r.2.diags = b.diags ∧ r.2.implicitMembers = b.implicitMembers := by
  unfold NonAnsiPortListBuilder.createPortReference at h
  dsimp only at h
  have hg : (b.getInfo stx.name.valueText).2.portInfos =
        NonAnsiPortListBuilder.setUsed stx.name.valueText b.portInfos ∧
      (b.getInfo stx.name.valueText).2.diags = b.diags ∧
      (b.getInfo stx.name.valueText).2.implicitMembers = b.implicitMembers := by
    unfold NonAnsiPortListBuilder.getInfo
    split
    · rename_i hf
      refine ⟨?_, rfl, rfl⟩
      unfold NonAnsiPortListBuilder.find at hf
      rw [NonAnsiPortListBuilder.setUsed_of_miss]
      cases hx : b.portInfos.find? (fun e => e.1 == stx.name.valueText) with
      | none => rfl
      | some e =>
        rw [hx] at hf
        cases hf
    · exact ⟨rfl, rfl, rfl⟩
  split at h
  · rename_i b1 hb1
    cases h
    rw [hb1] at hg
    exact hg
  · rename_i info b1 hb1
    rw [hb1] at hg
    split at h
    · cases h
      exact hg
    · split at h
      · cases h
      · cases h
        exact hg

/-- What a reference resolves to depends on the index only, not on the flags
`used`. -/
theorem NonAnsiPortListBuilder.resolve_congr (b b2 : NonAnsiPortListBuilder)
    (item : PortReferenceSyntax)
    (h : b2.portInfos.map NonAnsiPortListBuilder.unmark =
      b.portInfos.map NonAnsiPortListBuilder.unmark) :
    b2.resolve item = b.resolve item := by
  have hf := NonAnsiPortListBuilder.find_unmark b b2 item.name.valueText h
  unfold NonAnsiPortListBuilder.resolve NonAnsiPortListBuilder.createPortReference
    NonAnsiPortListBuilder.getInfo
  dsimp only
  cases h1 : b.find item.name.valueText with
  | none =>
    cases h2 : b2.find item.name.valueText with
    | none => rfl
    | some i2 =>
      rw [h1, h2] at hf
      cases hf
  | some i1 =>
    cases h2 : b2.find item.name.valueText with
    | none =>
      rw [h1, h2] at hf
      cases hf
    | some i2 =>
      rw [h1, h2] at hf
      simp only [Option.map_some', Option.some.injEq] at hf
      simp only [PortInfo.mk.injEq, and_true] at hf
      obtain ⟨e1, e2, e3, e4, e5, e6, e7⟩ := hf
      simp only [e1, e2, e3, e4, e5, e6, e7]
      cases i1.isIface
      · cases i1.internalSymbol <;> rfl
      · rfl

/-! ## The direction of a concatenation, in the words of the spec -/

theorem Spec.effectiveDirection_concat (ds : List ArgumentDirection) (d : ArgumentDirection) :
    Spec.effectiveDirection (ds ++ [d]) = Spec.stepDirection (Spec.effectiveDirection ds) d := by
  simp [Spec.effectiveDirection, List.foldl_append]

theorem Spec.lastInOutOrRef_concat (ds : List ArgumentDirection) (d : ArgumentDirection) :
    Spec.lastInOutOrRef (ds ++ [d]) =
      if d = .InOut ∨ d = .Ref then some d else Spec.lastInOutOrRef ds := by
  induction ds with
  | nil =>
    simp only [List.nil_append, Spec.lastInOutOrRef]
  | cons x rest ih =>
    show (match Spec.lastInOutOrRef (rest ++ [d]) with
      | some y => some y
      | none => if x = ArgumentDirection.InOut ∨ x = ArgumentDirection.Ref then some x else none) = _
    rw [ih]
    by_cases hd : d = .InOut ∨ d = .Ref
    · rw [if_pos hd, if_pos hd]
    · rw [if_neg hd, if_neg hd]
      rfl

theorem Spec.lastInOutOrRef_some (ds : List ArgumentDirection) (d : ArgumentDirection)
    (h : Spec.lastInOutOrRef ds = some d) : (d = .InOut ∨ d = .Ref) ∧ d ∈ ds := by
  induction ds with
  | nil => cases h
  | cons x rest ih =>
    simp only [Spec.lastInOutOrRef] at h
    split at h
    · rename_i y hy
      cases h
      exact ⟨(ih hy).1, List.mem_cons_of_mem _ (ih hy).2⟩
    · split at h
      · cases h
        exact ⟨‹_›, List.mem_cons_self _ _⟩
      · cases h

theorem Spec.lastInOutOrRef_none (ds : List ArgumentDirection)
    (h : Spec.lastInOutOrRef ds = none) : .InOut ∉ ds ∧ .Ref ∉ ds := by
  induction ds with
  | nil => exact ⟨List.not_mem_nil _, List.not_mem_nil _⟩
  | cons x rest ih =>
    simp only [Spec.lastInOutOrRef] at h
    split at h
    · cases h
    · rename_i hr
      split at h
      · cases h
      · rename_i hx
        push_neg at hx
        obtain ⟨i1, i2⟩ := ih hr
        constructor
        · intro hm
          rcases List.mem_cons.mp hm with hm | hm
          · exact hx.1 hm.symm
          · exact i1 hm
        · intro hm
          rcases List.mem_cons.mp hm with hm | hm
          · exact hx.2 hm.symm
          · exact i2 hm

/-- The fold of the spec and its closed form agree. -/
theorem Spec.effectiveDirection_closed (ds : List ArgumentDirection) :
    Spec.effectiveDirection ds = Spec.closedDirection ds := by
  induction ds using List.reverseRecOn with
  | nil => rfl
  | append_singleton rest d ih =>
    rw [Spec.effectiveDirection_concat, ih]
    unfold Spec.closedDirection
    rw [Spec.lastInOutOrRef_concat]
    cases hl : Spec.lastInOutOrRef rest with
    | none =>
      cases d <;> simp [Spec.stepDirection]
    | some x =>
      have hx := (Spec.lastInOutOrRef_some rest x hl).1
      cases d <;> rcases hx with hx | hx <;> subst hx <;> simp [Spec.stepDirection]

/-- The local variable `dir` against the directions folded so far. -/
theorem Spec.effectiveDirection_facts (ds : List ArgumentDirection) :
    (Spec.effectiveDirection ds = .InOut → .InOut ∈ ds) ∧
    (Spec.effectiveDirection ds = .Ref → .Ref ∈ ds) ∧
    ((.InOut ∈ ds ∨ .Ref ∈ ds) →
      Spec.effectiveDirection ds = .InOut ∨ Spec.effectiveDirection ds = .Ref) := by
  rw [Spec.effectiveDirection_closed]
  unfold Spec.closedDirection
  cases hl : Spec.lastInOutOrRef ds with
  | none =>
    obtain ⟨n1, n2⟩ := Spec.lastInOutOrRef_none ds hl
    refine ⟨?_, ?_, ?_⟩
    · intro h
      dsimp only at h
      split at h <;> cases h
    · intro h
      dsimp only at h
      split at h <;> cases h
    · intro h
      rcases h with h | h
      · exact absurd h n1
      · exact absurd h n2
  | some x =>
    obtain ⟨hx, hm⟩ := Spec.lastInOutOrRef_some ds x hl
    refine ⟨?_, ?_, ?_⟩
    · intro h
      dsimp only at h
      subst h
      exact hm
    · intro h
      dsimp only at h
      subst h
      exact hm
    · intro _
      exact hx

/-- The boolean content of one step of the loop of a concatenation. -/
theorem Spec.mixes_step (dir pd : ArgumentDirection) (A R N V pn : Bool)
    (h1 : dir = .InOut → A = true) (h2 : dir = .Ref → R = true)
    (h3 : A = true ∨ R = true → dir = .InOut ∨ dir = .Ref)
    (h4 : A = true ∨ R = true → N = true ∨ V = true) :
    ((((A && V) || (R && N)) || (pd == ArgumentDirection.InOut && !(!V))) ||
        (pd == ArgumentDirection.Ref && !(!N)) ||
      (if pn then Spec.stepDirection dir pd == ArgumentDirection.Ref
        else Spec.stepDirection dir pd == ArgumentDirection.InOut)) =
    (((A || pd == ArgumentDirection.InOut) && (V || !pn)) ||
      ((R || pd == ArgumentDirection.Ref) && (N || pn))) := by
  cases dir <;> cases pd <;> cases A <;> cases R <;> cases N <;> cases V <;> cases pn <;>
    simp_all [Spec.stepDirection] <;> decide

/-! ## The local variables of a concatenation -/

theorem mergeDirection_state (stx : PortConcatenationSyntax) (ps : Built.PortSymbol)
    (r : NonAnsiPortListBuilder.ConcatState × NonAnsiPortListBuilder) :
    (NonAnsiPortListBuilder.mergeDirection stx ps r).1 =
      { r.1 with
        dir := Spec.stepDirection r.1.dir ps.direction
        hadError := r.1.hadError ||
          (ps.direction == ArgumentDirection.InOut && !r.1.allNets) ||
          (ps.direction == ArgumentDirection.Ref && !r.1.allVars) } := by
  rcases r with ⟨⟨dir, buffer, allNets, allVars, hadError⟩, b⟩
  cases hd : ps.direction <;> cases dir <;> cases allNets <;> cases allVars <;>
    cases hadError <;> simp [NonAnsiPortListBuilder.mergeDirection, NonAnsiPortListBuilder.reportDirError, Spec.stepDirection, hd]

theorem mergeKind_state (stx : PortConcatenationSyntax) (sym : InternalSymbol)
    (r : NonAnsiPortListBuilder.ConcatState × NonAnsiPortListBuilder) :
    (NonAnsiPortListBuilder.mergeKind stx sym r).1 =
      { r.1 with
        allNets := r.1.allNets && sym.isNet
        allVars := r.1.allVars && !sym.isNet
        hadError := r.1.hadError ||
          (if sym.isNet then r.1.dir == ArgumentDirection.Ref
            else r.1.dir == ArgumentDirection.InOut) } := by
  rcases r with ⟨⟨dir, buffer, allNets, allVars, hadError⟩, b⟩
  cases hn : sym.isNet <;> cases dir <;> cases allNets <;> cases allVars <;>
    cases hadError <;> simp [NonAnsiPortListBuilder.mergeKind, NonAnsiPortListBuilder.reportDirError, hn]

theorem NonAnsiPortListBuilder.Reports.reports_refl (stx : PortConcatenationSyntax)
    (r : NonAnsiPortListBuilder.ConcatState × NonAnsiPortListBuilder) : NonAnsiPortListBuilder.Reports stx r r :=
  ⟨rfl, rfl, rfl, Or.inl ⟨rfl, rfl⟩⟩

theorem NonAnsiPortListBuilder.Reports.reports_trans {stx : PortConcatenationSyntax}
    {r r1 r2 : NonAnsiPortListBuilder.ConcatState × NonAnsiPortListBuilder}
    (h1 : NonAnsiPortListBuilder.Reports stx r r1) (h2 : NonAnsiPortListBuilder.Reports stx r1 r2) : NonAnsiPortListBuilder.Reports stx r r2 := by
  obtain ⟨a1, a2, a3, a4⟩ := h1
  obtain ⟨b1, b2, b3, b4⟩ := h2
  refine ⟨b1.trans a1, b2.trans a2, b3.trans a3, ?_⟩
  rcases a4 with ⟨e1, d1⟩ | ⟨f1, t1, d, hd, hc, hr⟩
  · rcases b4 with ⟨e2, d2⟩ | ⟨f2, t2, d, hd, hc, hr⟩
    · exact Or.inl ⟨e2.trans e1, d2.trans d1⟩
    · exact Or.inr ⟨e1 ▸ f2, t2, d, by rw [hd, d1], hc, hr⟩
  · rcases b4 with ⟨e2, d2⟩ | ⟨f2, t2, d2, hd2, hc2, hr2⟩
    · exact Or.inr ⟨f1, e2.trans t1, d, by rw [d2, hd], hc, hr⟩
    · rw [t1] at f2
      cases f2

theorem reportDirError_reports (stx : PortConcatenationSyntax) (code : DiagCode)
    (hcode : code = .PortConcatInOut ∨ code = .PortConcatRef)
    (r : NonAnsiPortListBuilder.ConcatState × NonAnsiPortListBuilder) :
    NonAnsiPortListBuilder.Reports stx r (NonAnsiPortListBuilder.reportDirError stx code r) := by
  unfold NonAnsiPortListBuilder.reportDirError
  cases he : r.1.hadError
  · refine ⟨rfl, rfl, rfl, Or.inr ⟨he, rfl, Diagnostic.atRange code stx.sourceRange, rfl, ?_, rfl⟩⟩
    rcases hcode with hc | hc <;> subst hc <;> rfl
  · exact ⟨rfl, rfl, rfl, Or.inl ⟨rfl, rfl⟩⟩

theorem NonAnsiPortListBuilder.Reports.reports_of_state (stx : PortConcatenationSyntax)
    (r : NonAnsiPortListBuilder.ConcatState × NonAnsiPortListBuilder) (st : NonAnsiPortListBuilder.ConcatState)
    (hb : st.buffer = r.1.buffer) (he : st.hadError = r.1.hadError) :
    NonAnsiPortListBuilder.Reports stx r (st, r.2) :=
  ⟨rfl, rfl, hb, Or.inl ⟨he, rfl⟩⟩

theorem mergeDirection_reports (stx : PortConcatenationSyntax) (ps : Built.PortSymbol)
    (r : NonAnsiPortListBuilder.ConcatState × NonAnsiPortListBuilder) :
    NonAnsiPortListBuilder.Reports stx r (NonAnsiPortListBuilder.mergeDirection stx ps r) := by
  unfold NonAnsiPortListBuilder.mergeDirection
  split
  · dsimp only
    split
    · exact NonAnsiPortListBuilder.Reports.reports_trans (NonAnsiPortListBuilder.Reports.reports_of_state stx r _ rfl rfl)
        (reportDirError_reports stx _ (Or.inl rfl) _)
    · exact NonAnsiPortListBuilder.Reports.reports_of_state stx r _ rfl rfl
  · split
    · dsimp only
      split
      · exact NonAnsiPortListBuilder.Reports.reports_trans (NonAnsiPortListBuilder.Reports.reports_of_state stx r _ rfl rfl)
          (reportDirError_reports stx _ (Or.inr rfl) _)
      · exact NonAnsiPortListBuilder.Reports.reports_of_state stx r _ rfl rfl
    · split
      · exact NonAnsiPortListBuilder.Reports.reports_of_state stx r _ rfl rfl
      · exact NonAnsiPortListBuilder.Reports.reports_refl stx r

theorem mergeKind_reports (stx : PortConcatenationSyntax) (sym : InternalSymbol)
    (r : NonAnsiPortListBuilder.ConcatState × NonAnsiPortListBuilder) :
    NonAnsiPortListBuilder.Reports stx r (NonAnsiPortListBuilder.mergeKind stx sym r) := by
  unfold NonAnsiPortListBuilder.mergeKind
  split
  · dsimp only
    split
    · exact NonAnsiPortListBuilder.Reports.reports_trans (NonAnsiPortListBuilder.Reports.reports_of_state stx r _ rfl rfl)
        (reportDirError_reports stx _ (Or.inr rfl) _)
    · exact NonAnsiPortListBuilder.Reports.reports_of_state stx r _ rfl rfl
  · dsimp only
    split
    · exact NonAnsiPortListBuilder.Reports.reports_trans (NonAnsiPortListBuilder.Reports.reports_of_state stx r _ rfl rfl)
        (reportDirError_reports stx _ (Or.inl rfl) _)
    · exact NonAnsiPortListBuilder.Reports.reports_of_state stx r _ rfl rfl

theorem Built.PortSymbol.isNet_of_symbol (ps : Built.PortSymbol) (sym : InternalSymbol)
    (h : ps.internalSymbol = some sym) : ps.isNet = sym.isNet := by
  unfold Built.PortSymbol.isNet
  rw [h]

/-- One data-port component keeps the invariant of the loop of a
concatenation. -/
theorem NonAnsiPortListBuilder.ConcatInv.concat_step (st st2 : NonAnsiPortListBuilder.ConcatState) (ps : Built.PortSymbol) (sym : InternalSymbol)
    (hsym : ps.internalSymbol = some sym) (inv : NonAnsiPortListBuilder.ConcatInv st)
    (hb : st2.buffer = st.buffer ++ [ps])
    (hd : st2.dir = Spec.stepDirection st.dir ps.direction)
    (hn : st2.allNets = (st.allNets && sym.isNet))
    (hv : st2.allVars = (st.allVars && !sym.isNet))
    (he : st2.hadError = (st.hadError ||
          (ps.direction == ArgumentDirection.InOut && !st.allNets) ||
          (ps.direction == ArgumentDirection.Ref && !st.allVars) ||
          (if sym.isNet then st2.dir == ArgumentDirection.Ref
            else st2.dir == ArgumentDirection.InOut))) :
    NonAnsiPortListBuilder.ConcatInv st2 := by
  have hnet := Built.PortSymbol.isNet_of_symbol ps sym hsym
  obtain ⟨f1, f2, f3⟩ := Spec.effectiveDirection_facts (st.buffer.map (fun p => p.direction))
  rw [← inv.dir] at f1 f2 f3
  have memIO : ArgumentDirection.InOut ∈ st.buffer.map (fun p => p.direction) ↔
      st.buffer.any (fun p => p.direction == ArgumentDirection.InOut) = true := by
    constructor
    · intro h
      obtain ⟨p, hp, e⟩ := List.mem_map.mp h
      exact List.any_eq_true.mpr ⟨p, hp, by simpa using e⟩
    · intro h
      obtain ⟨p, hp, e⟩ := List.any_eq_true.mp h
      exact List.mem_map.mpr ⟨p, hp, by simpa using e⟩
  have memRef : ArgumentDirection.Ref ∈ st.buffer.map (fun p => p.direction) ↔
      st.buffer.any (fun p => p.direction == ArgumentDirection.Ref) = true := by
    constructor
    · intro h
      obtain ⟨p, hp, e⟩ := List.mem_map.mp h
      exact List.any_eq_true.mpr ⟨p, hp, by simpa using e⟩
    · intro h
      obtain ⟨p, hp, e⟩ := List.any_eq_true.mp h
      exact List.mem_map.mpr ⟨p, hp, by simpa using e⟩
  have hNV : ∀ q : Built.PortSymbol → Bool, st.buffer.any q = true →
      st.buffer.any (fun p => p.isNet) = true ∨ st.buffer.any (fun p => !p.isNet) = true := by
    intro q hq
    obtain ⟨p, hp, _⟩ := List.any_eq_true.mp hq
    cases hpn : p.isNet
    · exact Or.inr (List.any_eq_true.mpr ⟨p, hp, by simp [hpn]⟩)
    · exact Or.inl (List.any_eq_true.mpr ⟨p, hp, hpn⟩)
  have hall1 : st.allNets = !st.buffer.any (fun p => !p.isNet) := by
    rw [inv.allNets, List.all_eq_not_any_not]
  have hall2 : st.allVars = !st.buffer.any (fun p => p.isNet) := by
    rw [inv.allVars, List.all_eq_not_any_not]
    simp
  have key := Spec.mixes_step st.dir ps.direction
    (st.buffer.any (fun p => p.direction == ArgumentDirection.InOut))
    (st.buffer.any (fun p => p.direction == ArgumentDirection.Ref))
    (st.buffer.any (fun p => p.isNet)) (st.buffer.any (fun p => !p.isNet)) sym.isNet
    (fun h => memIO.mp (f1 h)) (fun h => memRef.mp (f2 h))
    (fun h => f3 (h.imp memIO.mpr memRef.mpr))
    (fun h => h.elim (hNV _) (hNV _))
  constructor
  · rw [hd, hb, List.map_append, inv.dir]
    exact (Spec.effectiveDirection_concat _ _).symm
  · rw [hn, hb, List.all_append, inv.allNets]
    simp [hnet]
  · rw [hv, hb, List.all_append, inv.allVars]
    simp [hnet]
  · rw [he, hd, inv.hadError, hall1, hall2, hb]
    unfold Spec.mixes
    rw [List.any_append, List.any_append, List.any_append, List.any_append]
    simp only [List.any_cons, List.any_nil, Bool.or_false, hnet]
    exact key
  · intro p hp
    rw [hb] at hp
    rcases List.mem_append.mp hp with hp | hp
    · exact inv.symbols p hp
    · rw [List.mem_singleton.mp hp, hsym]
      exact Option.some_ne_none _

theorem NonAnsiPortListBuilder.Reports.reports_diags {stx : PortConcatenationSyntax}
    {r r2 : NonAnsiPortListBuilder.ConcatState × NonAnsiPortListBuilder}
    (h : NonAnsiPortListBuilder.Reports stx r r2) :
    ∃ ds, r2.2.diags = r.2.diags ++ ds ∧ ds.filter (fun d => !isDirectionDiag d) = [] ∧
      (ds.filter isDirectionDiag).length = (if r2.1.hadError && !r.1.hadError then 1 else 0) ∧
      (r.1.hadError = true → r2.1.hadError = true) := by
  obtain ⟨_, _, _, h4⟩ := h
  rcases h4 with ⟨e1, d1⟩ | ⟨f1, t1, d, hd, hc, _⟩
  · refine ⟨[], by rw [d1, List.append_nil], rfl, ?_, fun h => by rw [e1]; exact h⟩
    rw [e1]
    cases r.1.hadError <;> rfl
  · refine ⟨[d], hd, ?_, ?_, fun _ => t1⟩
    · simp [List.filter_cons, hc]
    · rw [f1, t1]
      simp [List.filter_cons, hc]

theorem concatPort_run (stx : PortConcatenationSyntax) (ps : Built.PortSymbol)
    (r r2 : NonAnsiPortListBuilder.ConcatState × NonAnsiPortListBuilder)
    (h : NonAnsiPortListBuilder.concatPort stx ps r = .ok r2) :
    ∃ sym, ps.internalSymbol = some sym ∧
      r2.2.portInfos = r.2.portInfos ∧ r2.2.implicitMembers = r.2.implicitMembers ∧
      r2.1.buffer = r.1.buffer ++ [ps] ∧
      (∃ ds, r2.2.diags = r.2.diags ++ ds ∧ ds.filter (fun d => !isDirectionDiag d) = [] ∧
        (ds.filter isDirectionDiag).length =
          (if r2.1.hadError && !r.1.hadError then 1 else 0)) ∧
      (r.1.hadError = true → r2.1.hadError = true) ∧
      (NonAnsiPortListBuilder.ConcatInv r.1 → NonAnsiPortListBuilder.ConcatInv r2.1) := by
  unfold NonAnsiPortListBuilder.concatPort at h
  dsimp only at h
  cases hs : ps.internalSymbol with
  | none =>
    rw [hs] at h
    cases h
  | some sym =>
    rw [hs] at h
    dsimp only at h
    cases h
    have rep := NonAnsiPortListBuilder.Reports.reports_trans
      (mergeDirection_reports stx ps
        ({ r.1 with buffer := r.1.buffer ++ [ps] }, r.2))
      (mergeKind_reports stx sym _)
    obtain ⟨ds, k1, k2, k3, k4⟩ := NonAnsiPortListBuilder.Reports.reports_diags rep
    refine ⟨sym, rfl, rep.1, rep.2.1, rep.2.2.1, ⟨ds, k1, k2, k3⟩, k4, ?_⟩
    intro inv
    refine NonAnsiPortListBuilder.ConcatInv.concat_step r.1 _ ps sym hs inv ?_ ?_ ?_ ?_ ?_
    · exact rep.2.2.1
    · simp only [mergeKind_state, mergeDirection_state]
    · simp only [mergeKind_state, mergeDirection_state]
    · simp only [mergeKind_state, mergeDirection_state]
    · simp only [mergeKind_state, mergeDirection_state]

theorem NonAnsiPortListBuilder.dataPort_congr (b b2 : NonAnsiPortListBuilder)
    (h : b2.portInfos.map NonAnsiPortListBuilder.unmark =
      b.portInfos.map NonAnsiPortListBuilder.unmark) :
    b2.dataPort = b.dataPort := by
  funext item
  unfold NonAnsiPortListBuilder.dataPort
  rw [NonAnsiPortListBuilder.resolve_congr b b2 item h]

theorem NonAnsiPortListBuilder.provisionalMembers_congr (b b2 : NonAnsiPortListBuilder)
    (h : b2.portInfos.map NonAnsiPortListBuilder.unmark =
      b.portInfos.map NonAnsiPortListBuilder.unmark) (items : List PortReferenceSyntax) :
    b2.provisionalMembers items = b.provisionalMembers items := by
  unfold NonAnsiPortListBuilder.provisionalMembers
  congr 1
  funext item
  unfold NonAnsiPortListBuilder.provisionalInterface
  rw [NonAnsiPortListBuilder.resolve_congr b b2 item h]

theorem NonAnsiPortListBuilder.interfaceDiags_congr (b b2 : NonAnsiPortListBuilder)
    (h : b2.portInfos.map NonAnsiPortListBuilder.unmark =
      b.portInfos.map NonAnsiPortListBuilder.unmark) (items : List PortReferenceSyntax) :
    b2.interfaceDiags items = b.interfaceDiags items := by
  unfold NonAnsiPortListBuilder.interfaceDiags
  congr 1
  funext item
  unfold NonAnsiPortListBuilder.declaredInterface
  rw [NonAnsiPortListBuilder.resolve_congr b b2 item h]

theorem hadError_count (a b c : Bool) (h1 : a = true → b = true) (h2 : b = true → c = true) :
    (if b && !a then 1 else 0) + (if c && !b then 1 else 0) = (if c && !a then 1 else 0) := by
  cases a <;> cases b <;> cases c <;> simp_all

/-! ## The loop of a concatenation -/

/-- The whole loop of a concatenation: the flags of the index, the component
ports, the implicit members, the diagnostics and the invariant. -/
theorem concatLoop_run (stx : PortConcatenationSyntax) (items : List PortReferenceSyntax) :
    ∀ (r r2 : NonAnsiPortListBuilder.ConcatState × NonAnsiPortListBuilder),
      NonAnsiPortListBuilder.concatLoop stx r items = .ok r2 →
      r2.2.portInfos = NonAnsiPortListBuilder.setUsedAll
        (items.map (fun i => i.name.valueText)) r.2.portInfos ∧
      r2.1.buffer = r.1.buffer ++ items.filterMap r.2.dataPort ∧
      r2.2.implicitMembers = r.2.implicitMembers ++ r.2.provisionalMembers items ∧
      (∃ ds, r2.2.diags = r.2.diags ++ ds ∧
        ds.filter (fun d => !isDirectionDiag d) = r.2.interfaceDiags items ∧
        (ds.filter isDirectionDiag).length =
          (if r2.1.hadError && !r.1.hadError then 1 else 0)) ∧
      (r.1.hadError = true → r2.1.hadError = true) ∧
      (NonAnsiPortListBuilder.ConcatInv r.1 → NonAnsiPortListBuilder.ConcatInv r2.1) := by
  induction items with
  | nil =>
    intro r r2 h
    simp only [NonAnsiPortListBuilder.concatLoop] at h
    cases h
    refine ⟨rfl, (List.append_nil _).symm, (List.append_nil _).symm,
      ⟨[], (List.append_nil _).symm, rfl, ?_⟩, id, id⟩
    cases r.1.hadError <;> rfl
  | cons item rest ih =>
    intro r r2 h
    rw [NonAnsiPortListBuilder.concatLoop] at h
    cases hc : r.2.createPortReference "" item.firstToken item with
    | error e =>
      rw [hc] at h
      cases h
    | ok p =>
      obtain ⟨symbol, b1⟩ := p
      rw [hc] at h
      obtain ⟨hp, hdg, him⟩ :=
        NonAnsiPortListBuilder.createPortReference_run _ _ _ _ _ hc
      dsimp only at hp hdg him
      have hres : r.2.resolve item = some symbol := by
        unfold NonAnsiPortListBuilder.resolve
        rw [hc]
      have hun : b1.portInfos.map NonAnsiPortListBuilder.unmark =
          r.2.portInfos.map NonAnsiPortListBuilder.unmark := by
        rw [hp]
        exact NonAnsiPortListBuilder.setUsed_unmark _ _
      cases symbol with
      | Port ps =>
        dsimp only at h
        cases hcp : NonAnsiPortListBuilder.concatPort stx ps (r.1, b1) with
        | error e =>
          rw [hcp] at h
          cases h
        | ok r1 =>
          rw [hcp] at h
          dsimp only at h
          obtain ⟨sym, hsym, c1, c2, c3, ⟨ds1, c4, c5, c6⟩, c7, c8⟩ :=
            concatPort_run stx ps _ r1 hcp
          dsimp only at c1 c2 c3 c4 c6 c7 c8
          obtain ⟨i1, i2, i3, ⟨ds, i4, i5, i6⟩, i7, i8⟩ := ih r1 r2 h
          have hun1 : r1.2.portInfos.map NonAnsiPortListBuilder.unmark =
              r.2.portInfos.map NonAnsiPortListBuilder.unmark := by
            rw [c1]
            exact hun
          have hdp : r.2.dataPort item = some ps := by
            unfold NonAnsiPortListBuilder.dataPort
            rw [hres]
          have hpi : r.2.provisionalInterface item = none := by
            unfold NonAnsiPortListBuilder.provisionalInterface
            rw [hres]
          have hdi : r.2.declaredInterface item = none := by
            unfold NonAnsiPortListBuilder.declaredInterface
            rw [hres]
          refine ⟨?_, ?_, ?_, ⟨ds1 ++ ds, ?_, ?_, ?_⟩, fun h0 => i7 (c7 h0),
            fun h0 => i8 (c8 h0)⟩
          · rw [i1, c1, hp]
            rfl
          · rw [i2, c3, NonAnsiPortListBuilder.dataPort_congr r.2 r1.2 hun1,
              List.filterMap_cons_some hdp, List.append_assoc]
            rfl
          · rw [i3, c2, him, NonAnsiPortListBuilder.provisionalMembers_congr r.2 r1.2 hun1]
            unfold NonAnsiPortListBuilder.provisionalMembers
            rw [List.filterMap_cons_none (by rw [hpi]; rfl)]
          · rw [i4, c4, hdg, List.append_assoc]
          · rw [List.filter_append, c5, i5, List.nil_append,
              NonAnsiPortListBuilder.interfaceDiags_congr r.2 r1.2 hun1]
            unfold NonAnsiPortListBuilder.interfaceDiags
            rw [List.filterMap_cons_none (by rw [hdi]; rfl)]
          · rw [List.filter_append, List.length_append, c6, i6]
            exact hadError_count _ _ _ c7 i7
      | InterfacePort ip =>
        dsimp only at h
        cases hm : ip.isMissingIO
        · rw [if_neg (by rw [hm]; exact Bool.false_ne_true)] at h
          have hnd : isDirectionDiag ((Diagnostic.atRange .IfacePortInConcat
              item.sourceRange).arg (.str ip.name)) = false := rfl
          obtain ⟨i1, i2, i3, ⟨ds, i4, i5, i6⟩, i7, i8⟩ := ih _ r2 h
          dsimp only at i1 i2 i3 i4 i5 i6 i7 i8
          have hun1 : (b1.addDiag ((Diagnostic.atRange .IfacePortInConcat
              item.sourceRange).arg (.str ip.name))).portInfos.map
                NonAnsiPortListBuilder.unmark =
              r.2.portInfos.map NonAnsiPortListBuilder.unmark := hun
          have hdp : r.2.dataPort item = none := by
            unfold NonAnsiPortListBuilder.dataPort
            rw [hres]
          have hpi : r.2.provisionalInterface item = none := by
            unfold NonAnsiPortListBuilder.provisionalInterface
            rw [hres]
            simp only [hm, Bool.false_eq_true, if_false]
          have hdi : r.2.declaredInterface item = some ip := by
            unfold NonAnsiPortListBuilder.declaredInterface
            rw [hres]
            simp only [hm, Bool.false_eq_true, if_false]
          refine ⟨?_, ?_, ?_, ⟨(Diagnostic.atRange .IfacePortInConcat
              item.sourceRange).arg (.str ip.name) :: ds, ?_, ?_, ?_⟩, i7, i8⟩
          · rw [i1]
            show _ = NonAnsiPortListBuilder.setUsedAll _
              (NonAnsiPortListBuilder.setUsed item.name.valueText r.2.portInfos)
            rw [← hp]
            rfl
          · rw [i2, NonAnsiPortListBuilder.dataPort_congr r.2 _ hun1,
              List.filterMap_cons_none hdp]
          · rw [i3, NonAnsiPortListBuilder.provisionalMembers_congr r.2 _ hun1]
            show b1.implicitMembers ++ _ = _
            rw [him]
            unfold NonAnsiPortListBuilder.provisionalMembers
            rw [List.filterMap_cons_none (by rw [hpi]; rfl)]
          · rw [i4]
            show (b1.diags ++ [_]) ++ ds = _
            rw [hdg, List.append_assoc]
            rfl
          · rw [List.filter_cons_of_pos (by rw [hnd]; rfl), i5,
              NonAnsiPortListBuilder.interfaceDiags_congr r.2 _ hun1]
            unfold NonAnsiPortListBuilder.interfaceDiags
            rw [List.filterMap_cons_some (by rw [hdi]; rfl)]
          · rw [List.filter_cons_of_neg (by rw [hnd]; exact Bool.false_ne_true)]
            exact i6
        · rw [if_pos hm] at h
          obtain ⟨i1, i2, i3, ⟨ds, i4, i5, i6⟩, i7, i8⟩ := ih _ r2 h
          dsimp only at i1 i2 i3 i4 i5 i6 i7 i8
          have hun1 : ({ b1 with implicitMembers := b1.implicitMembers ++
              [.Provisional { ip with multiPortLoc := some item.firstToken }] } :
                NonAnsiPortListBuilder).portInfos.map NonAnsiPortListBuilder.unmark =
              r.2.portInfos.map NonAnsiPortListBuilder.unmark := hun
          have hdp : r.2.dataPort item = none := by
            unfold NonAnsiPortListBuilder.dataPort
            rw [hres]
          have hpi : r.2.provisionalInterface item = some ip := by
            unfold NonAnsiPortListBuilder.provisionalInterface
            rw [hres]
            simp only [hm, if_true]
          have hdi : r.2.declaredInterface item = none := by
            unfold NonAnsiPortListBuilder.declaredInterface
            rw [hres]
            simp only [hm, if_true]
          refine ⟨?_, ?_, ?_, ⟨ds, ?_, ?_, i6⟩, i7, i8⟩
          · rw [i1, hp]
            rfl
          · rw [i2, NonAnsiPortListBuilder.dataPort_congr r.2 _ hun1,
              List.filterMap_cons_none hdp]
          · rw [i3, NonAnsiPortListBuilder.provisionalMembers_congr r.2 _ hun1, him,
              List.append_assoc]
            unfold NonAnsiPortListBuilder.provisionalMembers
            rw [List.filterMap_cons_some (by rw [hpi]; rfl)]
            rfl
          · rw [i4, hdg]
          · rw [i5, NonAnsiPortListBuilder.interfaceDiags_congr r.2 _ hun1]
            unfold NonAnsiPortListBuilder.interfaceDiags
            rw [List.filterMap_cons_none (by rw [hdi]; rfl)]
      | MultiPort mp =>
        cases h

/-! ## The assertion of `createPort` -/

theorem NonAnsiPortListBuilder.Bound.bound_congr {b b2 : NonAnsiPortListBuilder}
    (hb : b.Bound)
    (h : b2.portInfos.map NonAnsiPortListBuilder.unmark =
      b.portInfos.map NonAnsiPortListBuilder.unmark) : b2.Bound := by
  intro name info hf hi
  have hu := NonAnsiPortListBuilder.find_unmark b b2 name h
  rw [hf] at hu
  cases hf0 : b.find name with
  | none =>
    rw [hf0] at hu
    cases hu
  | some info0 =>
    rw [hf0] at hu
    simp only [Option.map_some', Option.some.injEq, PortInfo.mk.injEq, and_true] at hu
    obtain ⟨e1, e2, e3, e4, e5, e6, _, e8⟩ := hu
    rw [e3]
    exact hb name info0 hf0 (e8 ▸ hi)

theorem NonAnsiPortListBuilder.createPortReference_ok (b : NonAnsiPortListBuilder)
    (hb : b.Bound) (externalName : String) (externalLoc : SourceLocation)
    (stx : PortReferenceSyntax) :
    ∃ r, b.createPortReference externalName externalLoc stx = .ok r ∧
      (∀ ps, r.1 = .Port ps → ps.internalSymbol ≠ none) ∧ (∀ mp, r.1 ≠ .MultiPort mp) := by
  unfold NonAnsiPortListBuilder.createPortReference NonAnsiPortListBuilder.getInfo
  dsimp only
  cases hf : b.find stx.name.valueText with
  | none =>
    exact ⟨_, rfl, fun ps h => (by cases h), fun mp h => (by cases h)⟩
  | some info =>
    dsimp only
    cases hi : info.isIface
    · have hs := hb _ info hf hi
      cases hsym : info.internalSymbol with
      | none => exact absurd hsym hs
      | some symbol =>
        simp only [Bool.false_eq_true, if_false]
        refine ⟨_, rfl, ?_, fun mp h => (by cases h)⟩
        intro ps h
        cases h
        exact Option.some_ne_none _
    · simp only [if_true]
      exact ⟨_, rfl, fun ps h => (by cases h), fun mp h => (by cases h)⟩

theorem concatLoop_ok (stx : PortConcatenationSyntax) (items : List PortReferenceSyntax) :
    ∀ r : NonAnsiPortListBuilder.ConcatState × NonAnsiPortListBuilder, r.2.Bound →
      ∃ r2, NonAnsiPortListBuilder.concatLoop stx r items = .ok r2 := by
  induction items with
  | nil =>
    intro r _
    exact ⟨r, rfl⟩
  | cons item rest ih =>
    intro r hb
    obtain ⟨⟨symbol, b1⟩, hc, hp, hm⟩ :=
      NonAnsiPortListBuilder.createPortReference_ok r.2 hb "" item.firstToken item
    obtain ⟨hpi, _, _⟩ := NonAnsiPortListBuilder.createPortReference_run _ _ _ _ _ hc
    dsimp only at hpi hp hm
    have hun : b1.portInfos.map NonAnsiPortListBuilder.unmark =
        r.2.portInfos.map NonAnsiPortListBuilder.unmark := by
      rw [hpi]
      exact NonAnsiPortListBuilder.setUsed_unmark _ _
    rw [NonAnsiPortListBuilder.concatLoop, hc]
    cases symbol with
    | Port ps =>
      dsimp only
      cases hs : ps.internalSymbol with
      | none => exact absurd hs (hp ps rfl)
      | some sym =>
        have hcp : NonAnsiPortListBuilder.concatPort stx ps (r.1, b1) =
            .ok (NonAnsiPortListBuilder.mergeKind stx sym
              (NonAnsiPortListBuilder.mergeDirection stx ps
                ({ r.1 with buffer := r.1.buffer ++ [ps] }, b1))) := by
          unfold NonAnsiPortListBuilder.concatPort
          dsimp only
          rw [hs]
        rw [hcp]
        dsimp only
        obtain ⟨_, _, c1, _⟩ := concatPort_run stx ps _ _ hcp
        exact ih _ (hb.bound_congr (by rw [c1]; exact hun))
    | InterfacePort ip =>
      dsimp only
      split
      · exact ih _ (hb.bound_congr hun)
      · exact ih _ (hb.bound_congr hun)
    | MultiPort mp => exact absurd rfl (hm mp)

/-! ## The index of the port declarations -/

theorem NonAnsiPortListBuilder.handleVariablePortHeader_symbol (scope : ScopeEnv)
    (b : NonAnsiPortListBuilder) (varHeader : VariablePortHeaderSyntax) (info : PortInfo)
    (insertionPoint : Option InsertionPoint) (r : PortInfo × NonAnsiPortListBuilder)
    (h : NonAnsiPortListBuilder.handleVariablePortHeader scope b varHeader info
      insertionPoint = .ok r) :
    r.1.internalSymbol ≠ none := by
  have hset : ∀ (b0 : NonAnsiPortListBuilder) symbol decl dataType (info0 : PortInfo) ip,
      (b0.setInternalSymbol symbol decl dataType info0 ip).1.internalSymbol ≠ none := by
    intro b0 symbol decl dataType info0 ip
    obtain ⟨sym, e1, _⟩ :=
      NonAnsiPortListBuilder.setInternalSymbol_fresh b0 symbol decl dataType info0 ip
    rw [e1]
    exact Option.some_ne_none _
  unfold NonAnsiPortListBuilder.handleVariablePortHeader at h
  dsimp only at h
  split at h
  · cases h
  · split at h
    · split at h
      · cases h
        exact hset _ _ _ _ _ _
      · cases h
        rw [(NonAnsiPortListBuilder.checkInOut_keeps _ _).1]
        exact hset _ _ _ _ _ _
    · split at h
      · cases h
        rw [(NonAnsiPortListBuilder.checkInOut_keeps _ _).1]
        exact Option.some_ne_none _
      · cases h
        rw [(NonAnsiPortListBuilder.checkInOut_keeps _ _).1]
        exact hset _ _ _ _ _ _

theorem NonAnsiPortListBuilder.handleIODecl_bound (scope : ScopeEnv)
    (b : NonAnsiPortListBuilder) (header : PortHeaderSyntax) (info : PortInfo)
    (insertionPoint : Option InsertionPoint) (r : PortInfo × NonAnsiPortListBuilder)
    (h : NonAnsiPortListBuilder.handleIODecl scope b header info insertionPoint = .ok r) :
    r.1.isIface = true ∨ r.1.internalSymbol ≠ none := by
  unfold NonAnsiPortListBuilder.handleIODecl at h
  split at h
  · cases h
  · split at h
    · cases h
    · rename_i r0 hr0
      cases h
      rw [(NonAnsiPortListBuilder.checkIODecl_keeps r0).1]
      split at hr0
      · exact Or.inr (NonAnsiPortListBuilder.handleVariablePortHeader_symbol _ _ _ _ _ _ hr0)
      · unfold NonAnsiPortListBuilder.handleNetPortHeader at hr0
        dsimp only at hr0
        split at hr0
        · cases hr0
        · cases hr0
          obtain ⟨sym, e1, _⟩ := NonAnsiPortListBuilder.setInternalSymbol_fresh b
            { kind := .Net (scope.getNetType ‹NetPortHeaderSyntax›.netTypeKind),
              name := info.decl.name.valueText, location := info.decl.name.location }
            info.decl (some ‹NetPortHeaderSyntax›.dataType)
            { info with direction := SemanticFacts.getDirection ‹DirectionToken›.kind }
            insertionPoint
          refine Or.inr ?_
          rw [e1]
          exact Option.some_ne_none _
      · unfold NonAnsiPortListBuilder.handleInterfacePortHeader at hr0
        dsimp only at hr0
        split at hr0
        · cases hr0
        · cases hr0
          exact Or.inl rfl

theorem Spec.redefinitions_append (earlier xs ys : List DeclaratorSyntax) :
    Spec.redefinitions earlier (xs ++ ys) =
      Spec.redefinitions earlier xs ++ Spec.redefinitions (earlier ++ xs) ys := by
  induction xs generalizing earlier with
  | nil => simp [Spec.redefinitions]
  | cons x rest ih =>
    show Spec.redefinition earlier x ++ Spec.redefinitions (earlier ++ [x]) (rest ++ ys) =
      (Spec.redefinition earlier x ++ Spec.redefinitions (earlier ++ [x]) rest) ++
        Spec.redefinitions (earlier ++ x :: rest) ys
    rw [ih, List.append_assoc, List.append_assoc]
    rfl

theorem NonAnsiPortListBuilder.find_none_not_mem (b : NonAnsiPortListBuilder) (name : String)
    (h : b.find name = none) : name ∉ b.portInfos.map (fun e => e.1) := by
  unfold NonAnsiPortListBuilder.find at h
  intro hm
  obtain ⟨e, he, hn⟩ := List.mem_map.mp hm
  cases hf : b.portInfos.find? (fun e => e.1 == name) with
  | some x =>
    rw [hf] at h
    cases h
  | none =>
    have := List.find?_eq_none.mp hf e he
    exact this (by simp [hn])

theorem NonAnsiPortListBuilder.find_concat (b : NonAnsiPortListBuilder) (name key : String)
    (info : PortInfo) :
    NonAnsiPortListBuilder.find { b with portInfos := b.portInfos ++ [(key, info)] } name =
      (b.find name).or (if key == name then some info else none) := by
  unfold NonAnsiPortListBuilder.find
  dsimp only
  rw [List.find?_append]
  cases b.portInfos.find? (fun e => e.1 == name) with
  | some x => rfl
  | none =>
    simp only [Option.none_or, Option.map_none', List.find?_cons, List.find?_nil]
    cases (key == name) <;> rfl

theorem Spec.firstDeclarator_concat (name : String) (earlier : List DeclaratorSyntax)
    (decl : DeclaratorSyntax) :
    Spec.firstDeclarator name (earlier ++ [decl]) =
      (Spec.firstDeclarator name earlier).or
        (if decl.name.valueText == name then some decl else none) := by
  unfold Spec.firstDeclarator
  rw [List.find?_append]
  cases earlier.find? (fun d => d.name.valueText == name) with
  | some x => rfl
  | none =>
    simp only [Option.none_or, List.find?_cons, List.find?_nil]
    cases (decl.name.valueText == name) <;> rfl

theorem NonAnsiPortListBuilder.Adds.no_redefinition {b b2 : NonAnsiPortListBuilder}
    (h : NonAnsiPortListBuilder.Adds b b2) :
    ∃ ds, b2.diags = b.diags ++ ds ∧
      ds.filter (fun d => d.code == DiagCode.Redefinition) = [] ∧
      ∀ d ∈ ds, NonAnsiPortListBuilder.isIODeclDiag d.code = true := by
  obtain ⟨_, ds, hds, hall⟩ := h
  refine ⟨ds, hds, List.filter_eq_nil_iff.mpr ?_, hall⟩
  intro d hd hc
  have h1 := hall d hd
  have h2 : d.code = DiagCode.Redefinition := by simpa using hc
  rw [h2] at h1
  cases h1

theorem IndexInv.index_fresh {earlier : List DeclaratorSyntax} {b : NonAnsiPortListBuilder}
    (inv : IndexInv earlier b) (b1 : NonAnsiPortListBuilder) (decl : DeclaratorSyntax)
    (info : PortInfo) (hp : b1.portInfos = b.portInfos)
    (hmiss : b.find decl.name.valueText = none) (hdecl : info.decl = decl)
    (hused : info.used = false) :
    IndexInv (earlier ++ [decl])
      { b1 with portInfos := b1.portInfos ++ [(decl.name.valueText, info)] } := by
  have hfind : ∀ n, b1.find n = b.find n := by
    intro n
    unfold NonAnsiPortListBuilder.find
    rw [hp]
  constructor
  · show ((b1.portInfos ++ [(decl.name.valueText, info)]).map (fun e => e.1)).Nodup
    rw [hp, List.map_append]
    refine List.Nodup.append inv.nodup (List.nodup_singleton _) ?_
    intro x hx hx2
    rw [List.mem_singleton.mp hx2] at hx
    exact NonAnsiPortListBuilder.find_none_not_mem b _ hmiss hx
  · intro n
    rw [NonAnsiPortListBuilder.find_concat, Spec.firstDeclarator_concat, hfind, ← inv.first n]
    cases b.find n with
    | some x => rfl
    | none =>
      simp only [Option.none_or, Option.map_none']
      cases (decl.name.valueText == n)
      · rfl
      · simp only [if_true, Option.map_some', hdecl]
  · intro e he
    rcases List.mem_append.mp he with he | he
    · rw [hp] at he
      exact inv.key e he
    · rw [List.mem_singleton.mp he, hdecl]
  · intro e he
    rcases List.mem_append.mp he with he | he
    · rw [hp] at he
      exact inv.unused e he
    · rw [List.mem_singleton.mp he]
      exact hused

theorem IndexInv.index_again {earlier : List DeclaratorSyntax} {b : NonAnsiPortListBuilder}
    (inv : IndexInv earlier b) (b1 : NonAnsiPortListBuilder) (decl : DeclaratorSyntax)
    (first : PortInfo) (hp : b1.portInfos = b.portInfos)
    (hfirst : b.find decl.name.valueText = some first) :
    IndexInv (earlier ++ [decl]) b1 := by
  have hfind : ∀ n, b1.find n = b.find n := by
    intro n
    unfold NonAnsiPortListBuilder.find
    rw [hp]
  constructor
  · rw [hp]
    exact inv.nodup
  · intro n
    rw [Spec.firstDeclarator_concat, hfind, ← inv.first n]
    cases hn : b.find n with
    | some x => rfl
    | none =>
      simp only [Option.none_or, Option.map_none']
      cases hk : (decl.name.valueText == n)
      · rfl
      · have : decl.name.valueText = n := by simpa using hk
        rw [this, hn] at hfirst
        cases hfirst
  · intro e he
    rw [hp] at he
    exact inv.key e he
  · intro e he
    rw [hp] at he
    exact inv.unused e he

/-- The inner loop of the constructor keeps the invariant of the index and adds
the `Redefinition` diagnostics the spec asks for. -/
theorem indexDeclarators_run (scope : ScopeEnv) (port : PortDeclarationSyntax)
    (insertionPoint : Option InsertionPoint) (decls : List DeclaratorSyntax) :
    ∀ (earlier : List DeclaratorSyntax) (b b2 : NonAnsiPortListBuilder),
      IndexInv earlier b →
      (∀ e ∈ b.portInfos, e.2.isIface = true ∨ e.2.internalSymbol ≠ none) →
      NonAnsiPortListBuilder.indexDeclarators scope port insertionPoint b decls = .ok b2 →
      IndexInv (earlier ++ decls.filter (fun d => !d.name.isMissing)) b2 ∧
      (∀ e ∈ b2.portInfos, e.2.isIface = true ∨ e.2.internalSymbol ≠ none) ∧
      ∃ ds, b2.diags = b.diags ++ ds ∧
        ds.filter (fun d => d.code == DiagCode.Redefinition) =
          Spec.redefinitions earlier (decls.filter (fun d => !d.name.isMissing)) ∧
        ∀ d ∈ ds, NonAnsiPortListBuilder.isIODeclDiag d.code = true ∨
          d.code = DiagCode.Redefinition := by
  induction decls with
  | nil =>
    intro earlier b b2 inv hbound h
    simp only [NonAnsiPortListBuilder.indexDeclarators] at h
    cases h
    refine ⟨?_, hbound, [], (List.append_nil _).symm, rfl, fun _ hd => absurd hd (List.not_mem_nil _)⟩
    rw [List.filter_nil, List.append_nil]
    exact inv
  | cons decl rest ih =>
    intro earlier b b2 inv hbound h
    rw [NonAnsiPortListBuilder.indexDeclarators] at h
    cases hm : decl.name.isMissing
    · rw [hm] at h
      simp only [Bool.not_false, if_true] at h
      have hfilter : (decl :: rest).filter (fun d => !d.name.isMissing) =
          decl :: rest.filter (fun d => !d.name.isMissing) :=
        List.filter_cons_of_pos (by simp [hm])
      rw [hfilter]
      cases hf : b.find decl.name.valueText with
      | none =>
        rw [hf] at h
        dsimp only at h
        cases hh : NonAnsiPortListBuilder.handleIODecl scope b port.header
            { decl := decl, attrs := port.attributes } insertionPoint with
        | error e =>
          rw [hh] at h
          cases h
        | ok r =>
          obtain ⟨info, b1⟩ := r
          rw [hh] at h
          dsimp only at h
          obtain ⟨hadds, hdecl, hused, _, _⟩ :=
            NonAnsiPortListBuilder.handleIODecl_adds _ _ _ _ _ _ hh
          have hb := NonAnsiPortListBuilder.handleIODecl_bound _ _ _ _ _ _ hh
          dsimp only at hadds hdecl hused hb
          obtain ⟨ds1, hds1, hno, hcodes⟩ := hadds.no_redefinition
          obtain ⟨i1, i2, ds, i3, i4, i5⟩ := ih (earlier ++ [decl]) _ b2
            (inv.index_fresh b1 decl info hadds.1 hf hdecl hused)
            (by
              intro e he
              rcases List.mem_append.mp he with he | he
              · rw [hadds.1] at he
                exact hbound e he
              · rw [List.mem_singleton.mp he]
                exact hb)
            h
          refine ⟨?_, i2, ds1 ++ ds, ?_, ?_, ?_⟩
          · rw [List.append_assoc] at i1
            exact i1
          · rw [i3]
            show b1.diags ++ ds = _
            rw [hds1, List.append_assoc]
          · rw [List.filter_append, hno, i4, List.nil_append]
            show _ = Spec.redefinition earlier decl ++ _
            unfold Spec.redefinition
            rw [← inv.first, hf]
            rfl
          · intro d hd
            rcases List.mem_append.mp hd with hd | hd
            · exact Or.inl (hcodes d hd)
            · exact i5 d hd
      | some first =>
        rw [hf] at h
        dsimp only at h
        obtain ⟨i1, i2, ds, i3, i4, i5⟩ := ih (earlier ++ [decl])
          (b.addDiag (((Diagnostic.atLocation .Redefinition decl.name.location).arg
            (.str decl.name.valueText)).addNote .NotePreviousDefinition
              first.decl.name.location)) b2
          (inv.index_again _ decl first rfl hf) hbound h
        refine ⟨?_, i2, (((Diagnostic.atLocation .Redefinition decl.name.location).arg
            (.str decl.name.valueText)).addNote .NotePreviousDefinition
              first.decl.name.location) :: ds, ?_, ?_, ?_⟩
        · rw [List.append_assoc] at i1
          exact i1
        · rw [i3]
          show (b.diags ++ [_]) ++ ds = _
          rw [List.append_assoc]
          rfl
        · rw [List.filter_cons_of_pos (by rfl), i4]
          show _ = Spec.redefinition earlier decl ++ _
          unfold Spec.redefinition
          rw [← inv.first, hf]
          rfl
        · intro d hd
          rcases List.mem_cons.mp hd with hd | hd
          · rw [hd]
            exact Or.inr rfl
          · exact i5 d hd
    · rw [hm] at h
      simp only [Bool.not_true, Bool.false_eq_true, if_false] at h
      have hfilter : (decl :: rest).filter (fun d => !d.name.isMissing) =
          rest.filter (fun d => !d.name.isMissing) :=
        List.filter_cons_of_neg (by simp [hm])
      rw [hfilter]
      exact ih earlier b b2 inv hbound h

/-- The outer loop of the constructor. -/
theorem indexDeclarations_run (scope : ScopeEnv)
    (decls : List (PortDeclarationSyntax × Option InsertionPoint)) :
    ∀ (earlier : List DeclaratorSyntax) (b b2 : NonAnsiPortListBuilder),
      IndexInv earlier b →
      (∀ e ∈ b.portInfos, e.2.isIface = true ∨ e.2.internalSymbol ≠ none) →
      NonAnsiPortListBuilder.indexDeclarations scope b decls = .ok b2 →
      IndexInv (earlier ++ Spec.declarators decls) b2 ∧
      (∀ e ∈ b2.portInfos, e.2.isIface = true ∨ e.2.internalSymbol ≠ none) ∧
      ∃ ds, b2.diags = b.diags ++ ds ∧
        ds.filter (fun d => d.code == DiagCode.Redefinition) =
          Spec.redefinitions earlier (Spec.declarators decls) ∧
        ∀ d ∈ ds, NonAnsiPortListBuilder.isIODeclDiag d.code = true ∨
          d.code = DiagCode.Redefinition := by
  induction decls with
  | nil =>
    intro earlier b b2 inv hbound h
    simp only [NonAnsiPortListBuilder.indexDeclarations] at h
    cases h
    refine ⟨?_, hbound, [], (List.append_nil _).symm, rfl, fun _ hd => absurd hd (List.not_mem_nil _)⟩
    show IndexInv (earlier ++ []) b
    rw [List.append_nil]
    exact inv
  | cons d rest ih =>
    intro earlier b b2 inv hbound h
    obtain ⟨port, insertionPoint⟩ := d
    rw [NonAnsiPortListBuilder.indexDeclarations] at h
    cases h1 : NonAnsiPortListBuilder.indexDeclarators scope port insertionPoint b
        port.declarators with
    | error e =>
      rw [h1] at h
      cases h
    | ok b1 =>
      rw [h1] at h
      dsimp only at h
      obtain ⟨j1, j2, ds1, j3, j4, j5⟩ :=
        indexDeclarators_run scope port insertionPoint _ earlier b b1 inv hbound h1
      obtain ⟨i1, i2, ds, i3, i4, i5⟩ := ih _ b1 b2 j1 j2 h
      have hdecl : Spec.declarators ((port, insertionPoint) :: rest) =
          port.declarators.filter (fun d => !d.name.isMissing) ++ Spec.declarators rest := by
        simp [Spec.declarators]
      rw [hdecl]
      refine ⟨?_, i2, ds1 ++ ds, ?_, ?_, ?_⟩
      · rw [List.append_assoc] at i1
        exact i1
      · rw [i3, j3, List.append_assoc]
      · rw [List.filter_append, j4, i4, Spec.redefinitions_append]
      · intro d hd
        rcases List.mem_append.mp hd with hd | hd
        · exact j5 d hd
        · exact i5 d hd

theorem NonAnsiPortListBuilder.create_run (scope : ScopeEnv)
    (decls : List (PortDeclarationSyntax × Option InsertionPoint))
    (b : NonAnsiPortListBuilder)
    (h : NonAnsiPortListBuilder.create scope decls = .ok b) :
    IndexInv (Spec.declarators decls) b ∧ b.Bound ∧
    b.diags.filter (fun d => d.code == DiagCode.Redefinition) =
      Spec.redefinitions [] (Spec.declarators decls) ∧
    ∀ d ∈ b.diags, NonAnsiPortListBuilder.isIODeclDiag d.code = true ∨
      d.code = DiagCode.Redefinition := by
  obtain ⟨i1, i2, ds, i3, i4, i5⟩ := indexDeclarations_run scope decls [] {} b
    ⟨List.nodup_nil, fun _ => rfl, fun _ he => (by cases he), fun _ he => (by cases he)⟩
    (fun _ he => (by cases he)) h
  rw [List.nil_append] at i1
  refine ⟨i1, ?_, ?_, ?_⟩
  · intro name info hf hi
    rcases i2 _ (NonAnsiPortListBuilder.find_mem b name info hf) with h1 | h1
    · rw [hi] at h1
      cases h1
    · exact h1
  · rw [i3]
    exact i4
  · rw [i3]
    exact i5

/-! ## The constructor on well-formed port declarations -/

theorem NonAnsiPortListBuilder.handleVariablePortHeader_ok (scope : ScopeEnv)
    (b : NonAnsiPortListBuilder) (h : VariablePortHeaderSyntax) (info : PortInfo)
    (insertionPoint : Option InsertionPoint) (d : DirectionToken)
    (hd : h.direction = some d) :
    ∃ r, NonAnsiPortListBuilder.handleVariablePortHeader scope b h info insertionPoint =
      .ok r := by
  unfold NonAnsiPortListBuilder.handleVariablePortHeader
  dsimp only
  rw [hd]
  dsimp only
  split
  · split <;> exact ⟨_, rfl⟩
  · split <;> exact ⟨_, rfl⟩

theorem NonAnsiPortListBuilder.handleIODecl_ok (scope : ScopeEnv)
    (b : NonAnsiPortListBuilder) (header : PortHeaderSyntax) (info : PortInfo)
    (insertionPoint : Option InsertionPoint)
    (hname : info.decl.name.valueText ≠ "") (hheader : header.isAccepted = true) :
    ∃ r, NonAnsiPortListBuilder.handleIODecl scope b header info insertionPoint = .ok r := by
  unfold NonAnsiPortListBuilder.handleIODecl
  rw [if_neg (by rw [isEmpty_eq_false_of_ne hname]; exact Bool.false_ne_true)]
  cases header with
  | VariablePortHeader h =>
    dsimp only
    have hd : h.direction.isSome = true := hheader
    obtain ⟨d, hd⟩ := Option.isSome_iff_exists.mp hd
    obtain ⟨r, hr⟩ := NonAnsiPortListBuilder.handleVariablePortHeader_ok scope b h info
      insertionPoint d hd
    rw [hr]
    exact ⟨_, rfl⟩
  | NetPortHeader h =>
    dsimp only
    have hd : h.direction.isSome = true := hheader
    obtain ⟨d, hd⟩ := Option.isSome_iff_exists.mp hd
    unfold NonAnsiPortListBuilder.handleNetPortHeader
    dsimp only
    rw [hd]
    exact ⟨_, rfl⟩
  | InterfacePortHeader h =>
    dsimp only
    have hd : h.isIdentifier = true := hheader
    unfold NonAnsiPortListBuilder.handleInterfacePortHeader
    dsimp only
    rw [hd]
    exact ⟨_, rfl⟩

theorem indexDeclarators_ok (scope : ScopeEnv) (port : PortDeclarationSyntax)
    (insertionPoint : Option InsertionPoint) (hheader : port.header.isAccepted = true)
    (decls : List DeclaratorSyntax) :
    ∀ b : NonAnsiPortListBuilder,
      (∀ decl ∈ decls, decl.name.isMissing = false → decl.name.valueText ≠ "") →
      ∃ b2, NonAnsiPortListBuilder.indexDeclarators scope port insertionPoint b decls =
        .ok b2 := by
  induction decls with
  | nil =>
    intro b _
    exact ⟨b, rfl⟩
  | cons decl rest ih =>
    intro b hn
    have hrest : ∀ d ∈ rest, d.name.isMissing = false → d.name.valueText ≠ "" :=
      fun d hd => hn d (List.mem_cons_of_mem _ hd)
    rw [NonAnsiPortListBuilder.indexDeclarators]
    cases hm : decl.name.isMissing
    · simp only [Bool.not_false, if_true]
      cases hf : b.find decl.name.valueText with
      | none =>
        dsimp only
        obtain ⟨r, hr⟩ := NonAnsiPortListBuilder.handleIODecl_ok scope b port.header
          { decl := decl, attrs := port.attributes } insertionPoint
          (hn decl (List.mem_cons_self _ _) hm) hheader
        rw [hr]
        exact ih _ hrest
      | some first =>
        dsimp only
        exact ih _ hrest
    · simp only [Bool.not_true, Bool.false_eq_true, if_false]
      exact ih _ hrest

theorem indexDeclarations_ok (scope : ScopeEnv)
    (decls : List (PortDeclarationSyntax × Option InsertionPoint)) :
    ∀ b : NonAnsiPortListBuilder, WellFormed decls →
      ∃ b2, NonAnsiPortListBuilder.indexDeclarations scope b decls = .ok b2 := by
  induction decls with
  | nil =>
    intro b _
    exact ⟨b, rfl⟩
  | cons d rest ih =>
    intro b hw
    obtain ⟨port, insertionPoint⟩ := d
    obtain ⟨h1, h2⟩ := hw (port, insertionPoint) (List.mem_cons_self _ _)
    obtain ⟨b1, hb1⟩ := indexDeclarators_ok scope port insertionPoint h1 port.declarators b h2
    rw [NonAnsiPortListBuilder.indexDeclarations, hb1]
    exact ih b1 (fun d hd => hw d (List.mem_cons_of_mem _ hd))

theorem NonAnsiPortListBuilder.create_ok (scope : ScopeEnv)
    (decls : List (PortDeclarationSyntax × Option InsertionPoint)) (hw : WellFormed decls) :
    ∃ b, NonAnsiPortListBuilder.create scope decls = .ok b :=
  indexDeclarations_ok scope decls {} hw

/-! ## The loop over the port list -/

theorem NonAnsiPortListBuilder.interfaceDiags_codes (b : NonAnsiPortListBuilder)
    (items : List PortReferenceSyntax) :
    ∀ d ∈ b.interfaceDiags items, d.code = DiagCode.IfacePortInConcat := by
  intro d hd
  unfold NonAnsiPortListBuilder.interfaceDiags at hd
  obtain ⟨item, _, hi⟩ := List.mem_filterMap.mp hd
  cases hdi : b.declaredInterface item with
  | none =>
    rw [hdi] at hi
    cases hi
  | some ip =>
    rw [hdi] at hi
    cases hi
    rfl

theorem NonAnsiPortListBuilder.createPortConcatenation_run (b : NonAnsiPortListBuilder)
    (name : String) (loc : SourceLocation) (stx : PortConcatenationSyntax) (hb : b.Bound) :
    ∃ (mp : Built.MultiPortSymbol) (b2 : NonAnsiPortListBuilder) (ds : List Diagnostic),
      b.createPortConcatenation name loc stx = .ok (.MultiPort mp, b2) ∧
      mp.name = name ∧ mp.location = loc ∧
      mp.ports = stx.references.filterMap b.dataPort ∧
      mp.direction = Spec.effectiveDirection (mp.ports.map (fun p => p.direction)) ∧
      (∀ p ∈ mp.ports, p.internalSymbol ≠ none) ∧
      b2.portInfos = NonAnsiPortListBuilder.setUsedAll
        (stx.references.map (fun i => i.name.valueText)) b.portInfos ∧
      b2.implicitMembers = b.implicitMembers ++ b.provisionalMembers stx.references ∧
      b2.diags = b.diags ++ ds ∧
      ds.filter (fun d => !isDirectionDiag d) = b.interfaceDiags stx.references ∧
      (ds.filter isDirectionDiag).length = (if Spec.mixes mp.ports then 1 else 0) := by
  obtain ⟨r2, h⟩ := concatLoop_ok stx stx.references ({}, b) hb
  obtain ⟨i1, i2, i3, ⟨ds, i4, i5, i6⟩, _, i8⟩ := concatLoop_run stx stx.references _ r2 h
  have inv := i8 ⟨rfl, rfl, rfl, rfl, fun p hp => absurd hp (List.not_mem_nil _)⟩
  obtain ⟨st, b2⟩ := r2
  dsimp only at i1 i2 i3 i4 i5 i6 inv
  have hbuf : st.buffer = stx.references.filterMap b.dataPort := by
    rw [i2]
    rfl
  refine ⟨{ name := name, location := loc, ports := st.buffer, direction := st.dir }, b2, ds,
    ?_, rfl, rfl, hbuf, inv.dir, inv.symbols, i1, i3, i4, i5, ?_⟩
  · unfold NonAnsiPortListBuilder.createPortConcatenation
    rw [h]
  · rw [i6, ← inv.hadError]
    cases st.hadError <;> rfl

/-- One entry of the port list: it succeeds on an index that satisfies the
assertion of `createPort`, marks the declarations it refers to, and adds only
diagnostics of a concatenation. -/
theorem NonAnsiPortListBuilder.createPortExpression_run (b : NonAnsiPortListBuilder)
    (name : String) (loc : SourceLocation) (expr : PortExpressionSyntax) (hb : b.Bound) :
    ∃ r, b.createPortExpression name loc expr = .ok r ∧
      r.2.portInfos = NonAnsiPortListBuilder.setUsedAll
        (match expr with
          | .PortReference x => [x.name.valueText]
          | .PortConcatenation c => c.references.map (fun x => x.name.valueText))
        b.portInfos ∧
      ∃ ds, r.2.diags = b.diags ++ ds ∧
        ∀ d ∈ ds, d.code = DiagCode.IfacePortInConcat ∨ isDirectionDiag d = true := by
  cases expr with
  | PortReference x =>
    obtain ⟨r, hr, _, _⟩ := NonAnsiPortListBuilder.createPortReference_ok b hb name loc x
    obtain ⟨h1, h2, _⟩ := NonAnsiPortListBuilder.createPortReference_run _ _ _ _ _ hr
    exact ⟨r, hr, h1, [], by rw [h2, List.append_nil],
      fun d hd => absurd hd (List.not_mem_nil _)⟩
  | PortConcatenation c =>
    obtain ⟨mp, b2, ds, h, _, _, _, _, _, h1, _, h2, h3, _⟩ :=
      NonAnsiPortListBuilder.createPortConcatenation_run b name loc c hb
    refine ⟨_, h, h1, ds, h2, ?_⟩
    intro d hd
    cases hdir : isDirectionDiag d
    · refine Or.inl (NonAnsiPortListBuilder.interfaceDiags_codes b c.references d ?_)
      rw [← h3]
      exact List.mem_filter.mpr ⟨hd, by rw [hdir]; rfl⟩
    · exact Or.inr rfl

theorem NonAnsiPortListBuilder.createPort_run (scope : ScopeEnv)
    (b : NonAnsiPortListBuilder) (port : NonAnsiPortSyntax) (hb : b.Bound) :
    ∃ r, b.createPort scope port = .ok r ∧
      r.2.portInfos = NonAnsiPortListBuilder.setUsedAll (Spec.referencedBy port) b.portInfos ∧
      ∃ ds, r.2.diags = b.diags ++ ds ∧
        ∀ d ∈ ds, d.code = DiagCode.IfacePortInConcat ∨ isDirectionDiag d = true := by
  cases port with
  | ImplicitNonAnsiPort stx =>
    obtain ⟨r, h1, h2, h3⟩ :=
      NonAnsiPortListBuilder.createPortExpression_run b "" stx.expr.firstToken stx.expr hb
    refine ⟨r, h1, ?_, h3⟩
    rw [h2]
    cases stx with
    | mk expr => cases expr <;> rfl
  | ExplicitNonAnsiPort stx =>
    cases he : stx.expr with
    | none =>
      have hx : ∃ s, b.createPort scope (.ExplicitNonAnsiPort stx) = .ok (s, b) := by
        unfold NonAnsiPortListBuilder.createPort NonAnsiPortListBuilder.createPortExplicit
        dsimp only
        rw [he]
        exact ⟨_, rfl⟩
      obtain ⟨s, hs⟩ := hx
      refine ⟨(s, b), hs, ?_, [], ?_, fun d hd => absurd hd (List.not_mem_nil _)⟩
      · unfold Spec.referencedBy
        dsimp only
        rw [he]
        rfl
      · exact (List.append_nil _).symm
    | some expr =>
      obtain ⟨r, h1, h2, h3⟩ :=
        NonAnsiPortListBuilder.createPortExpression_run b stx.name.valueText
          stx.name.location expr hb
      refine ⟨r, ?_, ?_, h3⟩
      · unfold NonAnsiPortListBuilder.createPort NonAnsiPortListBuilder.createPortExplicit
        dsimp only
        rw [he]
        exact h1
      · rw [h2]
        unfold Spec.referencedBy
        dsimp only
        rw [he]
        cases expr <;> rfl
  | EmptyNonAnsiPort stx =>
    exact ⟨_, rfl, rfl, [], (List.append_nil _).symm,
      fun d hd => absurd hd (List.not_mem_nil _)⟩

theorem NonAnsiPortListBuilder.createPorts_run (scope : ScopeEnv)
    (ports : List NonAnsiPortSyntax) :
    ∀ b : NonAnsiPortListBuilder, b.Bound →
      ∃ r, NonAnsiPortListBuilder.createPorts scope b ports = .ok r ∧
        r.2.portInfos = NonAnsiPortListBuilder.setUsedAll (Spec.referenced ports) b.portInfos ∧
        ∃ ds, r.2.diags = b.diags ++ ds ∧
          ∀ d ∈ ds, d.code = DiagCode.IfacePortInConcat ∨ isDirectionDiag d = true := by
  induction ports with
  | nil =>
    intro b _
    exact ⟨_, rfl, rfl, [], (List.append_nil _).symm,
      fun d hd => absurd hd (List.not_mem_nil _)⟩
  | cons port rest ih =>
    intro b hb
    obtain ⟨⟨symbol, b1⟩, h1, h2, ds1, h3, h4⟩ :=
      NonAnsiPortListBuilder.createPort_run scope b port hb
    dsimp only at h2 h3
    have hb1 : b1.Bound := hb.bound_congr (by
      rw [h2]
      exact NonAnsiPortListBuilder.setUsedAll_unmark _ _)
    obtain ⟨⟨symbols, b2⟩, i1, i2, ds, i3, i4⟩ := ih b1 hb1
    dsimp only at i2 i3
    refine ⟨(symbol :: symbols, b2), ?_, ?_, ds1 ++ ds, ?_, ?_⟩
    · rw [NonAnsiPortListBuilder.createPorts, h1]
      dsimp only
      rw [i1]
    · show b2.portInfos = _
      rw [i2, h2]
      show _ = NonAnsiPortListBuilder.setUsedAll
        (Spec.referencedBy port ++ Spec.referenced rest) b.portInfos
      rw [NonAnsiPortListBuilder.setUsedAll_append]
    · show b2.diags = _
      rw [i3, h3, List.append_assoc]
    · intro d hd
      rcases List.mem_append.mp hd with hd | hd
      · exact h4 d hd
      · exact i4 d hd

/-! ## `finalize` -/

theorem NonAnsiPortListBuilder.setUsed_keys (name : String)
    (infos : List (String × PortInfo)) :
    (NonAnsiPortListBuilder.setUsed name infos).map (fun e => e.1) =
      infos.map (fun e => e.1) := by
  have h := congrArg (List.map (fun e : String × PortInfo => e.1))
    (NonAnsiPortListBuilder.setUsed_unmark name infos)
  rw [List.map_map, List.map_map] at h
  exact h

theorem NonAnsiPortListBuilder.setUsed_eq_map (name : String) :
    ∀ infos : List (String × PortInfo), (infos.map (fun e => e.1)).Nodup →
      NonAnsiPortListBuilder.setUsed name infos =
        infos.map (NonAnsiPortListBuilder.markUsed [name]) := by
  intro infos
  induction infos with
  | nil =>
    intro _
    rfl
  | cons e rest ih =>
    intro hnd
    rw [List.map_cons, List.nodup_cons] at hnd
    obtain ⟨hnot, hrest⟩ := hnd
    rw [NonAnsiPortListBuilder.setUsed, List.map_cons]
    cases hk : (e.1 == name)
    · have hne : e.1 ≠ name := by simpa using hk
      rw [if_neg (by simp), ih hrest]
      have : NonAnsiPortListBuilder.markUsed [name] e = e := by
        unfold NonAnsiPortListBuilder.markUsed
        rw [if_neg]
        simp [hne]
      rw [this]
    · rw [if_pos rfl]
      have heq : e.1 = name := by simpa using hk
      have h1 : NonAnsiPortListBuilder.markUsed [name] e = (e.1, { e.2 with used := true }) := by
        unfold NonAnsiPortListBuilder.markUsed
        rw [if_pos]
        simp [heq]
      have h2 : rest.map (NonAnsiPortListBuilder.markUsed [name]) = rest := by
        have : ∀ x ∈ rest, NonAnsiPortListBuilder.markUsed [name] x = x := by
          intro x hx
          unfold NonAnsiPortListBuilder.markUsed
          rw [if_neg]
          intro hc
          have hx1 : x.1 = name := by simpa using hc
          have he1 : e.1 = name := by simpa using hk
          exact hnot (List.mem_map.mpr ⟨x, hx, by rw [hx1, he1]⟩)
        conv_rhs => rw [← List.map_id rest]
        exact List.map_congr_left this
      rw [h1, h2]

theorem NonAnsiPortListBuilder.markUsed_fst (names : List String) (e : String × PortInfo) :
    (NonAnsiPortListBuilder.markUsed names e).1 = e.1 := by
  unfold NonAnsiPortListBuilder.markUsed
  split <;> rfl

theorem NonAnsiPortListBuilder.markUsed_cons (name : String) (names : List String)
    (e : String × PortInfo) :
    NonAnsiPortListBuilder.markUsed names (NonAnsiPortListBuilder.markUsed [name] e) =
      NonAnsiPortListBuilder.markUsed (name :: names) e := by
  by_cases h1 : e.1 = name <;> by_cases h2 : e.1 ∈ names <;>
    simp [NonAnsiPortListBuilder.markUsed, h1, h2]

theorem NonAnsiPortListBuilder.setUsedAll_eq_map (names : List String) :
    ∀ infos : List (String × PortInfo), (infos.map (fun e => e.1)).Nodup →
      NonAnsiPortListBuilder.setUsedAll names infos =
        infos.map (NonAnsiPortListBuilder.markUsed names) := by
  induction names with
  | nil =>
    intro infos _
    show infos = _
    conv_lhs => rw [← List.map_id infos]
    exact List.map_congr_left (fun x _ => rfl)
  | cons n rest ih =>
    intro infos hnd
    show NonAnsiPortListBuilder.setUsedAll rest (NonAnsiPortListBuilder.setUsed n infos) = _
    rw [ih _ (by rw [NonAnsiPortListBuilder.setUsed_keys]; exact hnd),
      NonAnsiPortListBuilder.setUsed_eq_map n infos hnd, List.map_map]
    exact List.map_congr_left
      (fun x _ => NonAnsiPortListBuilder.markUsed_cons n rest x)

/-- What `finalize` adds: the `UnusedPortDecl` diagnostics the spec asks for. -/
theorem NonAnsiPortListBuilder.finalize_unused (b0 b1 : NonAnsiPortListBuilder)
    (ports : List NonAnsiPortSyntax)
    (hnd : (b0.portInfos.map (fun e => e.1)).Nodup)
    (hun : ∀ e ∈ b0.portInfos, e.2.used = false)
    (hp : b1.portInfos = NonAnsiPortListBuilder.setUsedAll (Spec.referenced ports)
      b0.portInfos) :
    b1.finalize.diags = b1.diags ++ Spec.unusedDiags ports b0.portInfos := by
  unfold NonAnsiPortListBuilder.finalize Spec.unusedDiags
  dsimp only
  rw [hp, NonAnsiPortListBuilder.setUsedAll_eq_map _ _ hnd, List.filter_map, List.map_map]
  congr 1
  have hf : b0.portInfos.filter
        ((fun e => !e.2.used) ∘ NonAnsiPortListBuilder.markUsed (Spec.referenced ports)) =
      b0.portInfos.filter (fun e => !(Spec.referenced ports).contains e.1) := by
    apply List.filter_congr
    intro e he
    unfold NonAnsiPortListBuilder.markUsed
    by_cases hc : e.1 ∈ Spec.referenced ports
    · simp [hc]
    · simp [hc, hun e he]
  rw [hf]
  apply List.map_congr_left
  intro e he
  have hc := (List.mem_filter.mp he).2
  have hm : NonAnsiPortListBuilder.markUsed (Spec.referenced ports) e = e := by
    unfold NonAnsiPortListBuilder.markUsed
    rw [if_neg]
    intro h
    rw [h] at hc
    cases hc
  show (Diagnostic.atRange .UnusedPortDecl
      (NonAnsiPortListBuilder.markUsed (Spec.referenced ports) e).2.decl.sourceRange).arg
        (.str (NonAnsiPortListBuilder.markUsed (Spec.referenced ports) e).1) = _
  rw [hm]
  rfl

/-- The case `NonAnsiPortList` of `PortSymbol::fromSyntax` on port declarations
that pass the assertions of the constructor. -/
theorem NonAnsiPortListBuilder.fromSyntax_run (scope : ScopeEnv)
    (ports : List NonAnsiPortSyntax)
    (decls : List (PortDeclarationSyntax × Option InsertionPoint)) (hw : WellFormed decls) :
    ∃ (b0 : NonAnsiPortListBuilder) (symbols : List Built.Symbol)
      (b1 : NonAnsiPortListBuilder),
      NonAnsiPortListBuilder.create scope decls = .ok b0 ∧
      NonAnsiPortListBuilder.createPorts scope b0 ports = .ok (symbols, b1) ∧
      NonAnsiPortListBuilder.fromSyntax scope ports decls = .ok (symbols, b1.finalize) ∧
      b1.finalize.diags = b1.diags ++ Spec.unusedDiags ports b0.portInfos ∧
      ∀ d ∈ b1.diags, d.code ≠ DiagCode.UnusedPortDecl := by
  obtain ⟨b0, h0⟩ := NonAnsiPortListBuilder.create_ok scope decls hw
  obtain ⟨inv, hbound, _, hcodes⟩ := NonAnsiPortListBuilder.create_run scope decls b0 h0
  obtain ⟨⟨symbols, b1⟩, h1, h2, ds, h3, h4⟩ :=
    NonAnsiPortListBuilder.createPorts_run scope ports b0 hbound
  dsimp only at h2 h3
  refine ⟨b0, symbols, b1, h0, h1, ?_,
    NonAnsiPortListBuilder.finalize_unused b0 b1 ports inv.nodup inv.unused h2, ?_⟩
  · unfold NonAnsiPortListBuilder.fromSyntax
    rw [h0]
    dsimp only
    rw [h1]
  · intro d hd hc
    rw [h3] at hd
    rcases List.mem_append.mp hd with hd | hd
    · rcases hcodes d hd with h5 | h5
      · rw [hc] at h5
        cases h5
      · rw [hc] at h5
        cases h5
    · rcases h4 d hd with h5 | h5
      · rw [hc] at h5
        cases h5
      · unfold isDirectionDiag at h5
        rw [hc] at h5
        cases h5

/-! ## Port concatenations -/

theorem countCode_direction (ds : List Diagnostic) :
    countCode .PortConcatInOut ds + countCode .PortConcatRef ds =
      (ds.filter isDirectionDiag).length := by
  induction ds with
  | nil => rfl
  | cons d rest ih =>
    unfold countCode at ih ⊢
    rw [List.countP_cons, List.countP_cons, List.filter_cons]
    by_cases h1 : d.code = DiagCode.PortConcatInOut
    · have hd : isDirectionDiag d = true := by simp [isDirectionDiag, h1]
      simp only [h1, hd, if_true, List.length_cons]
      have : (DiagCode.PortConcatInOut == DiagCode.PortConcatRef) = false := rfl
      simp only [beq_self_eq_true, this, if_true, Bool.false_eq_true, if_false]
      omega
    · by_cases h2 : d.code = DiagCode.PortConcatRef
      · have hd : isDirectionDiag d = true := by simp [isDirectionDiag, h2]
        simp only [h2, hd, if_true, List.length_cons]
        have : (DiagCode.PortConcatRef == DiagCode.PortConcatInOut) = false := rfl
        simp only [beq_self_eq_true, this, if_true, Bool.false_eq_true, if_false]
        omega
      · have hd : isDirectionDiag d = false := by simp [isDirectionDiag, h1, h2]
        have e1 : (d.code == DiagCode.PortConcatInOut) = false := by simp [h1]
        have e2 : (d.code == DiagCode.PortConcatRef) = false := by simp [h2]
        simp only [hd, e1, e2, Bool.false_eq_true, if_false]
        omega

/-- C22: for every port concatenation (on an index that satisfies the assertion
of `createPort`), the effective direction of the MultiPort is the left-to-right
fold over its data-port components that starts at in, becomes inout at an inout
component, ref at a ref component, and out at an out component only while the
current value is in; in closed form, without inout or ref component it is out if
some component is out and in otherwise, and else it is the direction of the last
inout-or-ref component.  The module `m({a, b}); input a; output b;` has the
direction out and no diagnostics. -/
theorem createPortConcatenation_direction (b : NonAnsiPortListBuilder) (name : String)
    (loc : SourceLocation) (stx : PortConcatenationSyntax) (hb : b.Bound) :
    (∃ (mp : Built.MultiPortSymbol) (b2 : NonAnsiPortListBuilder),
      b.createPortConcatenation name loc stx = .ok (.MultiPort mp, b2) ∧
      mp.ports = stx.references.filterMap b.dataPort ∧
      mp.direction = Spec.effectiveDirection (mp.ports.map (fun p => p.direction)) ∧
      mp.direction = Spec.closedDirection (mp.ports.map (fun p => p.direction))) ∧
    (NonAnsiPortListBuilder.fromSyntax Demo.scope Demo.concatList Demo.inputOutputDecls).map
      (fun r => (r.1.map Built.Symbol.direction, r.2.diags)) = .ok ([some .Out], []) := by
  obtain ⟨mp, b2, ds, h, _, _, h1, h2, _⟩ :=
    NonAnsiPortListBuilder.createPortConcatenation_run b name loc stx hb
  exact ⟨⟨mp, b2, h, h1, h2, h2.trans (Spec.effectiveDirection_closed _)⟩, rfl⟩

theorem createPortConcatenation_direction_witness :
    (Demo.index Demo.inputOutputDecls).Bound ∧
    ∃ (mp : Built.MultiPortSymbol) (b2 : NonAnsiPortListBuilder),
      (Demo.index Demo.inputOutputDecls).createPortConcatenation "" 0 Demo.concatAB =
        .ok (.MultiPort mp, b2) ∧
      mp.ports = Demo.concatAB.references.filterMap (Demo.index Demo.inputOutputDecls).dataPort ∧
      mp.direction = Spec.effectiveDirection (mp.ports.map (fun p => p.direction)) ∧
      mp.direction = Spec.closedDirection (mp.ports.map (fun p => p.direction)) :=
  ⟨(NonAnsiPortListBuilder.create_run Demo.scope Demo.inputOutputDecls _ rfl).2.1,
   (createPortConcatenation_direction (Demo.index Demo.inputOutputDecls) "" 0 Demo.concatAB
    (NonAnsiPortListBuilder.create_run Demo.scope Demo.inputOutputDecls _ rfl).2.1).1⟩

/-- C23: for every port concatenation (on an index that satisfies the assertion
of `createPort`), a direction diagnostic (`PortConcatInOut` or `PortConcatRef`)
is among the diagnostics it adds if and only if its data-port components include
an inout component together with a component whose internal symbol is not a net,
or a ref component together with a component whose internal symbol is a net,
wherever the two are in the list.  The module `m({a, b}); input logic a;
inout b;` gets one `PortConcatInOut` and no other diagnostic. -/
theorem createPortConcatenation_mixes (b : NonAnsiPortListBuilder) (name : String)
    (loc : SourceLocation) (stx : PortConcatenationSyntax) (hb : b.Bound) :
    (∃ (mp : Built.MultiPortSymbol) (b2 : NonAnsiPortListBuilder) (ds : List Diagnostic),
      b.createPortConcatenation name loc stx = .ok (.MultiPort mp, b2) ∧
      mp.ports = stx.references.filterMap b.dataPort ∧
      (∀ p ∈ mp.ports, p.internalSymbol ≠ none) ∧
      b2.diags = b.diags ++ ds ∧
      ((∃ d ∈ ds, d.code = .PortConcatInOut ∨ d.code = .PortConcatRef) ↔
        Spec.mixes mp.ports = true)) ∧
    (NonAnsiPortListBuilder.fromSyntax Demo.scope Demo.concatList Demo.variableInoutDecls).map
      (fun r => codes r.2.diags) = .ok [.PortConcatInOut] := by
  obtain ⟨mp, b2, ds, h, _, _, h1, _, h2, _, _, h3, _, h4⟩ :=
    NonAnsiPortListBuilder.createPortConcatenation_run b name loc stx hb
  refine ⟨⟨mp, b2, ds, h, h1, h2, h3, ?_⟩, rfl⟩
  constructor
  · rintro ⟨d, hd, hc⟩
    have hdir : isDirectionDiag d = true := by
      rcases hc with hc | hc <;> simp [isDirectionDiag, hc]
    have hmem : d ∈ ds.filter isDirectionDiag := List.mem_filter.mpr ⟨hd, hdir⟩
    cases hm : Spec.mixes mp.ports
    · rw [hm] at h4
      simp only [Bool.false_eq_true, if_false] at h4
      rw [List.length_eq_zero.mp h4] at hmem
      exact absurd hmem (List.not_mem_nil _)
    · rfl
  · intro hm
    rw [hm] at h4
    simp only [if_true] at h4
    cases hf : ds.filter isDirectionDiag with
    | nil =>
      rw [hf] at h4
      cases h4
    | cons d rest =>
      have hmem : d ∈ ds.filter isDirectionDiag := by
        rw [hf]
        exact List.mem_cons_self _ _
      obtain ⟨hd, hdir⟩ := List.mem_filter.mp hmem
      refine ⟨d, hd, ?_⟩
      simpa [isDirectionDiag] using hdir

theorem createPortConcatenation_mixes_witness :
    (Demo.index Demo.variableInoutDecls).Bound ∧
    ∃ (mp : Built.MultiPortSymbol) (b2 : NonAnsiPortListBuilder) (ds : List Diagnostic),
      (Demo.index Demo.variableInoutDecls).createPortConcatenation "" 0 Demo.concatAB =
        .ok (.MultiPort mp, b2) ∧
      mp.ports =
        Demo.concatAB.references.filterMap (Demo.index Demo.variableInoutDecls).dataPort ∧
      (∀ p ∈ mp.ports, p.internalSymbol ≠ none) ∧
      b2.diags = (Demo.index Demo.variableInoutDecls).diags ++ ds ∧
      ((∃ d ∈ ds, d.code = .PortConcatInOut ∨ d.code = .PortConcatRef) ↔
        Spec.mixes mp.ports = true) :=
  ⟨(NonAnsiPortListBuilder.create_run Demo.scope Demo.variableInoutDecls _ rfl).2.1,
   (createPortConcatenation_mixes (Demo.index Demo.variableInoutDecls) "" 0
    Demo.concatAB
    (NonAnsiPortListBuilder.create_run Demo.scope Demo.variableInoutDecls _ rfl).2.1).1⟩

/-- C24: for every port concatenation (on an index that satisfies the assertion
of `createPort`), whatever its components, at most one direction diagnostic
(`PortConcatInOut` or `PortConcatRef`) is among the diagnostics it adds. -/
theorem createPortConcatenation_at_most_one (b : NonAnsiPortListBuilder)
    (name : String) (loc : SourceLocation) (stx : PortConcatenationSyntax) (hb : b.Bound) :
    ∃ (mp : Built.MultiPortSymbol) (b2 : NonAnsiPortListBuilder) (ds : List Diagnostic),
      b.createPortConcatenation name loc stx = .ok (.MultiPort mp, b2) ∧
      b2.diags = b.diags ++ ds ∧
      countCode .PortConcatInOut ds + countCode .PortConcatRef ds ≤ 1 := by
  obtain ⟨mp, b2, ds, h, _, _, _, _, _, _, _, h3, _, h4⟩ :=
    NonAnsiPortListBuilder.createPortConcatenation_run b name loc stx hb
  refine ⟨mp, b2, ds, h, h3, ?_⟩
  rw [countCode_direction, h4]
  split <;> omega

theorem createPortConcatenation_at_most_one_witness :
    (Demo.index Demo.variableInoutDecls).Bound ∧
    ∃ (mp : Built.MultiPortSymbol) (b2 : NonAnsiPortListBuilder) (ds : List Diagnostic),
      (Demo.index Demo.variableInoutDecls).createPortConcatenation "" 0 Demo.concatAB =
        .ok (.MultiPort mp, b2) ∧
      b2.diags = (Demo.index Demo.variableInoutDecls).diags ++ ds ∧
      countCode .PortConcatInOut ds + countCode .PortConcatRef ds ≤ 1 :=
  ⟨(NonAnsiPortListBuilder.create_run Demo.scope Demo.variableInoutDecls _ rfl).2.1,
   createPortConcatenation_at_most_one (Demo.index Demo.variableInoutDecls) "" 0
    Demo.concatAB
    (NonAnsiPortListBuilder.create_run Demo.scope Demo.variableInoutDecls _ rfl).2.1⟩

/-- C25: for every port concatenation (on an index that satisfies the assertion
of `createPort`): the component ports of the MultiPort are exactly the
references that resolve to a data port, in source order; for every reference
that resolves to a declared interface port one `IfacePortInConcat` at the
reference and with the name of the port is added, and these are all the
`IfacePortInConcat` added; every reference that resolves to a provisional
interface port (`isMissingIO`) is appended to the implicit members with the
location of the reference as its multi-port location, and nothing else is
appended; a reference that resolves to an interface port is no data-port
reference. -/
theorem createPortConcatenation_interfaces (b : NonAnsiPortListBuilder) (name : String)
    (loc : SourceLocation) (stx : PortConcatenationSyntax) (hb : b.Bound) :
    ∃ (mp : Built.MultiPortSymbol) (b2 : NonAnsiPortListBuilder) (ds : List Diagnostic),
      b.createPortConcatenation name loc stx = .ok (.MultiPort mp, b2) ∧
      mp.ports = stx.references.filterMap b.dataPort ∧
      b2.implicitMembers = b.implicitMembers ++ b.provisionalMembers stx.references ∧
      b2.diags = b.diags ++ ds ∧
      ds.filter (fun d => d.code == DiagCode.IfacePortInConcat) =
        b.interfaceDiags stx.references ∧
      ds.filter (fun d => !isDirectionDiag d) = b.interfaceDiags stx.references ∧
      ∀ item ip, b.resolve item = some (.InterfacePort ip) →
        b.dataPort item = none ∧
        (ip.isMissingIO = false →
          b.declaredInterface item = some ip ∧ b.provisionalInterface item = none) ∧
        (ip.isMissingIO = true →
          b.provisionalInterface item = some ip ∧ b.declaredInterface item = none) := by
  obtain ⟨mp, b2, ds, h, _, _, h1, _, _, _, h2, h3, h4, _⟩ :=
    NonAnsiPortListBuilder.createPortConcatenation_run b name loc stx hb
  refine ⟨mp, b2, ds, h, h1, h2, h3, ?_, h4, ?_⟩
  · have hcodes := NonAnsiPortListBuilder.interfaceDiags_codes b stx.references
    rw [← h4] at hcodes ⊢
    apply List.filter_congr
    intro d hd
    cases hdir : isDirectionDiag d
    · have := hcodes d (List.mem_filter.mpr ⟨hd, by rw [hdir]; rfl⟩)
      rw [this]
      rfl
    · have hne : (d.code == DiagCode.IfacePortInConcat) = false := by
        unfold isDirectionDiag at hdir
        cases hc : d.code <;> rw [hc] at hdir <;> first | rfl | cases hdir
      rw [hne]
      rfl
  · intro item ip hres
    unfold NonAnsiPortListBuilder.dataPort NonAnsiPortListBuilder.declaredInterface
      NonAnsiPortListBuilder.provisionalInterface
    rw [hres]
    refine ⟨rfl, ?_, ?_⟩
    · intro hm
      simp [hm]
    · intro hm
      simp [hm]

theorem createPortConcatenation_interfaces_witness :
    (Demo.index Demo.inputBusDecls).Bound ∧
    (∃ (mp : Built.MultiPortSymbol) (b2 : NonAnsiPortListBuilder) (ds : List Diagnostic),
      (Demo.index Demo.inputBusDecls).createPortConcatenation "" 0 Demo.concatAIZ =
        .ok (.MultiPort mp, b2) ∧
      mp.ports = Demo.concatAIZ.references.filterMap (Demo.index Demo.inputBusDecls).dataPort ∧
      b2.implicitMembers = (Demo.index Demo.inputBusDecls).implicitMembers ++
        (Demo.index Demo.inputBusDecls).provisionalMembers Demo.concatAIZ.references ∧
      b2.diags = (Demo.index Demo.inputBusDecls).diags ++ ds ∧
      ds.filter (fun d => d.code == DiagCode.IfacePortInConcat) =
        (Demo.index Demo.inputBusDecls).interfaceDiags Demo.concatAIZ.references) ∧
    ((Demo.index Demo.inputBusDecls).createPortConcatenation "" 0 Demo.concatAIZ).map
      (fun r => (r.1.ports.map (fun p => p.name), r.2.diags)) =
        .ok (["a"], [{ code := .IfacePortInConcat, location := 2, ranges := [Demo.rangeAt 2],
                       args := [.str "i"] }]) :=
  ⟨(NonAnsiPortListBuilder.create_run Demo.scope Demo.inputBusDecls _ rfl).2.1,
   match createPortConcatenation_interfaces (Demo.index Demo.inputBusDecls) "" 0
      Demo.concatAIZ
      (NonAnsiPortListBuilder.create_run Demo.scope Demo.inputBusDecls _ rfl).2.1 with
   | ⟨mp, b2, ds, h1, h2, h3, h4, h5, _⟩ => ⟨mp, b2, ds, h1, h2, h3, h4, h5⟩,
   rfl⟩

/-! ## The indexing phase and the unused port declarations -/

theorem wellFormed_of_all (decls : List (PortDeclarationSyntax × Option InsertionPoint))
    (h : decls.all (fun d => d.1.header.isAccepted &&
      d.1.declarators.all (fun decl => decl.name.isMissing || decl.name.valueText != "")) = true) :
    WellFormed decls := by
  intro d hd
  have h1 := List.all_eq_true.mp h d hd
  simp only [Bool.and_eq_true, List.all_eq_true, Bool.or_eq_true, bne_iff_ne, ne_eq] at h1
  refine ⟨h1.1, fun decl hdecl hm => ?_⟩
  rcases h1.2 decl hdecl with h2 | h2
  · rw [hm] at h2
    cases h2
  · exact h2

/-- C28: after the non-ANSI indexing phase (on port declarations that pass the
assertions of the constructor) at most one PortInfo exists per name, and it is
the one of the first declarator with that name in declaration order; the
`Redefinition` diagnostics are exactly one for every later declarator whose name
is already indexed, with a note at the first declarator of that name; and such a
declarator only adds that diagnostic: the index stays as it is. -/
theorem create_index (scope : ScopeEnv)
    (decls : List (PortDeclarationSyntax × Option InsertionPoint)) (hw : WellFormed decls) :
    (∃ b : NonAnsiPortListBuilder,
      NonAnsiPortListBuilder.create scope decls = .ok b ∧
      (b.portInfos.map (fun e => e.1)).Nodup ∧
      (∀ name : String,
        (b.find name).map (fun info => info.decl) =
          Spec.firstDeclarator name (Spec.declarators decls)) ∧
      (∀ e ∈ b.portInfos, e.1 = e.2.decl.name.valueText) ∧
      b.diags.filter (fun d => d.code == DiagCode.Redefinition) =
        Spec.redefinitions [] (Spec.declarators decls)) ∧
    ∀ (port : PortDeclarationSyntax) (insertionPoint : Option InsertionPoint)
      (b : NonAnsiPortListBuilder) (decl : DeclaratorSyntax) (rest : List DeclaratorSyntax)
      (first : PortInfo),
      decl.name.isMissing = false → b.find decl.name.valueText = some first →
      NonAnsiPortListBuilder.indexDeclarators scope port insertionPoint b (decl :: rest) =
        NonAnsiPortListBuilder.indexDeclarators scope port insertionPoint
          { b with diags := b.diags ++
              [{ code := .Redefinition, location := decl.name.location,
                 args := [.str decl.name.valueText],
                 notes := [(.NotePreviousDefinition, first.decl.name.location)] }] }
          rest := by
  obtain ⟨b, hb⟩ := NonAnsiPortListBuilder.create_ok scope decls hw
  obtain ⟨inv, _, hred, _⟩ := NonAnsiPortListBuilder.create_run scope decls b hb
  refine ⟨⟨b, hb, inv.nodup, inv.first, inv.key, hred⟩, ?_⟩
  intro port insertionPoint b decl rest first hm hf
  rw [NonAnsiPortListBuilder.indexDeclarators]
  simp only [hm, Bool.not_false, if_true, hf]
  rfl

theorem create_index_witness :
    WellFormed Demo.twiceDecls ∧
    (∃ b : NonAnsiPortListBuilder,
      NonAnsiPortListBuilder.create Demo.scope Demo.twiceDecls = .ok b ∧
      (b.portInfos.map (fun e => e.1)).Nodup ∧
      (∀ name : String,
        (b.find name).map (fun info => info.decl) =
          Spec.firstDeclarator name (Spec.declarators Demo.twiceDecls)) ∧
      (∀ e ∈ b.portInfos, e.1 = e.2.decl.name.valueText) ∧
      b.diags.filter (fun d => d.code == DiagCode.Redefinition) =
        Spec.redefinitions [] (Spec.declarators Demo.twiceDecls)) ∧
    (NonAnsiPortListBuilder.create Demo.scope Demo.twiceDecls).map
      (fun b => (b.portInfos.map (fun e => (e.1, e.2.direction, e.2.decl.name.location)),
        b.diags)) =
      .ok ([("a", .In, 11)],
        [{ code := .Redefinition, location := 12, args := [.str "a"],
           notes := [(.NotePreviousDefinition, 11)] }]) :=
  ⟨wellFormed_of_all Demo.twiceDecls rfl,
   (create_index Demo.scope Demo.twiceDecls (wellFormed_of_all Demo.twiceDecls rfl)).1,
   rfl⟩

theorem Spec.unusedDiags_codes (ports : List NonAnsiPortSyntax)
    (index : List (String × PortInfo)) :
    ∀ d ∈ Spec.unusedDiags ports index, d.code = DiagCode.UnusedPortDecl := by
  intro d hd
  unfold Spec.unusedDiags at hd
  obtain ⟨e, _, he⟩ := List.mem_map.mp hd
  rw [← he]

theorem Spec.unusedDiags_count (ports : List NonAnsiPortSyntax)
    (index : List (String × PortInfo)) (hnd : (index.map (fun e => e.1)).Nodup)
    (e : String × PortInfo) (he : e ∈ index) :
    ((Spec.unusedDiags ports index).filter (fun d => d.args == [DiagArg.str e.1])).length =
      if (Spec.referenced ports).contains e.1 then 0 else 1 := by
  unfold Spec.unusedDiags
  rw [List.filter_map, List.length_map, List.filter_filter, ← List.countP_eq_length_filter]
  have hcount : index.countP (fun x => x.1 == e.1) = 1 := by
    have h1 : (index.map (fun x => x.1)).count e.1 = 1 :=
      List.count_eq_one_of_mem hnd (List.mem_map.mpr ⟨e, he, rfl⟩)
    rw [List.count, List.countP_map] at h1
    exact h1
  have hp : ∀ x : String × PortInfo,
      (([DiagArg.str x.1] == [DiagArg.str e.1]) = true) ↔ x.1 = e.1 := by
    intro x
    simp
  cases hc : (Spec.referenced ports).contains e.1
  · simp only [Bool.false_eq_true, if_false]
    rw [← hcount]
    apply List.countP_congr
    intro x hx
    simp only [Function.comp, Bool.and_eq_true, Bool.not_eq_true']
    constructor
    · intro h
      exact beq_iff_eq.mpr ((hp x).mp h.1)
    · intro h
      have hx1 : x.1 = e.1 := beq_iff_eq.mp h
      exact ⟨(hp x).mpr hx1, by rw [hx1]; exact hc⟩
  · simp only [if_true]
    apply List.countP_eq_zero.mpr
    intro x hx
    simp only [Function.comp, Bool.and_eq_true, Bool.not_eq_true']
    intro h
    have hx1 : x.1 = e.1 := (hp x).mp h.1
    rw [hx1, hc] at h
    cases h.2

/-- C29: in the case `NonAnsiPortList` of `PortSymbol::fromSyntax` (on port
declarations that pass the assertions of the constructor), the diagnostics
`finalize` adds are one `UnusedPortDecl` for every indexed port declaration
whose name no entry of the port list refers to (directly or inside a
concatenation), at the declarator and with its name; these are all the
`UnusedPortDecl` of the result: exactly one for such a declaration, and none for
a declaration that is referred to at least once. -/
theorem fromSyntax_unused (scope : ScopeEnv) (ports : List NonAnsiPortSyntax)
    (decls : List (PortDeclarationSyntax × Option InsertionPoint)) (hw : WellFormed decls) :
    ∃ (b0 : NonAnsiPortListBuilder) (symbols : List Built.Symbol)
      (b1 : NonAnsiPortListBuilder),
      NonAnsiPortListBuilder.create scope decls = .ok b0 ∧
      NonAnsiPortListBuilder.createPorts scope b0 ports = .ok (symbols, b1) ∧
      NonAnsiPortListBuilder.fromSyntax scope ports decls = .ok (symbols, b1.finalize) ∧
      b1.finalize.diags = b1.diags ++ Spec.unusedDiags ports b0.portInfos ∧
      b1.finalize.diags.filter (fun d => d.code == DiagCode.UnusedPortDecl) =
        Spec.unusedDiags ports b0.portInfos ∧
      ∀ e ∈ b0.portInfos,
        (b1.finalize.diags.filter (fun d =>
          d.code == DiagCode.UnusedPortDecl && d.args == [DiagArg.str e.1])).length =
          if (Spec.referenced ports).contains e.1 then 0 else 1 := by
  obtain ⟨b0, symbols, b1, h0, h1, h2, h3, h4⟩ :=
    NonAnsiPortListBuilder.fromSyntax_run scope ports decls hw
  obtain ⟨inv, _⟩ := NonAnsiPortListBuilder.create_run scope decls b0 h0
  have hf1 : b1.diags.filter (fun d => d.code == DiagCode.UnusedPortDecl) = [] := by
    apply List.filter_eq_nil_iff.mpr
    intro d hd hc
    exact h4 d hd (by simpa using hc)
  have hf2 : (Spec.unusedDiags ports b0.portInfos).filter
      (fun d => d.code == DiagCode.UnusedPortDecl) = Spec.unusedDiags ports b0.portInfos := by
    apply List.filter_eq_self.mpr
    intro d hd
    rw [Spec.unusedDiags_codes ports b0.portInfos d hd]
    rfl
  have hfilter : b1.finalize.diags.filter (fun d => d.code == DiagCode.UnusedPortDecl) =
      Spec.unusedDiags ports b0.portInfos := by
    rw [h3, List.filter_append, hf1, hf2, List.nil_append]
  refine ⟨b0, symbols, b1, h0, h1, h2, h3, hfilter, ?_⟩
  intro e he
  have hsplit : b1.finalize.diags.filter (fun d =>
        d.code == DiagCode.UnusedPortDecl && d.args == [DiagArg.str e.1]) =
      (b1.finalize.diags.filter (fun d => d.code == DiagCode.UnusedPortDecl)).filter
        (fun d => d.args == [DiagArg.str e.1]) := by
    rw [List.filter_filter]
    apply List.filter_congr
    intro d _
    exact Bool.and_comm _ _
  rw [hsplit, hfilter]
  exact Spec.unusedDiags_count ports b0.portInfos inv.nodup e he

theorem fromSyntax_unused_witness :
    WellFormed Demo.inputABDecls ∧
    (∃ (b0 : NonAnsiPortListBuilder) (symbols : List Built.Symbol)
      (b1 : NonAnsiPortListBuilder),
      NonAnsiPortListBuilder.create Demo.scope Demo.inputABDecls = .ok b0 ∧
      NonAnsiPortListBuilder.fromSyntax Demo.scope [Demo.nonAnsiPort "a" 1]
        Demo.inputABDecls = .ok (symbols, b1.finalize) ∧
      b1.finalize.diags.filter (fun d => d.code == DiagCode.UnusedPortDecl) =
        Spec.unusedDiags [Demo.nonAnsiPort "a" 1] b0.portInfos) ∧
    (NonAnsiPortListBuilder.fromSyntax Demo.scope [Demo.nonAnsiPort "a" 1]
        Demo.inputABDecls).map (fun r => r.2.diags) =
      .ok [{ code := .UnusedPortDecl, location := 12, ranges := [Demo.rangeAt 12],
             args := [.str "b"] }] :=
  ⟨wellFormed_of_all Demo.inputABDecls rfl,
   match fromSyntax_unused Demo.scope [Demo.nonAnsiPort "a" 1] Demo.inputABDecls
      (wellFormed_of_all Demo.inputABDecls rfl) with
   | ⟨b0, symbols, b1, h0, _, h2, _, h4, _⟩ => ⟨b0, symbols, b1, h0, h2, h4⟩,
   rfl⟩

theorem handleIODecl_internal_symbol_witness :
    (Demo.declarator "a" 11).name.valueText ≠ "" ∧
    (∃ (info2 : PortInfo) (b2 : NonAnsiPortListBuilder) (sym : InternalSymbol),
      NonAnsiPortListBuilder.handleIODecl Demo.scope {}
          (.NetPortHeader { direction := some (Demo.dir .InputKeyword), netTypeKind := 0,
                            dataType := Demo.emptySyntax })
          { decl := Demo.declarator "a" 11, attrs := [] } none = .ok (info2, b2) ∧
      info2.internalSymbol = some sym ∧ sym.kind = .Net Demo.wire ∧ sym.name = "a" ∧
      info2.direction = .In ∧ b2.implicitMembers = [.Value sym none] ∧ b2.diags = []) ∧
    (∃ (info2 : PortInfo) (b2 : NonAnsiPortListBuilder) (sym : InternalSymbol),
      NonAnsiPortListBuilder.handleIODecl Demo.scopeWithA {}
          (.VariablePortHeader { constKeyword := none, direction := some (Demo.dir .InputKeyword),
                                 varKeyword := none, dataType := Demo.emptySyntax })
          { decl := Demo.declarator "a" 11, attrs := [] } none = .ok (info2, b2) ∧
      info2.internalSymbol = some sym ∧ sym.kind = .Variable ∧ sym.name = "a" ∧
      sym.location = 5 ∧ b2.implicitMembers = [] ∧
      countCode .Redefinition b2.diags = 0) ∧
    (NonAnsiPortListBuilder.fromSyntax Demo.scope [Demo.nonAnsiPort "a" 1]
        [Demo.netPortDecl .InputKeyword "a" 11]).map
      (fun r => (r.1.map (fun s => s.summary), r.2.diags, r.2.implicitMembers.length)) =
        .ok ([some ("a", .In, some 3, some (.Net Demo.wire))], [], 1) ∧
    (NonAnsiPortListBuilder.fromSyntax Demo.scopeWithA [Demo.nonAnsiPort "a" 1]
        [Demo.portDecl .InputKeyword false Demo.emptySyntax "a" 11]).map
      (fun r => (r.1.map (fun s => s.summary), r.2.diags, r.2.implicitMembers.length)) =
        .ok ([some ("a", .In, none, some .Variable)], [], 0) :=
  ⟨by decide,
   match (handleIODecl_internal_symbol Demo.scope {}
      { decl := Demo.declarator "a" 11, attrs := [] } none (by decide)).1
      { direction := some (Demo.dir .InputKeyword), netTypeKind := 0,
        dataType := Demo.emptySyntax } (Demo.dir .InputKeyword) rfl with
   | ⟨info2, b2, sym, h1, h2, h3, h4, h5, h6, h7⟩ =>
     ⟨info2, b2, sym, h1, h2, h3, h4, h5, h6, h7 (by decide) rfl⟩,
   match (handleIODecl_internal_symbol Demo.scopeWithA {}
      { decl := Demo.declarator "a" 11, attrs := [] } none (by decide)).2.2.1
      { constKeyword := none, direction := some (Demo.dir .InputKeyword),
        varKeyword := none, dataType := Demo.emptySyntax } (Demo.dir .InputKeyword)
      { kind := .Variable, name := "a", location := 5, index := 3 } rfl rfl rfl rfl with
   | ⟨info2, b2, sym, h1, h2, h3, h4, h5, _, _, h8, h9⟩ =>
     ⟨info2, b2, sym, h1, h2, h3, h4, h5, h8, h9⟩,
   rfl, rfl⟩

/-! ## The type of a multi-port -/

theorem MultiPortSymbol.typeLoop_some (env : MultiPortEnv) (range : SourceRange)
    (ports : List PortSymbol) :
    ∀ (w : Nat) (f : Bool) (ds : List Diagnostic) (w2 : Nat) (f2 : Bool)
      (ds2 : List Diagnostic), w < 2 ^ 32 →
      MultiPortSymbol.typeLoop env range w f ds ports = (some (w2, f2), ds2) →
      ds2 = ds ∧ w2 = (w + Spec.totalWidth ports) % 2 ^ 32 ∧
      f2 = (f || Spec.anyFourState ports) ∧
      ∀ p ∈ ports, p.type.isIntegral = true ∧ p.type.isError = false := by
  induction ports with
  | nil =>
    intro w f ds w2 f2 ds2 hw h
    simp only [MultiPortSymbol.typeLoop, Prod.mk.injEq, Option.some.injEq] at h
    obtain ⟨⟨h1, h2⟩, h3⟩ := h
    refine ⟨h3.symm, ?_, ?_, fun p hp => absurd hp (List.not_mem_nil _)⟩
    · rw [← h1]
      show w = (w + 0) % 2 ^ 32
      rw [Nat.add_zero, Nat.mod_eq_of_lt hw]
    · rw [← h2]
      show f = (f || false)
      rw [Bool.or_false]
  | cons port rest ih =>
    intro w f ds w2 f2 ds2 hw h
    rw [MultiPortSymbol.typeLoop] at h
    dsimp only at h
    cases he : port.type.isError
    · rw [he] at h
      simp only [Bool.false_eq_true, if_false] at h
      cases hi : port.type.isIntegral
      · rw [hi] at h
        simp only [Bool.not_false, if_true] at h
        cases h
      · rw [hi] at h
        simp only [Bool.not_true, Bool.false_eq_true, if_false] at h
        cases hv : env.requireValidBitWidth ((w + port.type.bitWidth % 2 ^ 32) % 2 ^ 32) range
        · rw [hv] at h
          simp only [Bool.not_false, if_true] at h
          cases h
        · rw [hv] at h
          simp only [Bool.not_true, Bool.false_eq_true, if_false] at h
          obtain ⟨i1, i2, i3, i4⟩ := ih _ _ _ w2 f2 ds2 (Nat.mod_lt _ (by decide)) h
          refine ⟨i1, ?_, ?_, ?_⟩
          · rw [i2]
            show _ = (w + (port.type.bitWidth + Spec.totalWidth rest)) % 2 ^ 32
            omega
          · rw [i3]
            show _ = (f || (port.type.isFourState || Spec.anyFourState rest))
            rw [Bool.or_assoc]
          · intro p hp
            rcases List.mem_cons.mp hp with hp | hp
            · rw [hp]
              exact ⟨hi, he⟩
            · exact i4 p hp
    · rw [he] at h
      simp only [if_true] at h
      cases h

/-- C26 as stated fails: a multi-port of two integral component ports of
16777215 bits each, in a scope where `requireValidBitWidth` rejects the total of
33554430 bits, gets the error type, whose bit width is 0 and not the sum of the
bit widths of the component types. -/
theorem getType_too_wide :
    MultiPortSymbol.getType Demo.multiPortEnv
        (Demo.multiOf [Demo.bitsPort 1 "a" 16777215, Demo.bitsPort 2 "b" 16777215]) none =
      .ok (Compilation.getErrorType, []) ∧
    Compilation.getErrorType.bitWidth = 0 ∧
    (∀ p ∈ (Demo.multiOf [Demo.bitsPort 1 "a" 16777215, Demo.bitsPort 2 "b" 16777215]).ports,
      p.type.isIntegral = true) ∧
    Spec.totalWidth
        (Demo.multiOf [Demo.bitsPort 1 "a" 16777215, Demo.bitsPort 2 "b" 16777215]).ports =
      33554430 := by
  refine ⟨rfl, rfl, ?_, rfl⟩
  intro p hp
  rcases List.mem_cons.mp hp with hp | hp
  · rw [hp]
    rfl
  · rcases List.mem_cons.mp hp with hp | hp
    · rw [hp]
      rfl
    · exact absurd hp (List.not_mem_nil _)

/-- C26 (amended): for every MultiPort with a parent scope and a syntax node,
`MultiPortSymbol::getType` returns a type (and returns it again once it is
cached); unless that type is the error type, it is the integral type whose bit
width is the sum of the bit widths of the types of the component ports, in the
32-bit arithmetic of `bitwidth_t` (the sum itself when that is below 2^32), and
which is four-state exactly when some component type is four-state, all
components are integral, and no diagnostic is added. -/
theorem getType_width (env : MultiPortEnv) (m : MultiPortSymbol) (range : SourceRange)
    (hscope : env.hasParentScope = true) (hrange : env.sourceRange = some range) :
    ∃ (t : SvType) (ds : List Diagnostic),
      MultiPortSymbol.getType env m none = .ok (t, ds) ∧
      MultiPortSymbol.getType env m (some t) = .ok (t, []) ∧
      (t.isError = true → t = Compilation.getErrorType) ∧
      (t.isError = false →
        t.isIntegral = true ∧
        t.bitWidth = Spec.totalWidth m.ports % 2 ^ 32 ∧
        (Spec.totalWidth m.ports < 2 ^ 32 → t.bitWidth = Spec.totalWidth m.ports) ∧
        (t.isFourState = true ↔ ∃ p ∈ m.ports, p.type.isFourState = true) ∧
        (∀ p ∈ m.ports, p.type.isIntegral = true) ∧ ds = []) := by
  unfold MultiPortSymbol.getType
  simp only [hrange, hscope, Bool.not_true, Bool.false_eq_true, if_false]
  cases hl : MultiPortSymbol.typeLoop env range 0 false [] m.ports with
  | mk res ds =>
    cases res with
    | none =>
      exact ⟨_, _, rfl, trivial, fun _ => rfl, fun h => (by cases h)⟩
    | some p =>
      obtain ⟨w2, f2⟩ := p
      obtain ⟨i1, i2, i3, i4⟩ :=
        MultiPortSymbol.typeLoop_some env range m.ports 0 false [] w2 f2 ds (by decide) hl
      dsimp only
      cases hz : (w2 == 0)
      · simp only [Bool.false_eq_true, if_false]
        refine ⟨_, _, rfl, trivial, fun h => (by cases h), fun _ => ⟨rfl, ?_, ?_, ?_, ?_, i1⟩⟩
        · show w2 = _
          rw [i2, Nat.zero_add]
        · intro hlt
          show w2 = _
          rw [i2, Nat.zero_add, Nat.mod_eq_of_lt hlt]
        · show f2 = true ↔ _
          rw [i3, Bool.false_or]
          unfold Spec.anyFourState
          rw [List.any_eq_true]
        · exact fun p hp => (i4 p hp).1
      · simp only [if_true]
        exact ⟨_, _, rfl, trivial, fun _ => rfl, fun h => (by cases h)⟩

theorem getType_width_witness :
    Demo.multiPortEnv.hasParentScope = true ∧
    Demo.multiPortEnv.sourceRange = some (Demo.rangeAt 0) ∧
    (∃ (t : SvType) (ds : List Diagnostic),
      MultiPortSymbol.getType Demo.multiPortEnv
          (Demo.multiOf [Demo.bitsPort 1 "a" 8, Demo.logicPort 2 "b" 4]) none = .ok (t, ds) ∧
      (t.isError = false →
        t.isIntegral = true ∧
        t.bitWidth =
          Spec.totalWidth (Demo.multiOf [Demo.bitsPort 1 "a" 8, Demo.logicPort 2 "b" 4]).ports %
            2 ^ 32)) ∧
    MultiPortSymbol.getType Demo.multiPortEnv
        (Demo.multiOf [Demo.bitsPort 1 "a" 8, Demo.logicPort 2 "b" 4]) none =
      .ok (Compilation.getType 12 true, []) :=
  ⟨rfl, rfl,
   match getType_width Demo.multiPortEnv
      (Demo.multiOf [Demo.bitsPort 1 "a" 8, Demo.logicPort 2 "b" 4]) (Demo.rangeAt 0) rfl rfl with
   | ⟨t, ds, h1, _, _, h4⟩ => ⟨t, ds, h1, fun h => ⟨(h4 h).1, (h4 h).2.1⟩⟩,
   rfl⟩

/-! ## `StringRef::operator==` -/

theorem traitsCompare_eq_zero (s1 s2 : List Nat) :
    traitsCompare s1 s2 s1.length = 0 → s1.length = s2.length → s1 = s2 := by
  induction s1 generalizing s2 with
  | nil =>
    intro _ hl
    cases s2 with
    | nil => rfl
    | cons c r => cases hl
  | cons c1 r1 ih =>
    intro h hl
    cases s2 with
    | nil => cases hl
    | cons c2 r2 =>
      simp only [traitsCompare, List.headD_cons, List.tail_cons, List.length_cons] at h hl
      by_cases hc : c1 = c2
      · subst hc
        simp only [bne_self_eq_false, Bool.false_eq_true, if_false] at h
        rw [ih r2 h (by omega)]
      · have hb : (c1 != c2) = true := by simp [hc]
        rw [if_pos hb] at h
        omega

theorem traitsCompare_self (s : List Nat) : ∀ n, traitsCompare s s n = 0 := by
  intro n
  induction n generalizing s with
  | zero => rfl
  | succ n ih =>
    simp only [traitsCompare, bne_self_eq_false, Bool.false_eq_true, if_false]
    exact ih _

/-- The comparison with a `std::string` is the equality of the contents, NUL
bytes included. -/
theorem StringRef.eqString_iff (lhs : StringRef) (rhs : List Nat) :
    lhs.eqString rhs = true ↔ lhs.chars = rhs := by
  unfold StringRef.eqString stringCompare StringRef.len
  simp only [List.drop_zero, List.take_length]
  constructor
  · intro h
    by_cases hne : lhs.chars.length = rhs.length
    · have hb : (lhs.chars.length != rhs.length) = false := by simp [hne]
      rw [hb] at h
      simp only [Bool.false_eq_true, if_false, hne, Nat.min_self] at h
      by_cases hr : traitsCompare rhs lhs.chars rhs.length = 0
      · exact (traitsCompare_eq_zero rhs lhs.chars hr hne.symm).symm
      · have hb2 : (traitsCompare rhs lhs.chars rhs.length != 0) = true := by simp [hr]
        rw [if_pos hb2] at h
        exact absurd (by simpa using h) hr
    · have hb : (lhs.chars.length != rhs.length) = true := by simp [hne]
      rw [if_pos hb] at h
      cases h
  · intro h
    subst h
    simp [traitsCompare_self]

/-- C40, on the code: the comparison of two `StringRef` values stops at the first
NUL.  The contents `a`, NUL, `b` and `a`, NUL, `c` have the same length and
differ at index 2, and `operator==` on the two `StringRef` values is true, while
the comparison of the first with the `std::string` of the contents of the second
is false. -/
theorem StringRef.eqRef_stops_at_nul :
    Demo.refANulB.eqRef Demo.refANulC = true ∧
    Demo.refANulB.len = Demo.refANulC.len ∧
    Demo.refANulB.chars[2]? ≠ Demo.refANulC.chars[2]? ∧
    Demo.refANulB.eqString Demo.refANulC.chars = false := by
  refine ⟨by decide, by decide, by decide, by decide⟩

/-! ## Explicit and empty entries of a non-ANSI port list -/

/-- C31: in a non-ANSI port list an explicit port `.x()` gives a Port named `x`
and an empty entry gives a Port with an empty name; both have the type void, the
direction in, no internal symbol and no initializer, and leave the builder as it
is.  An explicit port `.x(a)` and the entry `a` both go through the same
`createPort` for the reference `a`, the first with the external name `x`; so
with a name `x` that is not empty the explicit port gives what the entry `a`
gives, with the same builder, except that it is named `x` (and that a data port
and a port of an undeclared name are located at `x`).  In the module
`m(.x(a)); input a;` the port is named `x` and its internal symbol is the net
`a`. -/
theorem createPort_explicit (scope : ScopeEnv) (b : NonAnsiPortListBuilder) :
    (∀ stx : ExplicitNonAnsiPortSyntax, stx.expr = none →
      b.createPort scope (.ExplicitNonAnsiPort stx) =
        .ok (.Port { name := stx.name.valueText, location := stx.name.location,
                     externalLoc := stx.name.location, direction := .In,
                     internalSymbol := none,
                     declaredType := { resolved := some scope.voidType },
                     initializerSyntax := none, attributes := [] }, b)) ∧
    (∀ stx : EmptyNonAnsiPortSyntax,
      b.createPort scope (.EmptyNonAnsiPort stx) =
        .ok (.Port { name := "", location := stx.placeholder.location,
                     externalLoc := stx.placeholder.location, direction := .In,
                     internalSymbol := none,
                     declaredType := { resolved := some scope.voidType },
                     initializerSyntax := none, attributes := [] }, b)) ∧
    (∀ (x : Token) (r : PortReferenceSyntax),
      b.createPort scope (.ExplicitNonAnsiPort { name := x, expr := some (.PortReference r) }) =
        b.createPortReference x.valueText x.location r ∧
      b.createPort scope (.ImplicitNonAnsiPort { expr := .PortReference r }) =
        b.createPortReference "" r.firstToken r) ∧
    (∀ (x : Token) (r : PortReferenceSyntax) (sym : Built.Symbol)
      (b2 : NonAnsiPortListBuilder), x.valueText ≠ "" →
      b.createPort scope (.ImplicitNonAnsiPort { expr := .PortReference r }) = .ok (sym, b2) →
      ∃ sym2,
        b.createPort scope
            (.ExplicitNonAnsiPort { name := x, expr := some (.PortReference r) }) =
          .ok (sym2, b2) ∧
        (∀ p, sym = .Port p →
          sym2 = .Port { p with name := x.valueText, externalLoc := x.location }) ∧
        (∀ ip, sym = .InterfacePort ip → ip.isMissingIO = false →
          sym2 = .InterfacePort { ip with name := x.valueText }) ∧
        (∀ ip, sym = .InterfacePort ip → ip.isMissingIO = true →
          sym2 = .InterfacePort { ip with name := x.valueText, location := x.location })) ∧
    (NonAnsiPortListBuilder.fromSyntax Demo.scope [Demo.explicitRef "x" "a" 1]
        [Demo.portDecl .InputKeyword false Demo.emptySyntax "a" 11]).map
      (fun r => (r.1.map (fun s => s.summary),
        r.1.map (fun s => s.ports.map (fun p => p.internalSymbol.map (fun i => i.name))),
        r.2.diags)) =
      .ok ([some ("x", .In, some 3, some (.Net Demo.wire))], [[some "a"]], []) := by
  refine ⟨fun stx he => ?_, fun stx => rfl, fun x r => ⟨rfl, rfl⟩, ?_, rfl⟩
  · unfold NonAnsiPortListBuilder.createPort NonAnsiPortListBuilder.createPortExplicit
    dsimp only
    rw [he]
  · intro x r sym b2 hx h
    have hx2 : x.valueText.isEmpty = false := isEmpty_eq_false_of_ne hx
    have h1 : b.createPortReference "" r.firstToken r = .ok (sym, b2) := h
    show ∃ sym2, b.createPortReference x.valueText x.location r = .ok (sym2, b2) ∧ _
    unfold NonAnsiPortListBuilder.createPortReference at h1 ⊢
    dsimp only at h1 ⊢
    have he : ("" : String).isEmpty = true := rfl
    rw [he] at h1
    rw [hx2]
    simp only [if_true, Bool.false_eq_true, if_false] at h1 ⊢
    generalize b.getInfo r.name.valueText = g at h1 ⊢
    cases g with
    | mk found b1 =>
      cases found with
      | none =>
        dsimp only at h1 ⊢
        cases h1
        refine ⟨_, rfl, fun p hp => (by cases hp), fun ip hip hm => ?_, fun ip hip hm => ?_⟩
        · cases hip
          cases hm
        · cases hip
          rfl
      | some info =>
        dsimp only at h1 ⊢
        cases hi : info.isIface
        · simp only [hi] at h1 ⊢
          simp only [Bool.false_eq_true, if_false] at h1 ⊢
          generalize info.internalSymbol = internal at h1 ⊢
          cases internal with
          | none => cases h1
          | some symbol =>
            dsimp only at h1 ⊢
            cases h1
            exact ⟨_, rfl, fun p hp => (by cases hp; rfl), fun ip hip => (by cases hip),
              fun ip hip => (by cases hip)⟩
        · simp only [hi] at h1 ⊢
          simp only [if_true] at h1 ⊢
          cases h1
          refine ⟨_, rfl, fun p hp => (by cases hp), fun ip hip hm => ?_, fun ip hip hm => ?_⟩
          · cases hip
            rfl
          · cases hip
            cases hm

/-! ## The initializer of an indexed port declarator -/

theorem filter_default_append (xs : List Diagnostic) (d : Diagnostic)
    (h : isDefaultDiag d = false) :
    (xs ++ [d]).filter isDefaultDiag = xs.filter isDefaultDiag := by
  rw [List.filter_append, List.filter_cons_of_neg (by rw [h]; exact Bool.false_ne_true)]
  exact List.append_nil _

theorem NonAnsiPortListBuilder.checkInOut_default (decl : DeclaratorSyntax)
    (r : PortInfo × NonAnsiPortListBuilder) :
    (NonAnsiPortListBuilder.checkInOut decl r).1 = r.1 ∧
    (NonAnsiPortListBuilder.checkInOut decl r).2.portInfos = r.2.portInfos ∧
    (NonAnsiPortListBuilder.checkInOut decl r).2.diags.filter isDefaultDiag =
      r.2.diags.filter isDefaultDiag := by
  unfold NonAnsiPortListBuilder.checkInOut
  split
  · exact ⟨rfl, rfl, filter_default_append _ _ rfl⟩
  · exact ⟨rfl, rfl, rfl⟩

theorem getDefaultNetType_default (scope : ScopeEnv) (location : SourceLocation) :
    (getDefaultNetType scope location).2.filter isDefaultDiag = [] := by
  unfold getDefaultNetType
  split <;> rfl

theorem getInterfacePortInfo_default (scope : ScopeEnv) (header : InterfacePortHeaderSyntax) :
    (getInterfacePortInfo scope header).2.2.filter isDefaultDiag = [] := by
  unfold getInterfacePortInfo
  dsimp only
  repeat' split
  all_goals rfl

/-- The switch of `handleIODecl` over the header adds no `DisallowedPortDefault`
and leaves the index. -/
theorem NonAnsiPortListBuilder.handleVariablePortHeader_default (scope : ScopeEnv)
    (b : NonAnsiPortListBuilder) (varHeader : VariablePortHeaderSyntax) (info : PortInfo)
    (insertionPoint : Option InsertionPoint) (r : PortInfo × NonAnsiPortListBuilder)
    (h : NonAnsiPortListBuilder.handleVariablePortHeader scope b varHeader info
      insertionPoint = .ok r) :
    r.2.portInfos = b.portInfos ∧
    r.2.diags.filter isDefaultDiag = b.diags.filter isDefaultDiag := by
  have hb0 : ∀ k : Option KeywordToken,
      (match k with
        | some k => b.addDiag (Diagnostic.atRange .ConstPortNotAllowed k.range)
        | none => b).portInfos = b.portInfos ∧
      (match k with
        | some k => b.addDiag (Diagnostic.atRange .ConstPortNotAllowed k.range)
        | none => b).diags.filter isDefaultDiag = b.diags.filter isDefaultDiag := by
    intro k
    cases k with
    | none => exact ⟨rfl, rfl⟩
    | some k => exact ⟨rfl, filter_default_append _ _ rfl⟩
  unfold NonAnsiPortListBuilder.handleVariablePortHeader at h
  dsimp only at h
  split at h
  · cases h
  · split at h
    · split at h
      · cases h
        exact hb0 varHeader.constKeyword
      · cases h
        obtain ⟨_, c2, c3⟩ := NonAnsiPortListBuilder.checkInOut_default info.decl
          ((match varHeader.constKeyword with
            | some k => b.addDiag (Diagnostic.atRange .ConstPortNotAllowed k.range)
            | none => b).setInternalSymbol
            { kind := .Variable, name := info.decl.name.valueText,
              location := info.decl.name.location }
            info.decl (some varHeader.dataType)
            { info with direction := SemanticFacts.getDirection ‹DirectionToken›.kind }
            insertionPoint)
        exact ⟨c2.trans (hb0 varHeader.constKeyword).1, c3.trans (hb0 varHeader.constKeyword).2⟩
    · split at h
      · cases h
        obtain ⟨_, c2, c3⟩ := NonAnsiPortListBuilder.checkInOut_default info.decl
          (NonAnsiPortListBuilder.mergeWithSymbol ‹InternalSymbol› varHeader info.decl
            { info with direction := SemanticFacts.getDirection ‹DirectionToken›.kind }
            insertionPoint,
           (match varHeader.constKeyword with
              | some k => b.addDiag (Diagnostic.atRange .ConstPortNotAllowed k.range)
              | none => b))
        exact ⟨c2.trans (hb0 varHeader.constKeyword).1, c3.trans (hb0 varHeader.constKeyword).2⟩
      · cases h
        obtain ⟨_, c2, c3⟩ := NonAnsiPortListBuilder.checkInOut_default info.decl
          (NonAnsiPortListBuilder.setInternalSymbol
            { (match varHeader.constKeyword with
                | some k => b.addDiag (Diagnostic.atRange .ConstPortNotAllowed k.range)
                | none => b) with
              diags := (match varHeader.constKeyword with
                | some k => b.addDiag (Diagnostic.atRange .ConstPortNotAllowed k.range)
                | none => b).diags ++ (getDefaultNetType scope info.decl.name.location).2 }
            { kind := .Net (getDefaultNetType scope info.decl.name.location).1,
              name := info.decl.name.valueText, location := info.decl.name.location }
            info.decl (some varHeader.dataType)
            { info with direction := SemanticFacts.getDirection ‹DirectionToken›.kind }
            insertionPoint)
        refine ⟨c2.trans (hb0 varHeader.constKeyword).1, c3.trans ?_⟩
        show (_ ++ (getDefaultNetType scope info.decl.name.location).2).filter isDefaultDiag = _
        rw [List.filter_append, getDefaultNetType_default, List.append_nil]
        exact (hb0 varHeader.constKeyword).2

theorem NonAnsiPortListBuilder.addDiag_default (b : NonAnsiPortListBuilder)
    (loc : SourceLocation) (name : String) (range : SourceRange) (c1 c2 : Bool) :
    (if c2 = true then
        (if c1 = true then
            b.addDiag ((Diagnostic.atLocation .RefPortMustBeVariable loc).arg (.str name))
          else b).addDiag (Diagnostic.atRange .DisallowedPortDefault range)
      else (if c1 = true then
          b.addDiag ((Diagnostic.atLocation .RefPortMustBeVariable loc).arg (.str name))
        else b)).portInfos = b.portInfos ∧
    (if c2 = true then
        (if c1 = true then
            b.addDiag ((Diagnostic.atLocation .RefPortMustBeVariable loc).arg (.str name))
          else b).addDiag (Diagnostic.atRange .DisallowedPortDefault range)
      else (if c1 = true then
          b.addDiag ((Diagnostic.atLocation .RefPortMustBeVariable loc).arg (.str name))
        else b)).diags.filter isDefaultDiag =
      b.diags.filter isDefaultDiag ++
        (if c2 = true then [Diagnostic.atRange .DisallowedPortDefault range] else []) ∧
    (if c1 = true then
        b.addDiag ((Diagnostic.atLocation .RefPortMustBeVariable loc).arg (.str name))
      else b).portInfos = b.portInfos ∧
    (if c1 = true then
        b.addDiag ((Diagnostic.atLocation .RefPortMustBeVariable loc).arg (.str name))
      else b).diags.filter isDefaultDiag = b.diags.filter isDefaultDiag ++ [] := by
  have h1 : isDefaultDiag
      ((Diagnostic.atLocation .RefPortMustBeVariable loc).arg (.str name)) = false := rfl
  have h2 : isDefaultDiag (Diagnostic.atRange .DisallowedPortDefault range) = true := rfl
  cases c1 <;> cases c2 <;>
    simp [NonAnsiPortListBuilder.addDiag, List.filter_append, h1, h2]

/-- What the end of `handleIODecl` adds for the initializer. -/
theorem NonAnsiPortListBuilder.checkIODecl_default (r : PortInfo × NonAnsiPortListBuilder) :
    (NonAnsiPortListBuilder.checkIODecl r).1 = r.1 ∧
    (NonAnsiPortListBuilder.checkIODecl r).2.portInfos = r.2.portInfos ∧
    (NonAnsiPortListBuilder.checkIODecl r).2.diags.filter isDefaultDiag =
      r.2.diags.filter isDefaultDiag ++ Spec.disallowedDefault r.1 := by
  obtain ⟨info, b⟩ := r
  obtain ⟨decl, attrs, internalSymbol, ifaceDef, modport, direction, used, isIface⟩ := info
  unfold NonAnsiPortListBuilder.checkIODecl Spec.disallowedDefault PortInfo.isNet
  dsimp only
  generalize decl.initializer = ini
  refine ⟨rfl, ?_, ?_⟩
  · cases internalSymbol <;> cases ini
    · exact (NonAnsiPortListBuilder.addDiag_default b _ _ default _ false).2.2.1
    · exact (NonAnsiPortListBuilder.addDiag_default b _ _ _ _ _).1
    · exact (NonAnsiPortListBuilder.addDiag_default b _ _ default _ false).2.2.1
    · exact (NonAnsiPortListBuilder.addDiag_default b _ _ _ _ _).1
  · cases internalSymbol <;> cases ini
    · exact (NonAnsiPortListBuilder.addDiag_default b _ _ default _ false).2.2.2
    · exact (NonAnsiPortListBuilder.addDiag_default b _ _ _ _ _).2.1
    · exact (NonAnsiPortListBuilder.addDiag_default b _ _ default _ false).2.2.2
    · exact (NonAnsiPortListBuilder.addDiag_default b _ _ _ _ _).2.1

theorem NonAnsiPortListBuilder.handleIODecl_default (scope : ScopeEnv)
    (b : NonAnsiPortListBuilder) (header : PortHeaderSyntax) (info : PortInfo)
    (insertionPoint : Option InsertionPoint) (r : PortInfo × NonAnsiPortListBuilder)
    (h : NonAnsiPortListBuilder.handleIODecl scope b header info insertionPoint = .ok r) :
    r.2.portInfos = b.portInfos ∧
    r.2.diags.filter isDefaultDiag = b.diags.filter isDefaultDiag ++ Spec.disallowedDefault r.1 := by
  unfold NonAnsiPortListBuilder.handleIODecl at h
  split at h
  · cases h
  · split at h
    · cases h
    · rename_i r0 hr0
      cases h
      obtain ⟨k1, k2, k3⟩ := NonAnsiPortListBuilder.checkIODecl_default r0
      rw [k2, k3, k1]
      have key : r0.2.portInfos = b.portInfos ∧
          r0.2.diags.filter isDefaultDiag = b.diags.filter isDefaultDiag := by
        split at hr0
        · exact NonAnsiPortListBuilder.handleVariablePortHeader_default _ _ _ _ _ _ hr0
        · unfold NonAnsiPortListBuilder.handleNetPortHeader at hr0
          dsimp only at hr0
          split at hr0
          · cases hr0
          · cases hr0
            exact ⟨rfl, rfl⟩
        · unfold NonAnsiPortListBuilder.handleInterfacePortHeader at hr0
          dsimp only at hr0
          split at hr0
          · cases hr0
          · cases hr0
            refine ⟨rfl, ?_⟩
            show List.filter isDefaultDiag (b.diags ++ _) = _
            rw [List.filter_append, getInterfacePortInfo_default, List.append_nil]
      rw [key.2]
      exact ⟨key.1, rfl⟩

theorem indexDeclarators_default (scope : ScopeEnv) (port : PortDeclarationSyntax)
    (insertionPoint : Option InsertionPoint) (decls : List DeclaratorSyntax) :
    ∀ (b b2 : NonAnsiPortListBuilder), DefaultInv b →
      NonAnsiPortListBuilder.indexDeclarators scope port insertionPoint b decls = .ok b2 →
      DefaultInv b2 := by
  induction decls with
  | nil =>
    intro b b2 inv h
    simp only [NonAnsiPortListBuilder.indexDeclarators] at h
    cases h
    exact inv
  | cons decl rest ih =>
    intro b b2 inv h
    rw [NonAnsiPortListBuilder.indexDeclarators] at h
    cases hm : decl.name.isMissing
    · rw [hm] at h
      simp only [Bool.not_false, if_true] at h
      cases hf : b.find decl.name.valueText with
      | none =>
        rw [hf] at h
        dsimp only at h
        cases hh : NonAnsiPortListBuilder.handleIODecl scope b port.header
            { decl := decl, attrs := port.attributes } insertionPoint with
        | error e =>
          rw [hh] at h
          cases h
        | ok r =>
          rw [hh] at h
          obtain ⟨info, b1⟩ := r
          dsimp only at h
          obtain ⟨j1, j2⟩ := NonAnsiPortListBuilder.handleIODecl_default _ _ _ _ _ _ hh
          refine ih _ b2 ?_ h
          unfold DefaultInv
          dsimp only at j1 j2 ⊢
          rw [j2, j1, inv, List.map_append, List.flatten_append]
          simp
      | some first =>
        rw [hf] at h
        dsimp only at h
        refine ih _ b2 ?_ h
        unfold DefaultInv
        show List.filter isDefaultDiag (b.diags ++ [_]) = _
        rw [filter_default_append _ _ (by rfl)]
        exact inv
    · rw [hm] at h
      simp only [Bool.not_true, Bool.false_eq_true, if_false] at h
      exact ih b b2 inv h

theorem indexDeclarations_default (scope : ScopeEnv)
    (decls : List (PortDeclarationSyntax × Option InsertionPoint)) :
    ∀ (b b2 : NonAnsiPortListBuilder), DefaultInv b →
      NonAnsiPortListBuilder.indexDeclarations scope b decls = .ok b2 → DefaultInv b2 := by
  induction decls with
  | nil =>
    intro b b2 inv h
    simp only [NonAnsiPortListBuilder.indexDeclarations] at h
    cases h
    exact inv
  | cons d rest ih =>
    intro b b2 inv h
    obtain ⟨port, insertionPoint⟩ := d
    rw [NonAnsiPortListBuilder.indexDeclarations] at h
    cases h1 : NonAnsiPortListBuilder.indexDeclarators scope port insertionPoint b
        port.declarators with
    | error e =>
      rw [h1] at h
      cases h
    | ok b1 =>
      rw [h1] at h
      dsimp only at h
      exact ih b1 b2 (indexDeclarators_default scope port insertionPoint _ b b1 inv h1) h

/-- C32: in the indexing phase of the non-ANSI builder, `handleIODecl` adds for a
port declarator exactly one `DisallowedPortDefault`, at the initializer, when the
declarator has an initializer and its direction is not out or its internal symbol
is a net, and none otherwise; the header adds none.  So the
`DisallowedPortDefault` diagnostics of the constructor are, in order, those of
the indexed declarators.  The declaration `output logic a = init;` adds no
diagnostic, the declaration `input logic a = init;` adds one. -/
theorem create_default (scope : ScopeEnv)
    (decls : List (PortDeclarationSyntax × Option InsertionPoint)) (hw : WellFormed decls) :
    (∃ b, NonAnsiPortListBuilder.create scope decls = .ok b ∧
      b.diags.filter isDefaultDiag =
        (b.portInfos.map (fun e => Spec.disallowedDefault e.2)).flatten ∧
      countCode .DisallowedPortDefault b.diags =
        (b.portInfos.filter (fun e => e.2.decl.initializer.isSome &&
          (e.2.direction != ArgumentDirection.Out || e.2.isNet))).length) ∧
    (∀ (b : NonAnsiPortListBuilder) (header : PortHeaderSyntax) (info : PortInfo)
      (insertionPoint : Option InsertionPoint),
      info.decl.name.valueText ≠ "" → header.isAccepted = true →
      ∃ r, b.handleIODecl scope header info insertionPoint = .ok r ∧
        r.1.decl = info.decl ∧
        (∀ init, info.decl.initializer = some init →
          (r.1.direction ≠ ArgumentDirection.Out ∨ r.1.isNet = true) →
          r.2.diags.filter isDefaultDiag = b.diags.filter isDefaultDiag ++
            [Diagnostic.atRange .DisallowedPortDefault init.sourceRange]) ∧
        ((info.decl.initializer = none ∨
            (r.1.direction = ArgumentDirection.Out ∧ r.1.isNet = false)) →
          r.2.diags.filter isDefaultDiag = b.diags.filter isDefaultDiag)) ∧
    (NonAnsiPortListBuilder.create Demo.scope
        [Demo.portDeclInit .OutputKeyword false Demo.logicSyntax "a" 1]).map
      (fun b => (b.portInfos.map (fun e => (e.1, e.2.direction, e.2.isNet)), b.diags)) =
      .ok ([("a", .Out, false)], []) ∧
    (NonAnsiPortListBuilder.create Demo.scope
        [Demo.portDeclInit .InputKeyword false Demo.logicSyntax "a" 1]).map
      (fun b => (b.portInfos.map (fun e => (e.1, e.2.direction, e.2.isNet)), b.diags)) =
      .ok ([("a", .In, false)],
        [Diagnostic.atRange .DisallowedPortDefault (Demo.rangeAt 2)]) := by
  refine ⟨?_, ?_, rfl, rfl⟩
  · obtain ⟨b, hb⟩ := NonAnsiPortListBuilder.create_ok scope decls hw
    have inv : DefaultInv b :=
      indexDeclarations_default scope decls {} b rfl hb
    refine ⟨b, hb, inv, ?_⟩
    have hcount : ∀ ds : List Diagnostic,
        countCode .DisallowedPortDefault ds = (ds.filter isDefaultDiag).length := by
      intro ds
      unfold countCode
      rw [List.countP_eq_length_filter]
      rfl
    rw [hcount, inv]
    generalize b.portInfos = l
    induction l with
    | nil => rfl
    | cons e rest ih =>
      rw [List.map_cons, List.flatten_cons, List.length_append, ih, List.filter_cons]
      unfold Spec.disallowedDefault
      cases e.2.decl.initializer with
      | none =>
        simp
      | some init =>
        dsimp only
        cases hc : (e.2.direction != ArgumentDirection.Out || e.2.isNet)
        · simp
        · simp
          exact Nat.add_comm _ _
  · intro b header info insertionPoint hname hheader
    obtain ⟨r, hr⟩ := NonAnsiPortListBuilder.handleIODecl_ok scope b header info insertionPoint
      hname hheader
    obtain ⟨_, j2⟩ := NonAnsiPortListBuilder.handleIODecl_default _ _ _ _ _ _ hr
    obtain ⟨_, hdecl, _⟩ := NonAnsiPortListBuilder.handleIODecl_adds _ _ _ _ _ _ hr
    refine ⟨r, hr, hdecl, ?_, ?_⟩
    · intro init hi hc
      rw [j2]
      unfold Spec.disallowedDefault
      rw [hdecl, hi]
      dsimp only
      rw [if_pos]
      rcases hc with hc | hc
      · simp [hc]
      · simp [hc]
    · intro hc
      rw [j2]
      unfold Spec.disallowedDefault
      rw [hdecl]
      rcases hc with hc | ⟨h1, h2⟩
      · rw [hc]
        exact List.append_nil _
      · cases info.decl.initializer with
        | none => exact List.append_nil _
        | some init =>
          dsimp only
          rw [if_neg (by simp [h1, h2])]
          exact List.append_nil _

theorem create_default_witness :
    WellFormed [Demo.portDeclInit .InputKeyword false Demo.logicSyntax "a" 1] ∧
    ∃ b, NonAnsiPortListBuilder.create Demo.scope
        [Demo.portDeclInit .InputKeyword false Demo.logicSyntax "a" 1] = .ok b ∧
      countCode .DisallowedPortDefault b.diags = 1 :=
  ⟨wellFormed_of_all _ rfl,
   match (create_default Demo.scope
      [Demo.portDeclInit .InputKeyword false Demo.logicSyntax "a" 1]
      (wellFormed_of_all _ rfl)).1 with
   | ⟨b, hb, _, hc⟩ => ⟨b, hb, by
      have e : b = Demo.index [Demo.portDeclInit .InputKeyword false Demo.logicSyntax "a" 1] := by
        have h2 : NonAnsiPortListBuilder.create Demo.scope
            [Demo.portDeclInit .InputKeyword false Demo.logicSyntax "a" 1] =
            .ok (Demo.index [Demo.portDeclInit .InputKeyword false Demo.logicSyntax "a" 1]) := rfl
        rw [h2] at hb
        cases hb
        rfl
      rw [e]
      rfl⟩⟩

/-! ## The interface flag and the internal symbol of an indexed declaration -/

theorem NonAnsiPortListBuilder.handleIODecl_flag (scope : ScopeEnv)
    (b : NonAnsiPortListBuilder) (header : PortHeaderSyntax) (info : PortInfo)
    (insertionPoint : Option InsertionPoint) (r : PortInfo × NonAnsiPortListBuilder)
    (hfresh : info.internalSymbol = none) (hflag : info.isIface = false)
    (h : NonAnsiPortListBuilder.handleIODecl scope b header info insertionPoint = .ok r) :
    r.1.isIface = true → r.1.internalSymbol = none := by
  unfold NonAnsiPortListBuilder.handleIODecl at h
  split at h
  · cases h
  · split at h
    · cases h
    · rename_i r0 hr0
      cases h
      rw [(NonAnsiPortListBuilder.checkIODecl_keeps r0).1]
      split at hr0
      · obtain ⟨_, _, _, _, h5⟩ :=
          NonAnsiPortListBuilder.handleVariablePortHeader_adds _ _ _ _ _ _ hr0
        intro hi
        rw [h5, hflag] at hi
        cases hi
      · unfold NonAnsiPortListBuilder.handleNetPortHeader at hr0
        dsimp only at hr0
        split at hr0
        · cases hr0
        · cases hr0
          intro hi
          have hi2 : info.isIface = true := hi
          rw [hflag] at hi2
          cases hi2
      · unfold NonAnsiPortListBuilder.handleInterfacePortHeader at hr0
        dsimp only at hr0
        split at hr0
        · cases hr0
        · cases hr0
          intro _
          exact hfresh

theorem indexDeclarators_flag (scope : ScopeEnv) (port : PortDeclarationSyntax)
    (insertionPoint : Option InsertionPoint) (decls : List DeclaratorSyntax) :
    ∀ (b b2 : NonAnsiPortListBuilder),
      (∀ e ∈ b.portInfos, e.2.isIface = true → e.2.internalSymbol = none) →
      NonAnsiPortListBuilder.indexDeclarators scope port insertionPoint b decls = .ok b2 →
      ∀ e ∈ b2.portInfos, e.2.isIface = true → e.2.internalSymbol = none := by
  induction decls with
  | nil =>
    intro b b2 inv h
    simp only [NonAnsiPortListBuilder.indexDeclarators] at h
    cases h
    exact inv
  | cons decl rest ih =>
    intro b b2 inv h
    rw [NonAnsiPortListBuilder.indexDeclarators] at h
    cases hm : decl.name.isMissing
    · rw [hm] at h
      simp only [Bool.not_false, if_true] at h
      cases hf : b.find decl.name.valueText with
      | none =>
        rw [hf] at h
        dsimp only at h
        cases hh : NonAnsiPortListBuilder.handleIODecl scope b port.header
            { decl := decl, attrs := port.attributes } insertionPoint with
        | error e =>
          rw [hh] at h
          cases h
        | ok r =>
          rw [hh] at h
          obtain ⟨info, b1⟩ := r
          dsimp only at h
          have j1 := NonAnsiPortListBuilder.handleIODecl_flag _ _ _ _ _ _ rfl rfl hh
          obtain ⟨⟨j2, _⟩, _⟩ := NonAnsiPortListBuilder.handleIODecl_adds _ _ _ _ _ _ hh
          refine ih _ b2 ?_ h
          intro e he
          rcases List.mem_append.mp he with he | he
          · rw [j2] at he
            exact inv e he
          · rw [List.mem_singleton.mp he]
            exact j1
      | some first =>
        rw [hf] at h
        dsimp only at h
        refine ih _ b2 ?_ h
        exact inv
    · rw [hm] at h
      simp only [Bool.not_true, Bool.false_eq_true, if_false] at h
      exact ih b b2 inv h

theorem indexDeclarations_flag (scope : ScopeEnv)
    (decls : List (PortDeclarationSyntax × Option InsertionPoint)) :
    ∀ (b b2 : NonAnsiPortListBuilder),
      (∀ e ∈ b.portInfos, e.2.isIface = true → e.2.internalSymbol = none) →
      NonAnsiPortListBuilder.indexDeclarations scope b decls = .ok b2 →
      ∀ e ∈ b2.portInfos, e.2.isIface = true → e.2.internalSymbol = none := by
  induction decls with
  | nil =>
    intro b b2 inv h
    simp only [NonAnsiPortListBuilder.indexDeclarations] at h
    cases h
    exact inv
  | cons d rest ih =>
    intro b b2 inv h
    obtain ⟨port, insertionPoint⟩ := d
    rw [NonAnsiPortListBuilder.indexDeclarations] at h
    cases h1 : NonAnsiPortListBuilder.indexDeclarators scope port insertionPoint b
        port.declarators with
    | error e =>
      rw [h1] at h
      cases h
    | ok b1 =>
      rw [h1] at h
      dsimp only at h
      exact ih b1 b2 (indexDeclarators_flag scope port insertionPoint _ b b1 inv h1) h

/-- C39: the constructor of the non-ANSI builder returns an index in which every
entry is an interface port exactly when it has no internal symbol: the flag
`isIface` is false if and only if the internal symbol is set, and a set internal
symbol is a variable or a net.  So the assertion `ASSERT(info->internalSymbol)`
of `createPort` holds for every name, and the loop over a port list, with
references and concatenations, returns for every port list. -/
theorem create_interface_flag (scope : ScopeEnv)
    (decls : List (PortDeclarationSyntax × Option InsertionPoint)) (hw : WellFormed decls) :
    ∃ b, NonAnsiPortListBuilder.create scope decls = .ok b ∧
      (∀ e ∈ b.portInfos, e.2.isIface = false ↔ ∃ sym, e.2.internalSymbol = some sym) ∧
      (∀ e ∈ b.portInfos, ∀ sym, e.2.internalSymbol = some sym →
        sym.kind = InternalKind.Variable ∨ ∃ nt, sym.kind = InternalKind.Net nt) ∧
      (∀ name info, b.find name = some info →
        (info.isIface = false ↔ ∃ sym, info.internalSymbol = some sym)) ∧
      (∀ (name : String) (loc : SourceLocation) (stx : PortReferenceSyntax),
        ∃ r, b.createPortReference name loc stx = .ok r) ∧
      (∀ (name : String) (loc : SourceLocation) (stx : PortConcatenationSyntax),
        ∃ r, b.createPortConcatenation name loc stx = .ok r) ∧
      ∀ ports : List NonAnsiPortSyntax,
        ∃ r, NonAnsiPortListBuilder.createPorts scope b ports = .ok r := by
  obtain ⟨b, hb⟩ := NonAnsiPortListBuilder.create_ok scope decls hw
  obtain ⟨_, i2, _⟩ := indexDeclarations_run scope decls [] {} b
    ⟨List.nodup_nil, fun _ => rfl, fun _ he => (by cases he), fun _ he => (by cases he)⟩
    (fun _ he => (by cases he)) hb
  have i3 := indexDeclarations_flag scope decls {} b (fun _ he => (by cases he)) hb
  obtain ⟨_, hbound, _⟩ := NonAnsiPortListBuilder.create_run scope decls b hb
  have key : ∀ e ∈ b.portInfos,
      e.2.isIface = false ↔ ∃ sym, e.2.internalSymbol = some sym := by
    intro e he
    constructor
    · intro hi
      rcases i2 e he with h1 | h1
      · rw [hi] at h1
        cases h1
      · cases hs : e.2.internalSymbol with
        | none => exact absurd hs h1
        | some sym => exact ⟨sym, rfl⟩
    · intro hs
      obtain ⟨sym, hs⟩ := hs
      cases hi : e.2.isIface with
      | false => rfl
      | true =>
        rw [i3 e he hi] at hs
        cases hs
  refine ⟨b, hb, key, ?_, ?_, ?_, ?_, ?_⟩
  · intro e _ sym _
    cases hk : sym.kind with
    | Variable => exact Or.inl rfl
    | Net nt => exact Or.inr ⟨nt, rfl⟩
  · intro name info hf
    have hmem := NonAnsiPortListBuilder.find_mem b name info hf
    exact key _ hmem
  · intro name loc stx
    obtain ⟨r, hr, _⟩ := NonAnsiPortListBuilder.createPortReference_ok b hbound name loc stx
    exact ⟨r, hr⟩
  · intro name loc stx
    obtain ⟨mp, b2, _, h, _⟩ :=
      NonAnsiPortListBuilder.createPortConcatenation_run b name loc stx hbound
    exact ⟨_, h⟩
  · intro ports
    obtain ⟨r, hr, _⟩ := NonAnsiPortListBuilder.createPorts_run scope ports b hbound
    exact ⟨r, hr⟩

theorem create_interface_flag_witness :
    WellFormed Demo.inputBusDecls ∧
    (Demo.index Demo.inputBusDecls).portInfos.map
      (fun e => (e.1, e.2.isIface, e.2.internalSymbol.map (fun s => s.kind))) =
      [("a", false, some (.Net Demo.wire)), ("i", true, none)] ∧
    ∃ b, NonAnsiPortListBuilder.create Demo.scope Demo.inputBusDecls = .ok b ∧
      (∀ e ∈ b.portInfos, e.2.isIface = false ↔ ∃ sym, e.2.internalSymbol = some sym) ∧
      ∀ ports : List NonAnsiPortSyntax,
        ∃ r, NonAnsiPortListBuilder.createPorts Demo.scope b ports = .ok r :=
  ⟨wellFormed_of_all _ rfl, rfl,
   match create_interface_flag Demo.scope Demo.inputBusDecls (wellFormed_of_all _ rfl) with
   | ⟨b, h1, h2, _, _, _, _, h7⟩ => ⟨b, h1, h2, h7⟩⟩

/-! ## The assertion of the data-port `add` in an ANSI port list -/

theorem AnsiPortListBuilder.add_returns (b : AnsiPortListBuilder) (decl : DeclaratorSyntax)
    (direction : ArgumentDirection) (type : Option DataTypeSyntax) (netType : Option NetType)
    (attrs : List AttributeInstanceSyntax) :
    (∃ r, b.add decl direction type netType attrs = .ok r) ↔
      (type ≠ none ∨ netType ≠ none) := by
  constructor
  · intro h
    obtain ⟨r, hr⟩ := h
    cases type with
    | some t => exact Or.inl (Option.some_ne_none _)
    | none =>
      cases netType with
      | some nt => exact Or.inr (Option.some_ne_none _)
      | none =>
        simp only [AnsiPortListBuilder.add, AnsiPortListBuilder.declaredTypeOf] at hr
        cases hr
  · intro h
    obtain ⟨port, st, _, hr, _⟩ := AnsiPortListBuilder.add_ok b decl direction type netType attrs h
    exact ⟨_, hr⟩

theorem AnsiPortListBuilder.addInherited_ok (b : AnsiPortListBuilder)
    (decl : DeclaratorSyntax) (attrs : List AttributeInstanceSyntax) :
    ∃ r, b.addInherited decl attrs = .ok r := by
  unfold AnsiPortListBuilder.addInherited
  cases hi : b.lastInterface with
  | some iface => exact ⟨_, rfl⟩
  | none =>
    dsimp only
    by_cases hc : (b.lastType.isNone && b.lastNetType.isNone) = true
    · rw [if_pos hc]
      exact (AnsiPortListBuilder.add_returns _ _ _ _ _ _).mpr (Or.inl (Option.some_ne_none _))
    · rw [if_neg hc]
      refine (AnsiPortListBuilder.add_returns _ _ _ _ _ _).mpr ?_
      cases ht : b.lastType with
      | some t => exact Or.inl (Option.some_ne_none _)
      | none =>
        cases hn : b.lastNetType with
        | some nt => exact Or.inr (Option.some_ne_none _)
        | none =>
          rw [ht, hn] at hc
          exact absurd rfl hc

theorem AnsiPortListBuilder.createPortImplicit_ok (scope : ScopeEnv)
    (b : AnsiPortListBuilder) (stx : ImplicitAnsiPortSyntax) :
    ∃ r, b.createPortImplicit scope stx = .ok r := by
  have hv : ∀ header : VariablePortHeaderSyntax,
      ∃ r, AnsiPortListBuilder.addVariablePort scope b header stx.declarator stx.attributes =
        .ok r := by
    intro header
    obtain ⟨port, st, _, hr, _⟩ :=
      AnsiPortListBuilder.addVariablePort_ok scope b header stx.declarator stx.attributes
    exact ⟨_, hr⟩
  unfold AnsiPortListBuilder.createPortImplicit
  dsimp only
  split
  · split
    · exact AnsiPortListBuilder.addInherited_ok _ _ _
    · split
      · split
        · exact (AnsiPortListBuilder.add_returns _ _ _ _ _ _).mpr
            (Or.inr (Option.some_ne_none _))
        · exact hv _
        · split
          · exact ⟨_, rfl⟩
          · exact hv _
      · exact hv _
  · exact (AnsiPortListBuilder.add_returns _ _ _ _ _ _).mpr (Or.inl (Option.some_ne_none _))
  · exact ⟨_, rfl⟩

theorem AnsiPortListBuilder.createPort_ok (scope : ScopeEnv)
    (b : AnsiPortListBuilder) (port : AnsiPortSyntax) :
    ∃ r, b.createPort scope port = .ok r := by
  cases port with
  | ImplicitAnsiPort stx => exact AnsiPortListBuilder.createPortImplicit_ok scope b stx
  | ExplicitAnsiPort stx => exact ⟨_, rfl⟩

theorem AnsiPortListBuilder.createPorts_ok (scope : ScopeEnv) (ports : List AnsiPortSyntax) :
    ∀ b : AnsiPortListBuilder, ∃ r, b.createPorts scope ports = .ok r := by
  induction ports with
  | nil =>
    intro b
    exact ⟨_, rfl⟩
  | cons port rest ih =>
    intro b
    obtain ⟨⟨symbol, b1⟩, h1⟩ := AnsiPortListBuilder.createPort_ok scope b port
    obtain ⟨⟨symbols, b2⟩, h2⟩ := ih b1
    refine ⟨(symbol :: symbols, b2), ?_⟩
    rw [AnsiPortListBuilder.createPorts, h1]
    dsimp only
    rw [h2]

/-- C38: the data-port `add` of the ANSI builder returns exactly when it is given
a data type syntax or a net type, that is when `ASSERT(netType)` holds; and for
every state of the builder and every ANSI port list the loop over the ports
returns, as do `addInherited` and `createPort` for every port: no call of `add`
lacks both.  Examples: an inheriting port after an explicit port, after an
interface port whose definition is unknown, and after a port of a net type
without type syntax. -/
theorem createPorts_asserts (scope : ScopeEnv) (b : AnsiPortListBuilder)
    (ports : List AnsiPortSyntax) :
    (∃ r, b.createPorts scope ports = .ok r) ∧
    (∀ (decl : DeclaratorSyntax) (direction : ArgumentDirection)
      (type : Option DataTypeSyntax) (netType : Option NetType)
      (attrs : List AttributeInstanceSyntax),
      ((∃ r, b.add decl direction type netType attrs = .ok r) ↔
        (type ≠ none ∨ netType ≠ none)) ∧
      (type = none → netType = none →
        b.add decl direction type netType attrs = .error "ASSERT(netType)")) ∧
    (∀ (decl : DeclaratorSyntax) (attrs : List AttributeInstanceSyntax),
      ∃ r, b.addInherited decl attrs = .ok r) ∧
    (∀ port : AnsiPortSyntax, ∃ r, b.createPort scope port = .ok r) ∧
    (AnsiPortListBuilder.createPorts Demo.scope {}
        [.ExplicitAnsiPort (Demo.explicitPort (some .InputKeyword) "x" 1),
         .ImplicitAnsiPort (Demo.ansiPort none false Demo.emptySyntax "b" 2)]).map
      (fun r => (r.1.map (fun s => s.summary), r.2.diags)) =
      .ok ([some ("x", .In, some 0, none), some ("b", .In, some 0, some .Variable)], []) ∧
    (AnsiPortListBuilder.createPorts Demo.scope {}
        [.ImplicitAnsiPort (Demo.ansiIfacePort "nobus" "i" 1),
         .ImplicitAnsiPort (Demo.ansiPort none false Demo.emptySyntax "b" 2)]).map
      (fun r => (r.1.map (fun s => s.summary), codes r.2.diags)) =
      .ok ([none, some ("b", .InOut, some 0, some .Variable)],
        [.UnknownInterface, .InOutPortCannotBeVariable]) ∧
    (AnsiPortListBuilder.createPorts Demo.scopeNetName {}
        [.ImplicitAnsiPort
          (Demo.ansiPort (some .InputKeyword) false (Demo.namedSyntax "trinet") "a" 1),
         .ImplicitAnsiPort (Demo.ansiPort none false Demo.emptySyntax "b" 2)]).map
      (fun r => (r.1.map (fun s => s.summary), r.2.diags)) =
      .ok ([some ("a", .In, none, some (.Net Demo.wire)),
            some ("b", .In, none, some (.Net Demo.wire))], []) := by
  refine ⟨AnsiPortListBuilder.createPorts_ok scope ports b, ?_,
    AnsiPortListBuilder.addInherited_ok b, AnsiPortListBuilder.createPort_ok scope b,
    rfl, rfl, rfl⟩
  intro decl direction type netType attrs
  refine ⟨AnsiPortListBuilder.add_returns b decl direction type netType attrs, ?_⟩
  intro ht hn
  rw [ht, hn]
  rfl

/-! ## The ordered index over a run of `makeConnections` -/

/-- C36: in ordered mode the processing of a formal port advances the ordered
index by exactly one: `getConnection` for every data port and every multi-port,
whatever the connections left and the default of the port, and
`getIfaceConnection` whenever it returns, which it does for a port without
definition, and for a port with a definition when no connection is left or the
connection has no expression.  So when `finalize` runs in `makeConnections` the
ordered index is the number of formal ports, and this number is the last
argument of the `TooManyPortConnections` that `finalize` adds when a connection
is left at this index. -/
theorem makeConnections_ordered_index (env : Env) (ports : List Symbol)
    (conns : List PortConnectionSyntax) (results : PointerMap)
    (r : PortConnectionBuilder × PointerMap)
    (hok : makeConnections env ports conns results = .ok r)
    (hmode : (PortConnectionBuilder.create env conns).usingOrdered = true) :
    (∀ b : PortConnectionBuilder, b.usingOrdered = true →
      (∀ port : PortSymbol,
        (b.getConnection env port).2.orderedIndex = b.orderedIndex + 1) ∧
      (∀ port : MultiPortSymbol,
        (b.getConnection env port).2.orderedIndex = b.orderedIndex + 1) ∧
      (∀ (port : InterfacePortSymbol) (r1 : PortConnection × PortConnectionBuilder),
        b.getIfaceConnection env port = .ok r1 → r1.2.orderedIndex = b.orderedIndex + 1) ∧
      (∀ port : InterfacePortSymbol, port.name ≠ "" →
        (port.interfaceDef = none ∨ (b.pickOrdered env).1 = none) →
        ∃ r1, b.getIfaceConnection env port = .ok r1 ∧
          r1.2.orderedIndex = b.orderedIndex + 1)) ∧
    (PortConnectionBuilder.create env conns).orderedIndex = 0 ∧
    ∃ c : PortConnectionBuilder,
      connectPorts env ports (PortConnectionBuilder.create env conns) results = .ok (c, r.2) ∧
      r.1 = c.finalize env ∧
      c.usingOrdered = true ∧
      c.orderedIndex = ports.length ∧
      c.orderedConns = (PortConnectionBuilder.create env conns).orderedConns ∧
      r.1.diags = c.diags ++
        (match c.orderedConns[ports.length]? with
          | some pc =>
            [{ code := .TooManyPortConnections, location := pc.firstTokenLocation,
               args := [.str env.definitionName, .num c.orderedConns.length,
                 .num ports.length] }]
          | none => []) := by
  have hstep : ∀ (b : PortConnectionBuilder) (name : String) (c : PortConnectionBuilder),
      b.usingOrdered = true → PortStep name b c → c.orderedIndex = b.orderedIndex + 1 := by
    intro b name c hm hs
    have h := hs.orderedIndex
    rw [if_pos hm] at h
    exact h
  refine ⟨?_, (create_ctorInv env conns).orderedIndex, ?_⟩
  · intro b hm
    refine ⟨fun port => hstep b _ _ hm (getConnection_step env b port),
      fun port => hstep b _ _ hm (getConnection_step env b port),
      fun port r1 h1 => hstep b _ _ hm (getIfaceConnection_step env b port r1 h1), ?_⟩
    intro port hname hcase
    have hne : port.name.isEmpty = false := isEmpty_eq_false_of_ne hname
    have hex : ∃ r1, b.getIfaceConnection env port = .ok r1 := by
      unfold PortConnectionBuilder.getIfaceConnection
      rw [if_neg (by rw [hne]; exact Bool.false_ne_true)]
      by_cases hd : port.interfaceDef.isNone = true
      · rw [if_pos hd]
        exact ⟨_, rfl⟩
      · rw [if_neg hd, if_pos hm]
        rcases hcase with hc | hc
        · rw [hc] at hd
          exact absurd rfl hd
        · dsimp only
          rw [hc]
          exact ⟨_, rfl⟩
    obtain ⟨r1, h1⟩ := hex
    exact ⟨r1, h1, hstep b _ _ hm (getIfaceConnection_step env b port r1 h1)⟩
  · obtain ⟨c, hc, hr⟩ := makeConnections_ok env ports conns results r hok
    have hrun := connectPorts_run env ports _ _ _ hc
    have hinv := create_ctorInv env conns
    have hcm : c.usingOrdered = true := hrun.usingOrdered.trans hmode
    have hidx : c.orderedIndex = ports.length := by
      have := hrun.orderedIndex
      rw [hmode, if_pos rfl, hinv.orderedIndex] at this
      simpa using this
    refine ⟨c, hc, hr, hcm, hidx, hrun.orderedConns, ?_⟩
    rw [hr, finalize_ordered env c hcm]
    congr 1
    by_cases hlt : c.orderedIndex < c.orderedConns.length
    · have hget : c.orderedConns[ports.length]? = some c.orderedConns[c.orderedIndex] := by
        rw [← hidx]
        exact List.getElem?_eq_getElem hlt
      rw [dif_pos hlt, hget]
      dsimp only
      have e : DiagArg.num c.orderedIndex = DiagArg.num ports.length := by rw [hidx]
      rw [e]
    · have hget : c.orderedConns[ports.length]? = none := by
        rw [← hidx]
        exact List.getElem?_eq_none (Nat.le_of_not_lt hlt)
      rw [dif_neg hlt, hget]

/-- Two ordered connections for the single port `a`. -/
theorem makeConnections_ordered_index_witness :
    ∃ c : PortConnectionBuilder,
      connectPorts Demo.env [Symbol.Port Demo.portA]
        (PortConnectionBuilder.create Demo.env [Demo.ordered 1, Demo.ordered 2]) [] =
        .ok (c, PointerMap.emplace [] Demo.portA.addr
          ((PortConnectionBuilder.create Demo.env
            [Demo.ordered 1, Demo.ordered 2]).getConnection Demo.env Demo.portA).1) ∧
      c.orderedIndex = 1 :=
  match (makeConnections_ordered_index Demo.env [Symbol.Port Demo.portA]
    [Demo.ordered 1, Demo.ordered 2] []
    (PortConnectionBuilder.finalize Demo.env
      ((PortConnectionBuilder.create Demo.env
        [Demo.ordered 1, Demo.ordered 2]).getConnection Demo.env Demo.portA).2,
     PointerMap.emplace [] Demo.portA.addr
      ((PortConnectionBuilder.create Demo.env
        [Demo.ordered 1, Demo.ordered 2]).getConnection Demo.env Demo.portA).1)
    (by rfl) (by rfl)).2.2 with
  | ⟨c, h1, _, _, h4, _⟩ => ⟨c, h1, h4⟩

/-! ## Ranges -/

theorem ConstantRange.width_int (r : ConstantRange) :
    (r.width : Int) = r.upper - r.lower + 1 := by
  unfold ConstantRange.width ConstantRange.upper ConstantRange.lower
  omega

theorem ConstantRange.lower_le_upper (r : ConstantRange) : r.lower ≤ r.upper := by
  unfold ConstantRange.upper ConstantRange.lower
  omega

theorem ConstantRange.bounds_little (r : ConstantRange) (h : r.isLittleEndian = true) :
    r.upper = r.left ∧ r.lower = r.right := by
  unfold ConstantRange.isLittleEndian at h
  have h2 : r.right ≤ r.left := of_decide_eq_true h
  unfold ConstantRange.upper ConstantRange.lower
  omega

theorem ConstantRange.bounds_big (r : ConstantRange) (h : r.isLittleEndian = false) :
    r.upper = r.right ∧ r.lower = r.left := by
  unfold ConstantRange.isLittleEndian at h
  have h2 : ¬ r.right ≤ r.left := of_decide_eq_false h
  unfold ConstantRange.upper ConstantRange.lower
  omega

/-- The index `translateIndex` gives for an index inside the range counts from
the upper end of a big-endian range and from the lower end otherwise, and lies in
`[0, width)`. -/
theorem ConstantRange.translateIndex_bounds (r : ConstantRange) (p : Int)
    (h1 : r.lower ≤ p) (h2 : p ≤ r.upper) :
    0 ≤ r.translateIndex p ∧ r.translateIndex p < r.width := by
  have hw := r.width_int
  unfold ConstantRange.translateIndex
  cases r.isLittleEndian
  · simp only [Bool.not_false, if_true]
    omega
  · simp only [Bool.not_true, Bool.false_eq_true, if_false]
    omega

/-- The element index of the slicing loop lies in `[0, width)` of the interface
array, before and after the flip. -/
theorem PortConnectionBuilder.sliceIndex_bounds (dim range : ConstantRange) (p : Int)
    (hw : range.width = dim.width) (h1 : dim.lower ≤ p) (h2 : p ≤ dim.upper) :
    0 ≤ PortConnectionBuilder.sliceIndex dim range p ∧
    PortConnectionBuilder.sliceIndex dim range p < range.width := by
  obtain ⟨t1, t2⟩ := dim.translateIndex_bounds p h1 h2
  have hr := range.width_int
  have hw2 : (range.width : Int) = dim.width := by rw [hw]
  unfold PortConnectionBuilder.sliceIndex
  dsimp only
  cases range.isLittleEndian
  · simp only [Bool.not_false, if_true]
    omega
  · simp only [Bool.not_true, Bool.false_eq_true, if_false]
    omega

/-- The element the slicing loop selects is declared at the position of the
interface array at which the instance is declared in the instance array. -/
theorem PortConnectionBuilder.sliceIndex_position (dim range : ConstantRange) (p : Int)
    (hw : range.width = dim.width) :
    Spec.declaredPosition range
        (range.elementIndex (PortConnectionBuilder.sliceIndex dim range p)) =
      Spec.declaredPosition dim p ∧
    Spec.indexAtPosition range (Spec.declaredPosition dim p) - range.lower =
      PortConnectionBuilder.sliceIndex dim range p := by
  have hr := range.width_int
  have hd := dim.width_int
  have hw2 : (range.width : Int) = dim.width := by rw [hw]
  unfold PortConnectionBuilder.sliceIndex Spec.declaredPosition Spec.indexAtPosition
    ConstantRange.elementIndex ConstantRange.translateIndex
  dsimp only
  cases hre : range.isLittleEndian <;> cases hde : dim.isLittleEndian
  · obtain ⟨a1, a2⟩ := range.bounds_big hre
    obtain ⟨b1, b2⟩ := dim.bounds_big hde
    simp only [Bool.not_false, if_true, Bool.false_eq_true, if_false]
    omega
  · obtain ⟨a1, a2⟩ := range.bounds_big hre
    obtain ⟨b1, b2⟩ := dim.bounds_little hde
    simp only [Bool.not_false, Bool.not_true, if_true, Bool.false_eq_true, if_false]
    omega
  · obtain ⟨a1, a2⟩ := range.bounds_little hre
    obtain ⟨b1, b2⟩ := dim.bounds_big hde
    simp only [Bool.not_false, Bool.not_true, if_true, Bool.false_eq_true, if_false]
    omega
  · obtain ⟨a1, a2⟩ := range.bounds_little hre
    obtain ⟨b1, b2⟩ := dim.bounds_little hde
    simp only [Bool.not_true, if_true, Bool.false_eq_true, if_false]
    omega

/-! ## The slicing loop -/

theorem drop_eq_cons {α : Type} (l : List α) (i : Nat) (d : α) (ds : List α)
    (h : l.drop i = d :: ds) : l[i]? = some d ∧ l.drop (i + 1) = ds := by
  constructor
  · have h1 : (l.drop i)[0]? = l[i + 0]? := List.getElem?_drop l i 0
    rw [h] at h1
    simpa using h1.symm
  · have h2 : l.drop (i + 1) = (l.drop i).drop 1 := by
      rw [List.drop_drop, Nat.add_comm]
    rw [h2, h]
    rfl

/-- One turn of the slicing loop, with the element index written as
`sliceIndex`. -/
theorem PortConnectionBuilder.sliceLoop_cons (instanceDims : List ConstantRange) (p : Int)
    (path : List Int) (i : Nat) (a : Nat) (n : String) (l : SourceLocation)
    (range : ConstantRange) (elements : List Symbol) (dim : ConstantRange)
    (hd : instanceDims[i]? = some dim) :
    PortConnectionBuilder.sliceLoop instanceDims (p :: path) i
        (.InstanceArray a n l range elements) =
      (if PortConnectionBuilder.sliceIndex dim range p < 0 then
          .error "element index out of range"
        else
          match elements[(PortConnectionBuilder.sliceIndex dim range p).toNat]? with
          | none => .error "element index out of range"
          | some e => PortConnectionBuilder.sliceLoop instanceDims path (i + 1) e) := by
  rw [PortConnectionBuilder.sliceLoop, hd]
  rfl

/-- Under the shape the slicing relies on and for a path inside the instance
dimensions, the slicing loop returns, and what it returns is the matching slice
in the spec's words. -/
theorem PortConnectionBuilder.sliceLoop_ok (instanceDims : List ConstantRange)
    (path : List Int) :
    ∀ (i : Nat) (symbol : Symbol),
      PortConnectionBuilder.shaped (instanceDims.drop i) symbol = true →
      PortConnectionBuilder.pathInside (instanceDims.drop i) path = true →
      ∃ s, PortConnectionBuilder.sliceLoop instanceDims path i symbol = .ok s ∧
        Spec.slice (instanceDims.drop i) path symbol = some s := by
  induction path with
  | nil =>
    intro i symbol _ _
    refine ⟨symbol, ?_, ?_⟩
    · rw [PortConnectionBuilder.sliceLoop]
    · rw [Spec.slice]
  | cons p path ih =>
    intro i symbol hs hp
    cases hdrop : instanceDims.drop i with
    | nil =>
      rw [hdrop] at hp
      simp [PortConnectionBuilder.pathInside] at hp
    | cons d ds =>
      rw [hdrop] at hs hp
      obtain ⟨hget, hrest⟩ := drop_eq_cons instanceDims i d ds hdrop
      cases symbol with
      | InstanceArray a n l range elements =>
        simp only [PortConnectionBuilder.shaped, Bool.and_eq_true, beq_iff_eq,
          List.all_eq_true] at hs
        obtain ⟨⟨hw, hlen⟩, hall⟩ := hs
        simp only [PortConnectionBuilder.pathInside, Bool.and_eq_true,
          decide_eq_true_eq] at hp
        obtain ⟨⟨hp1, hp2⟩, hp3⟩ := hp
        obtain ⟨k1, k2⟩ := PortConnectionBuilder.sliceIndex_bounds d range p hw hp1 hp2
        have hk : (PortConnectionBuilder.sliceIndex d range p).toNat < elements.length := by
          rw [hlen]
          omega
        have hsome : elements[(PortConnectionBuilder.sliceIndex d range p).toNat]? =
            some (elements[(PortConnectionBuilder.sliceIndex d range p).toNat]) :=
          List.getElem?_eq_getElem hk
        have hmem : elements[(PortConnectionBuilder.sliceIndex d range p).toNat] ∈ elements :=
          List.getElem_mem hk
        have hrec := ih (i + 1) _ (by rw [hrest]; exact hall _ hmem) (by rw [hrest]; exact hp3)
        obtain ⟨s, hs1, hs2⟩ := hrec
        refine ⟨s, ?_, ?_⟩
        · rw [PortConnectionBuilder.sliceLoop_cons instanceDims p path i a n l range elements d
            hget, if_neg (by omega), hsome]
          exact hs1
        · rw [Spec.slice]
          rw [(PortConnectionBuilder.sliceIndex_position d range p hw).2, if_neg (by omega),
            hsome]
          rw [← hrest]
          exact hs2
      | Port x => simp [PortConnectionBuilder.shaped] at hs
      | MultiPort x => simp [PortConnectionBuilder.shaped] at hs
      | InterfacePort x => simp [PortConnectionBuilder.shaped] at hs
      | Modport a n l d => simp [PortConnectionBuilder.shaped] at hs
      | Instance a n l d => simp [PortConnectionBuilder.shaped] at hs
      | Variable a n l t => simp [PortConnectionBuilder.shaped] at hs
      | Other a n l => simp [PortConnectionBuilder.shaped] at hs

/-! ## `getInterface` on an array of interface instances -/

theorem PortConnectionBuilder.areDimSizesEqual_iff (l : List ConstantRange) :
    ∀ r : List ConstantRange,
      PortConnectionBuilder.areDimSizesEqual l r = true ↔
        l.map ConstantRange.width = r.map ConstantRange.width := by
  induction l with
  | nil =>
    intro r
    cases r with
    | nil => simp [PortConnectionBuilder.areDimSizesEqual]
    | cons y ys => simp [PortConnectionBuilder.areDimSizesEqual]
  | cons x xs ih =>
    intro r
    cases r with
    | nil => simp [PortConnectionBuilder.areDimSizesEqual]
    | cons y ys =>
      rw [PortConnectionBuilder.areDimSizesEqual]
      by_cases hw : x.width = y.width
      · simp [hw, ih ys]
      · simp [hw]

/-- The test of `getInterface` for the slicing, in the spec's words: the
dimensions of the connection are as wide as the dimensions of the instance array
followed by the dimensions of the port. -/
theorem PortConnectionBuilder.slicing_iff (dims inst portDims : List ConstantRange) :
    (decide (inst.length ≤ dims.length) &&
      PortConnectionBuilder.areDimSizesEqual (dims.take inst.length) inst &&
      PortConnectionBuilder.areDimSizesEqual (dims.drop inst.length) portDims) = true ↔
      dims.map ConstantRange.width = (inst ++ portDims).map ConstantRange.width := by
  rw [Bool.and_eq_true, Bool.and_eq_true, decide_eq_true_eq,
    PortConnectionBuilder.areDimSizesEqual_iff, PortConnectionBuilder.areDimSizesEqual_iff]
  constructor
  · rintro ⟨⟨_, h2⟩, h3⟩
    have h : dims = dims.take inst.length ++ dims.drop inst.length :=
      (List.take_append_drop _ _).symm
    rw [h, List.map_append, List.map_append, h2, h3]
  · intro h
    have hlen : dims.length = inst.length + portDims.length := by
      have := congrArg List.length h
      simpa using this
    refine ⟨⟨by omega, ?_⟩, ?_⟩
    · rw [List.map_take, h, List.map_append]
      rw [List.take_append_of_le_length (by simp)]
      simp
    · rw [List.map_drop, h, List.map_append]
      rw [List.drop_append_of_le_length (by simp)]
      simp

theorem PortConnectionBuilder.getInterfaceInstance_instance (env : Env)
    (b : PortConnectionBuilder) (port : InterfacePortSymbol) (symbol : Symbol)
    (providedModport : String) (range : SourceRange) (portDef : Definition)
    (portDims dims : List ConstantRange) (a : Nat) (n : String) (l : SourceLocation)
    (hcollect : PortConnectionBuilder.collectDims symbol =
      some (dims, .Instance a n l portDef))
    (hkind : portDef.definitionKind = DefinitionKind.Interface)
    (hmod : providedModport = "" ∨ port.modport = "" ∨ providedModport = port.modport) :
    PortConnectionBuilder.getInterfaceInstance env b port portDef portDims symbol
        providedModport range =
      (if PortConnectionBuilder.areDimSizesEqual portDims dims then .ok (some symbol, b)
       else if decide (b.instanceDims.length ≤ dims.length) &&
          PortConnectionBuilder.areDimSizesEqual (dims.take b.instanceDims.length)
            b.instanceDims &&
          PortConnectionBuilder.areDimSizesEqual (dims.drop b.instanceDims.length)
            portDims then
        match PortConnectionBuilder.sliceLoop b.instanceDims env.arrayPath 0 symbol with
        | .error e => .error e
        | .ok s => .ok (some s, b)
       else
        .ok (none, b.addDiag (((Diagnostic.atRange .PortConnDimensionsMismatch range).arg
          (.str port.name)).addNote .NoteDeclarationHere port.location))) := by
  unfold PortConnectionBuilder.getInterfaceInstance
  rw [hcollect]
  dsimp only
  have h1 : PortConnectionBuilder.notInterfaceInstance (.Instance a n l portDef) = false := by
    simp [PortConnectionBuilder.notInterfaceInstance, hkind]
  rw [h1]
  simp only [Bool.false_eq_true, if_false]
  rw [if_neg (by simp)]
  have h2 : (!providedModport.isEmpty && !port.modport.isEmpty &&
      providedModport != port.modport) = false := by
    rcases hmod with h | h | h
    · rw [h]
      rfl
    · rw [h]
      have he : ("" : String).isEmpty = true := rfl
      rw [he]
      simp
    · rw [h]
      simp
  rw [h2]
  simp only [Bool.false_eq_true, if_false]

/-- The three outcomes of `getInterface` for a symbol whose leaf, along the first
elements, is an instance of the definition of the port, with a compatible
modport. -/
theorem PortConnectionBuilder.getInterface_instance (env : Env) (b : PortConnectionBuilder)
    (port : InterfacePortSymbol) (symbol : Symbol) (providedModport : String)
    (range : SourceRange) (portDef : Definition) (portDims dims : List ConstantRange)
    (a : Nat) (n : String) (l : SourceLocation)
    (hdef : port.interfaceDef = some portDef)
    (hrange : PortConnectionBuilder.getDeclaredRange env port = .ok (some portDims))
    (hcollect : PortConnectionBuilder.collectDims symbol =
      some (dims, .Instance a n l portDef))
    (hkind : portDef.definitionKind = DefinitionKind.Interface)
    (hmod : providedModport = "" ∨ port.modport = "" ∨ providedModport = port.modport) :
    b.getInterface env port symbol providedModport range =
      (if PortConnectionBuilder.areDimSizesEqual portDims dims then .ok (some symbol, b)
       else if decide (b.instanceDims.length ≤ dims.length) &&
          PortConnectionBuilder.areDimSizesEqual (dims.take b.instanceDims.length)
            b.instanceDims &&
          PortConnectionBuilder.areDimSizesEqual (dims.drop b.instanceDims.length)
            portDims then
        match PortConnectionBuilder.sliceLoop b.instanceDims env.arrayPath 0 symbol with
        | .error e => .error e
        | .ok s => .ok (some s, b)
       else
        .ok (none, b.addDiag (((Diagnostic.atRange .PortConnDimensionsMismatch range).arg
          (.str port.name)).addNote .NoteDeclarationHere port.location))) := by
  have hinst := PortConnectionBuilder.getInterfaceInstance_instance env b port symbol
    providedModport range portDef portDims dims a n l hcollect hkind hmod
  unfold PortConnectionBuilder.getInterface
  rw [hdef]
  dsimp only
  rw [hrange]
  dsimp only
  cases symbol with
  | InstanceArray a0 n0 l0 r0 es =>
    dsimp only
    rw [hinst]
  | Instance a0 n0 l0 d0 =>
    dsimp only
    rw [hinst]
  | Port x => simp [PortConnectionBuilder.collectDims] at hcollect
  | MultiPort x => simp [PortConnectionBuilder.collectDims] at hcollect
  | InterfacePort x => simp [PortConnectionBuilder.collectDims] at hcollect
  | Modport a0 n0 l0 d0 => simp [PortConnectionBuilder.collectDims] at hcollect
  | Variable a0 n0 l0 t0 => simp [PortConnectionBuilder.collectDims] at hcollect
  | Other a0 n0 l0 => simp [PortConnectionBuilder.collectDims] at hcollect

/-- C33: for an interface port with a definition and evaluated dimensions,
connected to an instance of that interface or to an array of such instances with
a compatible modport, `getInterface` decides by the widths of the dimensions.
When the dimensions of the connection are as wide, one by one, as the dimensions
of the port, the connection is the whole symbol and the builder is left as it
is.  Else, when they are as wide as the dimensions of the instance array followed
by those of the port, the result is that of the slicing loop.  Else there is no
connection and the builder gets exactly one `PortConnDimensionsMismatch`. -/
theorem getInterface_by_widths (env : Env) (b : PortConnectionBuilder)
    (port : InterfacePortSymbol) (symbol : Symbol) (providedModport : String)
    (range : SourceRange) (portDef : Definition) (portDims dims : List ConstantRange)
    (a : Nat) (n : String) (l : SourceLocation)
    (hdef : port.interfaceDef = some portDef)
    (hrange : PortConnectionBuilder.getDeclaredRange env port = .ok (some portDims))
    (hcollect : PortConnectionBuilder.collectDims symbol =
      some (dims, .Instance a n l portDef))
    (hkind : portDef.definitionKind = DefinitionKind.Interface)
    (hmod : providedModport = "" ∨ port.modport = "" ∨ providedModport = port.modport) :
    (dims.map ConstantRange.width = portDims.map ConstantRange.width →
      b.getInterface env port symbol providedModport range = .ok (some symbol, b)) ∧
    (dims.map ConstantRange.width ≠ portDims.map ConstantRange.width →
      dims.map ConstantRange.width =
        (b.instanceDims ++ portDims).map ConstantRange.width →
      b.getInterface env port symbol providedModport range =
        match PortConnectionBuilder.sliceLoop b.instanceDims env.arrayPath 0 symbol with
        | .error e => .error e
        | .ok s => .ok (some s, b)) ∧
    (dims.map ConstantRange.width ≠ portDims.map ConstantRange.width →
      dims.map ConstantRange.width ≠
        (b.instanceDims ++ portDims).map ConstantRange.width →
      ∃ b2 : PortConnectionBuilder,
        b.getInterface env port symbol providedModport range = .ok (none, b2) ∧
        b2.diags = b.diags ++
          [{ code := .PortConnDimensionsMismatch, location := range.start, ranges := [range],
             args := [.str port.name],
             notes := [(.NoteDeclarationHere, port.location)] }] ∧
        countCode .PortConnDimensionsMismatch b2.diags =
          countCode .PortConnDimensionsMismatch b.diags + 1) := by
  have key := PortConnectionBuilder.getInterface_instance env b port symbol providedModport
    range portDef portDims dims a n l hdef hrange hcollect hkind hmod
  have hdirect := PortConnectionBuilder.areDimSizesEqual_iff portDims dims
  have hslice := PortConnectionBuilder.slicing_iff dims b.instanceDims portDims
  refine ⟨?_, ?_, ?_⟩
  · intro h
    rw [key, if_pos (hdirect.mpr h.symm)]
  · intro h1 h2
    rw [key, if_neg (fun hc => h1 (hdirect.mp hc).symm), if_pos (hslice.mpr h2)]
  · intro h1 h2
    rw [key, if_neg (fun hc => h1 (hdirect.mp hc).symm), if_neg (fun hc => h2 (hslice.mp hc))]
    refine ⟨_, rfl, rfl, ?_⟩
    show countCode _ (b.diags ++ [_]) = _
    rw [countCode_append, countCode_singleton]
    rfl

/-- The port `mbus [0:3]` of an instance of an array `[0:1]`, connected to an
interface array `[0:1][0:2]`. -/
theorem getInterface_by_widths_witness :
    PortConnectionBuilder.collectDims Demo.busArrayNarrow =
      some ([{ left := 0, right := 1 }, { left := 0, right := 2 }],
        .Instance 111 "" 0 Demo.busDef) ∧
    PortConnectionBuilder.getDeclaredRange (Demo.sliceEnv 0) Demo.mbus =
      .ok (some [{ left := 0, right := 3 }]) ∧
    (PortConnectionBuilder.create (Demo.sliceEnv 0) []).instanceDims =
      [{ left := 0, right := 1 }] ∧
    ∃ b2 : PortConnectionBuilder,
      (PortConnectionBuilder.create (Demo.sliceEnv 0) []).getInterface (Demo.sliceEnv 0)
        Demo.mbus Demo.busArrayNarrow "" (Demo.rangeAt 0) = .ok (none, b2) ∧
      b2.diags =
        [{ code := .PortConnDimensionsMismatch, location := 0, ranges := [Demo.rangeAt 0],
           args := [.str "mbus"], notes := [(.NoteDeclarationHere, 70)] }] :=
  ⟨rfl, rfl, rfl,
   match (getInterface_by_widths (Demo.sliceEnv 0)
      (PortConnectionBuilder.create (Demo.sliceEnv 0) []) Demo.mbus Demo.busArrayNarrow ""
      (Demo.rangeAt 0) Demo.busDef [{ left := 0, right := 3 }]
      [{ left := 0, right := 1 }, { left := 0, right := 2 }] 111 "" 0 rfl rfl rfl rfl
      (Or.inl rfl)).2.2 (by decide) (by decide) with
   | ⟨b2, h1, h2, _⟩ => ⟨b2, h1, h2⟩⟩

/-! ## The slicing precondition and the shape of the interface array -/

theorem ConstantRange.width_pos (r : ConstantRange) : 0 < r.width := by
  unfold ConstantRange.width
  omega

/-- An interface array of the shape the slicing relies on passes the test of
`getInterface` on the leading dimensions, which looks along the first elements. -/
theorem PortConnectionBuilder.shaped_collect (ds : List ConstantRange) :
    ∀ (symbol : Symbol) (dims : List ConstantRange) (leaf : Symbol),
      PortConnectionBuilder.shaped ds symbol = true →
      PortConnectionBuilder.collectDims symbol = some (dims, leaf) →
      ds.length ≤ dims.length ∧
        PortConnectionBuilder.areDimSizesEqual (dims.take ds.length) ds = true := by
  induction ds with
  | nil =>
    intro symbol dims leaf _ _
    exact ⟨Nat.zero_le _, rfl⟩
  | cons d ds ih =>
    intro symbol dims leaf hs hc
    cases symbol with
    | InstanceArray a n l range elements =>
      simp only [PortConnectionBuilder.shaped, Bool.and_eq_true, beq_iff_eq,
        List.all_eq_true] at hs
      obtain ⟨⟨hw, hlen⟩, hall⟩ := hs
      cases elements with
      | nil =>
        rw [PortConnectionBuilder.collectDims] at hc
        cases hc
      | cons child rest =>
        rw [PortConnectionBuilder.collectDims] at hc
        cases h1 : PortConnectionBuilder.collectDims child with
        | none =>
          rw [h1] at hc
          cases hc
        | some r =>
          obtain ⟨dims1, leaf1⟩ := r
          rw [h1] at hc
          cases hc
          obtain ⟨h2, h3⟩ := ih child dims1 leaf (hall child (List.mem_cons_self _ _)) h1
          refine ⟨Nat.succ_le_succ h2, ?_⟩
          show PortConnectionBuilder.areDimSizesEqual (range :: dims1.take ds.length)
            (d :: ds) = true
          rw [PortConnectionBuilder.areDimSizesEqual]
          simp [hw, h3]
    | Port x => simp [PortConnectionBuilder.shaped] at hs
    | MultiPort x => simp [PortConnectionBuilder.shaped] at hs
    | InterfacePort x => simp [PortConnectionBuilder.shaped] at hs
    | Modport a n l d => simp [PortConnectionBuilder.shaped] at hs
    | Instance a n l d => simp [PortConnectionBuilder.shaped] at hs
    | Variable a n l t => simp [PortConnectionBuilder.shaped] at hs
    | Other a n l => simp [PortConnectionBuilder.shaped] at hs

/-- C37: in the slicing loop of `getInterface`, for an instance-array dimension
and a range of the interface array of the same width, and a path index between
the bounds of the dimension, the translated index lies in `[0, width)`, the
flipped index `upper - index - lower` lies in `[0, width)`, and so does the
element index the loop uses.  So for an interface array that has, along every
path, ranges as wide as the instance dimensions and as many elements as its
ranges are wide, and for a path inside the instance dimensions, the loop
returns: no element access is out of bounds.  Such an array passes the test of
the slicing on the leading dimensions. -/
theorem sliceLoop_in_bounds (instanceDims : List ConstantRange) (path : List Int)
    (symbol : Symbol)
    (hshape : PortConnectionBuilder.shaped instanceDims symbol = true)
    (hpath : PortConnectionBuilder.pathInside instanceDims path = true) :
    (∀ (dim range : ConstantRange) (p : Int),
      range.width = dim.width → dim.lower ≤ p → p ≤ dim.upper →
      (0 ≤ dim.translateIndex p ∧ dim.translateIndex p < range.width) ∧
      (0 ≤ range.upper - dim.translateIndex p - range.lower ∧
        range.upper - dim.translateIndex p - range.lower < range.width) ∧
      PortConnectionBuilder.sliceIndex dim range p =
        (if range.isLittleEndian then dim.translateIndex p
         else range.upper - dim.translateIndex p - range.lower) ∧
      0 ≤ PortConnectionBuilder.sliceIndex dim range p ∧
      PortConnectionBuilder.sliceIndex dim range p < range.width) ∧
    (∃ s, PortConnectionBuilder.sliceLoop instanceDims path 0 symbol = .ok s) ∧
    (∀ e, PortConnectionBuilder.sliceLoop instanceDims path 0 symbol ≠ .error e) ∧
    (∀ dims leaf, PortConnectionBuilder.collectDims symbol = some (dims, leaf) →
      instanceDims.length ≤ dims.length ∧
      PortConnectionBuilder.areDimSizesEqual (dims.take instanceDims.length)
        instanceDims = true) := by
  obtain ⟨s, hs, _⟩ := PortConnectionBuilder.sliceLoop_ok instanceDims path 0 symbol
    hshape hpath
  refine ⟨?_, ⟨s, hs⟩, ?_, fun dims leaf hc =>
    PortConnectionBuilder.shaped_collect instanceDims symbol dims leaf hshape hc⟩
  · intro dim range p hw h1 h2
    obtain ⟨t1, t2⟩ := dim.translateIndex_bounds p h1 h2
    obtain ⟨k1, k2⟩ := PortConnectionBuilder.sliceIndex_bounds dim range p hw h1 h2
    have hr := range.width_int
    have hw2 : (range.width : Int) = dim.width := by rw [hw]
    refine ⟨⟨t1, by omega⟩, ⟨by omega, by omega⟩, ?_, k1, k2⟩
    unfold PortConnectionBuilder.sliceIndex
    cases range.isLittleEndian <;> rfl
  · intro e he
    rw [hs] at he
    cases he

/-- The interface array `bus [0:1][0:3]` and the instance number 1 of an
instance array `[0:1]`. -/
theorem sliceLoop_in_bounds_witness :
    PortConnectionBuilder.shaped [{ left := 0, right := 1 }] Demo.busArray = true ∧
    PortConnectionBuilder.pathInside [{ left := 0, right := 1 }] [1] = true ∧
    (PortConnectionBuilder.sliceLoop [{ left := 0, right := 1 }] [1] 0 Demo.busArray).map
      Symbol.addr = .ok 120 ∧
    ∃ s, PortConnectionBuilder.sliceLoop [{ left := 0, right := 1 }] [1] 0 Demo.busArray =
      .ok s :=
  ⟨rfl, rfl, rfl,
   (sliceLoop_in_bounds [{ left := 0, right := 1 }] [1] Demo.busArray rfl rfl).2.1⟩

/-! ## The slice an instance is connected to -/

/-- C34: when `getInterface` slices an interface array among the instances of an
instance array, the instance is connected to the matching slice and the builder
is left as it is, without a diagnostic.  For every dimension of the instance
array the loop translates the path index through the range of that dimension and
then through the range of the interface array, flipping it when that range is
not little endian; the element it selects is declared at the position of the
interface array at which the instance is declared in the instance array.  The
hypotheses are those of the slicing: a port with a definition and evaluated
dimensions, a connection whose leaf is an instance of that interface with a
compatible modport, dimensions that are not those of the port alone but those of
the instance array followed by those of the port, an interface array that has
this shape along every path, and an instance path inside the instance
dimensions. -/
theorem getInterface_slice (env : Env) (b : PortConnectionBuilder)
    (port : InterfacePortSymbol) (symbol : Symbol) (providedModport : String)
    (range : SourceRange) (portDef : Definition) (portDims dims : List ConstantRange)
    (a : Nat) (n : String) (l : SourceLocation)
    (hdef : port.interfaceDef = some portDef)
    (hrange : PortConnectionBuilder.getDeclaredRange env port = .ok (some portDims))
    (hcollect : PortConnectionBuilder.collectDims symbol =
      some (dims, .Instance a n l portDef))
    (hkind : portDef.definitionKind = DefinitionKind.Interface)
    (hmod : providedModport = "" ∨ port.modport = "" ∨ providedModport = port.modport)
    (hnot : dims.map ConstantRange.width ≠ portDims.map ConstantRange.width)
    (hslice : dims.map ConstantRange.width =
      (b.instanceDims ++ portDims).map ConstantRange.width)
    (hshape : PortConnectionBuilder.shaped b.instanceDims symbol = true)
    (hpath : PortConnectionBuilder.pathInside b.instanceDims env.arrayPath = true) :
    (∃ s, b.getInterface env port symbol providedModport range = .ok (some s, b) ∧
      PortConnectionBuilder.sliceLoop b.instanceDims env.arrayPath 0 symbol = .ok s ∧
      Spec.slice b.instanceDims env.arrayPath symbol = some s) ∧
    (∀ (dim r : ConstantRange) (p : Int), r.width = dim.width →
      PortConnectionBuilder.sliceIndex dim r p =
        (if r.isLittleEndian then dim.translateIndex p
         else r.upper - dim.translateIndex p - r.lower) ∧
      Spec.declaredPosition r (r.elementIndex (PortConnectionBuilder.sliceIndex dim r p)) =
        Spec.declaredPosition dim p) := by
  have key := PortConnectionBuilder.getInterface_instance env b port symbol providedModport
    range portDef portDims dims a n l hdef hrange hcollect hkind hmod
  have hdirect := PortConnectionBuilder.areDimSizesEqual_iff portDims dims
  have hsl := PortConnectionBuilder.slicing_iff dims b.instanceDims portDims
  obtain ⟨s, hs1, hs2⟩ := PortConnectionBuilder.sliceLoop_ok b.instanceDims env.arrayPath 0
    symbol hshape hpath
  refine ⟨⟨s, ?_, hs1, hs2⟩, ?_⟩
  · rw [key, if_neg (fun hc => hnot (hdirect.mp hc).symm), if_pos (hsl.mpr hslice), hs1]
  · intro dim r p hw
    refine ⟨?_, (PortConnectionBuilder.sliceIndex_position dim r p hw).1⟩
    unfold PortConnectionBuilder.sliceIndex
    cases r.isLittleEndian <;> rfl

/-- The formal `bus.m mbus[0:3]` of the instances of an array `[0:1]`, connected
to `bus [0:1][0:3]`: the instance 1 is connected to `bus[1]`, at the address 120,
and the instance 0 to `bus[0]`, at the address 110. -/
theorem getInterface_slice_witness :
    PortConnectionBuilder.collectDims Demo.busArray =
      some ([{ left := 0, right := 1 }, { left := 0, right := 3 }],
        .Instance 111 "" 0 Demo.busDef) ∧
    (PortConnectionBuilder.create (Demo.sliceEnv 1) []).instanceDims =
      [{ left := 0, right := 1 }] ∧
    (∃ s, (PortConnectionBuilder.create (Demo.sliceEnv 1) []).getInterface (Demo.sliceEnv 1)
        Demo.mbus Demo.busArray "" (Demo.rangeAt 0) =
        .ok (some s, PortConnectionBuilder.create (Demo.sliceEnv 1) []) ∧
      Spec.slice [{ left := 0, right := 1 }] [1] Demo.busArray = some s) ∧
    ((PortConnectionBuilder.create (Demo.sliceEnv 1) []).getInterface (Demo.sliceEnv 1)
        Demo.mbus Demo.busArray "" (Demo.rangeAt 0)).map
      (fun r => (r.1.map Symbol.addr, r.2.diags)) = .ok (some 120, []) ∧
    ((PortConnectionBuilder.create (Demo.sliceEnv 0) []).getInterface (Demo.sliceEnv 0)
        Demo.mbus Demo.busArray "" (Demo.rangeAt 0)).map
      (fun r => (r.1.map Symbol.addr, r.2.diags)) = .ok (some 110, []) :=
  ⟨rfl, rfl,
   match (getInterface_slice (Demo.sliceEnv 1)
      (PortConnectionBuilder.create (Demo.sliceEnv 1) []) Demo.mbus Demo.busArray ""
      (Demo.rangeAt 0) Demo.busDef [{ left := 0, right := 3 }]
      [{ left := 0, right := 1 }, { left := 0, right := 3 }] 111 "" 0 rfl rfl rfl rfl
      (Or.inl rfl) (by decide) (by decide) rfl rfl).1 with
   | ⟨s, h1, _, h3⟩ => ⟨s, h1, h3⟩,
   rfl, rfl⟩

/-! ## `getInterface` on a modport symbol -/

/-- C35, as the code has it: for an interface port with a definition whose
declared dimensions evaluate to ranges, connected to a modport symbol with no
modport handed over by the caller, `getInterface` returns the modport symbol,
with the builder as it is, if and only if the interface that declares the modport
is the interface of the port, the modport of the port is empty or is the name of
the modport symbol, and the port has no dimensions.  Otherwise there is no
connection and the builder gets exactly one diagnostic, the first that applies
of `InterfacePortTypeMismatch`, `ModportConnMismatch` and
`PortConnDimensionsMismatch`. -/
theorem getInterface_modport (env : Env) (b : PortConnectionBuilder)
    (port : InterfacePortSymbol) (range : SourceRange) (portDef connDef : Definition)
    (portDims : List ConstantRange) (a : Nat) (name : String) (loc : SourceLocation)
    (hdef : port.interfaceDef = some portDef)
    (hrange : PortConnectionBuilder.getDeclaredRange env port = .ok (some portDims)) :
    (b.getInterface env port (.Modport a name loc (some connDef)) "" range =
        .ok (some (.Modport a name loc (some connDef)), b) ↔
      (connDef = portDef ∧ (port.modport = "" ∨ name = port.modport) ∧ portDims = [])) ∧
    (connDef ≠ portDef →
      b.getInterface env port (.Modport a name loc (some connDef)) "" range =
        .ok (none, { b with diags := b.diags ++
          [{ code := .InterfacePortTypeMismatch, location := range.start, ranges := [range],
             args := [.str connDef.name, .str portDef.name],
             notes := [(.NoteDeclarationHere, port.location)] }] })) ∧
    (connDef = portDef → port.modport ≠ "" → name ≠ port.modport →
      b.getInterface env port (.Modport a name loc (some connDef)) "" range =
        .ok (none, { b with diags := b.diags ++
          [{ code := .ModportConnMismatch, location := range.start, ranges := [range],
             args := [.str connDef.name, .str name, .str portDef.name,
               .str port.modport] }] })) ∧
    (connDef = portDef → (port.modport = "" ∨ name = port.modport) → portDims ≠ [] →
      b.getInterface env port (.Modport a name loc (some connDef)) "" range =
        .ok (none, { b with diags := b.diags ++
          [{ code := .PortConnDimensionsMismatch, location := range.start,
             ranges := [range], args := [.str port.name],
             notes := [(.NoteDeclarationHere, port.location)] }] })) := by
  have hempty : ("" : String).isEmpty = true := rfl
  have hstep : b.getInterface env port (.Modport a name loc (some connDef)) "" range =
      (if connDef != portDef then
          .ok (none, b.addDiag ((((Diagnostic.atRange .InterfacePortTypeMismatch range).arg
            (.str connDef.name)).arg (.str portDef.name)).addNote
            .NoteDeclarationHere port.location))
        else if !port.modport.isEmpty && name != port.modport then
          .ok (none, b.addDiag (((((Diagnostic.atRange .ModportConnMismatch range).arg
            (.str connDef.name)).arg (.str name)).arg (.str portDef.name)).arg
            (.str port.modport)))
        else if !portDims.isEmpty then
          .ok (none, b.addDiag (((Diagnostic.atRange .PortConnDimensionsMismatch range).arg
            (.str port.name)).addNote .NoteDeclarationHere port.location))
        else .ok (some (.Modport a name loc (some connDef)), b)) := by
    unfold PortConnectionBuilder.getInterface
    rw [hdef]
    dsimp only
    rw [hrange]
    dsimp only
    rw [hempty]
    simp only [Bool.not_true, Bool.false_eq_true, if_false]
  have hmodport : (!port.modport.isEmpty && name != port.modport) = true ↔
      (port.modport ≠ "" ∧ name ≠ port.modport) := by
    rw [Bool.and_eq_true]
    constructor
    · rintro ⟨h1, h2⟩
      refine ⟨fun hc => ?_, fun hc => ?_⟩
      · rw [hc, hempty] at h1
        cases h1
      · rw [hc] at h2
        simp at h2
    · rintro ⟨h1, h2⟩
      refine ⟨?_, ?_⟩
      · rw [isEmpty_eq_false_of_ne h1]
        rfl
      · simpa using h2
  have hdims : (!portDims.isEmpty) = true ↔ portDims ≠ [] := by
    cases portDims <;> simp
  have hne : (connDef != portDef) = true ↔ connDef ≠ portDef := by simp
  refine ⟨?_, ?_, ?_, ?_⟩
  · rw [hstep]
    constructor
    · intro h
      by_cases h1 : connDef = portDef
      · rw [if_neg (fun hc => (hne.mp hc) h1)] at h
        by_cases h2 : port.modport ≠ "" ∧ name ≠ port.modport
        · rw [if_pos (hmodport.mpr h2)] at h
          cases h
        · rw [if_neg (fun hc => h2 (hmodport.mp hc))] at h
          by_cases h3 : portDims ≠ []
          · rw [if_pos (hdims.mpr h3)] at h
            cases h
          · refine ⟨h1, ?_, not_not.mp h3⟩
            by_cases h4 : port.modport = ""
            · exact Or.inl h4
            · exact Or.inr (not_not.mp (fun hc => h2 ⟨h4, hc⟩))
      · rw [if_pos (hne.mpr h1)] at h
        cases h
    · rintro ⟨h1, h2, h3⟩
      rw [if_neg (fun hc => (hne.mp hc) h1),
        if_neg (fun hc => by
          obtain ⟨k1, k2⟩ := hmodport.mp hc
          rcases h2 with h2 | h2
          · exact k1 h2
          · exact k2 h2),
        if_neg (fun hc => (hdims.mp hc) h3)]
  · intro h1
    rw [hstep, if_pos (hne.mpr h1)]
    rfl
  · intro h1 h2 h3
    rw [hstep, if_neg (fun hc => (hne.mp hc) h1), if_pos (hmodport.mpr ⟨h2, h3⟩)]
    rfl
  · intro h1 h2 h3
    rw [hstep, if_neg (fun hc => (hne.mp hc) h1),
      if_neg (fun hc => by
        obtain ⟨k1, k2⟩ := hmodport.mp hc
        rcases h2 with h2 | h2
        · exact k1 h2
        · exact k2 h2),
      if_pos (hdims.mpr h3)]
    rfl

/-- The port `bus.m i`, without dimensions, connected to the modport `m` of
`bus`. -/
theorem getInterface_modport_witness :
    Demo.ifaceI.interfaceDef = some Demo.busDef ∧
    PortConnectionBuilder.getDeclaredRange Demo.env Demo.ifaceI = .ok (some []) ∧
    (PortConnectionBuilder.create Demo.env []).getInterface Demo.env Demo.ifaceI
        Demo.modportM "" (Demo.rangeAt 0) =
      .ok (some Demo.modportM, PortConnectionBuilder.create Demo.env []) :=
  ⟨rfl, rfl,
   (getInterface_modport Demo.env (PortConnectionBuilder.create Demo.env []) Demo.ifaceI
      (Demo.rangeAt 0) Demo.busDef Demo.busDef [] 200 "m" 8 rfl rfl).1.mpr
      ⟨rfl, Or.inr rfl, rfl⟩⟩

/-- C35 fails on the code: the port `bus.m mbus[..]` has a definition, but its
dimension does not evaluate to a range; connected to a modport of another
definition, `getInterface` returns no connection and adds no diagnostic. -/
theorem unevaluated_port_modport_silent :
    Demo.mbus.interfaceDef = some Demo.busDef ∧
    PortConnectionBuilder.getDeclaredRange Demo.env Demo.mbus = .ok none ∧
    Demo.modportOther = .Modport 201 "m" 9 (some Demo.topDef) ∧
    Demo.topDef ≠ Demo.busDef ∧
    ((PortConnectionBuilder.create Demo.env []).getInterface Demo.env Demo.mbus
        Demo.modportOther "" (Demo.rangeAt 0)).map
      (fun r => (r.1.map Symbol.addr, r.2.diags)) = .ok (none, []) ∧
    (PortConnectionBuilder.create Demo.env []).getInterface Demo.env Demo.mbus
        Demo.modportOther "" (Demo.rangeAt 0) =
      .ok (none, PortConnectionBuilder.create Demo.env []) :=
  ⟨rfl, rfl, rfl, by decide, rfl, rfl⟩

end slang
